import Mathlib

/-!
# Basis Universal supercompression of a KTX2 texture (`lib/basis_encode.cpp`)

A shallow embedding of `ktxTexture2_CompressBasisEx` and of the helpers it
calls, followed by theorems about the packaging layer: validation, pixel
normalisation, assembly of the supercompression global data, the level
index and the reordering of the mip levels, the rewrite of the data format
descriptor, the encoder settings, and what a call that fails or is repeated
leaves behind.

Conventions of the embedding.

* Bytes and machine words are natural numbers; arithmetic the C code does in
  `uint32_t` is reduced modulo `2^32` where the code does it.
* A buffer is a `List Nat`; a C pointer is a buffer together with an offset.
  An access outside a buffer, a shift by 32 or more, a dereference of a null
  pointer or the use of an iterator past the end of its vector is undefined
  behaviour and is reported as `Fault.undefinedBehaviour`.
* `assert` aborts (`Fault.assertion`) unless the build defines `NDEBUG`.
* Everything the file calls but does not define (the encoder, the DFD query,
  image loading, image offsets, the allocator) is a field of `Env`.
-/

namespace BasisEncode

/-! ## Faults and loops -/

/-- Ways in which a run can end without returning to the caller. -/
inductive Fault where
  | assertion
  | undefinedBehaviour
  | nonTermination
deriving DecidableEq, Repr

deriving instance DecidableEq for Except

/-- The C loop `for (i = 0; i < n; i++) body(i)` over a state. -/
def forUpTo {σ : Type} : Nat → (Nat → σ → Except Fault σ) → σ → Except Fault σ
  | 0, _, s => .ok s
  | n + 1, body, s => forUpTo n body s >>= body n

/-- The C macro `assert(cond)`: nothing under `NDEBUG`, abort otherwise. -/
def cAssert (ndebug cond : Bool) : Except Fault Unit :=
  if ndebug || cond then .ok () else .error .assertion

/-- Two to the thirty-second: the modulus of `uint32_t` arithmetic. -/
def U32 : Nat := 4294967296

/-- `a - b` on `uint32_t` operands. -/
def sub32 (a b : Nat) : Nat := (a + U32 - b % U32) % U32

/-- `x >> n` on a `uint32_t`; undefined when `n` is 32 or more. -/
def shr32 (x n : Nat) : Except Fault Nat :=
  if n < 32 then .ok (x >>> n) else .error .undefinedBehaviour

/-- `x & ~c` on 32-bit operands. -/
def andNot32 (x c : Nat) : Nat := x &&& (4294967295 ^^^ c)

/-! ## Buffers -/

/-- Read one byte of a buffer. -/
def readByte (buf : List Nat) (i : Nat) : Except Fault Nat :=
  match buf[i]? with
  | some b => .ok b
  | none => .error .undefinedBehaviour

/-- Write one byte of a buffer. -/
def writeByte (buf : List Nat) (i v : Nat) : Except Fault (List Nat) :=
  if i < buf.length then .ok (buf.set i v) else .error .undefinedBehaviour

/-- Read `len` consecutive bytes starting at `off`. -/
def readBytes (buf : List Nat) (off len : Nat) : Except Fault (List Nat) :=
  if off + len ≤ buf.length then .ok ((buf.drop off).take len)
  else .error .undefinedBehaviour

/-- Overwrite the bytes starting at `off` with `bs`. -/
def writeBytes (buf : List Nat) (off : Nat) (bs : List Nat) : Except Fault (List Nat) :=
  if off + bs.length ≤ buf.length then
    .ok (buf.take off ++ bs ++ buf.drop (off + bs.length))
  else .error .undefinedBehaviour

/-- The call `memcpy(dst + dstOff, src + srcOff, n)`. -/
def memcpy (dst : List Nat) (dstOff : Nat) (src : List Nat) (srcOff n : Nat) :
    Except Fault (List Nat) := do
  let bs ← readBytes src srcOff n
  writeBytes dst dstOff bs

/-- The four bytes of a `uint32_t` in memory (little-endian host). -/
def u32le (w : Nat) : List Nat :=
  [w % 256, w / 256 % 256, w / 65536 % 256, w / 16777216 % 256]

/-- Store a `uint32_t` at byte offset `off`. -/
def writeU32 (buf : List Nat) (off w : Nat) : Except Fault (List Nat) :=
  writeBytes buf off (u32le w)

/-- The `uint32_t` stored at byte offset `off` of a buffer, if it is there. -/
def readU32 (buf : List Nat) (off : Nat) : Option Nat :=
  match buf[off]?, buf[off + 1]?, buf[off + 2]?, buf[off + 3]? with
  | some a, some b, some c, some d => some (a + 256 * b + 65536 * c + 16777216 * d)
  | _, _, _, _ => none

/-! ## Channel normalisation callbacks (lines 49-115) -/

/-- The enumeration `swizzle_e`. -/
inductive swizzle_e where
  | R
  | G
  | B
  | A
  | ZERO
  | ONE
deriving DecidableEq, Repr

/-- The callback `copy_rgba_to_rgba`: one `memcpy` of `image_size` bytes. -/
def copy_rgba_to_rgba (rgbadst rgbasrc : List Nat) (_src_len image_size : Nat)
    (_swizzle : Option (List swizzle_e)) : Except Fault (List Nat) :=
  memcpy rgbadst 0 rgbasrc 0 image_size

/-- The loop of `copy_rgb_to_rgba`. The pointers `rgbadst` and `rgbsrc` are
the buffers with the offsets `d` and `s`; the first argument bounds the number
of iterations. -/
def copy_rgb_to_rgba_loop (rgbsrc : List Nat) (image_size : Nat) :
    Nat → Nat → Nat → Nat → List Nat → Except Fault (List Nat)
  | 0, i, _, _, dst => if i < image_size then .error .nonTermination else .ok dst
  | fuel + 1, i, d, s, dst =>
    if i < image_size then do
      let dst1 ← memcpy dst d rgbsrc s 3
      let dst2 ← writeByte dst1 (d + 3) 0xff
      copy_rgb_to_rgba_loop rgbsrc image_size fuel (i + 3) (d + 4) (s + 3) dst2
    else .ok dst

/-- The callback `copy_rgb_to_rgba`. The index `i` grows by 3 in every round,
so `image_size` rounds are always enough. -/
def copy_rgb_to_rgba (rgbadst rgbsrc : List Nat) (_src_len image_size : Nat)
    (_swizzle : Option (List swizzle_e)) : Except Fault (List Nat) :=
  copy_rgb_to_rgba_loop rgbsrc image_size image_size 0 0 0 rgbadst

/-- The body of the inner loop of `swizzle_to_rgba` for channel `c`: the
`switch` on `swizzle[c]`. `d` and `s` are the current offsets of `rgbadst`
and `rgbasrc`, `i` the outer loop index. -/
def swizzle_channel (swizzle : List swizzle_e) (rgbasrc : List Nat) (i d s c : Nat)
    (dst : List Nat) : Except Fault (List Nat) :=
  match swizzle[c]? with
  | none => .error .undefinedBehaviour
  | some .R => do
    let v ← readByte rgbasrc (s + 0)
    writeByte dst (d + c) v
  | some .G => do
    let v ← readByte rgbasrc (s + 1)
    writeByte dst (d + c) v
  | some .B => do
    let v ← readByte rgbasrc (s + 2)
    writeByte dst (d + c) v
  | some .A => do
    let v ← readByte rgbasrc (s + 3)
    writeByte dst (d + c) v
  | some .ZERO => writeByte dst (d + c) 0x00
  | some .ONE => writeByte dst (d + (i + c)) 0xff

/-- The outer loop of `swizzle_to_rgba`. -/
def swizzle_to_rgba_loop (swizzle : List swizzle_e) (rgbasrc : List Nat)
    (src_len image_size : Nat) :
    Nat → Nat → Nat → Nat → List Nat → Except Fault (List Nat)
  | 0, i, _, _, dst => if i < image_size then .error .nonTermination else .ok dst
  | fuel + 1, i, d, s, dst =>
    if i < image_size then do
      let dst1 ← forUpTo src_len (swizzle_channel swizzle rgbasrc i d s) dst
      swizzle_to_rgba_loop swizzle rgbasrc src_len image_size fuel
        (i + src_len) (d + 4) (s + src_len) dst1
    else .ok dst

/-- The callback `swizzle_to_rgba`. With `src_len = 0` and a non-empty image
the C loop never ends; otherwise `image_size` rounds are enough. -/
def swizzle_to_rgba (rgbadst rgbasrc : List Nat) (src_len image_size : Nat)
    (swizzle : Option (List swizzle_e)) : Except Fault (List Nat) :=
  match swizzle with
  | none => .error .undefinedBehaviour
  | some m => swizzle_to_rgba_loop m rgbasrc src_len image_size image_size 0 0 0 rgbadst

/-! ## Data model -/

/-- The result codes of the library that this file returns or passes on. -/
inductive KTX_error_code where
  | KTX_SUCCESS
  | KTX_INVALID_VALUE
  | KTX_INVALID_OPERATION
  | KTX_OUT_OF_MEMORY
  | other (code : Nat)
deriving DecidableEq, Repr

/-- The supercompression scheme tag of a texture. -/
inductive ktxSupercmpScheme where
  | KTX_SUPERCOMPRESSION_NONE
  | KTX_SUPERCOMPRESSION_BASIS
  | other (tag : Nat)
deriving DecidableEq, Repr

/-- The value `VK_FORMAT_UNDEFINED`. -/
def VK_FORMAT_UNDEFINED : Nat := 0

/-- The fields of `ktxFormatSize` this file touches. -/
structure ktxFormatSize where
  flags : Nat
  paletteSizeInBits : Nat
  blockSizeInBits : Nat
  blockWidth : Nat
  blockHeight : Nat
  blockDepth : Nat
deriving DecidableEq, Repr

/-- One entry of the level index. -/
structure ktxLevelIndexEntry where
  byteOffset : Nat
  byteLength : Nat
  uncompressedByteLength : Nat
deriving DecidableEq, Repr

/-- The fields of `ktxTexture2`, with those of its `_protected` and `_private`
parts, that this file reads or writes. `pDfd` is the descriptor as 32-bit
words, `pData` is `none` for a null pointer. `numDimensions` (1, 2 or 3) is
the field the documentation of the two entry points speaks of; the file
never reads it. -/
structure ktxTexture2 where
  vkFormat : Nat
  pDfd : List Nat
  supercompressionScheme : ktxSupercmpScheme
  isCompressed : Bool
  numDimensions : Nat
  baseWidth : Nat
  baseHeight : Nat
  baseDepth : Nat
  numLevels : Nat
  numLayers : Nat
  numFaces : Nat
  kvDataHead : List (String × List Char)
  dataSize : Nat
  pData : Option (List Nat)
  _formatSize : ktxFormatSize
  _typeSize : Nat
  _levelIndex : List ktxLevelIndexEntry
  _requiredLevelAlignment : Nat
  _supercompressionGlobalData : Option (List Nat)
  _sgdByteLength : Nat
deriving DecidableEq, Repr

/-- The options structure `ktxBasisParams`. The two thresholds are C floats;
only their sign is inspected, so they are kept as rationals. -/
structure ktxBasisParams where
  structSize : Nat
  threadCount : Nat
  compressionLevel : Nat
  qualityLevel : Nat
  maxEndpoints : Nat
  endpointRDOThreshold : ℚ
  maxSelectors : Nat
  selectorRDOThreshold : ℚ
  normalMap : Bool
  separateRGToRGB_A : Bool
  preSwizzle : Bool
  noEndpointRDO : Bool
  noSelectorRDO : Bool
deriving DecidableEq, Repr

/-- An encoder source image: its size and its RGBA bytes. -/
structure image where
  width : Nat
  height : Nat
  pixels : List Nat
deriving DecidableEq, Repr

/-- The fields of `basis_compressor_params` this file sets. A field the file
may leave at the value its constructor gave it is an `Option`, `none` standing
for that default. `m_pJob_pool` is the thread count of the job pool. -/
structure basis_compressor_params where
  m_read_source_images : Bool
  m_write_output_basis_files : Bool
  m_source_images : List image
  m_perceptual : Bool
  m_mip_gen : Bool
  m_pJob_pool : Nat
  m_compression_level : Option Nat
  m_max_endpoint_clusters : Option Nat
  m_max_selector_clusters : Option Nat
  m_quality_level : Option Nat
  m_endpoint_rdo_thresh : Option ℚ
  m_selector_rdo_thresh : Option ℚ
  m_no_endpoint_rdo : Bool
  m_no_selector_rdo : Bool
  m_tex_type_is_2D : Bool
deriving DecidableEq, Repr

/-- The status `basis_compressor::error_code`. -/
inductive error_code where
  | cECSuccess
  | cECFailedReadingSourceImages
  | cECFailedValidating
  | cECFailedFrontEnd
  | cECFailedFontendExtract
  | cECFailedBackend
  | cECFailedCreateBasisFile
  | cECFailedWritingOutput
deriving DecidableEq, Repr

/-- The fields of `basis_file_header` this file reads. -/
structure basis_file_header where
  m_total_images : Nat
  m_flags : Nat
  m_total_endpoints : Nat
  m_endpoint_cb_file_ofs : Nat
  m_endpoint_cb_file_size : Nat
  m_total_selectors : Nat
  m_selector_cb_file_ofs : Nat
  m_selector_cb_file_size : Nat
  m_tables_file_ofs : Nat
  m_tables_file_size : Nat
  m_slice_desc_file_ofs : Nat
deriving DecidableEq, Repr

/-- The fields of `basis_slice_desc` this file reads. -/
structure basis_slice_desc where
  m_flags : Nat
  m_file_ofs : Nat
  m_file_size : Nat
deriving DecidableEq, Repr

/-- The encoder output as this file looks at it: the bytes `bf`, the header the
file casts the start of `bf` to, and the slice descriptor table it casts
`&bf[m_slice_desc_file_ofs]` to. -/
structure basis_output where
  bf : List Nat
  bfh : basis_file_header
  slices : List basis_slice_desc
deriving DecidableEq, Repr

/-- Everything `basis_encode.cpp` uses and does not define. -/
structure Env where
  /-- Whether the build defines `NDEBUG`. -/
  NDEBUG : Bool
  /-- The value of `sizeof(struct ktxBasisParams)`. -/
  sizeof_ktxBasisParams : Nat
  KTX_FORMAT_SIZE_PACKED_BIT : Nat
  cBASISHeaderFlagYFlipped : Nat
  cBASISHeaderFlagHasAlphaSlices : Nat
  cSliceDescFlagsHasAlpha : Nat
  /-- From a descriptor, the pair (number of components, component size). -/
  getDFDComponentInfoUnpacked : List Nat → Nat × Nat
  ktxTexture2_LoadImageData : ktxTexture2 → KTX_error_code × ktxTexture2
  /-- Arguments: texture, level. -/
  ktxTexture2_GetImageSize : ktxTexture2 → Nat → Nat
  /-- Arguments: texture, level, layer, face or slice. -/
  ktxTexture2_GetImageOffset : ktxTexture2 → Nat → Nat → Nat → Nat
  /-- The pixel bytes of an image after `resize(width, height)`. -/
  image_resize : Nat → Nat → List Nat
  /-- The encoder: `init` and `process`, then `get_output_basis_file`. -/
  process : basis_compressor_params → error_code × basis_output
  /-- Whether `malloc` of the new descriptor, of the given size, succeeds. -/
  malloc_ndfd : Nat → Bool
  /-- Whether `malloc` of the new payload, of the given size, succeeds. -/
  malloc_new_data : Nat → Bool
  /-- The byte found at each index of the freshly allocated global data. -/
  uninit_bgd : Nat → Nat
  /-- The byte found at each index of the freshly allocated payload. -/
  uninit_new_data : Nat → Nat

/-- How a call ends: it returns a code or it faults. -/
inductive Exit where
  | returned (code : KTX_error_code)
  | fault (f : Fault)
deriving DecidableEq, Repr

/-- What a call of `ktxTexture2_CompressBasisEx` leaves behind: how it ended,
the texture (after a fault: the texture when the faulting stage began), how
often `ktxTexture2_LoadImageData` was called, and the parameters the encoder
ran with (`none` when it was not invoked). -/
structure Outcome where
  exit : Exit
  This : ktxTexture2
  loadCalls : Nat
  encoderInput : Option basis_compressor_params

/-- Read element `i` of an array. -/
def readAt {α : Type} (xs : List α) (i : Nat) : Except Fault α :=
  match xs[i]? with
  | some x => .ok x
  | none => .error .undefinedBehaviour

/-- Write element `i` of an array. -/
def writeAt {α : Type} (xs : List α) (i : Nat) (x : α) : Except Fault (List α) :=
  if i < xs.length then .ok (xs.set i x) else .error .undefinedBehaviour

/-! ## The data format descriptor (lines 217-267)

`khr_df.h` is not part of the translated file. The word indices, shifts and
masks below are those of the basic descriptor block of the Khronos Data
Format Specification; they agree with the block length `28 + 16 * n` bytes
for `n` samples. A descriptor is the list of its 32-bit words, word 0 being
the total size; the pointer `BDB` is the descriptor at word offset 1. -/

/-- Modelled from the spec: the macro `KHR_DF_WORD_SAMPLESTART` of `khr_df.h`,
the number of words of a basic descriptor block before its samples. -/
def KHR_DF_WORD_SAMPLESTART : Nat := 6

/-- Modelled from the spec: the macro `KHR_DF_WORD_SAMPLEWORDS` of `khr_df.h`,
the number of words of one sample. -/
def KHR_DF_WORD_SAMPLEWORDS : Nat := 4

/-- Modelled from the spec: the macro `KHR_DFDVAL` of `khr_df.h`, the field at
`word`, `shift`, `mask` of the block that starts at word 1 of `dfd`. -/
def KHR_DFDVAL (dfd : List Nat) (word shift mask : Nat) : Except Fault Nat := do
  let w ← readAt dfd (1 + word)
  pure ((w >>> shift) &&& mask)

/-- Modelled from the spec: the macro `KHR_DFDSETVAL` of `khr_df.h`. -/
def KHR_DFDSETVAL (dfd : List Nat) (word shift mask val : Nat) : Except Fault (List Nat) := do
  let w ← readAt dfd (1 + word)
  writeAt dfd (1 + word)
    (andNot32 w ((mask <<< shift) % U32) ||| ((val &&& mask) <<< shift) % U32)

/-- Modelled from the spec: the macro `KHR_DFDSETSVAL` of `khr_df.h`, which
sets a field of sample `sample`. -/
def KHR_DFDSETSVAL (dfd : List Nat) (sample word shift mask val : Nat) :
    Except Fault (List Nat) :=
  KHR_DFDSETVAL dfd (KHR_DF_WORD_SAMPLESTART + sample * KHR_DF_WORD_SAMPLEWORDS + word)
    shift mask val

/-- Modelled from the spec: the macro `KHR_DFDSAMPLECOUNT` of `khr_df.h`; the
descriptor block size is the upper half of word 1 of the block. -/
def KHR_DFDSAMPLECOUNT (dfd : List Nat) : Except Fault Nat := do
  let blockSize ← KHR_DFDVAL dfd 1 16 0xFFFF
  pure (sub32 (blockSize >>> 2) KHR_DF_WORD_SAMPLESTART / KHR_DF_WORD_SAMPLEWORDS)

/-- The value `KHR_DF_TRANSFER_SRGB`. -/
def KHR_DF_TRANSFER_SRGB : Nat := 2

/-- The body of the sample loop of `ktxTexture2_rewriteDfd`: the fields
BITOFFSET, BITLENGTH, SAMPLELOWER and SAMPLEUPPER of one sample become 0. -/
def rewriteDfd_sample (sample : Nat) (ndfd : List Nat) : Except Fault (List Nat) := do
  let d1 ← KHR_DFDSETSVAL ndfd sample 0 0 0xFFFF 0
  let d2 ← KHR_DFDSETSVAL d1 sample 0 16 0xFF 0
  let d3 ← KHR_DFDSETSVAL d2 sample 2 0 0xFFFFFFFF 0
  KHR_DFDSETSVAL d3 sample 3 0 0xFFFFFFFF 0

/-- Lines 227-228: the number of samples of the new descriptor. -/
def newSampleCountOf (count : Nat) (hasAlpha : Bool) : Nat :=
  if count = 4 ∧ hasAlpha = false then 3 else count

/-- Lines 230-232: the size in bytes of the new descriptor block. -/
def ndbSizeOf (newSampleCount : Nat) : Nat :=
  ((KHR_DF_WORD_SAMPLESTART + newSampleCount * KHR_DF_WORD_SAMPLEWORDS % U32) % U32 * 4) % U32

/-- Line 233: the size in bytes of the new descriptor. -/
def ndfdSizeOf (newSampleCount : Nat) : Nat :=
  (ndbSizeOf newSampleCount + 1 * 4) % U32

/-- Lines 242-247: the two size fields are set when the size changed. -/
def rewriteDfd_sizes (ndfd : List Nat) (total ndfdSize ndbSize : Nat) :
    Except Fault (List Nat) :=
  if ndfdSize ≠ total then do
    let a ← writeAt ndfd 0 ndfdSize
    KHR_DFDSETVAL a 1 16 0xFFFF ndbSize
  else pure ndfd

/-- Lines 241-262: the new descriptor is filled. The `memcpy` of `ndfdSize`
bytes, a multiple of 4, copies the first `ndfdSize / 4` words of `cdfd`. -/
def rewriteDfd_fill (cdfd : List Nat) (newSampleCount : Nat) : Except Fault (List Nat) :=
  if cdfd.length < ndfdSizeOf newSampleCount / 4 then .error .undefinedBehaviour
  else do
    let ndfd0 := cdfd.take (ndfdSizeOf newSampleCount / 4)
    let total ← readAt cdfd 0
    let ndfd1 ← rewriteDfd_sizes ndfd0 total (ndfdSizeOf newSampleCount)
      (ndbSizeOf newSampleCount)
    let ndfd2 ← writeAt ndfd1 (1 + 4) 0
    let ndfd3 ← writeAt ndfd2 (1 + 5) 0
    let ndfd4 ← writeAt ndfd3 (1 + 3) 0
    forUpTo newSampleCount rewriteDfd_sample ndfd4

/-- The function `ktxTexture2_rewriteDfd`. `mallocOk` tells whether the
allocation of the new descriptor, of the size given, succeeds. -/
def ktxTexture2_rewriteDfd (mallocOk : Nat → Bool) (This : ktxTexture2) (hasAlpha : Bool) :
    Except Fault (KTX_error_code × ktxTexture2) := do
  let cdfd := This.pDfd
  let count ← KHR_DFDSAMPLECOUNT cdfd
  let newSampleCount := newSampleCountOf count hasAlpha
  if mallocOk (ndfdSizeOf newSampleCount) = false then
    pure (.KTX_OUT_OF_MEMORY, This)
  else do
    let ndfd ← rewriteDfd_fill cdfd newSampleCount
    pure (.KTX_SUCCESS, { This with pDfd := ndfd })

/-! ## Stages of `ktxTexture2_CompressBasisEx` -/

/-- Lines 347-353: the number of images. The C loop runs `level` from 1 to
`numLevels` and shifts by `level - 1`, which is the index `k` here. -/
def calcNumImages (This : ktxTexture2) : Except Fault Nat :=
  let layersFaces := (This.numLayers * This.numFaces) % U32
  forUpTo This.numLevels (fun k num_images => do
    let d ← shr32 This.baseDepth k
    pure ((num_images + (layersFaces * max d 1) % U32) % U32)) 0

/-- The metadata key `KTX_SWIZZLE_KEY`. -/
def KTX_SWIZZLE_KEY : String := "KTXswizzle"

/-- Modelled from the spec: `ktxHashList_FindValue`, which is not part of the
translated file, is a lookup by string key that gives the value bytes when
the key is present. -/
def ktxHashList_FindValue (kvDataHead : List (String × List Char)) (key : String) :
    Option (List Char) :=
  kvDataHead.lookup key

/-- The test `strncmp(s1, s2, n) != 0`, comparing from index `i` on. -/
def strncmp_ne (s1 s2 : List Char) : Nat → Nat → Except Fault Bool
  | 0, _ => .ok false
  | n + 1, i => do
    let a ← readAt s1 i
    let b ← readAt s2 i
    if a ≠ b then pure true
    else if a = Char.ofNat 0 then pure false
    else strncmp_ne s1 s2 n (i + 1)

/-- A C string literal: its characters and the terminating NUL. -/
def cLiteral (s : String) : List Char := s.toList ++ [Char.ofNat 0]

/-- Lines 382-384: the condition under which the metadata swizzle is used. -/
def swizzleCondition (num_components : Nat) (swizzleStr : List Char) : Except Fault Bool :=
  if num_components = 2 then strncmp_ne swizzleStr (cLiteral "rg01") 4 0
  else if num_components = 3 then strncmp_ne swizzleStr (cLiteral "rgb1") 4 0
  else if num_components = 4 then strncmp_ne swizzleStr (cLiteral "rgba") 4 0
  else pure false

/-- Lines 385-394: the body of the loop that fills `meta_mapping`. -/
def metaMappingStep (swizzleStr : List Char) (i : Nat) (meta_mapping : List swizzle_e) :
    Except Fault (List swizzle_e) := do
  let ch ← readAt swizzleStr i
  if ch = 'r' then pure (meta_mapping.set i .R)
  else if ch = 'g' then pure (meta_mapping.set i .G)
  else if ch = 'b' then pure (meta_mapping.set i .B)
  else if ch = 'a' then pure (meta_mapping.set i .A)
  else if ch = '0' then pure (meta_mapping.set i .ZERO)
  else if ch = '1' then pure (meta_mapping.set i .ONE)
  else pure meta_mapping

/-- Lines 371-398: the mapping taken from the metadata, if any. -/
def metadataMapping (This : ktxTexture2) (params : ktxBasisParams) (num_components : Nat) :
    Except Fault (Option (List swizzle_e)) :=
  if params.preSwizzle then
    match ktxHashList_FindValue This.kvDataHead KTX_SWIZZLE_KEY with
    | some swizzleStr => do
      let differs ← swizzleCondition num_components swizzleStr
      if differs then do
        let meta_mapping ← forUpTo 4 (metaMappingStep swizzleStr) [.R, .R, .R, .R]
        pure (some meta_mapping)
      else pure none
    | none => pure none
  else pure none

/-- Lines 364-405: the choice of `comp_mapping`; `none` is the null pointer. -/
def chooseMapping (This : ktxTexture2) (params : ktxBasisParams) (num_components : Nat) :
    Except Fault (Option (List swizzle_e)) := do
  let rg_to_rgba_mapping : List swizzle_e := [.R, .R, .R, .G]
  let r_to_rgba_mapping : List swizzle_e := [.R, .R, .R, .ONE]
  let m0 ← metadataMapping This params num_components
  let m1 := if num_components = 2 ∨ params.separateRGToRGB_A = true then
    some rg_to_rgba_mapping else m0
  let m2 := if num_components = 1 then some r_to_rgba_mapping else m1
  pure m2

/-- The callbacks a `PFNBUCOPYCB` can point to. -/
inductive PFNBUCOPYCB where
  | copy_rgba_to_rgba
  | copy_rgb_to_rgba
  | swizzle_to_rgba
deriving DecidableEq, Repr

/-- A call through a `PFNBUCOPYCB`. -/
def PFNBUCOPYCB.call (cb : PFNBUCOPYCB) (dst src : List Nat) (src_len image_size : Nat)
    (swizzle : Option (List swizzle_e)) : Except Fault (List Nat) :=
  match cb with
  | .copy_rgba_to_rgba => BasisEncode.copy_rgba_to_rgba dst src src_len image_size swizzle
  | .copy_rgb_to_rgba => BasisEncode.copy_rgb_to_rgba dst src src_len image_size swizzle
  | .swizzle_to_rgba => BasisEncode.swizzle_to_rgba dst src src_len image_size swizzle

/-- Lines 407-416: the choice of `copycb`. With `NDEBUG` the `default` case
leaves the pointer uninitialised, which is `none` here. -/
def chooseCopycb (ndebug : Bool) (comp_mapping : Option (List swizzle_e))
    (num_components : Nat) : Except Fault (Option PFNBUCOPYCB) :=
  match comp_mapping with
  | some _ => pure (some .swizzle_to_rgba)
  | none =>
    if num_components = 4 then pure (some .copy_rgba_to_rgba)
    else if num_components = 3 then pure (some .copy_rgb_to_rgba)
    else do
      cAssert ndebug false
      pure none

/-- Lines 427-433: one image is staged. `staged` holds the images before the
iterator `iit`, which must still be inside the vector of `num_images` images.
-/
def packImage (env : Env) (This : ktxTexture2) (copycb : Option PFNBUCOPYCB)
    (comp_mapping : Option (List swizzle_e)) (src_len num_images width height image_size : Nat)
    (level layer slice : Nat) (staged : List image) : Except Fault (List image) :=
  let offset := env.ktxTexture2_GetImageOffset This level layer slice
  if staged.length < num_images then
    let dst := env.image_resize width height
    match This.pData, copycb with
    | some pData, some cb => do
      let pixels ← cb.call dst (pData.drop offset) src_len image_size comp_mapping
      pure (staged ++ [{ width := width, height := height, pixels := pixels }])
    | _, _ => .error .undefinedBehaviour
  else .error .undefinedBehaviour

/-- Lines 420-435: the body of the level loop of the packing stage. -/
def packLevel (env : Env) (This : ktxTexture2) (copycb : Option PFNBUCOPYCB)
    (comp_mapping : Option (List swizzle_e)) (src_len num_images : Nat)
    (level : Nat) (staged : List image) : Except Fault (List image) := do
  let w ← shr32 This.baseWidth level
  let width := max 1 w
  let h ← shr32 This.baseHeight level
  let height := max 1 h
  let d ← shr32 This.baseDepth level
  let depth := max 1 d
  let image_size := env.ktxTexture2_GetImageSize This level
  forUpTo This.numLayers (fun layer st =>
    let faceSlices := if This.numFaces = 1 then depth else This.numFaces
    forUpTo faceSlices (fun slice st1 =>
      packImage env This copycb comp_mapping src_len num_images width height image_size
        level layer slice st1) st) staged

/-- Lines 419-436: the packing loop; the result is the images staged. -/
def packImages (env : Env) (This : ktxTexture2) (copycb : Option PFNBUCOPYCB)
    (comp_mapping : Option (List swizzle_e)) (src_len num_images : Nat) :
    Except Fault (List image) :=
  forUpTo This.numLevels (packLevel env This copycb comp_mapping src_len num_images) []

/-- An image as its constructor leaves it. -/
def emptyImage : image := { width := 0, height := 0, pixels := [] }

/-- Lines 340-342 and 445-521: the encoder parameters. `source_images` is the
vector `m_source_images`, `transfer` the transfer function of the descriptor.
-/
def makeCompressorParams (params : ktxBasisParams) (source_images : List image)
    (transfer : Nat) : basis_compressor_params :=
  let countThreads := if params.threadCount < 1 then 1 else params.threadCount
  { m_read_source_images := false
    m_write_output_basis_files := false
    m_source_images := source_images
    m_perceptual := if transfer = KHR_DF_TRANSFER_SRGB then true else false
    m_mip_gen := false
    m_pJob_pool := countThreads
    m_compression_level :=
      if params.compressionLevel ≠ 0 then some params.compressionLevel else none
    m_max_endpoint_clusters :=
      if params.qualityLevel ≠ 0 then some 0
      else if params.maxEndpoints = 0 ∨ params.maxSelectors = 0 then some 0
      else some params.maxEndpoints
    m_max_selector_clusters :=
      if params.qualityLevel ≠ 0 then some 0
      else if params.maxEndpoints = 0 ∨ params.maxSelectors = 0 then some 0
      else some params.maxSelectors
    m_quality_level :=
      if params.qualityLevel ≠ 0 then some params.qualityLevel
      else if params.maxEndpoints = 0 ∨ params.maxSelectors = 0 then some 128
      else none
    m_endpoint_rdo_thresh :=
      if params.endpointRDOThreshold > 0 then some params.endpointRDOThreshold else none
    m_selector_rdo_thresh :=
      if params.selectorRDOThreshold > 0 then some params.selectorRDOThreshold else none
    m_no_endpoint_rdo := if params.normalMap then true else params.noEndpointRDO
    m_no_selector_rdo := if params.normalMap then true else params.noSelectorRDO
    m_tex_type_is_2D := true }

/-! ### Assembly of the global data (lines 591-702)

`basis_sgd.h` is not part of the translated file; the two structures are laid
out as the specification gives them. -/

/-- Modelled from the spec: `sizeof(ktxBasisGlobalHeader)`; the header is the
seven 32-bit words globalFlags, endpointCount, endpointsByteLength,
selectorCount, selectorsByteLength, tablesByteLength, extendedByteLength. -/
def sizeof_ktxBasisGlobalHeader : Nat := 28

/-- Modelled from the spec: `sizeof(ktxBasisImageDesc)`; a descriptor is the
five 32-bit words rgbSliceByteOffset, rgbSliceByteLength,
alphaSliceByteOffset, alphaSliceByteLength, imageFlags. -/
def sizeof_ktxBasisImageDesc : Nat := 20

/-- The byte offset of `kimages[image]` in the global data. -/
def kimagesOffset (image : Nat) : Nat :=
  sizeof_ktxBasisGlobalHeader + sizeof_ktxBasisImageDesc * image

/-- The local variables of the assembly stage. `slice` is the index in the
slice descriptor table the pointer `slice` stands at. -/
structure AsmState where
  slice : Nat
  image : Nat
  level_byte_length : Nat
  image_data_size : Nat
  bgd : List Nat
  levelIndex : List ktxLevelIndexEntry
  level_file_offsets : List Nat
deriving DecidableEq, Repr

/-- The test `bfh.m_flags & cBASISHeaderFlagHasAlphaSlices`. -/
def hasAlphaSlices (env : Env) (out : basis_output) : Bool :=
  out.bfh.m_flags &&& env.cBASISHeaderFlagHasAlphaSlices ≠ 0

/-- Lines 654-671: the body of the innermost loop, for one image. -/
def asmImage (env : Env) (out : basis_output) (level : Nat) (st : AsmState) :
    Except Fault AsmState := do
  let s ← readAt out.slices st.slice
  let lbl1 := (st.level_byte_length + s.m_file_size) % U32
  let lfo ← readAt st.level_file_offsets level
  let b1 ← writeU32 st.bgd (kimagesOffset st.image + 0) (sub32 s.m_file_ofs lfo)
  let b2 ← writeU32 b1 (kimagesOffset st.image + 4) s.m_file_size
  if out.bfh.m_flags &&& env.cBASISHeaderFlagHasAlphaSlices ≠ 0 then do
    let a ← readAt out.slices (st.slice + 1)
    let lbl2 := (lbl1 + a.m_file_size) % U32
    let b3 ← writeU32 b2 (kimagesOffset st.image + 8) (sub32 a.m_file_ofs lfo)
    let b4 ← writeU32 b3 (kimagesOffset st.image + 12) a.m_file_size
    let b5 ← writeU32 b4 (kimagesOffset st.image + 16)
      (andNot32 a.m_flags env.cSliceDescFlagsHasAlpha)
    pure { st with slice := st.slice + 1 + 1, image := (st.image + 1) % U32,
                   level_byte_length := lbl2, bgd := b5 }
  else do
    let b3 ← writeU32 b2 (kimagesOffset st.image + 8) 0
    let b4 ← writeU32 b3 (kimagesOffset st.image + 12) 0
    let b5 ← writeU32 b4 (kimagesOffset st.image + 16)
      (andNot32 s.m_flags env.cSliceDescFlagsHasAlpha)
    pure { st with slice := st.slice + 1, image := (st.image + 1) % U32,
                   level_byte_length := lbl1, bgd := b5 }

/-- Lines 646-676: the body of the level loop of the assembly stage. -/
def asmLevel (env : Env) (This : ktxTexture2) (out : basis_output) (level : Nat)
    (st : AsmState) : Except Fault AsmState := do
  let d ← shr32 This.baseDepth level
  let depth := max 1 d
  let s ← readAt out.slices st.slice
  cAssert env.NDEBUG (s.m_flags &&& env.cSliceDescFlagsHasAlpha = 0)
  let lfo ← writeAt st.level_file_offsets level s.m_file_ofs
  let st0 := { st with level_byte_length := 0, level_file_offsets := lfo }
  let st1 ← forUpTo This.numLayers (fun _layer a =>
    let faceSlices := if This.numFaces = 1 then depth else This.numFaces
    forUpTo faceSlices (fun _faceSlice b => asmImage env out level b) a) st0
  let e ← readAt st1.levelIndex level
  let li := st1.levelIndex.set level
    { e with byteLength := st1.level_byte_length, uncompressedByteLength := 0 }
  pure { st1 with levelIndex := li,
                  image_data_size := (st1.image_data_size + st1.level_byte_length) % U32 }

/-- Line 604: the size of the global data. -/
def bgdSize (bfh : basis_file_header) (num_images : Nat) : Nat :=
  (sizeof_ktxBasisGlobalHeader + (sizeof_ktxBasisImageDesc * num_images) % U32
    + bfh.m_endpoint_cb_file_size + bfh.m_selector_cb_file_size
    + bfh.m_tables_file_size) % U32

/-- Lines 612-618: the global header is written. -/
def writeGlobalHeader (env : Env) (bfh : basis_file_header) (bgd : List Nat) :
    Except Fault (List Nat) := do
  let b1 ← writeU32 bgd 0 (andNot32 bfh.m_flags env.cBASISHeaderFlagYFlipped)
  let b2 ← writeU32 b1 4 bfh.m_total_endpoints
  let b3 ← writeU32 b2 8 bfh.m_endpoint_cb_file_size
  let b4 ← writeU32 b3 12 bfh.m_total_selectors
  let b5 ← writeU32 b4 16 bfh.m_selector_cb_file_size
  let b6 ← writeU32 b5 20 bfh.m_tables_file_size
  writeU32 b6 24 0

/-- Lines 686-702: the codebooks and tables are copied behind `kimages[image]`.
-/
def copyCodebooks (env : Env) (out : basis_output) (bgd_size : Nat) (st : AsmState) :
    Except Fault (List Nat) := do
  let dstptr := kimagesOffset st.image
  let b1 ← memcpy st.bgd dstptr out.bf out.bfh.m_endpoint_cb_file_ofs
    out.bfh.m_endpoint_cb_file_size
  let dstptr1 := dstptr + out.bfh.m_endpoint_cb_file_size
  let b2 ← memcpy b1 dstptr1 out.bf out.bfh.m_selector_cb_file_ofs
    out.bfh.m_selector_cb_file_size
  let dstptr2 := dstptr1 + out.bfh.m_selector_cb_file_size
  let b3 ← memcpy b2 dstptr2 out.bf out.bfh.m_tables_file_ofs out.bfh.m_tables_file_size
  cAssert env.NDEBUG (dstptr2 + out.bfh.m_tables_file_size ≤ bgd_size)
  pure b3

/-- Lines 597-702: the assembly stage. In the result `bgd` is the finished
global data, `levelIndex` the level index with the new byte lengths. -/
def assembleGlobalData (env : Env) (This : ktxTexture2) (out : basis_output)
    (num_images : Nat) : Except Fault AsmState := do
  cAssert env.NDEBUG (out.bfh.m_total_images = num_images)
  let bgd_size := bgdSize out.bfh num_images
  let bgd0 := (List.range bgd_size).map env.uninit_bgd
  let bgd1 ← writeGlobalHeader env out.bfh bgd0
  let st0 : AsmState :=
    { slice := 0, image := 0, level_byte_length := 0, image_data_size := 0, bgd := bgd1
      levelIndex := This._levelIndex
      level_file_offsets := List.replicate This.numLevels 0 }
  let st1 ← forUpTo This.numLevels (asmLevel env This out) st0
  let bgd2 ← copyCodebooks env out bgd_size st1
  pure { st1 with bgd := bgd2 }

/-! ### Reordering of the levels (lines 755-763) -/

/-- The C loop `for (level = n - 1; level >= 0; level--) body(level)`. -/
def forDownFrom {σ : Type} : Nat → (Nat → σ → Except Fault σ) → σ → Except Fault σ
  | 0, _, s => .ok s
  | n + 1, body, s => body n s >>= forDownFrom n body

/-- The local variables of the reordering loop with the two parts of the
texture it writes. -/
structure ReorderState where
  level_offset : Nat
  pData : List Nat
  levelIndex : List ktxLevelIndexEntry
deriving DecidableEq, Repr

/-- Lines 757-762: the body of the reordering loop. -/
def reorderLevel (bf : List Nat) (level_file_offsets : List Nat) (level : Nat)
    (st : ReorderState) : Except Fault ReorderState := do
  let e ← readAt st.levelIndex level
  let li := st.levelIndex.set level { e with byteOffset := st.level_offset }
  let src ← readAt level_file_offsets level
  let data ← memcpy st.pData st.level_offset bf src e.byteLength
  pure { level_offset := (st.level_offset + e.byteLength) % 18446744073709551616
         pData := data, levelIndex := li }

/-- The number of rounds of the reordering loop: its counter is an `int32_t`
that starts at `numLevels - 1`, which is negative when `numLevels` is 0 or
exceeds `2^31`. -/
def reorderRounds (numLevels : Nat) : Nat :=
  if numLevels ≤ 2147483648 then numLevels else 0

/-! ### The whole function (lines 299-766) -/

/-- Lines 723-765: the payload is allocated, the texture is updated and the
levels are copied in. `This` is the texture after the descriptor rewrite,
`asm` the result of the assembly stage. -/
def commitStage (env : Env) (This : ktxTexture2) (out : basis_output) (asm : AsmState)
    (bgd_size loadCalls : Nat) (cparams : basis_compressor_params) : Outcome :=
  if env.malloc_new_data asm.image_data_size = false then
    ⟨.returned .KTX_OUT_OF_MEMORY, This, loadCalls, some cparams⟩
  else
    let new_data := (List.range asm.image_data_size).map env.uninit_new_data
    let This1 : ktxTexture2 :=
      { This with
        vkFormat := VK_FORMAT_UNDEFINED
        supercompressionScheme := .KTX_SUPERCOMPRESSION_BASIS
        _formatSize := { flags := 0, paletteSizeInBits := 0, blockSizeInBits := 0 * 8
                         blockWidth := 1, blockHeight := 1, blockDepth := 1 }
        _requiredLevelAlignment := 1 }
    match cAssert env.NDEBUG (This1._typeSize = 1) with
    | .error f => ⟨.fault f, This1, loadCalls, some cparams⟩
    | .ok _ =>
      let This2 : ktxTexture2 :=
        { This1 with
          _supercompressionGlobalData := some asm.bgd
          _sgdByteLength := bgd_size
          pData := some new_data
          dataSize := asm.image_data_size }
      match forDownFrom (reorderRounds This2.numLevels)
          (reorderLevel out.bf asm.level_file_offsets)
          { level_offset := 0, pData := new_data, levelIndex := This2._levelIndex } with
      | .error f => ⟨.fault f, This2, loadCalls, some cparams⟩
      | .ok r =>
        ⟨.returned .KTX_SUCCESS,
         { This2 with pData := some r.pData, _levelIndex := r.levelIndex },
         loadCalls, some cparams⟩

/-- Lines 540-721: the encoder runs and its output is unpicked. `This` is the
texture after its pixel data was released. When `ktxTexture2_rewriteDfd` does
not succeed, line 719 releases with `delete bgd` the block that line 608
allocated with `new ktx_uint8_t[bgd_size]`: releasing an array with the scalar
form is undefined, so the call ends there and line 720 is not reached. -/
def encodeStage (env : Env) (This : ktxTexture2) (num_images loadCalls : Nat)
    (cparams : basis_compressor_params) : Outcome :=
  let (ec, out) := env.process cparams
  if ec ≠ .cECSuccess then
    match cAssert env.NDEBUG (ec ≠ .cECFailedValidating) with
    | .error f => ⟨.fault f, This, loadCalls, some cparams⟩
    | .ok _ => ⟨.returned .KTX_INVALID_OPERATION, This, loadCalls, some cparams⟩
  else
    match assembleGlobalData env This out num_images with
    | .error f => ⟨.fault f, This, loadCalls, some cparams⟩
    | .ok asm =>
      let This1 : ktxTexture2 := { This with _levelIndex := asm.levelIndex }
      let hasAlpha : Bool := hasAlphaSlices env out
      match ktxTexture2_rewriteDfd env.malloc_ndfd This1 hasAlpha with
      | .error f => ⟨.fault f, This1, loadCalls, some cparams⟩
      | .ok (result, This2) =>
        if result ≠ .KTX_SUCCESS then
          ⟨.fault .undefinedBehaviour, This2, loadCalls, some cparams⟩
        else commitStage env This2 out asm (bgdSize out.bfh num_images) loadCalls cparams

/-- Lines 347-436: the images are counted, normalised and staged. The result
is `num_images` with the images staged. -/
def stageImages (env : Env) (This : ktxTexture2) (params : ktxBasisParams)
    (num_components component_size : Nat) : Except Fault (Nat × List image) := do
  let num_images ← calcNumImages This
  let comp_mapping ← chooseMapping This params num_components
  let copycb ← chooseCopycb env.NDEBUG comp_mapping num_components
  let images ← packImages env This copycb comp_mapping
    ((component_size * num_components) % U32) num_images
  pure (num_images, images)

/-- Lines 340-521: the images are staged, the pixel data is released and the
encoder parameters are set up. `This` is the texture with its pixel data
loaded, `BDB` the descriptor the pointer `BDB` of line 323 points into. -/
def packStage (env : Env) (This : ktxTexture2) (params : ktxBasisParams) (BDB : List Nat)
    (num_components component_size loadCalls : Nat) : Outcome :=
  match stageImages env This params num_components component_size with
  | .error f => ⟨.fault f, This, loadCalls, none⟩
  | .ok (num_images, images) =>
    let This1 : ktxTexture2 := { This with pData := none, dataSize := 0 }
    match KHR_DFDVAL BDB 2 16 0xFF with
    | .error f => ⟨.fault f, This1, loadCalls, none⟩
    | .ok transfer =>
      let source_images := images ++ List.replicate (num_images - images.length) emptyImage
      encodeStage env This1 num_images loadCalls
        (makeCompressorParams params source_images transfer)

/-- The function `ktxTexture2_CompressBasisEx`; `params` is `none` for a null
pointer. -/
def ktxTexture2_CompressBasisEx (env : Env) (This : ktxTexture2)
    (params : Option ktxBasisParams) : Outcome :=
  match params with
  | none => ⟨.returned .KTX_INVALID_VALUE, This, 0, none⟩
  | some p =>
    if p.structSize ≠ env.sizeof_ktxBasisParams then
      ⟨.returned .KTX_INVALID_VALUE, This, 0, none⟩
    else if This.supercompressionScheme ≠ .KTX_SUPERCOMPRESSION_NONE then
      ⟨.returned .KTX_INVALID_OPERATION, This, 0, none⟩
    else if This.isCompressed then
      ⟨.returned .KTX_INVALID_OPERATION, This, 0, none⟩
    else if This._formatSize.flags &&& env.KTX_FORMAT_SIZE_PACKED_BIT ≠ 0 then
      ⟨.returned .KTX_INVALID_OPERATION, This, 0, none⟩
    else
      let num_components := (env.getDFDComponentInfoUnpacked This.pDfd).1
      let component_size := (env.getDFDComponentInfoUnpacked This.pDfd).2
      if component_size ≠ 1 then
        ⟨.returned .KTX_INVALID_OPERATION, This, 0, none⟩
      else if p.separateRGToRGB_A = true ∧ num_components = 1 then
        ⟨.returned .KTX_INVALID_OPERATION, This, 0, none⟩
      else
        match This.pData with
        | none =>
          let result := (env.ktxTexture2_LoadImageData This).1
          let This1 := (env.ktxTexture2_LoadImageData This).2
          if result ≠ .KTX_SUCCESS then ⟨.returned result, This1, 1, none⟩
          else packStage env This1 p This.pDfd num_components component_size 1
        | some _ => packStage env This p This.pDfd num_components component_size 0

/-- The function `ktxTexture2_CompressBasis`. -/
def ktxTexture2_CompressBasis (env : Env) (This : ktxTexture2) (quality : Nat) : Outcome :=
  let params : ktxBasisParams :=
    { structSize := env.sizeof_ktxBasisParams, threadCount := 1, compressionLevel := 0
      qualityLevel := quality, maxEndpoints := 0, endpointRDOThreshold := 0
      maxSelectors := 0, selectorRDOThreshold := 0, normalMap := false
      separateRGToRGB_A := false, preSwizzle := false, noEndpointRDO := false
      noSelectorRDO := false }
  ktxTexture2_CompressBasisEx env This (some params)

/-! ## Quantities the statements speak of -/

/-- The number of rounds of the innermost loop (lines 425-426 and 652-653) at
a level below 32: the depth of the level for a texture of one face, the number
of faces otherwise. -/
def faceSlices (This : ktxTexture2) (level : Nat) : Nat :=
  if This.numFaces = 1 then max 1 (This.baseDepth >>> level) else This.numFaces

/-- The number of images the two inner loops visit at a level. -/
def imagesInLevel (This : ktxTexture2) (level : Nat) : Nat :=
  This.numLayers * faceSlices This level

/-- The number of images the loop nest visits before it reaches a level. -/
def imagesBefore (This : ktxTexture2) : Nat → Nat
  | 0 => 0
  | level + 1 => imagesBefore This level + imagesInLevel This level

/-- The sum lines 347-353 compute, as a natural number: over the levels, the
product of layers, faces and the depth of the level (at least 1). -/
def imageTotal (This : ktxTexture2) : Nat :=
  ∑ level ∈ Finset.range This.numLevels,
    This.numLayers * This.numFaces * max (This.baseDepth >>> level) 1

/-- The number of slice descriptors per image: two with alpha slices, else one.
-/
def sliceStride (env : Env) (out : basis_output) : Nat :=
  if hasAlphaSlices env out then 2 else 1

/-- The slice descriptor at an index of the table (zeros outside the table). -/
def sliceAt (out : basis_output) (i : Nat) : basis_slice_desc :=
  out.slices.getD i { m_flags := 0, m_file_ofs := 0, m_file_size := 0 }

/-- The entry of the level index of a texture for a level (zeros outside). -/
def levelEntry (This : ktxTexture2) (level : Nat) : ktxLevelIndexEntry :=
  This._levelIndex.getD level { byteOffset := 0, byteLength := 0, uncompressedByteLength := 0 }

/-- The condition that a texture does not have several faces and a depth above
one at the same time. -/
def faceDepthExclusive (This : ktxTexture2) : Prop :=
  ¬ (This.numFaces > 1 ∧ This.baseDepth > 1)

/-- The structure `ktxBasisImageDesc` of the global data. -/
structure ktxBasisImageDesc where
  rgbSliceByteOffset : Nat
  rgbSliceByteLength : Nat
  alphaSliceByteOffset : Nat
  alphaSliceByteLength : Nat
  imageFlags : Nat
deriving DecidableEq, Repr

/-- The twenty bytes of an image descriptor in memory. -/
def ktxBasisImageDesc.bytes (d : ktxBasisImageDesc) : List Nat :=
  u32le d.rgbSliceByteOffset ++ u32le d.rgbSliceByteLength ++ u32le d.alphaSliceByteOffset
    ++ u32le d.alphaSliceByteLength ++ u32le d.imageFlags

/-- The descriptor lines 655-669 compute from a colour slice `c`, the slice `a`
behind it and the file offset `lfo` of the level. -/
def descOfSlices (env : Env) (out : basis_output) (c a : basis_slice_desc) (lfo : Nat) :
    ktxBasisImageDesc :=
  if hasAlphaSlices env out then
    { rgbSliceByteOffset := sub32 c.m_file_ofs lfo, rgbSliceByteLength := c.m_file_size
      alphaSliceByteOffset := sub32 a.m_file_ofs lfo, alphaSliceByteLength := a.m_file_size
      imageFlags := andNot32 a.m_flags env.cSliceDescFlagsHasAlpha }
  else
    { rgbSliceByteOffset := sub32 c.m_file_ofs lfo, rgbSliceByteLength := c.m_file_size
      alphaSliceByteOffset := 0, alphaSliceByteLength := 0
      imageFlags := andNot32 c.m_flags env.cSliceDescFlagsHasAlpha }

/-- The descriptor of image `k` of a level whose first image is image `first`:
its slices are at `stride * k` and `stride * k + 1`, the level starts at the
slice at `stride * first`. -/
def imageDesc (env : Env) (out : basis_output) (first k : Nat) : ktxBasisImageDesc :=
  descOfSlices env out (sliceAt out (sliceStride env out * k))
    (sliceAt out (sliceStride env out * k + 1))
    (sliceAt out (sliceStride env out * first)).m_file_ofs

/-- The descriptors of the first `j` images of the level that starts at image
`first`. -/
def levelDescs (env : Env) (out : basis_output) (first j : Nat) : List ktxBasisImageDesc :=
  (List.range j).map (fun i => imageDesc env out first (first + i))

/-- The descriptors of all images of the levels below `level`, in order. -/
def allDescs (env : Env) (This : ktxTexture2) (out : basis_output) :
    Nat → List ktxBasisImageDesc
  | 0 => []
  | level + 1 =>
    allDescs env This out level
      ++ levelDescs env out (imagesBefore This level) (imagesInLevel This level)

/-- The bytes of an array of image descriptors. -/
def descBytes (ds : List ktxBasisImageDesc) : List Nat :=
  ds.flatMap ktxBasisImageDesc.bytes

/-- The number of payload bytes of image `k`: its colour slice and, with alpha
slices, its alpha slice. -/
def imageBytes (env : Env) (out : basis_output) (k : Nat) : Nat :=
  (sliceAt out (sliceStride env out * k)).m_file_size
    + (if hasAlphaSlices env out then (sliceAt out (sliceStride env out * k + 1)).m_file_size
       else 0)

/-- The payload bytes of the first `j` images of the level that starts at
image `first`, as a natural number. -/
def levelSum (env : Env) (out : basis_output) (first : Nat) : Nat → Nat
  | 0 => 0
  | j + 1 => levelSum env out first j + imageBytes env out (first + j)

/-- The value of `level_byte_length` at the end of a level: the payload bytes
of the level in `uint32_t` arithmetic. -/
def levelBytes (env : Env) (This : ktxTexture2) (out : basis_output) (level : Nat) : Nat :=
  levelSum env out (imagesBefore This level) (imagesInLevel This level) % U32

/-- The twenty-eight bytes of the global header in memory (lines 612-618). -/
def globalHeaderBytes (env : Env) (bfh : basis_file_header) : List Nat :=
  u32le (andNot32 bfh.m_flags env.cBASISHeaderFlagYFlipped) ++ u32le bfh.m_total_endpoints
    ++ u32le bfh.m_endpoint_cb_file_size ++ u32le bfh.m_total_selectors
    ++ u32le bfh.m_selector_cb_file_size ++ u32le bfh.m_tables_file_size ++ u32le 0

/-- The bytes `[off, off + len)` of a buffer. -/
def byteRange (buf : List Nat) (off len : Nat) : List Nat :=
  (buf.drop off).take len

/-- The byte length the level index of a texture holds for a level. -/
def entryLength (li : List ktxLevelIndexEntry) (level : Nat) : Nat :=
  (li.getD level { byteOffset := 0, byteLength := 0, uncompressedByteLength := 0 }).byteLength

/-- The bytes the reordering loop copies for the levels below `n`, in the
order it copies them: level `n - 1` first, level 0 last. The bytes of a level
are `byteLength` bytes of the encoder output from the file offset recorded
for the level. -/
def reorderedPayload (bf : List Nat) (level_file_offsets : List Nat)
    (li : List ktxLevelIndexEntry) : Nat → List Nat
  | 0 => []
  | n + 1 =>
    byteRange bf (level_file_offsets.getD n 0) (entryLength li n)
      ++ reorderedPayload bf level_file_offsets li n

/-- The image descriptor stored at index `k` of a global data block, if the
block is long enough. -/
def sgdImageDesc (sgd : List Nat) (k : Nat) : Option ktxBasisImageDesc :=
  match readU32 sgd (kimagesOffset k), readU32 sgd (kimagesOffset k + 4),
    readU32 sgd (kimagesOffset k + 8), readU32 sgd (kimagesOffset k + 12),
    readU32 sgd (kimagesOffset k + 16) with
  | some a, some b, some c, some d, some e =>
    some { rgbSliceByteOffset := a, rgbSliceByteLength := b, alphaSliceByteOffset := c
           alphaSliceByteLength := d, imageFlags := e }
  | _, _, _, _, _ => none

/-! ## Invariants of the loops -/

/-- What holds of the variables of the assembly stage when the loop nest has
finished the levels below `l` and the first `j` images of level `l`. `B` is
the size of the global data, `li0` the level index before the stage. -/
structure AsmInv (env : Env) (This : ktxTexture2) (out : basis_output) (B : Nat)
    (li0 : List ktxLevelIndexEntry) (l j : Nat) (st : AsmState) : Prop where
  slice_eq : st.slice = sliceStride env out * (imagesBefore This l + j)
  image_eq : st.image = imagesBefore This l + j
  slices_ok : sliceStride env out * (imagesBefore This l + j) ≤ out.slices.length
  bgd_len : st.bgd.length = B
  bgd_room : kimagesOffset (imagesBefore This l + j) ≤ B
  bgd_take : st.bgd.take (kimagesOffset (imagesBefore This l + j))
    = globalHeaderBytes env out.bfh
      ++ descBytes (allDescs env This out l ++ levelDescs env out (imagesBefore This l) j)
  lfo_len : st.level_file_offsets.length = This.numLevels
  lfo_get : ∀ k, k < l →
    st.level_file_offsets[k]?
      = some (sliceAt out (sliceStride env out * imagesBefore This k)).m_file_ofs ∧
    sliceStride env out * imagesBefore This k < out.slices.length
  li_len : st.levelIndex.length = li0.length
  li_done : ∀ k, k < l → k < li0.length ∧
    st.levelIndex[k]? = some
      { byteOffset := (li0.getD k
          { byteOffset := 0, byteLength := 0, uncompressedByteLength := 0 }).byteOffset
        byteLength := levelBytes env This out k
        uncompressedByteLength := 0 }
  li_rest : ∀ k, l ≤ k → st.levelIndex[k]? = li0[k]?
  ids : st.image_data_size = (∑ k ∈ Finset.range l, levelBytes env This out k) % U32

/-- What holds in addition while the loop nest is inside level `l`. -/
structure AsmInner (env : Env) (This : ktxTexture2) (out : basis_output) (B : Nat)
    (li0 : List ktxLevelIndexEntry) (l j : Nat) (st : AsmState)
    extends AsmInv env This out B li0 l j st : Prop where
  lfo_here : st.level_file_offsets[l]?
    = some (sliceAt out (sliceStride env out * imagesBefore This l)).m_file_ofs
  lbl : st.level_byte_length = levelSum env out (imagesBefore This l) j % U32

/-! ## Successful runs -/

/-- The values a run of `ktxTexture2_CompressBasisEx` that returns
`KTX_SUCCESS` passes from stage to stage. -/
structure RunTrace where
  /-- The options. -/
  p : ktxBasisParams
  /-- The texture once its pixel data is resident. -/
  loaded : ktxTexture2
  loadCalls : Nat
  num_images : Nat
  comp_mapping : Option (List swizzle_e)
  copycb : Option PFNBUCOPYCB
  /-- The images the packing loop staged. -/
  images : List image
  transfer : Nat
  /-- The encoder output. -/
  out : basis_output
  /-- The variables of the assembly stage at its end. -/
  asm : AsmState
  /-- The texture after `ktxTexture2_rewriteDfd`. -/
  rewritten : ktxTexture2
  /-- The variables of the reordering loop at its end. -/
  reordered : ReorderState

/-- The texture after line 440: the pixel data is released. -/
def RunTrace.released (tr : RunTrace) : ktxTexture2 :=
  { tr.loaded with pData := none, dataSize := 0 }

/-- The parameters the encoder runs with. -/
def RunTrace.cparams (tr : RunTrace) : basis_compressor_params :=
  makeCompressorParams tr.p
    (tr.images ++ List.replicate (tr.num_images - tr.images.length) emptyImage) tr.transfer

/-- The texture when the call returns. -/
def RunTrace.result (tr : RunTrace) : ktxTexture2 :=
  { tr.rewritten with
    vkFormat := VK_FORMAT_UNDEFINED
    supercompressionScheme := .KTX_SUPERCOMPRESSION_BASIS
    _formatSize := { flags := 0, paletteSizeInBits := 0, blockSizeInBits := 0 * 8
                     blockWidth := 1, blockHeight := 1, blockDepth := 1 }
    _requiredLevelAlignment := 1
    _supercompressionGlobalData := some tr.asm.bgd
    _sgdByteLength := bgdSize tr.out.bfh tr.num_images
    pData := some tr.reordered.pData
    dataSize := tr.asm.image_data_size
    _levelIndex := tr.reordered.levelIndex }

/-- The stages of a run that returns `KTX_SUCCESS`, each with its result. -/
structure IsSuccessfulRun (env : Env) (This : ktxTexture2) (params : Option ktxBasisParams)
    (tr : RunTrace) : Prop where
  params_eq : params = some tr.p
  loaded_eq : (This.pData ≠ none ∧ tr.loaded = This ∧ tr.loadCalls = 0) ∨
    (This.pData = none ∧ env.ktxTexture2_LoadImageData This = (.KTX_SUCCESS, tr.loaded) ∧
      tr.loadCalls = 1)
  component_size : (env.getDFDComponentInfoUnpacked This.pDfd).2 = 1
  count : calcNumImages tr.loaded = .ok tr.num_images
  mapping : chooseMapping tr.loaded tr.p (env.getDFDComponentInfoUnpacked This.pDfd).1
    = .ok tr.comp_mapping
  callback : chooseCopycb env.NDEBUG tr.comp_mapping
    (env.getDFDComponentInfoUnpacked This.pDfd).1 = .ok tr.copycb
  packed : packImages env tr.loaded tr.copycb tr.comp_mapping
    (((env.getDFDComponentInfoUnpacked This.pDfd).2
      * (env.getDFDComponentInfoUnpacked This.pDfd).1) % U32) tr.num_images = .ok tr.images
  transfer_eq : KHR_DFDVAL This.pDfd 2 16 0xFF = .ok tr.transfer
  encoded : env.process tr.cparams = (.cECSuccess, tr.out)
  assembled : assembleGlobalData env tr.released tr.out tr.num_images = .ok tr.asm
  rewritten : ktxTexture2_rewriteDfd env.malloc_ndfd
    { tr.released with _levelIndex := tr.asm.levelIndex } (hasAlphaSlices env tr.out)
    = .ok (.KTX_SUCCESS, tr.rewritten)
  reordered : forDownFrom (reorderRounds tr.rewritten.numLevels)
    (reorderLevel tr.out.bf tr.asm.level_file_offsets)
    { level_offset := 0
      pData := (List.range tr.asm.image_data_size).map env.uninit_new_data
      levelIndex := tr.rewritten._levelIndex } = .ok tr.reordered
  outcome : ktxTexture2_CompressBasisEx env This params
    = ⟨.returned .KTX_SUCCESS, tr.result, tr.loadCalls, some tr.cparams⟩

/-! ## Concrete inputs

A texture of two levels (2x2 and 1x1 pixels, four 8-bit components), an
encoder stub with a fixed output of two colour slices, and the options the
wrapper `ktxTexture2_CompressBasis` passes. -/

/-- The descriptor of an RGBA8 sRGB format: 92 bytes, four samples. -/
def exampleDfd : List Nat :=
  [92, 0, 5767170, 131329, 0, 4, 0,
   0, 0, 0, 255, 0, 0, 0, 255, 0, 0, 0, 255, 0, 0, 0, 255]

/-- A texture of two levels. -/
def exampleTexture : ktxTexture2 :=
  { vkFormat := 43, pDfd := exampleDfd
    supercompressionScheme := .KTX_SUPERCOMPRESSION_NONE
    isCompressed := false, numDimensions := 2
    baseWidth := 2, baseHeight := 2, baseDepth := 1
    numLevels := 2, numLayers := 1, numFaces := 1, kvDataHead := []
    dataSize := 20, pData := some (List.range 20)
    _formatSize := { flags := 0, paletteSizeInBits := 0, blockSizeInBits := 32
                     blockWidth := 1, blockHeight := 1, blockDepth := 1 }
    _typeSize := 1
    _levelIndex := [{ byteOffset := 4, byteLength := 16, uncompressedByteLength := 16 },
                    { byteOffset := 0, byteLength := 4, uncompressedByteLength := 4 }]
    _requiredLevelAlignment := 4
    _supercompressionGlobalData := none, _sgdByteLength := 0 }

/-- An encoder output of 15 bytes: codebooks and tables in bytes 0 to 5, the
slice of level 0 in bytes 10 to 12, the slice of level 1 in bytes 13 to 14. -/
def exampleOutput : basis_output :=
  { bf := [100, 101, 102, 103, 104, 105, 106, 107, 108, 109, 110, 111, 112, 113, 114]
    bfh := { m_total_images := 2, m_flags := 3, m_total_endpoints := 7
             m_endpoint_cb_file_ofs := 0, m_endpoint_cb_file_size := 2
             m_total_selectors := 9, m_selector_cb_file_ofs := 2
             m_selector_cb_file_size := 3
             m_tables_file_ofs := 5, m_tables_file_size := 1
             m_slice_desc_file_ofs := 6 }
    slices := [{ m_flags := 2, m_file_ofs := 10, m_file_size := 3 },
               { m_flags := 0, m_file_ofs := 13, m_file_size := 2 }] }

/-- An environment whose encoder always succeeds with `exampleOutput`. -/
def exampleEnv : Env :=
  { NDEBUG := false, sizeof_ktxBasisParams := 56, KTX_FORMAT_SIZE_PACKED_BIT := 1
    cBASISHeaderFlagYFlipped := 2, cBASISHeaderFlagHasAlphaSlices := 4
    cSliceDescFlagsHasAlpha := 1
    getDFDComponentInfoUnpacked := fun _ => (4, 1)
    ktxTexture2_LoadImageData := fun t => (.other 10, t)
    ktxTexture2_GetImageSize := fun _ level => if level = 0 then 16 else 4
    ktxTexture2_GetImageOffset := fun _ level _ _ => if level = 0 then 4 else 0
    image_resize := fun w h => List.replicate (4 * w * h) 0
    process := fun _ => (.cECSuccess, exampleOutput)
    malloc_ndfd := fun _ => true, malloc_new_data := fun _ => true
    uninit_bgd := fun _ => 170, uninit_new_data := fun _ => 187 }

/-- The options `ktxTexture2_CompressBasis` passes for quality 0. -/
def exampleParams : ktxBasisParams :=
  { structSize := 56, threadCount := 1, compressionLevel := 0
    qualityLevel := 0, maxEndpoints := 0, endpointRDOThreshold := 0
    maxSelectors := 0, selectorRDOThreshold := 0, normalMap := false
    separateRGToRGB_A := false, preSwizzle := false, noEndpointRDO := false
    noSelectorRDO := false }

/-- An environment that reports one 8-bit component for every descriptor. -/
def oneComponentEnv : Env :=
  { exampleEnv with getDFDComponentInfoUnpacked := fun _ => (1, 1) }

/-- Options that ask for the split of red and green into colour and alpha. -/
def splitParams : ktxBasisParams :=
  { exampleParams with separateRGToRGB_A := true }

/-- A texture of one level with two layers of 1x1 pixels. -/
def twoLayerTexture : ktxTexture2 :=
  { exampleTexture with
    baseWidth := 1, baseHeight := 1, numLevels := 1, numLayers := 2
    dataSize := 8, pData := some (List.range 8)
    _levelIndex := [{ byteOffset := 0, byteLength := 8, uncompressedByteLength := 8 }] }

/-- An encoder output whose two colour slices follow each other in the file,
each of `2^31` bytes: the second starts at file offset `2^31`. -/
def wrapOutput : basis_output :=
  { bf := []
    bfh := { m_total_images := 2, m_flags := 1, m_total_endpoints := 0
             m_endpoint_cb_file_ofs := 0, m_endpoint_cb_file_size := 0
             m_total_selectors := 0, m_selector_cb_file_ofs := 0
             m_selector_cb_file_size := 0
             m_tables_file_ofs := 0, m_tables_file_size := 0
             m_slice_desc_file_ofs := 0 }
    slices := [{ m_flags := 0, m_file_ofs := 0, m_file_size := 2147483648 },
               { m_flags := 0, m_file_ofs := 2147483648, m_file_size := 2147483648 }] }

/-- An environment for `twoLayerTexture` whose encoder gives `wrapOutput`. -/
def wrapEnv : Env :=
  { exampleEnv with
    ktxTexture2_GetImageSize := fun _ _ => 4
    ktxTexture2_GetImageOffset := fun _ _ layer _ => 4 * layer
    process := fun _ => (.cECSuccess, wrapOutput) }

/-- An environment for `twoLayerTexture` whose encoder gives the output of two
small slices. -/
def twoLayerEnv : Env :=
  { exampleEnv with
    ktxTexture2_GetImageSize := fun _ _ => 4
    ktxTexture2_GetImageOffset := fun _ _ layer _ => 4 * layer }

/-- A texture of one level with `2^16` layers and depth `2^16`: `2^32` images.
-/
def overflowTexture : ktxTexture2 :=
  { exampleTexture with
    baseWidth := 1, baseHeight := 1, baseDepth := 65536, numLevels := 1, numLayers := 65536 }

/-- The entry of `meta_mapping` lines 386-393 derive from one character of the
swizzle string; a character outside `rgba01` leaves the entry at the value the
array was initialised with, which is `R`. -/
def swizzleOfChar (ch : Char) : swizzle_e :=
  if ch = 'r' then .R
  else if ch = 'g' then .G
  else if ch = 'b' then .B
  else if ch = 'a' then .A
  else if ch = '0' then .ZERO
  else if ch = '1' then .ONE
  else .R

/-- The string lines 382-384 compare the swizzle string of a texture of two,
three or four components with. -/
def identityPattern (num_components : Nat) : List Char :=
  if num_components = 2 then ['r', 'g', '0', '1']
  else if num_components = 3 then ['r', 'g', 'b', '1']
  else ['r', 'g', 'b', 'a']

/-- Options that ask for the swizzle of the metadata to be applied. -/
def preSwizzleParams : ktxBasisParams :=
  { exampleParams with preSwizzle := true }

/-- The texture of two levels with the swizzle metadata `argb`. -/
def argbTexture : ktxTexture2 :=
  { exampleTexture with kvDataHead := [("KTXswizzle", ['a', 'r', 'g', 'b', Char.ofNat 0])] }

/-- The texture of two levels with the swizzle metadata `rgb1`. -/
def rgb1Texture : ktxTexture2 :=
  { exampleTexture with kvDataHead := [("KTXswizzle", ['r', 'g', 'b', '1', Char.ofNat 0])] }

/-! ## Quantities of the statements about the descriptor -/

/-- The word `KHR_DFDSETVAL` stores: the word `w` with its field of mask
`mask` at `shift` replaced by `val`. -/
def setField (w shift mask val : Nat) : Nat :=
  andNot32 w ((mask <<< shift) % U32) ||| ((val &&& mask) <<< shift) % U32

/-- The first word of a sample, which holds its bit offset, bit length,
channel type and qualifiers, after lines 258-259. -/
def unsizedSampleWord (w : Nat) : Nat :=
  setField (setField w 0 0xFFFF 0) 16 0xFF 0

/-- A descriptor of one basic descriptor block with `n` samples that is well
formed: it has `1 + SAMPLESTART + n * SAMPLEWORDS` words, its total size
(word 0) is its length in bytes and its descriptor block size field is the
length of the block in bytes. -/
def wellFormedDfd (dfd : List Nat) (n : Nat) : Prop :=
  dfd.length = 1 + KHR_DF_WORD_SAMPLESTART + n * KHR_DF_WORD_SAMPLEWORDS ∧
  dfd[0]? = some (4 * dfd.length) ∧
  KHR_DFDVAL dfd 1 16 0xFFFF = .ok (4 * dfd.length - 4)

/-- A well-formed descriptor whose first block is a basic descriptor block
with `n` samples, whether or not further blocks follow it: the words of the
block are there, the total size (word 0) is the length of the descriptor in
bytes and the descriptor block size field is the length of the basic block in
bytes. -/
def startsWithBasicBlock (dfd : List Nat) (n : Nat) : Prop :=
  1 + KHR_DF_WORD_SAMPLESTART + n * KHR_DF_WORD_SAMPLEWORDS ≤ dfd.length ∧
  dfd[0]? = some (4 * dfd.length) ∧
  KHR_DFDVAL dfd 1 16 0xFFFF
    = .ok (4 * (KHR_DF_WORD_SAMPLESTART + n * KHR_DF_WORD_SAMPLEWORDS))

/-- Modelled from the spec: the macro `KHR_DFDSVAL` of `khr_df.h`, the reader
of the field of a sample that `KHR_DFDSETSVAL` sets. -/
def KHR_DFDSVAL (dfd : List Nat) (sample word shift mask : Nat) : Except Fault Nat :=
  KHR_DFDVAL dfd (KHR_DF_WORD_SAMPLESTART + sample * KHR_DF_WORD_SAMPLEWORDS + word) shift mask

/-- The index in a descriptor of word `word` of sample `sample`. -/
def sampleWordIndex (sample word : Nat) : Nat :=
  1 + (KHR_DF_WORD_SAMPLESTART + sample * KHR_DF_WORD_SAMPLEWORDS + word)

/-- The descriptor of `VK_FORMAT_R8G8B8A8_SRGB`: 92 bytes, version 2, block
size 88, colour model RGBSDA, primaries BT709, transfer sRGB, texel block
1x1x1x1, 4 bytes in plane 0, and the samples red, green, blue and alpha, each
of 8 bits, at the bit offsets 0, 8, 16 and 24. -/
def rgba8Dfd : List Nat :=
  [92, 0, 5767170, 131329, 0, 4, 0,
   458752, 0, 0, 255, 17235976, 0, 0, 255, 34013200, 0, 0, 255, 520552472, 0, 0, 255]

/-- The texture of two levels with the descriptor `rgba8Dfd`. -/
def rgba8Texture : ktxTexture2 :=
  { exampleTexture with pDfd := rgba8Dfd }

/-! ## Quantities and inputs of the statements about failures -/

/-- The texture a call works on once its pixel data is resident (lines
334-338): the texture itself, or what `ktxTexture2_LoadImageData` made of it.
-/
def loadedTexture (env : Env) (This : ktxTexture2) : ktxTexture2 :=
  match This.pData with
  | none => (env.ktxTexture2_LoadImageData This).2
  | some _ => This

/-- The texture when the encoder runs: after line 440 the pixel data is
released. -/
def releasedTexture (env : Env) (This : ktxTexture2) : ktxTexture2 :=
  { loadedTexture env This with pData := none, dataSize := 0 }

/-- An environment in which the new descriptor cannot be allocated. -/
def noDescriptorMemoryEnv : Env :=
  { exampleEnv with malloc_ndfd := fun _ => false }

/-- An environment in which the new payload cannot be allocated. -/
def noPayloadMemoryEnv : Env :=
  { exampleEnv with malloc_new_data := fun _ => false }

/-- An environment whose encoder fails in its back end. -/
def failingEncoderEnv : Env :=
  { exampleEnv with process := fun _ => (.cECFailedBackend, exampleOutput) }

/-- The encoder output `exampleOutput` with a header that reports three images.
-/
def miscountOutput : basis_output :=
  { exampleOutput with bfh := { exampleOutput.bfh with m_total_images := 3 } }

/-- An environment whose encoder succeeds with `miscountOutput`, in a build
with assertions. -/
def miscountEnv : Env :=
  { exampleEnv with process := fun _ => (.cECSuccess, miscountOutput) }

/-- The environment `miscountEnv` in a build that defines `NDEBUG`. -/
def miscountReleaseEnv : Env :=
  { miscountEnv with NDEBUG := true }

/-- The encoder parameters of a call on the texture of two levels with the
options `exampleParams`: the two images are the byte-identical copies of the
pixel data, the transfer function is sRGB. -/
def exampleCparams : basis_compressor_params :=
  makeCompressorParams exampleParams
    [{ width := 2, height := 2, pixels := (List.range 20).drop 4 },
     { width := 1, height := 1, pixels := [0, 1, 2, 3] }] 2

/-- The outcomes of one call of `ktxTexture2_CompressBasisEx` for each element
of a list of options, each call on the texture the call before it left. -/
def callSequence (env : Env) : ktxTexture2 → List (Option ktxBasisParams) → List Outcome
  | _, [] => []
  | T, ps :: rest =>
    ktxTexture2_CompressBasisEx env T ps
      :: callSequence env (ktxTexture2_CompressBasisEx env T ps).This rest

/-- Options with quality level 0 and both cluster counts given. -/
def clusterParams : ktxBasisParams :=
  { exampleParams with maxEndpoints := 5, maxSelectors := 7 }

/-- A 1D texture: one level of 4x1 pixels of four 8-bit components. -/
def lineTexture : ktxTexture2 :=
  { exampleTexture with
    numDimensions := 1, baseWidth := 4, baseHeight := 1, numLevels := 1
    dataSize := 16, pData := some (List.range 16)
    _levelIndex := [{ byteOffset := 0, byteLength := 16, uncompressedByteLength := 16 }] }

/-- An encoder output of one colour slice, in bytes 10 to 12. -/
def lineOutput : basis_output :=
  { exampleOutput with
    bfh := { exampleOutput.bfh with m_total_images := 1 }
    slices := [{ m_flags := 0, m_file_ofs := 10, m_file_size := 3 }] }

/-- An environment for `lineTexture` whose encoder gives `lineOutput`. -/
def lineEnv : Env :=
  { exampleEnv with
    ktxTexture2_GetImageSize := fun _ _ => 16
    ktxTexture2_GetImageOffset := fun _ _ _ _ => 0
    process := fun _ => (.cECSuccess, lineOutput) }

/-! ## Inputs of the statements about the mapping and the image flags -/

/-- An environment that reports three 8-bit components for every descriptor:
level 1 (one pixel, padded to 4 bytes) at offset 0, level 0 (four pixels) at
offset 4. -/
def threeComponentEnv : Env :=
  { exampleEnv with
    getDFDComponentInfoUnpacked := fun _ => (3, 1)
    ktxTexture2_GetImageSize := fun _ level => if level = 0 then 12 else 3
    ktxTexture2_GetImageOffset := fun _ level _ _ => if level = 0 then 4 else 0 }

/-- A texture of two levels of three components with the swizzle metadata
`argb` and 16 bytes of pixel data. -/
def argbRgbTexture : ktxTexture2 :=
  { exampleTexture with
    kvDataHead := [("KTXswizzle", ['a', 'r', 'g', 'b', Char.ofNat 0])]
    dataSize := 16, pData := some (List.range 16) }

/-- The texture of two levels with a swizzle metadata value of one character
and the terminating NUL. -/
def shortSwizzleTexture : ktxTexture2 :=
  { exampleTexture with kvDataHead := [("KTXswizzle", ['r', Char.ofNat 0])] }

/-- An encoder output with alpha slices for the texture of two levels: the
colour and alpha slice of level 0 in bytes 10 to 11 and 12, those of level 1
in bytes 13 and 14. -/
def alphaOutput : basis_output :=
  { exampleOutput with
    bfh := { exampleOutput.bfh with m_flags := 4 }
    slices := [{ m_flags := 2, m_file_ofs := 10, m_file_size := 2 },
               { m_flags := 5, m_file_ofs := 12, m_file_size := 1 },
               { m_flags := 0, m_file_ofs := 13, m_file_size := 1 },
               { m_flags := 1, m_file_ofs := 14, m_file_size := 1 }] }

/-- An environment whose encoder always succeeds with `alphaOutput`. -/
def alphaEnv : Env :=
  { exampleEnv with process := fun _ => (.cECSuccess, alphaOutput) }

/-! ## Inputs of the statements about the loop nests -/

/-- A texture of one level of 1x1 pixels with two faces and depth 2, which is
not face/depth exclusive: lines 347-353 count four images, the loop nests visit
two. -/
def deepFacesTexture : ktxTexture2 :=
  { exampleTexture with
    baseWidth := 1, baseHeight := 1, baseDepth := 2, numLevels := 1, numFaces := 2
    dataSize := 8, pData := some (List.range 8)
    _levelIndex := [{ byteOffset := 0, byteLength := 8, uncompressedByteLength := 8 }] }

/-- An environment for `deepFacesTexture`: an image has four bytes, the image
of face `s` starts at byte `4 * s`, and the encoder reports four images. -/
def deepFacesEnv : Env :=
  { exampleEnv with
    ktxTexture2_GetImageSize := fun _ _ => 4
    ktxTexture2_GetImageOffset := fun _ _ _ slice => 4 * slice
    process := fun _ =>
      (.cECSuccess, { exampleOutput with bfh := { exampleOutput.bfh with m_total_images := 4 } }) }

/-- The encoder parameters of a call on `deepFacesTexture`: two staged images
and two images the loop nest never reached. -/
def deepFacesCparams : basis_compressor_params :=
  makeCompressorParams exampleParams
    [{ width := 1, height := 1, pixels := [0, 1, 2, 3] },
     { width := 1, height := 1, pixels := [4, 5, 6, 7] },
     emptyImage, emptyImage] 2

/-! ## Quantities of the statements about the slice walk -/

/-- What the slice walk needs of its variables when it stands at image `k`:
`B` is the size of the global data, `nl` the number of levels, `ll` the length
of the level index. -/
structure WalkInv (env : Env) (out : basis_output) (B nl ll k : Nat) (st : AsmState) :
    Prop where
  slice_eq : st.slice = sliceStride env out * k
  image_eq : st.image = k
  bgd_len : st.bgd.length = B
  lfo_len : st.level_file_offsets.length = nl
  li_len : st.levelIndex.length = ll

/-- The initial variables of the slice walk (lines 638-643) for a global data
block `bgd` whose header is written. -/
def walkStart (This : ktxTexture2) (bgd : List Nat) : AsmState :=
  { slice := 0, image := 0, level_byte_length := 0, image_data_size := 0, bgd := bgd
    levelIndex := This._levelIndex
    level_file_offsets := List.replicate This.numLevels 0 }

/-- The encoder output with the slice table cut to its first `m` entries. -/
def truncateSlices (out : basis_output) (m : Nat) : basis_output :=
  { out with slices := out.slices.take m }

/-! ## The canonical image order -/

/-- The images of a level in the canonical order in the specification's words:
layers ascending, and within a layer the faces or depth slices ascending. -/
def levelTriples (This : ktxTexture2) (level : Nat) : List (Nat × Nat × Nat) :=
  (List.range This.numLayers).flatMap fun layer =>
    (List.range (faceSlices This level)).map fun slice => (level, layer, slice)

/-- The canonical image order in the specification's words: the (level, layer,
face or slice) triples in lexicographic order, levels ascending from 0. -/
def canonicalOrder (This : ktxTexture2) : List (Nat × Nat × Nat) :=
  (List.range This.numLevels).flatMap (levelTriples This)

/-! ## Inputs of the statements about the slice walk -/

/-- The texture of two levels without layers: it has no image. -/
def noLayersTexture : ktxTexture2 := { exampleTexture with numLayers := 0 }

/-- An encoder output for no image: the slice table is empty. -/
def emptyOutput : basis_output :=
  { exampleOutput with bfh := { exampleOutput.bfh with m_total_images := 0 }, slices := [] }

/-- An environment whose encoder always succeeds with `emptyOutput`. -/
def noImagesEnv : Env := { exampleEnv with process := fun _ => (.cECSuccess, emptyOutput) }

/-- An encoder output for the texture of two levels whose header gives the
endpoint codebook `2^32 - 1` bytes: the size of line 604 wraps to 67. -/
def wrappingOutput : basis_output :=
  { exampleOutput with
    bfh := { exampleOutput.bfh with
      m_endpoint_cb_file_size := 4294967295, m_selector_cb_file_size := 0
      m_tables_file_size := 0 } }

/-- An environment whose encoder always succeeds with `wrappingOutput`. -/
def wrappingEnv : Env := { exampleEnv with process := fun _ => (.cECSuccess, wrappingOutput) }

/-! ## Inputs of the statements about the payload allocation -/

/-- The variables of the assembly stage at its end for the texture of two
levels and the encoder output `exampleOutput`: the 74 bytes of the global data,
the level index with the new byte lengths, and the file offsets of the levels.
-/
def exampleAsm : AsmState :=
  { slice := 2, image := 2, level_byte_length := 2, image_data_size := 5
    bgd := [1, 0, 0, 0, 7, 0, 0, 0, 2, 0, 0, 0, 9, 0, 0, 0, 3, 0, 0, 0, 1, 0, 0, 0, 0, 0, 0, 0,
            0, 0, 0, 0, 3, 0, 0, 0, 0, 0, 0, 0, 0, 0, 0, 0, 2, 0, 0, 0,
            0, 0, 0, 0, 2, 0, 0, 0, 0, 0, 0, 0, 0, 0, 0, 0, 0, 0, 0, 0,
            100, 101, 102, 103, 104, 105]
    levelIndex := [{ byteOffset := 4, byteLength := 3, uncompressedByteLength := 0 },
                   { byteOffset := 0, byteLength := 2, uncompressedByteLength := 0 }]
    level_file_offsets := [10, 13] }

/-- The texture `rgba8Texture` after the assembly stage `exampleAsm` and the
descriptor rewrite without alpha: the pixel data is released, the level index
holds the new byte lengths and the descriptor has three samples. -/
def rewrittenRgba8Texture : ktxTexture2 :=
  { rgba8Texture with
    pData := none, dataSize := 0
    _levelIndex := exampleAsm.levelIndex
    pDfd := [76, 0, 4718594, 131329, 0, 0, 0, 0, 0, 0, 0, 16777216, 0, 0, 0, 33554432, 0, 0, 0] }

/-! ## Inputs of the statements about the quality settings -/

/-- The texture of two levels with pixel data two bytes short of the 20 its
images take: with the split option the copy reads only the first two bytes of
every pixel and stays inside it, without it the copy of level 0 runs past its
end. -/
def shortDataTexture : ktxTexture2 :=
  { exampleTexture with dataSize := 18, pData := some (List.range 18) }

/-- The encoder parameters of a call on `shortDataTexture` with the options
`splitParams`. -/
def shortDataCparams : basis_compressor_params :=
  makeCompressorParams splitParams
    [{ width := 2, height := 2
       pixels := [4, 4, 4, 5, 8, 8, 8, 9, 12, 12, 12, 13, 16, 16, 16, 17] },
     { width := 1, height := 1, pixels := [0, 0, 0, 1] }] 2

/-! # Theorems -/

/-! ## Buffers and loops: basic facts -/

theorem bind_ok_inv {α β : Type} {x : Except Fault α} {f : α → Except Fault β} {b : β}
    (h : (x >>= f) = .ok b) : ∃ a, x = .ok a ∧ f a = .ok b := by
  cases x with
  | error e => simp [bind, Except.bind] at h
  | ok a => exact ⟨a, rfl, h⟩

theorem writeBytes_ok {buf : List Nat} {off : Nat} {bs : List Nat}
    (h : off + bs.length ≤ buf.length) :
    writeBytes buf off bs = .ok (buf.take off ++ bs ++ buf.drop (off + bs.length)) := by
  simp [writeBytes, h]

theorem writeBytes_inv {buf : List Nat} {off : Nat} {bs out : List Nat}
    (h : writeBytes buf off bs = .ok out) :
    off + bs.length ≤ buf.length ∧ out = buf.take off ++ bs ++ buf.drop (off + bs.length) := by
  unfold writeBytes at h
  split at h
  · rename_i hle
    exact ⟨hle, by injection h with h; exact h.symm⟩
  · cases h

theorem readBytes_inv {buf : List Nat} {off len : Nat} {bs : List Nat}
    (h : readBytes buf off len = .ok bs) :
    off + len ≤ buf.length ∧ bs = (buf.drop off).take len ∧ bs.length = len := by
  unfold readBytes at h
  split at h
  · rename_i hle
    injection h with h
    subst h
    refine ⟨hle, rfl, ?_⟩
    simp; omega
  · cases h

theorem getElem?_splice (buf bs : List Nat) (off n : Nat) (h : off + bs.length ≤ buf.length) :
    (buf.take off ++ bs ++ buf.drop (off + bs.length))[n]? =
      if n < off then buf[n]? else if n < off + bs.length then bs[n - off]? else buf[n]? := by
  have hl : (buf.take off).length = off := by simp; omega
  by_cases h1 : n < off
  · rw [List.append_assoc, List.getElem?_append_left (by omega), List.getElem?_take_of_lt h1]
    simp [h1]
  · by_cases h2 : n < off + bs.length
    · rw [List.getElem?_append_left (by simp; omega), List.getElem?_append_right (by omega)]
      simp [h1, h2, hl]
    · rw [List.getElem?_append_right (by simp; omega), List.getElem?_drop]
      simp only [h1, h2, if_false, List.length_append, hl]
      congr 1; omega

theorem length_splice (buf bs : List Nat) (off : Nat) (h : off + bs.length ≤ buf.length) :
    (buf.take off ++ bs ++ buf.drop (off + bs.length)).length = buf.length := by
  simp; omega


/-! ## Validation (lines 304-332) -/

/-- C1: `ktxTexture2_CompressBasisEx` returns `KTX_INVALID_VALUE` when the
options are absent or their `structSize` is not the size of `ktxBasisParams`;
otherwise it returns `KTX_INVALID_OPERATION` when the texture is already
supercompressed, or block-compressed, or of a packed format, or its component
size is not 1, or the split option is set on a texture of one component. In
each case the texture is what it was, no pixel data was loaded and the encoder
was not invoked. -/
theorem compress_rejects_invalid (env : Env) (This : ktxTexture2)
    (params : Option ktxBasisParams) :
    ((params = none ∨ ∃ p, params = some p ∧ p.structSize ≠ env.sizeof_ktxBasisParams) →
      ktxTexture2_CompressBasisEx env This params
        = ⟨.returned .KTX_INVALID_VALUE, This, 0, none⟩) ∧
    (∀ p, params = some p → p.structSize = env.sizeof_ktxBasisParams →
      (This.supercompressionScheme ≠ .KTX_SUPERCOMPRESSION_NONE ∨
        This.isCompressed = true ∨
        This._formatSize.flags &&& env.KTX_FORMAT_SIZE_PACKED_BIT ≠ 0 ∨
        (env.getDFDComponentInfoUnpacked This.pDfd).2 ≠ 1 ∨
        (p.separateRGToRGB_A = true ∧ (env.getDFDComponentInfoUnpacked This.pDfd).1 = 1)) →
      ktxTexture2_CompressBasisEx env This params
        = ⟨.returned .KTX_INVALID_OPERATION, This, 0, none⟩) := by
  constructor
  · rintro (h | ⟨p, hp, hs⟩)
    · subst h; rfl
    · subst hp; simp [ktxTexture2_CompressBasisEx, hs]
  · intro p hp hs h
    subst hp
    simp only [ktxTexture2_CompressBasisEx, hs, ne_eq, not_true_eq_false, if_false]
    by_cases h1 : This.supercompressionScheme = .KTX_SUPERCOMPRESSION_NONE
    · by_cases h2 : This.isCompressed = true
      · simp [h1, h2]
      · by_cases h3 : This._formatSize.flags &&& env.KTX_FORMAT_SIZE_PACKED_BIT = 0
        · by_cases h4 : (env.getDFDComponentInfoUnpacked This.pDfd).2 = 1
          · have h5 : p.separateRGToRGB_A = true ∧
                (env.getDFDComponentInfoUnpacked This.pDfd).1 = 1 := by tauto
            simp [h1, h2, h3, h4, h5]
          · simp [h1, h2, h3, h4]
        · simp [h1, h2, h3]
    · simp [h1]

/-- C1, at concrete inputs: absent options, and the split option on a texture
of one component. -/
theorem compress_rejects_invalid_witness :
    ((none : Option ktxBasisParams) = none ∨
      ∃ p, (none : Option ktxBasisParams) = some p ∧
        p.structSize ≠ exampleEnv.sizeof_ktxBasisParams) ∧
    ktxTexture2_CompressBasisEx exampleEnv exampleTexture none
      = ⟨.returned .KTX_INVALID_VALUE, exampleTexture, 0, none⟩ ∧
    splitParams.structSize = oneComponentEnv.sizeof_ktxBasisParams ∧
    (splitParams.separateRGToRGB_A = true ∧
      (oneComponentEnv.getDFDComponentInfoUnpacked exampleTexture.pDfd).1 = 1) ∧
    ktxTexture2_CompressBasisEx oneComponentEnv exampleTexture (some splitParams)
      = ⟨.returned .KTX_INVALID_OPERATION, exampleTexture, 0, none⟩ :=
  ⟨Or.inl rfl,
   (compress_rejects_invalid exampleEnv exampleTexture none).1 (Or.inl rfl),
   rfl, ⟨rfl, rfl⟩,
   (compress_rejects_invalid oneComponentEnv exampleTexture (some splitParams)).2
     splitParams rfl rfl (Or.inr (Or.inr (Or.inr (Or.inr ⟨rfl, rfl⟩))))⟩

/-! ## The callback `copy_rgb_to_rgba` -/

theorem copy_rgb_step {dst src : List Nat} {d s : Nat} (hs : s + 3 ≤ src.length)
    (hd : d + 4 ≤ dst.length) :
    ∃ dst2, (memcpy dst d src s 3 >>= fun dst1 => writeByte dst1 (d + 3) 0xff) = .ok dst2 ∧
      dst2.length = dst.length ∧
      ∀ n, dst2[n]? = if n = d + 3 then some 0xff
        else if d ≤ n ∧ n < d + 3 then src[s + (n - d)]? else dst[n]? := by
  have hlen : ((src.drop s).take 3).length = 3 := by simp; omega
  have hw : d + ((src.drop s).take 3).length ≤ dst.length := by omega
  refine ⟨(dst.take d ++ (src.drop s).take 3 ++ dst.drop (d + ((src.drop s).take 3).length)).set
    (d + 3) 0xff, ?_, ?_, ?_⟩
  · have h1 : readBytes src s 3 = .ok ((src.drop s).take 3) := by simp [readBytes, hs]
    simp only [memcpy, h1, writeBytes_ok hw, bind, Except.bind, writeByte]
    rw [if_pos]
    rw [length_splice _ _ _ hw]; omega
  · rw [List.length_set, length_splice _ _ _ hw]
  · intro n
    rw [List.getElem?_set, getElem?_splice _ _ _ _ hw, length_splice _ _ _ hw, hlen]
    by_cases h1 : n = d + 3
    · subst h1; simp; omega
    · have h1' : ¬ (d + 3 = n) := fun h => h1 h.symm
      simp only [h1, h1', if_false]
      by_cases h2 : n < d
      · have : ¬ (d ≤ n ∧ n < d + 3) := by omega
        simp [h2, this]
      · by_cases h3 : n < d + 3
        · have : d ≤ n ∧ n < d + 3 := by omega
          simp only [h2, h3, this, if_true, if_false, and_self]
          rw [List.getElem?_take_of_lt (by omega), List.getElem?_drop]
        · have : ¬ (d ≤ n ∧ n < d + 3) := by omega
          simp [h2, h3, this]

theorem copy_rgb_loop_spec (src : List Nat) (K : Nat) (hsrc : 3 * K ≤ src.length) :
    ∀ (fuel p : Nat) (dst : List Nat), p ≤ K → K - p ≤ fuel → 4 * K ≤ dst.length →
      ∃ out, copy_rgb_to_rgba_loop src (3 * K) fuel (3 * p) (4 * p) (3 * p) dst = .ok out ∧
        out.length = dst.length ∧
        (∀ n, n < 4 * p ∨ 4 * K ≤ n → out[n]? = dst[n]?) ∧
        (∀ q, p ≤ q → q < K →
          out[4 * q]? = src[3 * q]? ∧ out[4 * q + 1]? = src[3 * q + 1]? ∧
          out[4 * q + 2]? = src[3 * q + 2]? ∧ out[4 * q + 3]? = some 0xff) := by
  intro fuel
  induction fuel with
  | zero =>
    intro p dst hp hf _
    have hpK : p = K := by omega
    subst hpK
    refine ⟨dst, by simp [copy_rgb_to_rgba_loop], rfl, fun _ _ => rfl, ?_⟩
    intro q h1 h2; omega
  | succ fuel ih =>
    intro p dst hp hf hdst
    by_cases hlt : p < K
    · obtain ⟨dst2, hstep, hlen2, hget2⟩ :=
        @copy_rgb_step dst src (4 * p) (3 * p) (by omega) (by omega)
      obtain ⟨out, hout, hlen, hkeep, hpix⟩ := ih (p + 1) dst2 (by omega) (by omega) (by omega)
      refine ⟨out, ?_, by omega, ?_, ?_⟩
      · have hcond : 3 * p < 3 * K := by omega
        simp only [copy_rgb_to_rgba_loop, hcond, if_true]
        obtain ⟨dst1, h1, h2⟩ := bind_ok_inv hstep
        simp only [h1, h2, bind, Except.bind]
        have e1 : 3 * p + 3 = 3 * (p + 1) := by ring
        have e2 : 4 * p + 4 = 4 * (p + 1) := by ring
        rw [e1, e2]; exact hout
      · intro n hn
        rw [hkeep n (by omega), hget2 n]
        have h1 : ¬ (n = 4 * p + 3) := by omega
        have h2 : ¬ (4 * p ≤ n ∧ n < 4 * p + 3) := by omega
        simp [h1, h2]
      · intro q hq1 hq2
        by_cases hq : q = p
        · subst hq
          have k0 := hkeep (4 * q) (by omega)
          have k1 := hkeep (4 * q + 1) (by omega)
          have k2 := hkeep (4 * q + 2) (by omega)
          have k3 := hkeep (4 * q + 3) (by omega)
          rw [k0, k1, k2, k3, hget2, hget2, hget2, hget2]
          refine ⟨?_, ?_, ?_, ?_⟩
          · simp
          · have : ¬ (4 * q + 1 = 4 * q + 3) := by omega
            simp [this]
          · have : ¬ (4 * q + 2 = 4 * q + 3) := by omega
            simp [this]
          · simp
        · exact hpix q (by omega) hq2
    · have hpK : p = K := by omega
      subst hpK
      refine ⟨dst, by simp [copy_rgb_to_rgba_loop], rfl, fun _ _ => rfl, ?_⟩
      intro q h1 h2; omega

/-- C9: for a source of `K` pixels of three 8-bit components, `copy_rgb_to_rgba`
returns, and in its result the bytes `4i .. 4i+2` are the source bytes
`3i .. 3i+2` and byte `4i+3` is `0xff` for every pixel `i < K`; the destination
keeps its length and every byte from `4K` on. -/
theorem copy_rgb_to_rgba_spec (K : Nat) (dst src : List Nat) (src_len : Nat)
    (swizzle : Option (List swizzle_e)) (hsrc : 3 * K ≤ src.length)
    (hdst : 4 * K ≤ dst.length) :
    ∃ out, copy_rgb_to_rgba dst src src_len (3 * K) swizzle = .ok out ∧
      out.length = dst.length ∧
      (∀ i, i < K →
        out[4 * i]? = src[3 * i]? ∧ out[4 * i + 1]? = src[3 * i + 1]? ∧
        out[4 * i + 2]? = src[3 * i + 2]? ∧ out[4 * i + 3]? = some 0xff) ∧
      (∀ n, 4 * K ≤ n → out[n]? = dst[n]?) := by
  obtain ⟨out, h, hlen, hkeep, hpix⟩ :=
    copy_rgb_loop_spec src K hsrc (3 * K) 0 dst (by omega) (by omega) hdst
  exact ⟨out, h, hlen, fun i hi => hpix i (by omega) hi, fun n hn => hkeep n (Or.inr hn)⟩

/-- C9, for a source of two pixels and a destination of nine bytes. -/
theorem copy_rgb_to_rgba_spec_witness :
    3 * 2 ≤ [1, 2, 3, 4, 5, 6].length ∧ 4 * 2 ≤ [0, 0, 0, 0, 0, 0, 0, 0, 9].length ∧
    ∃ out, copy_rgb_to_rgba [0, 0, 0, 0, 0, 0, 0, 0, 9] [1, 2, 3, 4, 5, 6] 3 (3 * 2) none
        = .ok out ∧
      out.length = [0, 0, 0, 0, 0, 0, 0, 0, 9].length ∧
      (∀ i, i < 2 →
        out[4 * i]? = [1, 2, 3, 4, 5, 6][3 * i]? ∧
        out[4 * i + 1]? = [1, 2, 3, 4, 5, 6][3 * i + 1]? ∧
        out[4 * i + 2]? = [1, 2, 3, 4, 5, 6][3 * i + 2]? ∧ out[4 * i + 3]? = some 0xff) ∧
      (∀ n, 4 * 2 ≤ n → out[n]? = [0, 0, 0, 0, 0, 0, 0, 0, 9][n]?) :=
  ⟨by decide, by decide,
   copy_rgb_to_rgba_spec 2 [0, 0, 0, 0, 0, 0, 0, 0, 9] [1, 2, 3, 4, 5, 6] 3 none
     (by decide) (by decide)⟩

/-- C10, the code at two pixels of one component and at two pixels of two
components: the inner loop of `swizzle_to_rgba` runs over `src_len` channels,
so with the mapping (R,R,R,ONE) only channel 0 of a pixel is written, and with
(R,R,R,G) only channels 0 and 1; the other channels keep what the destination
held (here 0, 0, 255), and no channel receives the second source byte. -/
theorem swizzle_to_rgba_default_mappings :
    swizzle_to_rgba [0, 0, 0, 255, 0, 0, 0, 255] [7, 8] 1 2 (some [.R, .R, .R, .ONE])
      = .ok [7, 0, 0, 255, 8, 0, 0, 255] ∧
    swizzle_to_rgba [0, 0, 0, 0, 0, 0, 0, 0] [7, 8] 1 2 (some [.R, .R, .R, .ONE])
      = .ok [7, 0, 0, 0, 8, 0, 0, 0] ∧
    swizzle_to_rgba [0, 0, 0, 255, 0, 0, 0, 255] [7, 8, 9, 10] 2 4 (some [.R, .R, .R, .G])
      = .ok [7, 7, 0, 255, 9, 9, 0, 255] := by
  decide

/-! ## Loops and sequences of writes -/

theorem forUpTo_succ {σ : Type} (n : Nat) (body : Nat → σ → Except Fault σ) (s : σ) :
    forUpTo (n + 1) body s = (forUpTo n body s >>= body n) := rfl

theorem forUpTo_inv {σ : Type} (I : Nat → σ → Prop) (body : Nat → σ → Except Fault σ)
    (n : Nat) (s s' : σ) (h0 : I 0 s)
    (hstep : ∀ i, i < n → ∀ a b, I i a → body i a = .ok b → I (i + 1) b)
    (h : forUpTo n body s = .ok s') : I n s' := by
  induction n generalizing s' with
  | zero =>
    simp only [forUpTo] at h
    injection h with h
    subst h
    exact h0
  | succ n ih =>
    rw [forUpTo_succ] at h
    obtain ⟨mid, hmid, hlast⟩ := bind_ok_inv h
    exact hstep n (Nat.lt_succ_self n) mid s'
      (ih mid (fun i hi a b => hstep i (Nat.lt_succ_of_lt hi) a b) hmid) hlast

theorem u32le_length (w : Nat) : (u32le w).length = 4 := rfl

theorem writeBytes_seq {buf b1 b2 a b : List Nat} {off k : Nat} (hk : a.length = k)
    (h1 : writeBytes buf off a = .ok b1) (h2 : writeBytes b1 (off + k) b = .ok b2) :
    writeBytes buf off (a ++ b) = .ok b2 := by
  obtain ⟨hle1, e1⟩ := writeBytes_inv h1
  obtain ⟨hle2, e2⟩ := writeBytes_inv h2
  have hl1 : b1.length = buf.length := by rw [e1]; exact length_splice _ _ _ hle1
  have hle : off + (a ++ b).length ≤ buf.length := by
    rw [List.length_append]; omega
  rw [writeBytes_ok hle, e2]
  congr 1
  apply List.ext_getElem?
  intro n
  have hle2' : off + k + b.length ≤ b1.length := hle2
  rw [getElem?_splice _ _ _ _ hle2', getElem?_splice _ _ _ _ hle, e1,
    getElem?_splice _ _ _ _ hle1, List.length_append, List.getElem?_append, hk]
  by_cases c1 : n < off
  · have c2 : n < off + k := by omega
    simp [c1, c2]
  · by_cases c2 : n < off + k
    · have c3 : n < off + (k + b.length) := by omega
      have c4 : n - off < k := by omega
      simp [c1, c2, c3, c4]
    · by_cases c3 : n < off + k + b.length
      · have c4 : n < off + (k + b.length) := by omega
        have c5 : ¬ (n - off < k) := by omega
        have c6 : n - (off + k) = n - off - k := by omega
        simp [c1, c2, c3, c4, c5, c6]
      · have c4 : ¬ (n < off + (k + b.length)) := by omega
        simp [c1, c2, c3, c4]

theorem writeU32_five {buf b1 b2 b3 b4 b5 : List Nat} {off w0 w1 w2 w3 w4 : Nat}
    (h1 : writeU32 buf (off + 0) w0 = .ok b1) (h2 : writeU32 b1 (off + 4) w1 = .ok b2)
    (h3 : writeU32 b2 (off + 8) w2 = .ok b3) (h4 : writeU32 b3 (off + 12) w3 = .ok b4)
    (h5 : writeU32 b4 (off + 16) w4 = .ok b5) :
    off + 20 ≤ buf.length ∧
    b5 = buf.take off ++ (u32le w0 ++ u32le w1 ++ u32le w2 ++ u32le w3 ++ u32le w4)
      ++ buf.drop (off + 20) := by
  unfold writeU32 at h1 h2 h3 h4 h5
  rw [Nat.add_zero] at h1
  have s2 := writeBytes_seq (u32le_length w0) h1 h2
  have s3 := writeBytes_seq (a := u32le w0 ++ u32le w1) (k := 8) rfl s2 h3
  have s4 := writeBytes_seq (a := u32le w0 ++ u32le w1 ++ u32le w2) (k := 12) rfl s3 h4
  have s5 := writeBytes_seq (a := u32le w0 ++ u32le w1 ++ u32le w2 ++ u32le w3) (k := 16) rfl s4 h5
  obtain ⟨hle, e⟩ := writeBytes_inv s5
  exact ⟨hle, e⟩

theorem readAt_inv {α : Type} {xs : List α} {i : Nat} {x : α} (h : readAt xs i = .ok x) :
    xs[i]? = some x := by
  unfold readAt at h
  split at h
  · rename_i b hb; injection h with h; subst h; exact hb
  · cases h

theorem writeAt_inv {α : Type} {xs ys : List α} {i : Nat} {x : α}
    (h : writeAt xs i x = .ok ys) : i < xs.length ∧ ys = xs.set i x := by
  unfold writeAt at h
  split at h
  · rename_i hlt; injection h with h; exact ⟨hlt, h.symm⟩
  · cases h

theorem readAt_sliceAt {out : basis_output} {i : Nat} {c : basis_slice_desc}
    (h : readAt out.slices i = .ok c) : c = sliceAt out i ∧ i < out.slices.length := by
  have h1 := readAt_inv h
  obtain ⟨hlt, _⟩ := List.getElem?_eq_some.mp h1
  refine ⟨?_, hlt⟩
  simp [sliceAt, List.getD_eq_getElem?_getD, h1]

/-! ## The assembly loop (lines 645-677) -/

theorem asmImage_inv {env : Env} {out : basis_output} {level : Nat} {st st' : AsmState}
    (h : asmImage env out level st = .ok st') :
    ∃ lfo, st.level_file_offsets[level]? = some lfo ∧
      st.slice + sliceStride env out ≤ out.slices.length ∧
      kimagesOffset st.image + 20 ≤ st.bgd.length ∧
      st' = { st with
        slice := st.slice + sliceStride env out
        image := (st.image + 1) % U32
        level_byte_length :=
          if hasAlphaSlices env out then
            ((st.level_byte_length + (sliceAt out st.slice).m_file_size) % U32
              + (sliceAt out (st.slice + 1)).m_file_size) % U32
          else (st.level_byte_length + (sliceAt out st.slice).m_file_size) % U32
        bgd := st.bgd.take (kimagesOffset st.image)
          ++ (descOfSlices env out (sliceAt out st.slice) (sliceAt out (st.slice + 1))
                lfo).bytes
          ++ st.bgd.drop (kimagesOffset st.image + 20) } := by
  unfold asmImage at h
  obtain ⟨c, hc, h⟩ := bind_ok_inv h
  obtain ⟨lfo, hlfo, h⟩ := bind_ok_inv h
  obtain ⟨b1, hb1, h⟩ := bind_ok_inv h
  obtain ⟨b2, hb2, h⟩ := bind_ok_inv h
  obtain ⟨hceq, hclt⟩ := readAt_sliceAt hc
  refine ⟨lfo, readAt_inv hlfo, ?_⟩
  by_cases halpha : out.bfh.m_flags &&& env.cBASISHeaderFlagHasAlphaSlices ≠ 0
  · have hA : hasAlphaSlices env out = true := by simp [hasAlphaSlices, halpha]
    rw [if_pos halpha] at h
    obtain ⟨a, ha, h⟩ := bind_ok_inv h
    obtain ⟨b3, hb3, h⟩ := bind_ok_inv h
    obtain ⟨b4, hb4, h⟩ := bind_ok_inv h
    obtain ⟨b5, hb5, h⟩ := bind_ok_inv h
    obtain ⟨haeq, halt⟩ := readAt_sliceAt ha
    obtain ⟨hroom, hb⟩ := writeU32_five hb1 hb2 hb3 hb4 hb5
    refine ⟨by simp [sliceStride, hA]; omega, hroom, ?_⟩
    injection h with h
    rw [← h, hb]
    simp [sliceStride, hA, descOfSlices, ktxBasisImageDesc.bytes, hceq, haeq, Nat.add_assoc]
  · have hA : hasAlphaSlices env out = false := by simp [hasAlphaSlices, halpha]
    rw [if_neg halpha] at h
    obtain ⟨b3, hb3, h⟩ := bind_ok_inv h
    obtain ⟨b4, hb4, h⟩ := bind_ok_inv h
    obtain ⟨b5, hb5, h⟩ := bind_ok_inv h
    obtain ⟨hroom, hb⟩ := writeU32_five hb1 hb2 hb3 hb4 hb5
    refine ⟨by simp [sliceStride, hA]; omega, hroom, ?_⟩
    injection h with h
    rw [← h, hb]
    simp [sliceStride, hA, descOfSlices, ktxBasisImageDesc.bytes, hceq]

theorem bytes_length (d : ktxBasisImageDesc) : d.bytes.length = 20 := rfl

theorem descBytes_append (xs ys : List ktxBasisImageDesc) :
    descBytes (xs ++ ys) = descBytes xs ++ descBytes ys := by
  simp [descBytes]

theorem descBytes_singleton (d : ktxBasisImageDesc) : descBytes [d] = d.bytes := by
  simp [descBytes]

theorem descBytes_length (xs : List ktxBasisImageDesc) :
    (descBytes xs).length = 20 * xs.length := by
  induction xs with
  | nil => rfl
  | cons d ds ih =>
    have : descBytes (d :: ds) = d.bytes ++ descBytes ds := by simp [descBytes]
    rw [this, List.length_append, ih, bytes_length, List.length_cons]; ring

theorem levelDescs_succ (env : Env) (out : basis_output) (first j : Nat) :
    levelDescs env out first (j + 1)
      = levelDescs env out first j ++ [imageDesc env out first (first + j)] := by
  simp [levelDescs, List.range_succ]

theorem kimagesOffset_succ (k : Nat) : kimagesOffset (k + 1) = kimagesOffset k + 20 := by
  simp [kimagesOffset, sizeof_ktxBasisGlobalHeader, sizeof_ktxBasisImageDesc]; ring

theorem take_splice (buf bs : List Nat) (off : Nat) (h : off + bs.length ≤ buf.length) :
    (buf.take off ++ bs ++ buf.drop (off + bs.length)).take (off + bs.length)
      = buf.take off ++ bs := by
  apply List.take_left'
  simp; omega

theorem asmImage_step {env : Env} {This : ktxTexture2} {out : basis_output} {B : Nat}
    {li0 : List ktxLevelIndexEntry} {l j : Nat} {a b : AsmState} (hB : B < U32)
    (hinv : AsmInner env This out B li0 l j a) (h : asmImage env out l a = .ok b) :
    AsmInner env This out B li0 l (j + 1) b := by
  obtain ⟨lfo, hlfo, hsl, hroom, hb⟩ := asmImage_inv h
  have hlfo' : lfo = (sliceAt out (sliceStride env out * imagesBefore This l)).m_file_ofs := by
    have := hinv.lfo_here
    rw [hlfo] at this
    exact Option.some.inj this
  have himg := hinv.image_eq
  have hlen := hinv.bgd_len
  have hk : imagesBefore This l + (j + 1) = imagesBefore This l + j + 1 := by omega
  have hoff : kimagesOffset a.image = kimagesOffset (imagesBefore This l + j) := by rw [himg]
  have hroom' : kimagesOffset (imagesBefore This l + j) + 20 ≤ B := by
    rw [← hoff, ← hlen]; exact hroom
  have hsmall : imagesBefore This l + j + 1 < U32 := by
    have : kimagesOffset (imagesBefore This l + j) = 28 + 20 * (imagesBefore This l + j) := rfl
    omega
  have hd : descOfSlices env out (sliceAt out a.slice) (sliceAt out (a.slice + 1)) lfo
      = imageDesc env out (imagesBefore This l) (imagesBefore This l + j) := by
    rw [hinv.slice_eq, hlfo']; rfl
  have hsl' : sliceStride env out * (imagesBefore This l + (j + 1)) ≤ out.slices.length := by
    have e : sliceStride env out * (imagesBefore This l + (j + 1))
        = sliceStride env out * (imagesBefore This l + j) + sliceStride env out := by ring
    rw [e, ← hinv.slice_eq]; exact hsl
  subst hb
  refine { slice_eq := ?_, image_eq := ?_, slices_ok := hsl', bgd_len := ?_, bgd_room := ?_
           bgd_take := ?_
           lfo_len := hinv.lfo_len, lfo_get := hinv.lfo_get, li_len := hinv.li_len
           li_done := hinv.li_done, li_rest := hinv.li_rest, ids := hinv.ids
           lfo_here := hinv.lfo_here, lbl := ?_ }
  · show a.slice + sliceStride env out = _
    rw [hinv.slice_eq]; ring
  · show (a.image + 1) % U32 = _
    rw [himg, hk]; exact Nat.mod_eq_of_lt hsmall
  · show List.length (_ ++ _ ++ _) = B
    have := length_splice a.bgd
      (descOfSlices env out (sliceAt out a.slice) (sliceAt out (a.slice + 1)) lfo).bytes
      (kimagesOffset a.image) (by rw [bytes_length]; exact hroom)
    rw [bytes_length] at this
    rw [this, hlen]
  · rw [hk, kimagesOffset_succ]; exact hroom'
  · show List.take _ (_ ++ _ ++ _) = _
    have := take_splice a.bgd
      (descOfSlices env out (sliceAt out a.slice) (sliceAt out (a.slice + 1)) lfo).bytes
      (kimagesOffset a.image) (by rw [bytes_length]; exact hroom)
    rw [bytes_length] at this
    rw [hk, kimagesOffset_succ, ← hoff, this, hoff, hinv.bgd_take, hd, levelDescs_succ,
      ← List.append_assoc, descBytes_append _ [_], descBytes_singleton, List.append_assoc]
  · show (if hasAlphaSlices env out then _ else _) = _
    rw [hinv.lbl, hinv.slice_eq]
    simp only [levelSum, imageBytes]
    by_cases hA : hasAlphaSlices env out = true
    · simp only [hA, if_true, U32]; omega
    · simp only [hA, if_false, U32, Bool.false_eq_true]; omega

theorem shr32_inv {x n d : Nat} (h : shr32 x n = .ok d) : n < 32 ∧ d = x >>> n := by
  unfold shr32 at h
  split at h
  · rename_i hlt; injection h with h; exact ⟨hlt, h.symm⟩
  · cases h

theorem asmLevel_step {env : Env} {This : ktxTexture2} {out : basis_output} {B : Nat}
    {li0 : List ktxLevelIndexEntry} {l : Nat} {st st' : AsmState} (hB : B < U32)
    (hinv : AsmInv env This out B li0 l 0 st) (h : asmLevel env This out l st = .ok st') :
    l < 32 ∧ AsmInv env This out B li0 (l + 1) 0 st' := by
  unfold asmLevel at h
  obtain ⟨d, hd, h⟩ := bind_ok_inv h
  obtain ⟨c, hc, h⟩ := bind_ok_inv h
  obtain ⟨_, _, h⟩ := bind_ok_inv h
  obtain ⟨lfo, hlfo, h⟩ := bind_ok_inv h
  obtain ⟨st1, hloop, h⟩ := bind_ok_inv h
  obtain ⟨e, he, h⟩ := bind_ok_inv h
  obtain ⟨hl32, hdeq⟩ := shr32_inv hd
  obtain ⟨hceq, hclt⟩ := readAt_sliceAt hc
  obtain ⟨hllt, hlfoeq⟩ := writeAt_inv hlfo
  refine ⟨hl32, ?_⟩
  have hfs : (if This.numFaces = 1 then max 1 d else This.numFaces) = faceSlices This l := by
    simp [faceSlices, hdeq]
  rw [hfs] at hloop
  have hslice0 : st.slice = sliceStride env out * imagesBefore This l := by
    have := hinv.slice_eq; simpa using this
  -- the state at the head of the level
  have h0 : AsmInner env This out B li0 l (0 * faceSlices This l)
      { st with level_byte_length := 0, level_file_offsets := lfo } := by
    rw [Nat.zero_mul]
    refine { slice_eq := hinv.slice_eq, image_eq := hinv.image_eq
             slices_ok := hinv.slices_ok, bgd_len := hinv.bgd_len
             bgd_room := hinv.bgd_room, bgd_take := hinv.bgd_take, lfo_len := ?_
             lfo_get := ?_, li_len := hinv.li_len, li_done := hinv.li_done
             li_rest := hinv.li_rest, ids := hinv.ids, lfo_here := ?_, lbl := ?_ }
    · show lfo.length = _
      rw [hlfoeq, List.length_set]; exact hinv.lfo_len
    · intro k hk
      show lfo[k]? = _ ∧ _
      have hne : ¬ (l = k) := by omega
      rw [hlfoeq, List.getElem?_set]
      simp only [hne, if_false]
      exact hinv.lfo_get k hk
    · show lfo[l]? = _
      rw [hlfoeq, List.getElem?_set]
      simp only [if_true, hllt, hceq, hslice0]
    · show (0 : Nat) = _
      simp [levelSum]
  -- the two inner loops
  have h1 : AsmInner env This out B li0 l (This.numLayers * faceSlices This l) st1 := by
    refine forUpTo_inv (fun layer a => AsmInner env This out B li0 l
      (layer * faceSlices This l) a) _ _ _ _ h0 ?_ hloop
    intro layer _ a b ha hb
    have e1 : (layer + 1) * faceSlices This l = layer * faceSlices This l + faceSlices This l := by
      ring
    rw [e1]
    refine forUpTo_inv (fun slice x => AsmInner env This out B li0 l
      (layer * faceSlices This l + slice) x) _ _ _ _ ha ?_ hb
    intro slice _ x y hx hy
    exact asmImage_step hB hx hy
  have hli := readAt_inv he
  have hli0 : li0[l]? = some e := by rw [← h1.li_rest l (le_refl l)]; exact hli
  obtain ⟨hlt0, hget0⟩ := List.getElem?_eq_some.mp hli0
  have hlt1 : l < st1.levelIndex.length := by rw [h1.li_len]; exact hlt0
  injection h with h
  subst h
  refine { slice_eq := ?_, image_eq := ?_, slices_ok := ?_, bgd_len := h1.bgd_len
           bgd_room := ?_
           bgd_take := ?_, lfo_len := h1.lfo_len, lfo_get := ?_, li_len := ?_
           li_done := ?_, li_rest := ?_, ids := ?_ }
  · show st1.slice = _
    rw [h1.slice_eq]; simp [imagesBefore, imagesInLevel]
  · show st1.image = _
    rw [h1.image_eq]; simp [imagesBefore, imagesInLevel]
  · have := h1.slices_ok
    simpa [imagesBefore, imagesInLevel] using this
  · have := h1.bgd_room
    simpa [imagesBefore, imagesInLevel] using this
  · show st1.bgd.take _ = _
    have := h1.bgd_take
    simpa [imagesBefore, imagesInLevel, allDescs, levelDescs] using this
  · intro k hk
    show st1.level_file_offsets[k]? = _ ∧ _
    by_cases hkl : k = l
    · subst hkl
      refine ⟨h1.lfo_here, ?_⟩
      rw [← hslice0]; exact hclt
    · exact h1.lfo_get k (by omega)
  · show (st1.levelIndex.set l _).length = _
    rw [List.length_set]; exact h1.li_len
  · intro k hk
    show _ ∧ (st1.levelIndex.set l _)[k]? = _
    rw [List.getElem?_set]
    by_cases hkl : k = l
    · subst hkl
      refine ⟨hlt0, ?_⟩
      simp only [if_true, hlt1]
      have hgd : (li0.getD k
          { byteOffset := 0, byteLength := 0, uncompressedByteLength := 0 }) = e := by
        simp [List.getD_eq_getElem?_getD, hli0]
      rw [hgd, h1.lbl]
      rfl
    · have hne : ¬ (l = k) := fun hh => hkl hh.symm
      simp only [hne, if_false]
      exact h1.li_done k (by omega)
  · intro k hk
    show (st1.levelIndex.set l _)[k]? = _
    have hne : ¬ (l = k) := by omega
    rw [List.getElem?_set]
    simp only [hne, if_false]
    exact h1.li_rest k (by omega)
  · show (st1.image_data_size + st1.level_byte_length) % U32 = _
    rw [h1.ids, h1.lbl, Finset.sum_range_succ]
    show _ = (_ + levelSum env out (imagesBefore This l) (imagesInLevel This l) % U32) % U32
    simp only [imagesInLevel, U32]
    omega

theorem writeGlobalHeader_inv {env : Env} {bfh : basis_file_header} {bgd b : List Nat}
    (h : writeGlobalHeader env bfh bgd = .ok b) :
    28 ≤ bgd.length ∧ b = globalHeaderBytes env bfh ++ bgd.drop 28 := by
  unfold writeGlobalHeader at h
  obtain ⟨b1, h1, h⟩ := bind_ok_inv h
  obtain ⟨b2, h2, h⟩ := bind_ok_inv h
  obtain ⟨b3, h3, h⟩ := bind_ok_inv h
  obtain ⟨b4, h4, h⟩ := bind_ok_inv h
  obtain ⟨b5, h5, h⟩ := bind_ok_inv h
  obtain ⟨b6, h6, h7⟩ := bind_ok_inv h
  unfold writeU32 at h1 h2 h3 h4 h5 h6 h7
  have s2 := writeBytes_seq (k := 4) (by rfl) h1 h2
  have s3 := writeBytes_seq (k := 8) (by rfl) s2 h3
  have s4 := writeBytes_seq (k := 12) (by rfl) s3 h4
  have s5 := writeBytes_seq (k := 16) (by rfl) s4 h5
  have s6 := writeBytes_seq (k := 20) (by rfl) s5 h6
  have s7 := writeBytes_seq (k := 24) (by rfl) s6 h7
  obtain ⟨hle, e⟩ := writeBytes_inv s7
  refine ⟨by simpa using hle, ?_⟩
  rw [e]
  simp [globalHeaderBytes, u32le_length]

theorem memcpy_inv {dst src b : List Nat} {d s n : Nat} (h : memcpy dst d src s n = .ok b) :
    s + n ≤ src.length ∧ (byteRange src s n).length = n ∧
      writeBytes dst d (byteRange src s n) = .ok b := by
  unfold memcpy at h
  obtain ⟨bs, hbs, h⟩ := bind_ok_inv h
  obtain ⟨hle, e, hlen⟩ := readBytes_inv hbs
  subst e
  exact ⟨hle, hlen, h⟩

theorem copyCodebooks_inv {env : Env} {out : basis_output} {bgd_size : Nat} {st : AsmState}
    {b : List Nat} (h : copyCodebooks env out bgd_size st = .ok b) :
    out.bfh.m_endpoint_cb_file_ofs + out.bfh.m_endpoint_cb_file_size ≤ out.bf.length ∧
    out.bfh.m_selector_cb_file_ofs + out.bfh.m_selector_cb_file_size ≤ out.bf.length ∧
    out.bfh.m_tables_file_ofs + out.bfh.m_tables_file_size ≤ out.bf.length ∧
    kimagesOffset st.image + (out.bfh.m_endpoint_cb_file_size
      + out.bfh.m_selector_cb_file_size + out.bfh.m_tables_file_size) ≤ st.bgd.length ∧
    b = st.bgd.take (kimagesOffset st.image)
      ++ (byteRange out.bf out.bfh.m_endpoint_cb_file_ofs out.bfh.m_endpoint_cb_file_size
        ++ byteRange out.bf out.bfh.m_selector_cb_file_ofs out.bfh.m_selector_cb_file_size
        ++ byteRange out.bf out.bfh.m_tables_file_ofs out.bfh.m_tables_file_size)
      ++ st.bgd.drop (kimagesOffset st.image + (out.bfh.m_endpoint_cb_file_size
        + out.bfh.m_selector_cb_file_size + out.bfh.m_tables_file_size)) := by
  unfold copyCodebooks at h
  obtain ⟨b1, h1, h⟩ := bind_ok_inv h
  obtain ⟨b2, h2, h⟩ := bind_ok_inv h
  obtain ⟨b3, h3, h⟩ := bind_ok_inv h
  obtain ⟨_, _, h⟩ := bind_ok_inv h
  injection h with h
  subst h
  obtain ⟨r1, l1, w1⟩ := memcpy_inv h1
  obtain ⟨r2, l2, w2⟩ := memcpy_inv h2
  obtain ⟨r3, l3, w3⟩ := memcpy_inv h3
  have s2 := writeBytes_seq l1 w1 w2
  have s3 := writeBytes_seq (k := out.bfh.m_endpoint_cb_file_size
    + out.bfh.m_selector_cb_file_size) (by rw [List.length_append, l1, l2])
    s2 (by rw [← Nat.add_assoc]; exact w3)
  obtain ⟨hle, e⟩ := writeBytes_inv s3
  have hlen : (byteRange out.bf out.bfh.m_endpoint_cb_file_ofs out.bfh.m_endpoint_cb_file_size
        ++ byteRange out.bf out.bfh.m_selector_cb_file_ofs out.bfh.m_selector_cb_file_size
        ++ byteRange out.bf out.bfh.m_tables_file_ofs out.bfh.m_tables_file_size).length
      = out.bfh.m_endpoint_cb_file_size + out.bfh.m_selector_cb_file_size
        + out.bfh.m_tables_file_size := by
    rw [List.length_append, List.length_append, l1, l2, l3]
  rw [hlen] at hle e
  exact ⟨r1, r2, r3, hle, e⟩

theorem bgdSize_lt (bfh : basis_file_header) (n : Nat) : bgdSize bfh n < U32 := by
  unfold bgdSize
  exact Nat.mod_lt _ (by decide)

theorem assembleGlobalData_spec {env : Env} {This : ktxTexture2} {out : basis_output}
    {num_images : Nat} {asm : AsmState}
    (h : assembleGlobalData env This out num_images = .ok asm) :
    This.numLevels ≤ 32 ∧
    (env.NDEBUG = true ∨ out.bfh.m_total_images = num_images) ∧
    AsmInv env This out (bgdSize out.bfh num_images) This._levelIndex This.numLevels 0 asm ∧
    out.bfh.m_endpoint_cb_file_ofs + out.bfh.m_endpoint_cb_file_size ≤ out.bf.length ∧
    out.bfh.m_selector_cb_file_ofs + out.bfh.m_selector_cb_file_size ≤ out.bf.length ∧
    out.bfh.m_tables_file_ofs + out.bfh.m_tables_file_size ≤ out.bf.length ∧
    kimagesOffset (imagesBefore This This.numLevels) + (out.bfh.m_endpoint_cb_file_size
      + out.bfh.m_selector_cb_file_size + out.bfh.m_tables_file_size)
      ≤ bgdSize out.bfh num_images ∧
    asm.bgd.take (kimagesOffset (imagesBefore This This.numLevels)
        + (out.bfh.m_endpoint_cb_file_size + out.bfh.m_selector_cb_file_size
          + out.bfh.m_tables_file_size))
      = globalHeaderBytes env out.bfh ++ descBytes (allDescs env This out This.numLevels)
        ++ (byteRange out.bf out.bfh.m_endpoint_cb_file_ofs out.bfh.m_endpoint_cb_file_size
          ++ byteRange out.bf out.bfh.m_selector_cb_file_ofs out.bfh.m_selector_cb_file_size
          ++ byteRange out.bf out.bfh.m_tables_file_ofs out.bfh.m_tables_file_size) := by
  unfold assembleGlobalData at h
  obtain ⟨_, hassert, h⟩ := bind_ok_inv h
  obtain ⟨bgd1, hhdr, h⟩ := bind_ok_inv h
  obtain ⟨st1, hloop, h⟩ := bind_ok_inv h
  obtain ⟨bgd2, hcb, h⟩ := bind_ok_inv h
  injection h with h
  subst h
  obtain ⟨h28, ehdr⟩ := writeGlobalHeader_inv hhdr
  have hlen0 : ((List.range (bgdSize out.bfh num_images)).map env.uninit_bgd).length
      = bgdSize out.bfh num_images := by simp
  rw [hlen0] at h28
  have hlen1 : bgd1.length = bgdSize out.bfh num_images := by
    rw [ehdr, List.length_append, List.length_drop, hlen0]
    have : (globalHeaderBytes env out.bfh).length = 28 := rfl
    omega
  have hinit : AsmInv env This out (bgdSize out.bfh num_images) This._levelIndex 0 0
      { slice := 0, image := 0, level_byte_length := 0, image_data_size := 0, bgd := bgd1
        levelIndex := This._levelIndex
        level_file_offsets := List.replicate This.numLevels 0 } := by
    refine { slice_eq := by simp [imagesBefore], image_eq := by simp [imagesBefore]
             slices_ok := by simp [imagesBefore]
             bgd_len := hlen1, bgd_room := ?_, bgd_take := ?_, lfo_len := by simp
             lfo_get := fun k hk => absurd hk (Nat.not_lt_zero k), li_len := rfl
             li_done := fun k hk => absurd hk (Nat.not_lt_zero k)
             li_rest := fun k _ => rfl, ids := by simp }
    · show kimagesOffset (imagesBefore This 0 + 0) ≤ _
      simpa [imagesBefore, kimagesOffset, sizeof_ktxBasisGlobalHeader] using h28
    · show bgd1.take _ = _
      have : kimagesOffset (imagesBefore This 0 + 0) = 28 := rfl
      rw [this, ehdr]
      simp only [allDescs, levelDescs, descBytes, List.range_zero, List.map_nil,
        List.append_nil, List.flatMap_nil]
      exact List.take_left' rfl
  have hfin : AsmInv env This out (bgdSize out.bfh num_images) This._levelIndex
      This.numLevels 0 st1 ∧ This.numLevels ≤ 32 := by
    refine forUpTo_inv (fun l a => AsmInv env This out (bgdSize out.bfh num_images)
      This._levelIndex l 0 a ∧ l ≤ 32) _ _ _ _ ⟨hinit, by omega⟩ ?_ hloop
    intro l _ a b ha hb
    obtain ⟨hl, hinv⟩ := asmLevel_step (bgdSize_lt _ _) ha.1 hb
    exact ⟨hinv, hl⟩
  obtain ⟨hinv, hL⟩ := hfin
  obtain ⟨r1, r2, r3, hroom, eb⟩ := copyCodebooks_inv hcb
  have himg : st1.image = imagesBefore This This.numLevels := by
    have := hinv.image_eq; simpa using this
  rw [himg, hinv.bgd_len] at hroom
  rw [himg] at eb
  have hroom' : kimagesOffset (imagesBefore This This.numLevels) ≤ st1.bgd.length := by
    rw [hinv.bgd_len]; omega
  have hpre : (List.take (kimagesOffset (imagesBefore This This.numLevels)) st1.bgd).length
      = kimagesOffset (imagesBefore This This.numLevels) := by
    rw [List.length_take]; omega
  have hcbl : (byteRange out.bf out.bfh.m_endpoint_cb_file_ofs out.bfh.m_endpoint_cb_file_size
        ++ byteRange out.bf out.bfh.m_selector_cb_file_ofs out.bfh.m_selector_cb_file_size
        ++ byteRange out.bf out.bfh.m_tables_file_ofs out.bfh.m_tables_file_size).length
      = out.bfh.m_endpoint_cb_file_size + out.bfh.m_selector_cb_file_size
        + out.bfh.m_tables_file_size := by
    simp [byteRange]; omega
  have htake0 := hinv.bgd_take
  simp only [Nat.add_zero, levelDescs, List.range_zero, List.map_nil, List.append_nil]
    at htake0
  refine ⟨hL, ?_, ?_, r1, r2, r3, hroom, ?_⟩
  · unfold cAssert at hassert
    by_cases hN : env.NDEBUG = true
    · exact Or.inl hN
    · right
      by_cases hE : out.bfh.m_total_images = num_images
      · exact hE
      · simp [hN, hE] at hassert
  · refine { slice_eq := hinv.slice_eq, image_eq := hinv.image_eq
             slices_ok := hinv.slices_ok, bgd_len := ?_
             bgd_room := hinv.bgd_room, bgd_take := ?_, lfo_len := hinv.lfo_len
             lfo_get := hinv.lfo_get, li_len := hinv.li_len, li_done := hinv.li_done
             li_rest := hinv.li_rest, ids := hinv.ids }
    · show bgd2.length = _
      rw [eb]
      simp only [List.length_append, hpre, hcbl, List.length_drop, hinv.bgd_len]
      omega
    · show bgd2.take _ = _
      rw [eb, List.append_assoc, Nat.add_zero, List.take_left' hpre]
      simpa using hinv.bgd_take
  · show bgd2.take _ = _
    rw [eb]
    rw [List.take_left' (by rw [List.length_append, hpre, hcbl])]
    rw [htake0]

/-! ## The reordering loop (lines 755-763) -/

theorem forDownFrom_succ {σ : Type} (n : Nat) (body : Nat → σ → Except Fault σ) (s : σ) :
    forDownFrom (n + 1) body s = (body n s >>= forDownFrom n body) := rfl

theorem entryLength_set_offset (li : List ktxLevelIndexEntry) (n : Nat)
    (e : ktxLevelIndexEntry) (off : Nat) (he : li[n]? = some e) (j : Nat) :
    entryLength (li.set n { e with byteOffset := off }) j = entryLength li j := by
  unfold entryLength
  rw [List.getD_eq_getElem?_getD, List.getD_eq_getElem?_getD, List.getElem?_set]
  by_cases hj : n = j
  · subst hj
    obtain ⟨hlt, _⟩ := List.getElem?_eq_some.mp he
    simp [hlt, he]
  · simp [hj]

theorem reorderedPayload_congr (bf lfo : List Nat) (li1 li2 : List ktxLevelIndexEntry)
    (h : ∀ j, entryLength li1 j = entryLength li2 j) (n : Nat) :
    reorderedPayload bf lfo li1 n = reorderedPayload bf lfo li2 n := by
  induction n with
  | zero => rfl
  | succ n ih => simp [reorderedPayload, ih, h n]

theorem reorderLevel_inv {bf lfo : List Nat} {n : Nat} {s s1 : ReorderState}
    (h : reorderLevel bf lfo n s = .ok s1) :
    ∃ e, s.levelIndex[n]? = some e ∧ n < lfo.length ∧
      lfo.getD n 0 + e.byteLength ≤ bf.length ∧
      s.level_offset + e.byteLength ≤ s.pData.length ∧
      (byteRange bf (lfo.getD n 0) e.byteLength).length = e.byteLength ∧
      s1 = { level_offset := (s.level_offset + e.byteLength) % 18446744073709551616
             pData := s.pData.take s.level_offset ++ byteRange bf (lfo.getD n 0) e.byteLength
               ++ s.pData.drop (s.level_offset + e.byteLength)
             levelIndex := s.levelIndex.set n { e with byteOffset := s.level_offset } } := by
  unfold reorderLevel at h
  obtain ⟨e, he, h⟩ := bind_ok_inv h
  obtain ⟨src, hsrc, h⟩ := bind_ok_inv h
  obtain ⟨data, hdata, h⟩ := bind_ok_inv h
  injection h with h
  have hs := readAt_inv hsrc
  obtain ⟨hlt, _⟩ := List.getElem?_eq_some.mp hs
  have hsrc' : lfo.getD n 0 = src := by simp [List.getD_eq_getElem?_getD, hs]
  obtain ⟨r1, l1, w1⟩ := memcpy_inv hdata
  obtain ⟨hle, ed⟩ := writeBytes_inv w1
  rw [l1] at hle ed
  refine ⟨e, readAt_inv he, hlt, by rw [hsrc']; exact r1, hle, by rw [hsrc']; exact l1, ?_⟩
  rw [← h, ed, hsrc']

theorem forDownFrom_reorder (bf lfo : List Nat) :
    ∀ (n : Nat) (s r : ReorderState),
      forDownFrom n (reorderLevel bf lfo) s = .ok r →
      s.pData.length < 18446744073709551616 → s.level_offset ≤ s.pData.length →
      n ≤ s.levelIndex.length ∧ n ≤ lfo.length ∧
      r.levelIndex.length = s.levelIndex.length ∧ r.pData.length = s.pData.length ∧
      r.level_offset = s.level_offset + ∑ j ∈ Finset.range n, entryLength s.levelIndex j ∧
      r.level_offset ≤ s.pData.length ∧
      (∀ l, l < n → r.levelIndex[l]? = some
        { byteOffset := s.level_offset
            + ∑ j ∈ Finset.Ico (l + 1) n, entryLength s.levelIndex j
          byteLength := entryLength s.levelIndex l
          uncompressedByteLength := (s.levelIndex.getD l
            { byteOffset := 0, byteLength := 0, uncompressedByteLength := 0
              }).uncompressedByteLength }) ∧
      (∀ l, n ≤ l → r.levelIndex[l]? = s.levelIndex[l]?) ∧
      (∀ j, entryLength r.levelIndex j = entryLength s.levelIndex j) ∧
      r.pData.take s.level_offset = s.pData.take s.level_offset ∧
      r.pData.take (s.level_offset + ∑ j ∈ Finset.range n, entryLength s.levelIndex j)
        = s.pData.take s.level_offset ++ reorderedPayload bf lfo s.levelIndex n ∧
      (∀ l, l < n →
        lfo.getD l 0 + entryLength s.levelIndex l ≤ bf.length ∧
        byteRange r.pData
            (s.level_offset + ∑ j ∈ Finset.Ico (l + 1) n, entryLength s.levelIndex j)
            (entryLength s.levelIndex l)
          = byteRange bf (lfo.getD l 0) (entryLength s.levelIndex l)) := by
  intro n
  induction n with
  | zero =>
    intro s r h _ hoff
    simp only [forDownFrom] at h
    injection h with h
    subst h
    simp [reorderedPayload, hoff]
  | succ n ih =>
    intro s r h hbig hoff
    rw [forDownFrom_succ] at h
    obtain ⟨s1, hbody, hrest⟩ := bind_ok_inv h
    obtain ⟨e, he, hnlfo, hsrc, hroom, hseg, es1⟩ := reorderLevel_inv hbody
    obtain ⟨hnlt, hget⟩ := List.getElem?_eq_some.mp he
    have hlen_e : entryLength s.levelIndex n = e.byteLength := by
      simp [entryLength, List.getD_eq_getElem?_getD, he]
    have hmod : (s.level_offset + e.byteLength) % 18446744073709551616
        = s.level_offset + e.byteLength := Nat.mod_eq_of_lt (by omega)
    have hlen1 : s1.pData.length = s.pData.length := by
      rw [es1]
      show List.length (_ ++ _ ++ _) = _
      have := length_splice s.pData (byteRange bf (lfo.getD n 0) e.byteLength)
        s.level_offset (by rw [hseg]; exact hroom)
      rw [hseg] at this
      exact this
    have hoff1 : s1.level_offset = s.level_offset + e.byteLength := by rw [es1]; exact hmod
    have hli1 : s1.levelIndex = s.levelIndex.set n { e with byteOffset := s.level_offset } := by
      rw [es1]
    have hpd1 : s1.pData.take (s.level_offset + e.byteLength)
        = s.pData.take s.level_offset ++ byteRange bf (lfo.getD n 0) e.byteLength := by
      rw [es1]
      show List.take _ (_ ++ _ ++ _) = _
      have := take_splice s.pData (byteRange bf (lfo.getD n 0) e.byteLength)
        s.level_offset (by rw [hseg]; exact hroom)
      rw [hseg] at this
      exact this
    have hlens : ∀ j, entryLength s1.levelIndex j = entryLength s.levelIndex j := by
      intro j; rw [hli1]; exact entryLength_set_offset _ _ _ _ he j
    obtain ⟨i1, i2, i3, i4, i5, i6, i7, i8, i9, i10, i11, i12⟩ :=
      ih s1 r hrest (by rw [hlen1]; exact hbig) (by rw [hoff1, hlen1]; exact hroom)
    have hli1len : s1.levelIndex.length = s.levelIndex.length := by
      rw [hli1, List.length_set]
    have hsum1 : ∑ j ∈ Finset.range n, entryLength s1.levelIndex j
        = ∑ j ∈ Finset.range n, entryLength s.levelIndex j :=
      Finset.sum_congr rfl (fun j _ => hlens j)
    have hpre : (s.pData.take s.level_offset).length = s.level_offset := by
      rw [List.length_take]; omega
    have htake_mid : r.pData.take (s.level_offset + e.byteLength)
        = s.pData.take s.level_offset ++ byteRange bf (lfo.getD n 0) e.byteLength := by
      rw [← hoff1, i10, hoff1, hpd1]
    refine ⟨by omega, by omega, by omega, by omega, ?_, by omega, ?_, ?_, ?_, ?_, ?_, ?_⟩
    · rw [i5, hoff1, hsum1, Finset.sum_range_succ, hlen_e]; ring
    · intro l hl
      by_cases hln : l = n
      · subst hln
        rw [i8 l (le_refl l), hli1, List.getElem?_set]
        simp only [if_true, hnlt, Finset.Ico_self, Finset.sum_empty, Nat.add_zero, hlen_e]
        simp [List.getD_eq_getElem?_getD, he]
      · have hl' : l < n := by omega
        rw [i7 l hl', hoff1, hlens l]
        have hsumIco : ∑ j ∈ Finset.Ico (l + 1) n, entryLength s1.levelIndex j
            = ∑ j ∈ Finset.Ico (l + 1) n, entryLength s.levelIndex j :=
          Finset.sum_congr rfl (fun j _ => hlens j)
        rw [hsumIco, Finset.sum_Ico_succ_top (by omega), hlen_e]
        have hgd : s1.levelIndex.getD l
              { byteOffset := 0, byteLength := 0, uncompressedByteLength := 0 }
            = s.levelIndex.getD l
              { byteOffset := 0, byteLength := 0, uncompressedByteLength := 0 } := by
          rw [hli1, List.getD_eq_getElem?_getD, List.getD_eq_getElem?_getD, List.getElem?_set]
          have : ¬ (n = l) := fun hh => hln hh.symm
          simp [this]
        rw [hgd]
        congr 2
        ring
    · intro l hl
      rw [i8 l (by omega), hli1, List.getElem?_set]
      have : ¬ (n = l) := by omega
      simp [this]
    · intro j; rw [i9 j, hlens j]
    · have : r.pData.take s.level_offset
          = (r.pData.take (s.level_offset + e.byteLength)).take s.level_offset := by
        rw [List.take_take]; congr 1; omega
      rw [this, htake_mid]
      exact List.take_left' hpre
    · rw [Finset.sum_range_succ, hlen_e]
      have e1 : s.level_offset + (∑ j ∈ Finset.range n, entryLength s.levelIndex j
          + e.byteLength)
          = s1.level_offset + ∑ j ∈ Finset.range n, entryLength s1.levelIndex j := by
        rw [hoff1, hsum1]; ring
      rw [e1, i11, hoff1, hpd1, reorderedPayload, hlen_e, List.append_assoc,
        reorderedPayload_congr bf lfo s1.levelIndex s.levelIndex hlens]
    · intro l hl
      by_cases hln : l = n
      · subst hln
        rw [hlen_e]
        refine ⟨hsrc, ?_⟩
        simp only [Finset.Ico_self, Finset.sum_empty, Nat.add_zero]
        unfold byteRange
        rw [List.take_drop, htake_mid]
        rw [List.drop_left' hpre]
        rfl
      · have hl' : l < n := by omega
        obtain ⟨j1, j2⟩ := i12 l hl'
        rw [hlens l] at j1 j2
        refine ⟨j1, ?_⟩
        have hsumIco : ∑ j ∈ Finset.Ico (l + 1) n, entryLength s1.levelIndex j
            = ∑ j ∈ Finset.Ico (l + 1) n, entryLength s.levelIndex j :=
          Finset.sum_congr rfl (fun j _ => hlens j)
        rw [hsumIco, hoff1] at j2
        rw [Finset.sum_Ico_succ_top (by omega), hlen_e, ← j2]
        congr 1
        ring

/-! ## Runs that return `KTX_SUCCESS` -/

theorem commitStage_success {env : Env} {T : ktxTexture2} {out : basis_output}
    {asm : AsmState} {bs lc : Nat} {cp : basis_compressor_params}
    (h : (commitStage env T out asm bs lc cp).exit = .returned .KTX_SUCCESS) :
    ∃ r, forDownFrom (reorderRounds T.numLevels) (reorderLevel out.bf asm.level_file_offsets)
        { level_offset := 0
          pData := (List.range asm.image_data_size).map env.uninit_new_data
          levelIndex := T._levelIndex } = .ok r ∧
      commitStage env T out asm bs lc cp =
        ⟨.returned .KTX_SUCCESS,
         { T with
           vkFormat := VK_FORMAT_UNDEFINED
           supercompressionScheme := .KTX_SUPERCOMPRESSION_BASIS
           _formatSize := { flags := 0, paletteSizeInBits := 0, blockSizeInBits := 0 * 8
                            blockWidth := 1, blockHeight := 1, blockDepth := 1 }
           _requiredLevelAlignment := 1
           _supercompressionGlobalData := some asm.bgd
           _sgdByteLength := bs
           pData := some r.pData
           dataSize := asm.image_data_size
           _levelIndex := r.levelIndex }, lc, some cp⟩ := by
  unfold commitStage at h ⊢
  by_cases hm : env.malloc_new_data asm.image_data_size = false
  · simp [hm] at h
  · simp only [hm, if_false] at h ⊢
    cases hA : cAssert env.NDEBUG (decide (T._typeSize = 1)) with
    | error f => simp [hA] at h
    | ok u =>
      simp only [hA] at h ⊢
      cases hR : forDownFrom (reorderRounds T.numLevels)
          (reorderLevel out.bf asm.level_file_offsets)
          { level_offset := 0
            pData := (List.range asm.image_data_size).map env.uninit_new_data
            levelIndex := T._levelIndex } with
      | error f => simp [hR] at h
      | ok r => exact ⟨r, rfl, by simp [hR]⟩

theorem rewriteDfd_frame {mallocOk : Nat → Bool} {T T2 : ktxTexture2} {hasAlpha : Bool}
    {c : KTX_error_code} (h : ktxTexture2_rewriteDfd mallocOk T hasAlpha = .ok (c, T2)) :
    T2 = { T with pDfd := T2.pDfd } := by
  unfold ktxTexture2_rewriteDfd at h
  obtain ⟨count, _, h⟩ := bind_ok_inv h
  simp only at h
  split at h
  · injection h with h
    injection h with _ h
    rw [← h]
  · obtain ⟨_, _, h⟩ := bind_ok_inv h
    injection h with h
    injection h with _ h
    rw [← h]

theorem encodeStage_success {env : Env} {T : ktxTexture2} {n lc : Nat}
    {cp : basis_compressor_params}
    (h : (encodeStage env T n lc cp).exit = .returned .KTX_SUCCESS) :
    ∃ out asm T2 r,
      env.process cp = (.cECSuccess, out) ∧
      assembleGlobalData env T out n = .ok asm ∧
      ktxTexture2_rewriteDfd env.malloc_ndfd { T with _levelIndex := asm.levelIndex }
        (hasAlphaSlices env out) = .ok (.KTX_SUCCESS, T2) ∧
      forDownFrom (reorderRounds T2.numLevels) (reorderLevel out.bf asm.level_file_offsets)
        { level_offset := 0
          pData := (List.range asm.image_data_size).map env.uninit_new_data
          levelIndex := T2._levelIndex } = .ok r ∧
      encodeStage env T n lc cp =
        ⟨.returned .KTX_SUCCESS,
         { T2 with
           vkFormat := VK_FORMAT_UNDEFINED
           supercompressionScheme := .KTX_SUPERCOMPRESSION_BASIS
           _formatSize := { flags := 0, paletteSizeInBits := 0, blockSizeInBits := 0 * 8
                            blockWidth := 1, blockHeight := 1, blockDepth := 1 }
           _requiredLevelAlignment := 1
           _supercompressionGlobalData := some asm.bgd
           _sgdByteLength := bgdSize out.bfh n
           pData := some r.pData
           dataSize := asm.image_data_size
           _levelIndex := r.levelIndex }, lc, some cp⟩ := by
  unfold encodeStage at h ⊢
  rcases hproc : env.process cp with ⟨ec, out⟩
  simp only [hproc] at h ⊢
  by_cases hec : ec = .cECSuccess
  · subst hec
    simp only [ne_eq, not_true_eq_false, if_false] at h ⊢
    cases hasm : assembleGlobalData env T out n with
    | error f => simp [hasm] at h
    | ok asm =>
      simp only [hasm] at h ⊢
      cases hrw : ktxTexture2_rewriteDfd env.malloc_ndfd
          { T with _levelIndex := asm.levelIndex } (hasAlphaSlices env out) with
      | error f => simp [hrw] at h
      | ok res =>
        obtain ⟨result, T2⟩ := res
        simp only [hrw] at h ⊢
        by_cases hres : result = .KTX_SUCCESS
        · subst hres
          simp only [ne_eq, not_true_eq_false, if_false] at h ⊢
          obtain ⟨r, hr, hc⟩ := commitStage_success h
          exact ⟨out, asm, T2, r, rfl, hasm, hrw, hr, hc⟩
        · simp only [ne_eq, hres, not_false_eq_true, if_true] at h
          cases h
  · have hec' : ec ≠ .cECSuccess := hec
    rw [if_pos hec'] at h
    split at h <;> simp at h

theorem packStage_success {env : Env} {T : ktxTexture2} {p : ktxBasisParams}
    {BDB : List Nat} {nc cs lc : Nat}
    (h : (packStage env T p BDB nc cs lc).exit = .returned .KTX_SUCCESS) :
    ∃ n m cb images transfer,
      calcNumImages T = .ok n ∧ chooseMapping T p nc = .ok m ∧
      chooseCopycb env.NDEBUG m nc = .ok cb ∧
      packImages env T cb m ((cs * nc) % U32) n = .ok images ∧
      KHR_DFDVAL BDB 2 16 0xFF = .ok transfer ∧
      packStage env T p BDB nc cs lc =
        encodeStage env { T with pData := none, dataSize := 0 } n lc
          (makeCompressorParams p
            (images ++ List.replicate (n - images.length) emptyImage) transfer) := by
  unfold packStage at h ⊢
  cases hst : stageImages env T p nc cs with
  | error f => simp [hst] at h
  | ok res =>
    obtain ⟨n, images⟩ := res
    simp only [hst] at h ⊢
    cases htr : KHR_DFDVAL BDB 2 16 0xFF with
    | error f => simp [htr] at h
    | ok transfer =>
      unfold stageImages at hst
      obtain ⟨n', h1, hst⟩ := bind_ok_inv hst
      obtain ⟨m, h2, hst⟩ := bind_ok_inv hst
      obtain ⟨cb, h3, hst⟩ := bind_ok_inv hst
      obtain ⟨images', h4, hst⟩ := bind_ok_inv hst
      injection hst with hst
      injection hst with e1 e2
      subst e1 e2
      exact ⟨n', m, cb, images', transfer, h1, h2, h3, h4, rfl, rfl⟩

theorem compress_success_inv {env : Env} {This : ktxTexture2}
    {params : Option ktxBasisParams}
    (h : (ktxTexture2_CompressBasisEx env This params).exit = .returned .KTX_SUCCESS) :
    ∃ tr, IsSuccessfulRun env This params tr := by
  -- the stages after validation, for the texture `T` with resident data
  have key : ∀ (p : ktxBasisParams) (T : ktxTexture2) (lc : Nat),
      params = some p → (env.getDFDComponentInfoUnpacked This.pDfd).2 = 1 →
      ktxTexture2_CompressBasisEx env This params
        = packStage env T p This.pDfd (env.getDFDComponentInfoUnpacked This.pDfd).1
            (env.getDFDComponentInfoUnpacked This.pDfd).2 lc →
      ((This.pData ≠ none ∧ T = This ∧ lc = 0) ∨
        (This.pData = none ∧
          env.ktxTexture2_LoadImageData This = (.KTX_SUCCESS, T) ∧ lc = 1)) →
      ∃ tr, IsSuccessfulRun env This params tr := by
    intro p T lc hp hcs heq hload
    rw [heq] at h
    obtain ⟨n, m, cb, images, transfer, h1, h2, h3, h4, h5, h6⟩ := packStage_success h
    rw [h6] at h
    obtain ⟨out, asm, T2, r, g1, g2, g3, g4, g5⟩ := encodeStage_success h
    refine ⟨{ p := p, loaded := T, loadCalls := lc, num_images := n
              comp_mapping := m, copycb := cb, images := images
              transfer := transfer, out := out, asm := asm, rewritten := T2
              reordered := r }, ?_⟩
    exact { params_eq := hp, loaded_eq := hload, component_size := hcs
            count := h1, mapping := h2, callback := h3, packed := h4
            transfer_eq := h5, encoded := g1, assembled := g2, rewritten := g3
            reordered := g4, outcome := by rw [heq, h6, g5]; rfl }
  generalize hO : ktxTexture2_CompressBasisEx env This params = O at h key
  unfold ktxTexture2_CompressBasisEx at hO
  cases params with
  | none => subst hO; simp at h
  | some p =>
    simp only at hO
    split at hO
    · subst hO; simp at h
    · split at hO
      · subst hO; simp at h
      · split at hO
        · subst hO; simp at h
        · split at hO
          · subst hO; simp at h
          · split at hO
            · subst hO; simp at h
            · split at hO
              · subst hO; simp at h
              · rename_i hcs hsplit
                have hcs' : (env.getDFDComponentInfoUnpacked This.pDfd).2 = 1 := by
                  by_contra hne; exact hcs hne
                split at hO
                · rename_i hpd
                  split at hO
                  · rename_i hres
                    subst hO
                    simp only at h
                    injection h with h
                    exact absurd h hres
                  · rename_i hres
                    have hres' : (env.ktxTexture2_LoadImageData This).1 = .KTX_SUCCESS := by
                      by_contra hne; exact hres hne
                    exact key p (env.ktxTexture2_LoadImageData This).2 1 rfl hcs' hO.symm
                      (Or.inr ⟨hpd, by rw [← hres'], rfl⟩)
                · rename_i d hpd
                  exact key p This 0 rfl hcs' hO.symm (Or.inl ⟨by simp [hpd], rfl, rfl⟩)

/-! ## The shape of a texture does not change during a run -/

theorem imagesBefore_congr {T T' : ktxTexture2} (h1 : T'.numLayers = T.numLayers)
    (h2 : T'.numFaces = T.numFaces) (h3 : T'.baseDepth = T.baseDepth) (l : Nat) :
    imagesBefore T' l = imagesBefore T l := by
  induction l with
  | zero => rfl
  | succ l ih => simp [imagesBefore, imagesInLevel, faceSlices, ih, h1, h2, h3]

theorem imagesInLevel_congr {T T' : ktxTexture2} (h1 : T'.numLayers = T.numLayers)
    (h2 : T'.numFaces = T.numFaces) (h3 : T'.baseDepth = T.baseDepth) (l : Nat) :
    imagesInLevel T' l = imagesInLevel T l := by
  simp [imagesInLevel, faceSlices, h1, h2, h3]

theorem allDescs_congr {T T' : ktxTexture2} (env : Env) (out : basis_output)
    (h1 : T'.numLayers = T.numLayers) (h2 : T'.numFaces = T.numFaces)
    (h3 : T'.baseDepth = T.baseDepth) (l : Nat) :
    allDescs env T' out l = allDescs env T out l := by
  induction l with
  | zero => rfl
  | succ l ih =>
    simp [allDescs, ih, imagesBefore_congr h1 h2 h3, imagesInLevel_congr h1 h2 h3]

theorem levelBytes_congr {T T' : ktxTexture2} (env : Env) (out : basis_output)
    (h1 : T'.numLayers = T.numLayers) (h2 : T'.numFaces = T.numFaces)
    (h3 : T'.baseDepth = T.baseDepth) (l : Nat) :
    levelBytes env T' out l = levelBytes env T out l := by
  simp [levelBytes, imagesBefore_congr h1 h2 h3, imagesInLevel_congr h1 h2 h3]

/-- The facts about a successful run the statements below start from. `T` is
the texture when the call returns. -/
theorem run_facts {env : Env} {This : ktxTexture2} {params : Option ktxBasisParams}
    {tr : RunTrace} (hr : IsSuccessfulRun env This params tr) :
    tr.result.numLevels = tr.loaded.numLevels ∧ tr.result.numLayers = tr.loaded.numLayers ∧
    tr.result.numFaces = tr.loaded.numFaces ∧ tr.result.baseDepth = tr.loaded.baseDepth ∧
    tr.released.numLevels = tr.loaded.numLevels ∧
    tr.rewritten.numLevels = tr.loaded.numLevels ∧
    tr.rewritten._levelIndex = tr.asm.levelIndex ∧
    tr.loaded.numLevels ≤ 32 ∧
    (ktxTexture2_CompressBasisEx env This params).This = tr.result ∧
    (ktxTexture2_CompressBasisEx env This params).encoderInput = some tr.cparams ∧
    (env.process tr.cparams).2 = tr.out := by
  have hf := rewriteDfd_frame hr.rewritten
  have hL := (assembleGlobalData_spec hr.assembled).1
  have e1 : tr.rewritten.numLevels = tr.loaded.numLevels := by rw [hf]; rfl
  have e2 : tr.rewritten.numLayers = tr.loaded.numLayers := by rw [hf]; rfl
  have e3 : tr.rewritten.numFaces = tr.loaded.numFaces := by rw [hf]; rfl
  have e4 : tr.rewritten.baseDepth = tr.loaded.baseDepth := by rw [hf]; rfl
  have e5 : tr.rewritten._levelIndex = tr.asm.levelIndex := by rw [hf]
  refine ⟨e1, e2, e3, e4, rfl, e1, e5, hL, ?_, ?_, ?_⟩
  · rw [hr.outcome]
  · rw [hr.outcome]
  · rw [hr.encoded]

/-- The reordering loop of a successful run, with what it started from. -/
theorem run_reorder {env : Env} {This : ktxTexture2} {params : Option ktxBasisParams}
    {tr : RunTrace} (hr : IsSuccessfulRun env This params tr) :
    forDownFrom tr.loaded.numLevels (reorderLevel tr.out.bf tr.asm.level_file_offsets)
      { level_offset := 0
        pData := (List.range tr.asm.image_data_size).map env.uninit_new_data
        levelIndex := tr.asm.levelIndex } = .ok tr.reordered := by
  obtain ⟨_, _, _, _, _, e1, e5, hL, _⟩ := run_facts hr
  have h := hr.reordered
  rw [e1, e5] at h
  have : reorderRounds tr.loaded.numLevels = tr.loaded.numLevels := by
    unfold reorderRounds; rw [if_pos (by omega)]
  rw [this] at h
  exact h

theorem ids_lt (env : Env) (T : ktxTexture2) (out : basis_output) (B : Nat)
    (li0 : List ktxLevelIndexEntry) (l j : Nat) (st : AsmState)
    (h : AsmInv env T out B li0 l j st) : st.image_data_size < U32 := by
  rw [h.ids]; exact Nat.mod_lt _ (by decide)

theorem entryLength_asm {env : Env} {T : ktxTexture2} {out : basis_output} {B : Nat}
    {li0 : List ktxLevelIndexEntry} {L : Nat} {st : AsmState}
    (h : AsmInv env T out B li0 L 0 st) (k : Nat) (hk : k < L) :
    entryLength st.levelIndex k = levelBytes env T out k := by
  obtain ⟨_, hget⟩ := h.li_done k hk
  simp [entryLength, List.getD_eq_getElem?_getD, hget]

theorem levelEntry_of_getElem? {T : ktxTexture2} {l : Nat} {e : ktxLevelIndexEntry}
    (h : T._levelIndex[l]? = some e) : levelEntry T l = e := by
  simp [levelEntry, List.getD_eq_getElem?_getD, h]

/-- The level index and the payload when a successful run returns, in terms of
the byte lengths the assembly stage computed. -/
theorem run_levels {env : Env} {This : ktxTexture2} {params : Option ktxBasisParams}
    {tr : RunTrace} (hr : IsSuccessfulRun env This params tr) :
    tr.result.numLevels ≤ tr.result._levelIndex.length ∧
    (∀ l, l < tr.result.numLevels →
      (levelEntry tr.result l).byteLength = levelBytes env tr.released tr.out l ∧
      (levelEntry tr.result l).uncompressedByteLength = 0 ∧
      (levelEntry tr.result l).byteOffset
        = ∑ j ∈ Finset.Ico (l + 1) tr.result.numLevels, levelBytes env tr.released tr.out j) ∧
    tr.result.dataSize = ∑ j ∈ Finset.range tr.result.numLevels,
      levelBytes env tr.released tr.out j ∧
    tr.reordered.pData.length = tr.result.dataSize ∧
    tr.result.pData = some tr.reordered.pData ∧
    tr.result.dataSize < U32 := by
  obtain ⟨e1, _, _, _, _, _, _, hL, _⟩ := run_facts hr
  obtain ⟨_, _, hinv, _⟩ := assembleGlobalData_spec hr.assembled
  have hro := run_reorder hr
  have hids := ids_lt _ _ _ _ _ _ _ _ hinv
  obtain ⟨i1, i2, i3, i4, i5, i6, i7, i8, i9, i10, i11, i12⟩ :=
    forDownFrom_reorder _ _ _ _ _ hro
      (by simp only [List.length_map, List.length_range]; unfold U32 at hids; omega)
      (Nat.zero_le _)
  simp only [List.length_map, List.length_range, Nat.zero_add] at i4 i5 i6 i7
  have hLr : tr.result.numLevels = tr.loaded.numLevels := e1
  have hsum : ∑ j ∈ Finset.range tr.loaded.numLevels, entryLength tr.asm.levelIndex j
      = ∑ j ∈ Finset.range tr.loaded.numLevels, levelBytes env tr.released tr.out j :=
    Finset.sum_congr rfl (fun j hj => entryLength_asm hinv j (Finset.mem_range.mp hj))
  have hds : tr.asm.image_data_size
      = ∑ j ∈ Finset.range tr.loaded.numLevels, levelBytes env tr.released tr.out j := by
    have h1 := hinv.ids
    have h2 : ∑ j ∈ Finset.range tr.loaded.numLevels, levelBytes env tr.released tr.out j
        ≤ tr.asm.image_data_size := by rw [← hsum, ← i5]; exact i6
    have h3 : (∑ k ∈ Finset.range tr.released.numLevels, levelBytes env tr.released tr.out k)
        % U32 ≤ ∑ k ∈ Finset.range tr.released.numLevels, levelBytes env tr.released tr.out k :=
      Nat.mod_le _ _
    have h4 : tr.released.numLevels = tr.loaded.numLevels := rfl
    rw [h4] at h1 h3
    omega
  refine ⟨?_, ?_, ?_, ?_, rfl, ?_⟩
  · show tr.result.numLevels ≤ tr.reordered.levelIndex.length
    rw [hLr, i3]; exact i1
  · intro l hl
    rw [hLr] at hl ⊢
    have hget := i7 l hl
    have hle : levelEntry tr.result l = _ := levelEntry_of_getElem? (T := tr.result) hget
    rw [hle]
    have hunc : (tr.asm.levelIndex.getD l
        { byteOffset := 0, byteLength := 0, uncompressedByteLength := 0
          }).uncompressedByteLength = 0 := by
      obtain ⟨_, hg⟩ := hinv.li_done l hl
      simp [List.getD_eq_getElem?_getD, hg]
    refine ⟨entryLength_asm hinv l hl, hunc, ?_⟩
    exact Finset.sum_congr rfl (fun j hj =>
      entryLength_asm hinv j (Finset.mem_Ico.mp hj).2)
  · show tr.asm.image_data_size = _
    rw [hLr]; exact hds
  · show _ = tr.asm.image_data_size
    exact i4
  · show tr.asm.image_data_size < U32
    exact hids

theorem reorderedPayload_eq (bf lfo : List Nat) (li : List ktxLevelIndexEntry) (n : Nat) :
    reorderedPayload bf lfo li n
      = (List.range n).reverse.flatMap
          (fun l => byteRange bf (lfo.getD l 0) (entryLength li l)) := by
  induction n with
  | zero => rfl
  | succ n ih =>
    rw [reorderedPayload, ih, List.range_succ, List.reverse_append]
    simp

/-- The payload when a successful run returns, level by level and as a whole.
-/
theorem run_payload {env : Env} {This : ktxTexture2} {params : Option ktxBasisParams}
    {tr : RunTrace} (hr : IsSuccessfulRun env This params tr) :
    (∀ l, l < tr.result.numLevels →
      sliceStride env tr.out * imagesBefore tr.result l < tr.out.slices.length ∧
      (sliceAt tr.out (sliceStride env tr.out * imagesBefore tr.result l)).m_file_ofs
        + (levelEntry tr.result l).byteLength ≤ tr.out.bf.length ∧
      (levelEntry tr.result l).byteOffset + (levelEntry tr.result l).byteLength
        ≤ tr.reordered.pData.length ∧
      byteRange tr.reordered.pData (levelEntry tr.result l).byteOffset
          (levelEntry tr.result l).byteLength
        = byteRange tr.out.bf
            (sliceAt tr.out (sliceStride env tr.out * imagesBefore tr.result l)).m_file_ofs
            (levelEntry tr.result l).byteLength) ∧
    tr.reordered.pData = (List.range tr.result.numLevels).reverse.flatMap (fun l =>
      byteRange tr.out.bf
        (sliceAt tr.out (sliceStride env tr.out * imagesBefore tr.result l)).m_file_ofs
        (levelEntry tr.result l).byteLength) := by
  obtain ⟨e1, e2, e3, e4, _, _, _, hL, _⟩ := run_facts hr
  obtain ⟨_, _, hinv, _⟩ := assembleGlobalData_spec hr.assembled
  obtain ⟨_, hlev, hds, hplen, _, _⟩ := run_levels hr
  have hro := run_reorder hr
  have hids := ids_lt _ _ _ _ _ _ _ _ hinv
  obtain ⟨i1, i2, i3, i4, i5, i6, i7, i8, i9, i10, i11, i12⟩ :=
    forDownFrom_reorder _ _ _ _ _ hro
      (by simp only [List.length_map, List.length_range]; unfold U32 at hids; omega)
      (Nat.zero_le _)
  simp only [List.length_map, List.length_range, Nat.zero_add, List.take_zero,
    List.nil_append] at i4 i5 i6 i7 i11 i12
  have hLr : tr.result.numLevels = tr.loaded.numLevels := e1
  have hib : ∀ l, imagesBefore tr.result l = imagesBefore tr.released l :=
    imagesBefore_congr e2 e3 e4
  have hlen : ∀ l, l < tr.loaded.numLevels →
      entryLength tr.asm.levelIndex l = (levelEntry tr.result l).byteLength := by
    intro l hl
    rw [(hlev l (by rw [hLr]; exact hl)).1]
    exact entryLength_asm hinv l hl
  have hofs : ∀ l, l < tr.loaded.numLevels →
      ∑ j ∈ Finset.Ico (l + 1) tr.loaded.numLevels, entryLength tr.asm.levelIndex j
        = (levelEntry tr.result l).byteOffset := by
    intro l hl
    rw [(hlev l (by rw [hLr]; exact hl)).2.2, hLr]
    exact Finset.sum_congr rfl (fun j hj =>
      entryLength_asm hinv j (Finset.mem_Ico.mp hj).2)
  have hlfo : ∀ l, l < tr.loaded.numLevels →
      tr.asm.level_file_offsets.getD l 0
        = (sliceAt tr.out (sliceStride env tr.out * imagesBefore tr.result l)).m_file_ofs := by
    intro l hl
    rw [hib l, List.getD_eq_getElem?_getD, (hinv.lfo_get l hl).1]
    rfl
  constructor
  · intro l hl
    rw [hLr] at hl
    obtain ⟨j1, j2⟩ := i12 l hl
    rw [hlen l hl, hofs l hl, hlfo l hl] at j2
    rw [hlen l hl, hlfo l hl] at j1
    refine ⟨by rw [hib l]; exact (hinv.lfo_get l hl).2, j1, ?_, j2⟩
    have hsplit := Finset.sum_range_add_sum_Ico (fun j => entryLength tr.asm.levelIndex j)
      (show l + 1 ≤ tr.loaded.numLevels by omega)
    rw [Finset.sum_range_succ] at hsplit
    beta_reduce at hsplit
    rw [i4, ← hofs l hl, ← hlen l hl]
    have htot : ∑ j ∈ Finset.range tr.loaded.numLevels, entryLength tr.asm.levelIndex j
        ≤ tr.asm.image_data_size := by rw [← i5]; exact i6
    omega
  · have htotal : ∑ j ∈ Finset.range tr.loaded.numLevels, entryLength tr.asm.levelIndex j
        = tr.reordered.pData.length := by
      rw [hplen, hds, hLr]
      exact Finset.sum_congr rfl (fun j hj =>
        entryLength_asm hinv j (Finset.mem_range.mp hj))
    rw [htotal, List.take_length, reorderedPayload_eq] at i11
    rw [i11, hLr]
    apply List.flatMap_congr
    intro l hl
    have hl' : l < tr.loaded.numLevels := by
      have := List.mem_reverse.mp hl
      exact List.mem_range.mp this
    rw [hlen l hl', hlfo l hl']

/-- The byte offsets of the level index when a successful run returns, in
terms of its byte lengths. -/
theorem run_level_offsets {env : Env} {This : ktxTexture2} {params : Option ktxBasisParams}
    {tr : RunTrace} (hr : IsSuccessfulRun env This params tr) :
    (∀ l, l < tr.result.numLevels →
      (levelEntry tr.result l).byteOffset
        = ∑ j ∈ Finset.Ico (l + 1) tr.result.numLevels, (levelEntry tr.result j).byteLength) ∧
    (∀ l, l + 1 < tr.result.numLevels →
      (levelEntry tr.result l).byteOffset
        = (levelEntry tr.result (l + 1)).byteOffset
          + (levelEntry tr.result (l + 1)).byteLength) ∧
    (0 < tr.result.numLevels →
      (levelEntry tr.result (tr.result.numLevels - 1)).byteOffset = 0) ∧
    tr.result.dataSize
      = ∑ j ∈ Finset.range tr.result.numLevels, (levelEntry tr.result j).byteLength := by
  obtain ⟨hlen, hlev, hds, hplen, hpd, hlt⟩ := run_levels hr
  have hbl : ∀ j, j < tr.result.numLevels →
      (levelEntry tr.result j).byteLength = levelBytes env tr.released tr.out j :=
    fun j hj => (hlev j hj).1
  have hoff : ∀ l, l < tr.result.numLevels →
      (levelEntry tr.result l).byteOffset
        = ∑ j ∈ Finset.Ico (l + 1) tr.result.numLevels, (levelEntry tr.result j).byteLength := by
    intro l hl
    rw [(hlev l hl).2.2]
    exact Finset.sum_congr rfl (fun j hj => (hbl j (Finset.mem_Ico.mp hj).2).symm)
  have hsum : tr.result.dataSize
      = ∑ j ∈ Finset.range tr.result.numLevels, (levelEntry tr.result j).byteLength := by
    rw [hds]
    exact Finset.sum_congr rfl (fun j hj => (hbl j (Finset.mem_range.mp hj)).symm)
  refine ⟨hoff, ?_, ?_, hsum⟩
  · intro l hl
    rw [hoff l (by omega), hoff (l + 1) hl, Finset.sum_eq_sum_Ico_succ_bot hl]
    ring
  · intro hpos
    rw [hoff _ (by omega)]
    have : tr.result.numLevels - 1 + 1 = tr.result.numLevels := by omega
    rw [this, Finset.Ico_self, Finset.sum_empty]

/-! ## The level index and the payload after a successful run -/

/-- C2: after a successful `ktxTexture2_CompressBasisEx` the level index holds
the levels smallest first. For every level `l` below `numLevels`, `byteOffset`
is the sum of the `byteLength` of the levels above `l`; so the range of a
level starts where the range of the next level ends, the last level starts at
0, level 0 ends at `dataSize`, ranges of different levels do not overlap, and
`dataSize` is the sum of all byte lengths, which is below `2^32` and is the
length of the payload. -/
theorem level_index_smallest_first (env : Env) (This : ktxTexture2)
    (params : Option ktxBasisParams) (o : Outcome)
    (ho : ktxTexture2_CompressBasisEx env This params = o)
    (h : o.exit = .returned .KTX_SUCCESS) :
    o.This.numLevels ≤ o.This._levelIndex.length ∧
    (∀ l, l < o.This.numLevels →
      (levelEntry o.This l).byteOffset
        = ∑ j ∈ Finset.Ico (l + 1) o.This.numLevels, (levelEntry o.This j).byteLength) ∧
    (∀ l, l + 1 < o.This.numLevels →
      (levelEntry o.This l).byteOffset
        = (levelEntry o.This (l + 1)).byteOffset + (levelEntry o.This (l + 1)).byteLength) ∧
    (0 < o.This.numLevels →
      (levelEntry o.This (o.This.numLevels - 1)).byteOffset = 0 ∧
      (levelEntry o.This 0).byteOffset + (levelEntry o.This 0).byteLength = o.This.dataSize) ∧
    (∀ l m, l < m → m < o.This.numLevels →
      (levelEntry o.This m).byteOffset + (levelEntry o.This m).byteLength
        ≤ (levelEntry o.This l).byteOffset) ∧
    o.This.dataSize = ∑ j ∈ Finset.range o.This.numLevels, (levelEntry o.This j).byteLength ∧
    o.This.dataSize < U32 ∧
    ∃ data, o.This.pData = some data ∧ data.length = o.This.dataSize := by
  subst ho
  obtain ⟨tr, hr⟩ := compress_success_inv h
  obtain ⟨_, _, _, _, _, _, _, _, hres, _⟩ := run_facts hr
  obtain ⟨hlen, _, _, hplen, hpd, hlt⟩ := run_levels hr
  obtain ⟨hoff, hnext, hlast, hsum⟩ := run_level_offsets hr
  rw [hres]
  refine ⟨hlen, hoff, hnext, ?_, ?_, hsum, hlt, tr.reordered.pData, hpd, hplen⟩
  · intro hpos
    refine ⟨hlast hpos, ?_⟩
    rw [hoff 0 hpos, hsum, Finset.range_eq_Ico, Finset.sum_eq_sum_Ico_succ_bot hpos]
    ring
  · intro l m hlm hm
    rw [hoff l (by omega), hoff m hm]
    have h1 := Finset.sum_Ico_consecutive (fun j => (levelEntry tr.result j).byteLength)
      (show l + 1 ≤ m by omega) (show m ≤ tr.result.numLevels by omega)
    have h2 := Finset.sum_eq_sum_Ico_succ_bot hm
      (fun j => (levelEntry tr.result j).byteLength)
    beta_reduce at h1 h2
    omega

/-- C2, on the texture of two levels: the run succeeds and the level index
has the properties stated. -/
theorem level_index_smallest_first_witness :
    (ktxTexture2_CompressBasisEx exampleEnv exampleTexture (some exampleParams)).exit
      = .returned .KTX_SUCCESS ∧
    (levelEntry (ktxTexture2_CompressBasisEx exampleEnv exampleTexture
        (some exampleParams)).This 0).byteOffset
      = (levelEntry (ktxTexture2_CompressBasisEx exampleEnv exampleTexture
          (some exampleParams)).This 1).byteOffset
        + (levelEntry (ktxTexture2_CompressBasisEx exampleEnv exampleTexture
            (some exampleParams)).This 1).byteLength :=
  ⟨by decide,
   (level_index_smallest_first exampleEnv exampleTexture (some exampleParams) _ rfl
     (by decide)).2.2.1 0 (by decide)⟩

/-- C3: after a successful `ktxTexture2_CompressBasisEx`, for every level `l`
the first slice descriptor of the level lies in the slice table, and the bytes
of the payload in `[byteOffset l, byteOffset l + byteLength l)` are the bytes
of the encoder output in `[o, o + byteLength l)`, where `o` is the file offset
in that descriptor; both ranges lie inside their buffers. -/
theorem level_bytes_from_encoder_output (env : Env) (This : ktxTexture2)
    (params : Option ktxBasisParams) (o : Outcome) (cp : basis_compressor_params)
    (ho : ktxTexture2_CompressBasisEx env This params = o)
    (h : o.exit = .returned .KTX_SUCCESS) (hcp : o.encoderInput = some cp) :
    ∃ data, o.This.pData = some data ∧
      ∀ l, l < o.This.numLevels →
        sliceStride env (env.process cp).2 * imagesBefore o.This l
          < (env.process cp).2.slices.length ∧
        (sliceAt (env.process cp).2
            (sliceStride env (env.process cp).2 * imagesBefore o.This l)).m_file_ofs
          + (levelEntry o.This l).byteLength ≤ (env.process cp).2.bf.length ∧
        (levelEntry o.This l).byteOffset + (levelEntry o.This l).byteLength ≤ data.length ∧
        byteRange data (levelEntry o.This l).byteOffset (levelEntry o.This l).byteLength
          = byteRange (env.process cp).2.bf
              (sliceAt (env.process cp).2
                (sliceStride env (env.process cp).2 * imagesBefore o.This l)).m_file_ofs
              (levelEntry o.This l).byteLength := by
  subst ho
  obtain ⟨tr, hr⟩ := compress_success_inv h
  obtain ⟨_, _, _, _, _, _, _, _, hres, hin, hout⟩ := run_facts hr
  rw [hin] at hcp
  injection hcp with hcp
  subst hcp
  rw [hres, hout]
  exact ⟨tr.reordered.pData, rfl, (run_payload hr).1⟩

/-- C3, on the texture of two levels: level 0 of the payload holds the bytes
110, 111, 112 of the encoder output. -/
theorem level_bytes_from_encoder_output_witness :
    (ktxTexture2_CompressBasisEx exampleEnv exampleTexture (some exampleParams)).exit
      = .returned .KTX_SUCCESS ∧
    (ktxTexture2_CompressBasisEx exampleEnv exampleTexture (some exampleParams)).encoderInput
      = some (makeCompressorParams exampleParams
          [{ width := 2, height := 2, pixels := (List.range 20).drop 4 },
           { width := 1, height := 1, pixels := [0, 1, 2, 3] }] 2) ∧
    ∃ data, (ktxTexture2_CompressBasisEx exampleEnv exampleTexture
        (some exampleParams)).This.pData = some data ∧
      ∀ l, l < 2 →
        byteRange data
            (levelEntry (ktxTexture2_CompressBasisEx exampleEnv exampleTexture
              (some exampleParams)).This l).byteOffset
            (levelEntry (ktxTexture2_CompressBasisEx exampleEnv exampleTexture
              (some exampleParams)).This l).byteLength
          = byteRange exampleOutput.bf (sliceAt exampleOutput (1 * l)).m_file_ofs
              (levelEntry (ktxTexture2_CompressBasisEx exampleEnv exampleTexture
                (some exampleParams)).This l).byteLength := by
  refine ⟨by decide, by decide, ?_⟩
  obtain ⟨data, hd, hl⟩ := level_bytes_from_encoder_output exampleEnv exampleTexture
    (some exampleParams) _ _ rfl (by decide) (by decide :
      (ktxTexture2_CompressBasisEx exampleEnv exampleTexture (some exampleParams)).encoderInput
      = some (makeCompressorParams exampleParams
          [{ width := 2, height := 2, pixels := (List.range 20).drop 4 },
           { width := 1, height := 1, pixels := [0, 1, 2, 3] }] 2))
  refine ⟨data, hd, ?_⟩
  intro l hlt
  have := (hl l hlt).2.2.2
  have e : imagesBefore (ktxTexture2_CompressBasisEx exampleEnv exampleTexture
      (some exampleParams)).This l = l := by
    interval_cases l <;> decide
  rw [e] at this
  exact this

/-! ## The image counts (lines 347-353, 419-436 and 645-677) -/

theorem calcNumImages_loop (T : ktxTexture2) : ∀ l, l ≤ 32 →
    forUpTo l (fun k num_images => do
        let d ← shr32 T.baseDepth k
        pure ((num_images + ((T.numLayers * T.numFaces) % U32 * max d 1) % U32) % U32)) 0
      = .ok ((∑ level ∈ Finset.range l,
          T.numLayers * T.numFaces * max (T.baseDepth >>> level) 1) % U32) := by
  intro l
  induction l with
  | zero => intro _; rfl
  | succ l ih =>
    intro hl
    rw [forUpTo_succ, ih (by omega)]
    have hs : shr32 T.baseDepth l = .ok (T.baseDepth >>> l) := by
      unfold shr32; rw [if_pos (by omega)]
    simp only [bind, Except.bind, hs, pure, Except.pure]
    rw [Finset.sum_range_succ]
    congr 1
    have h1 : (T.numLayers * T.numFaces % U32 * max (T.baseDepth >>> l) 1) % U32
        = (T.numLayers * T.numFaces * max (T.baseDepth >>> l) 1) % U32 := by
      rw [Nat.mul_mod, Nat.mod_mod, ← Nat.mul_mod]
    rw [h1, ← Nat.add_mod]

theorem calcNumImages_eq (T : ktxTexture2) (hL : T.numLevels ≤ 32) :
    calcNumImages T = .ok (imageTotal T % U32) :=
  calcNumImages_loop T T.numLevels hL

theorem calcNumImages_inv {T : ktxTexture2} {n : Nat} (h : calcNumImages T = .ok n) :
    T.numLevels ≤ 32 ∧ n = imageTotal T % U32 := by
  have hL : T.numLevels ≤ 32 := by
    unfold calcNumImages at h
    refine forUpTo_inv (fun l (_ : Nat) => l ≤ 32) _ _ _ _ (by omega) ?_ h
    intro i _ a b _ hb
    obtain ⟨d, hd, _⟩ := bind_ok_inv hb
    have := (shr32_inv hd).1
    omega
  rw [calcNumImages_eq T hL] at h
  injection h with h
  exact ⟨hL, h.symm⟩

theorem imagesBefore_eq_sum (T : ktxTexture2) (l : Nat) :
    imagesBefore T l = ∑ k ∈ Finset.range l, imagesInLevel T k := by
  induction l with
  | zero => rfl
  | succ l ih => rw [imagesBefore, ih, Finset.sum_range_succ]

theorem imagesInLevel_exclusive {T : ktxTexture2} (hex : faceDepthExclusive T) (l : Nat) :
    imagesInLevel T l = T.numLayers * T.numFaces * max (T.baseDepth >>> l) 1 := by
  unfold imagesInLevel faceSlices
  unfold faceDepthExclusive at hex
  by_cases h1 : T.numFaces = 1
  · simp [h1, max_comm]
  · rw [if_neg h1]
    by_cases h0 : T.numFaces = 0
    · simp [h0]
    · have hd : T.baseDepth ≤ 1 := by
        by_contra hc
        exact hex ⟨by omega, by omega⟩
      have hs : T.baseDepth >>> l ≤ T.baseDepth := by
        rw [Nat.shiftRight_eq_div_pow]; exact Nat.div_le_self _ _
      have : max (T.baseDepth >>> l) 1 = 1 := by
        apply max_eq_right; omega
      rw [this, Nat.mul_one]

theorem imageTotal_exclusive {T : ktxTexture2} (hex : faceDepthExclusive T) :
    imageTotal T = imagesBefore T T.numLevels := by
  rw [imagesBefore_eq_sum]
  exact Finset.sum_congr rfl (fun l _ => (imagesInLevel_exclusive hex l).symm)

theorem packImage_inv {env : Env} {T : ktxTexture2} {cb : Option PFNBUCOPYCB}
    {m : Option (List swizzle_e)} {sl n w hgt sz level layer slice : Nat}
    {staged st : List image}
    (h : packImage env T cb m sl n w hgt sz level layer slice staged = .ok st) :
    staged.length < n ∧ ∃ x, st = staged ++ [x] := by
  unfold packImage at h
  simp only at h
  split at h
  · rename_i hlt
    refine ⟨hlt, ?_⟩
    split at h
    · obtain ⟨px, _, h⟩ := bind_ok_inv h
      injection h with h
      exact ⟨_, h.symm⟩
    · cases h
  · cases h

theorem packImages_length {env : Env} {T : ktxTexture2} {cb : Option PFNBUCOPYCB}
    {m : Option (List swizzle_e)} {sl n : Nat} {images : List image}
    (h : packImages env T cb m sl n = .ok images) :
    T.numLevels ≤ 32 ∧ images.length = imagesBefore T T.numLevels ∧ images.length ≤ n := by
  unfold packImages at h
  refine forUpTo_inv (fun l (st : List image) =>
    l ≤ 32 ∧ st.length = imagesBefore T l ∧ st.length ≤ n) _ _ _ _
    ⟨by omega, by rfl, by simp⟩ ?_ h
  intro l _ a b ha hb
  unfold packLevel at hb
  obtain ⟨w, _, hb⟩ := bind_ok_inv hb
  obtain ⟨hgt, _, hb⟩ := bind_ok_inv hb
  obtain ⟨d, hd, hb⟩ := bind_ok_inv hb
  obtain ⟨hl32, hdeq⟩ := shr32_inv hd
  have hfs : (if T.numFaces = 1 then max 1 d else T.numFaces) = faceSlices T l := by
    simp [faceSlices, hdeq]
  simp only [hfs] at hb
  have hfin : b.length = imagesBefore T l + T.numLayers * faceSlices T l ∧ b.length ≤ n := by
    refine forUpTo_inv (fun layer (st : List image) =>
      st.length = imagesBefore T l + layer * faceSlices T l ∧ st.length ≤ n) _ _ _ _
      ⟨by simp [ha.2.1], ha.2.2⟩ ?_ hb
    intro layer _ x y hx hy
    have e1 : (layer + 1) * faceSlices T l = layer * faceSlices T l + faceSlices T l := by ring
    rw [e1, ← Nat.add_assoc]
    refine forUpTo_inv (fun slice (st : List image) =>
      st.length = imagesBefore T l + layer * faceSlices T l + slice ∧ st.length ≤ n) _ _ _ _
      ⟨by simp [hx.1], hx.2⟩ ?_ hy
    intro slice _ u v hu hv
    obtain ⟨hlt, img, himg⟩ := packImage_inv hv
    subst himg
    rw [List.length_append, List.length_singleton]
    exact ⟨by omega, by omega⟩
  exact ⟨by omega, by simpa [imagesBefore, imagesInLevel] using hfin.1, hfin.2⟩

theorem allDescs_length (env : Env) (T : ktxTexture2) (out : basis_output) (l : Nat) :
    (allDescs env T out l).length = imagesBefore T l := by
  induction l with
  | zero => rfl
  | succ l ih => simp [allDescs, levelDescs, imagesBefore, ih]

/-! ## The global data after a successful run -/

theorem readU32_append (pre post : List Nat) (w : Nat) :
    readU32 (pre ++ u32le w ++ post) pre.length = some (w % U32) := by
  have h0 : (pre ++ u32le w ++ post)[pre.length]? = some (w % 256) := by
    rw [List.append_assoc, List.getElem?_append_right (le_refl _)]; simp [u32le]
  have h1 : (pre ++ u32le w ++ post)[pre.length + 1]? = some (w / 256 % 256) := by
    rw [List.append_assoc, List.getElem?_append_right (by omega)]; simp [u32le]
  have h2 : (pre ++ u32le w ++ post)[pre.length + 2]? = some (w / 65536 % 256) := by
    rw [List.append_assoc, List.getElem?_append_right (by omega)]; simp [u32le]
  have h3 : (pre ++ u32le w ++ post)[pre.length + 3]? = some (w / 16777216 % 256) := by
    rw [List.append_assoc, List.getElem?_append_right (by omega)]; simp [u32le]
  unfold readU32
  rw [h0, h1, h2, h3]
  simp only [U32, Option.some.injEq]
  omega

theorem sgdImageDesc_append (pre post : List Nat) (d : ktxBasisImageDesc) (k : Nat)
    (hpre : pre.length = kimagesOffset k) :
    sgdImageDesc (pre ++ d.bytes ++ post) k = some
      { rgbSliceByteOffset := d.rgbSliceByteOffset % U32
        rgbSliceByteLength := d.rgbSliceByteLength % U32
        alphaSliceByteOffset := d.alphaSliceByteOffset % U32
        alphaSliceByteLength := d.alphaSliceByteLength % U32
        imageFlags := d.imageFlags % U32 } := by
  have r0 : readU32 (pre ++ d.bytes ++ post) (kimagesOffset k)
      = some (d.rgbSliceByteOffset % U32) := by
    have := readU32_append pre (u32le d.rgbSliceByteLength ++ u32le d.alphaSliceByteOffset
      ++ u32le d.alphaSliceByteLength ++ u32le d.imageFlags ++ post) d.rgbSliceByteOffset
    rw [hpre] at this
    rw [← this]; simp [ktxBasisImageDesc.bytes]
  have r1 : readU32 (pre ++ d.bytes ++ post) (kimagesOffset k + 4)
      = some (d.rgbSliceByteLength % U32) := by
    have := readU32_append (pre ++ u32le d.rgbSliceByteOffset)
      (u32le d.alphaSliceByteOffset ++ u32le d.alphaSliceByteLength ++ u32le d.imageFlags
        ++ post) d.rgbSliceByteLength
    rw [List.length_append, hpre, u32le_length] at this
    rw [← this]; simp [ktxBasisImageDesc.bytes]
  have r2 : readU32 (pre ++ d.bytes ++ post) (kimagesOffset k + 8)
      = some (d.alphaSliceByteOffset % U32) := by
    have := readU32_append (pre ++ u32le d.rgbSliceByteOffset ++ u32le d.rgbSliceByteLength)
      (u32le d.alphaSliceByteLength ++ u32le d.imageFlags ++ post) d.alphaSliceByteOffset
    rw [List.length_append, List.length_append, hpre, u32le_length, u32le_length] at this
    rw [← this]; simp [ktxBasisImageDesc.bytes]
  have r3 : readU32 (pre ++ d.bytes ++ post) (kimagesOffset k + 12)
      = some (d.alphaSliceByteLength % U32) := by
    have := readU32_append (pre ++ u32le d.rgbSliceByteOffset ++ u32le d.rgbSliceByteLength
      ++ u32le d.alphaSliceByteOffset) (u32le d.imageFlags ++ post) d.alphaSliceByteLength
    rw [List.length_append, List.length_append, List.length_append, hpre, u32le_length,
      u32le_length, u32le_length] at this
    rw [← this]; simp [ktxBasisImageDesc.bytes]
  have r4 : readU32 (pre ++ d.bytes ++ post) (kimagesOffset k + 16)
      = some (d.imageFlags % U32) := by
    have := readU32_append (pre ++ u32le d.rgbSliceByteOffset ++ u32le d.rgbSliceByteLength
      ++ u32le d.alphaSliceByteOffset ++ u32le d.alphaSliceByteLength) post d.imageFlags
    rw [List.length_append, List.length_append, List.length_append, List.length_append, hpre,
      u32le_length, u32le_length, u32le_length, u32le_length] at this
    rw [← this]; simp [ktxBasisImageDesc.bytes]
  unfold sgdImageDesc
  rw [r0, r1, r2, r3, r4]

theorem imagesBefore_mono (T : ktxTexture2) {a b : Nat} (h : a ≤ b) :
    imagesBefore T a ≤ imagesBefore T b := by
  induction b with
  | zero =>
    have : a = 0 := by omega
    subst this; exact le_refl _
  | succ b ih =>
    by_cases hab : a = b + 1
    · subst hab; exact le_refl _
    · have := ih (by omega)
      simp only [imagesBefore]; omega

theorem allDescs_getElem? (env : Env) (T : ktxTexture2) (out : basis_output) :
    ∀ (L l j : Nat), l < L → j < imagesInLevel T l →
      (allDescs env T out L)[imagesBefore T l + j]?
        = some (imageDesc env out (imagesBefore T l) (imagesBefore T l + j)) := by
  intro L
  induction L with
  | zero => intro l j hl _; omega
  | succ L ih =>
    intro l j hl hj
    rw [allDescs]
    by_cases hlL : l = L
    · subst hlL
      rw [List.getElem?_append_right (by rw [allDescs_length]; omega), allDescs_length]
      have : imagesBefore T l + j - imagesBefore T l = j := by omega
      rw [this, levelDescs, List.getElem?_map, List.getElem?_range hj]
      rfl
    · have hl' : l < L := by omega
      have hmono := imagesBefore_mono T (show l + 1 ≤ L by omega)
      rw [List.getElem?_append_left (by
        rw [allDescs_length]; simp only [imagesBefore] at hmono; omega)]
      exact ih l j hl' hj

theorem descBytes_split (xs : List ktxBasisImageDesc) (k : Nat) (d : ktxBasisImageDesc)
    (h : xs[k]? = some d) :
    ∃ post, descBytes xs = descBytes (xs.take k) ++ d.bytes ++ post ∧
      (descBytes (xs.take k)).length = 20 * k := by
  obtain ⟨hlt, hget⟩ := List.getElem?_eq_some.mp h
  refine ⟨descBytes (xs.drop (k + 1)), ?_, ?_⟩
  · have e : xs = xs.take k ++ d :: xs.drop (k + 1) := by
      rw [← hget, ← List.drop_eq_getElem_cons hlt, List.take_append_drop]
    conv_lhs => rw [e]
    rw [descBytes_append, List.append_assoc]
    congr 1
  · rw [descBytes_length, List.length_take]
    congr 1
    omega

/-- The global data when a successful run returns: its length, the bytes up
to the end of the tables, and the image descriptors in it. `n` is the number
of images the loop nest visits. -/
theorem run_global_data {env : Env} {This : ktxTexture2} {params : Option ktxBasisParams}
    {tr : RunTrace} (hr : IsSuccessfulRun env This params tr) :
    tr.result._supercompressionGlobalData = some tr.asm.bgd ∧
    tr.result._sgdByteLength = tr.asm.bgd.length ∧
    tr.asm.image = imagesBefore tr.result tr.result.numLevels ∧
    sliceStride env tr.out * imagesBefore tr.result tr.result.numLevels
      ≤ tr.out.slices.length ∧
    imagesBefore tr.result tr.result.numLevels ≤ tr.num_images ∧
    tr.images.length = imagesBefore tr.result tr.result.numLevels ∧
    tr.num_images = imageTotal tr.result % U32 ∧
    tr.num_images = tr.cparams.m_source_images.length ∧
    (env.NDEBUG = true ∨ tr.out.bfh.m_total_images = tr.num_images) ∧
    tr.out.bfh.m_endpoint_cb_file_ofs + tr.out.bfh.m_endpoint_cb_file_size
      ≤ tr.out.bf.length ∧
    tr.out.bfh.m_selector_cb_file_ofs + tr.out.bfh.m_selector_cb_file_size
      ≤ tr.out.bf.length ∧
    tr.out.bfh.m_tables_file_ofs + tr.out.bfh.m_tables_file_size ≤ tr.out.bf.length ∧
    kimagesOffset (imagesBefore tr.result tr.result.numLevels)
      + (tr.out.bfh.m_endpoint_cb_file_size + tr.out.bfh.m_selector_cb_file_size
        + tr.out.bfh.m_tables_file_size) ≤ tr.asm.bgd.length ∧
    tr.asm.bgd.length = bgdSize tr.out.bfh tr.num_images ∧
    tr.asm.bgd.take (kimagesOffset (imagesBefore tr.result tr.result.numLevels)
        + (tr.out.bfh.m_endpoint_cb_file_size + tr.out.bfh.m_selector_cb_file_size
          + tr.out.bfh.m_tables_file_size))
      = globalHeaderBytes env tr.out.bfh
        ++ descBytes (allDescs env tr.result tr.out tr.result.numLevels)
        ++ (byteRange tr.out.bf tr.out.bfh.m_endpoint_cb_file_ofs
              tr.out.bfh.m_endpoint_cb_file_size
          ++ byteRange tr.out.bf tr.out.bfh.m_selector_cb_file_ofs
              tr.out.bfh.m_selector_cb_file_size
          ++ byteRange tr.out.bf tr.out.bfh.m_tables_file_ofs
              tr.out.bfh.m_tables_file_size) := by
  obtain ⟨e1, e2, e3, e4, _, _, _, hL, _⟩ := run_facts hr
  obtain ⟨_, hassert, hinv, r1, r2, r3, hroom, htake⟩ := assembleGlobalData_spec hr.assembled
  have hib : ∀ l, imagesBefore tr.result l = imagesBefore tr.released l :=
    imagesBefore_congr e2 e3 e4
  have hLr : tr.result.numLevels = tr.released.numLevels := e1
  have had : allDescs env tr.result tr.out tr.result.numLevels
      = allDescs env tr.released tr.out tr.released.numLevels := by
    rw [hLr]; exact allDescs_congr (T := tr.released) env tr.out e2 e3 e4 _
  obtain ⟨_, hplen, hple⟩ := packImages_length hr.packed
  have hcount := (calcNumImages_inv hr.count).2
  have hit : imageTotal tr.result = imageTotal tr.loaded := by
    unfold imageTotal; rw [e1, e2, e3, e4]
  have hpl : tr.images.length = imagesBefore tr.result tr.result.numLevels := by
    rw [hplen, hib, hLr]
    exact (imagesBefore_congr (T := tr.released) (show tr.loaded.numLayers = tr.released.numLayers from rfl) rfl rfl _)
  have himg : tr.asm.image = imagesBefore tr.released tr.released.numLevels := by
    have := hinv.image_eq; simpa using this
  have hsl : sliceStride env tr.out * imagesBefore tr.released tr.released.numLevels
      ≤ tr.out.slices.length := by
    have := hinv.slices_ok; simpa using this
  refine ⟨rfl, ?_, ?_, ?_, ?_, hpl, ?_, ?_, hassert, r1, r2, r3, ?_, hinv.bgd_len, ?_⟩
  · show bgdSize tr.out.bfh tr.num_images = _
    rw [hinv.bgd_len]
  · rw [hib, hLr]; exact himg
  · rw [hib, hLr]; exact hsl
  · rw [← hpl]; exact hple
  · rw [hit]; exact hcount
  · show _ = (makeCompressorParams _ _ _).m_source_images.length
    simp only [makeCompressorParams, List.length_append, List.length_replicate]
    omega
  · rw [hib, hLr, hinv.bgd_len]; exact hroom
  · rw [had, hib, hLr]; exact htake

/-- C4, the claim at the texture of two levels: the run succeeds, level 0 has
the bytes 110, 111, 112 and level 1 the bytes 113, 114 of the encoder output,
and the payload is level 1 followed by level 0. Level 0 is at offset 2, not at
offset 0, and the payload is not level 0 followed by level 1. -/
theorem payload_not_finest_first :
    (ktxTexture2_CompressBasisEx exampleEnv exampleTexture (some exampleParams)).exit
      = .returned .KTX_SUCCESS ∧
    byteRange exampleOutput.bf 10 3 = [110, 111, 112] ∧
    byteRange exampleOutput.bf 13 2 = [113, 114] ∧
    (ktxTexture2_CompressBasisEx exampleEnv exampleTexture (some exampleParams)).This.pData
      = some ([113, 114] ++ [110, 111, 112]) ∧
    (levelEntry (ktxTexture2_CompressBasisEx exampleEnv exampleTexture
      (some exampleParams)).This 0).byteOffset = 2 ∧
    (levelEntry (ktxTexture2_CompressBasisEx exampleEnv exampleTexture
      (some exampleParams)).This 1).byteOffset = 0 ∧
    ¬ ((levelEntry (ktxTexture2_CompressBasisEx exampleEnv exampleTexture
      (some exampleParams)).This 0).byteOffset = 0) ∧
    ¬ ((ktxTexture2_CompressBasisEx exampleEnv exampleTexture (some exampleParams)).This.pData
      = some ([110, 111, 112] ++ [113, 114])) := by
  decide

/-- C4, amended: after a successful `ktxTexture2_CompressBasisEx` the payload
is the concatenation of the byte ranges of the levels in coarsest-to-finest
order: level `numLevels - 1` is stored at offset 0, each level `l` directly
behind level `l + 1`, and level 0 at the end. The bytes of level `l` are
`byteLength l` bytes of the encoder output from the file offset of the first
slice of the level. -/
theorem payload_coarsest_first (env : Env) (This : ktxTexture2)
    (params : Option ktxBasisParams) (o : Outcome) (cp : basis_compressor_params)
    (ho : ktxTexture2_CompressBasisEx env This params = o)
    (h : o.exit = .returned .KTX_SUCCESS) (hcp : o.encoderInput = some cp) :
    o.This.pData = some ((List.range o.This.numLevels).reverse.flatMap (fun l =>
      byteRange (env.process cp).2.bf
        (sliceAt (env.process cp).2
          (sliceStride env (env.process cp).2 * imagesBefore o.This l)).m_file_ofs
        (levelEntry o.This l).byteLength)) ∧
    (0 < o.This.numLevels → (levelEntry o.This (o.This.numLevels - 1)).byteOffset = 0) ∧
    (∀ l, l + 1 < o.This.numLevels →
      (levelEntry o.This l).byteOffset
        = (levelEntry o.This (l + 1)).byteOffset + (levelEntry o.This (l + 1)).byteLength) := by
  subst ho
  obtain ⟨tr, hr⟩ := compress_success_inv h
  obtain ⟨_, _, _, _, _, _, _, _, hres, hin, hout⟩ := run_facts hr
  rw [hin] at hcp
  injection hcp with hcp
  subst hcp
  obtain ⟨_, hnext, hlast, _⟩ := run_level_offsets hr
  rw [hres, hout]
  refine ⟨?_, hlast, hnext⟩
  show some tr.reordered.pData = _
  rw [(run_payload hr).2]

/-- C4 amended, on the texture of two levels. -/
theorem payload_coarsest_first_witness :
    (ktxTexture2_CompressBasisEx exampleEnv exampleTexture (some exampleParams)).exit
      = .returned .KTX_SUCCESS ∧
    (0 < (ktxTexture2_CompressBasisEx exampleEnv exampleTexture
        (some exampleParams)).This.numLevels →
      (levelEntry (ktxTexture2_CompressBasisEx exampleEnv exampleTexture
        (some exampleParams)).This
        ((ktxTexture2_CompressBasisEx exampleEnv exampleTexture
          (some exampleParams)).This.numLevels - 1)).byteOffset = 0) :=
  ⟨by decide,
   (payload_coarsest_first exampleEnv exampleTexture (some exampleParams) _
     (makeCompressorParams exampleParams
        [{ width := 2, height := 2, pixels := (List.range 20).drop 4 },
         { width := 1, height := 1, pixels := [0, 1, 2, 3] }] 2)
     rfl (by decide) (by decide)).2.1⟩

/-! ## The global data block -/

theorem andNot32_testBit (x c i : Nat) (hi : i < 32) :
    (andNot32 x c).testBit i = (x.testBit i && !c.testBit i) := by
  unfold andNot32
  rw [Nat.testBit_and, Nat.testBit_xor]
  have : (4294967295 : Nat) = 2 ^ 32 - 1 := by norm_num
  rw [this, Nat.testBit_two_pow_sub_one]
  simp [hi]

/-- C5: for a texture that satisfies face/depth exclusivity, the global data
a successful `ktxTexture2_CompressBasisEx` attaches is exactly: the header of
seven words (the encoder flags without the bits of the Y-flipped flag, the
endpoint count, the endpoint codebook size, the selector count, the selector
codebook size, the tables size, 0); then the image descriptors, one for each
of the `imageTotal` images handed to the encoder; then the endpoint codebook,
the selector codebook and the tables, each the bytes of the encoder output at
the offset and of the length its header reports. -/
theorem global_data_layout (env : Env) (This : ktxTexture2)
    (params : Option ktxBasisParams) (o : Outcome) (cp : basis_compressor_params)
    (ho : ktxTexture2_CompressBasisEx env This params = o)
    (h : o.exit = .returned .KTX_SUCCESS) (hcp : o.encoderInput = some cp)
    (hex : faceDepthExclusive o.This) :
    o.This._supercompressionGlobalData = some
      (globalHeaderBytes env (env.process cp).2.bfh
        ++ descBytes (allDescs env o.This (env.process cp).2 o.This.numLevels)
        ++ (byteRange (env.process cp).2.bf (env.process cp).2.bfh.m_endpoint_cb_file_ofs
              (env.process cp).2.bfh.m_endpoint_cb_file_size
          ++ byteRange (env.process cp).2.bf (env.process cp).2.bfh.m_selector_cb_file_ofs
              (env.process cp).2.bfh.m_selector_cb_file_size
          ++ byteRange (env.process cp).2.bf (env.process cp).2.bfh.m_tables_file_ofs
              (env.process cp).2.bfh.m_tables_file_size)) ∧
    (allDescs env o.This (env.process cp).2 o.This.numLevels).length = imageTotal o.This ∧
    cp.m_source_images.length = imageTotal o.This ∧
    (byteRange (env.process cp).2.bf (env.process cp).2.bfh.m_endpoint_cb_file_ofs
      (env.process cp).2.bfh.m_endpoint_cb_file_size).length
        = (env.process cp).2.bfh.m_endpoint_cb_file_size ∧
    (byteRange (env.process cp).2.bf (env.process cp).2.bfh.m_selector_cb_file_ofs
      (env.process cp).2.bfh.m_selector_cb_file_size).length
        = (env.process cp).2.bfh.m_selector_cb_file_size ∧
    (byteRange (env.process cp).2.bf (env.process cp).2.bfh.m_tables_file_ofs
      (env.process cp).2.bfh.m_tables_file_size).length
        = (env.process cp).2.bfh.m_tables_file_size ∧
    o.This._sgdByteLength = 28 + 20 * imageTotal o.This
      + (env.process cp).2.bfh.m_endpoint_cb_file_size
      + (env.process cp).2.bfh.m_selector_cb_file_size
      + (env.process cp).2.bfh.m_tables_file_size ∧
    (∀ i, i < 32 →
      (andNot32 (env.process cp).2.bfh.m_flags env.cBASISHeaderFlagYFlipped).testBit i
        = ((env.process cp).2.bfh.m_flags.testBit i
            && !env.cBASISHeaderFlagYFlipped.testBit i)) := by
  subst ho
  obtain ⟨tr, hr⟩ := compress_success_inv h
  obtain ⟨_, _, _, _, _, _, _, _, hres, hin, hout⟩ := run_facts hr
  rw [hin] at hcp
  injection hcp with hcp
  subst hcp
  rw [hres] at hex
  rw [hres, hout]
  obtain ⟨g1, g2, g3, g4, g5, g6, g7, g8, g9, r1, r2, r3, g10, g11, g12⟩ :=
    run_global_data hr
  have hn : imagesBefore tr.result tr.result.numLevels = imageTotal tr.result :=
    (imageTotal_exclusive hex).symm
  have hmod : imageTotal tr.result % U32 ≤ imageTotal tr.result := Nat.mod_le _ _
  have hni : tr.num_images = imageTotal tr.result := by omega
  have hk : kimagesOffset (imageTotal tr.result) = 28 + 20 * imageTotal tr.result := rfl
  have hlen : tr.asm.bgd.length = 28 + 20 * imageTotal tr.result
      + tr.out.bfh.m_endpoint_cb_file_size + tr.out.bfh.m_selector_cb_file_size
      + tr.out.bfh.m_tables_file_size := by
    rw [hn, hk] at g10
    rw [g11, hni] at g10 ⊢
    unfold bgdSize at g10 ⊢
    simp only [sizeof_ktxBasisGlobalHeader, sizeof_ktxBasisImageDesc, U32] at g10 ⊢
    omega
  have hl1 : ∀ a b, a + b ≤ tr.out.bf.length → (byteRange tr.out.bf a b).length = b := by
    intro a b hab
    simp [byteRange]; omega
  refine ⟨?_, ?_, ?_, hl1 _ _ r1, hl1 _ _ r2, hl1 _ _ r3, ?_,
    fun i hi => andNot32_testBit _ _ i hi⟩
  · rw [g1, ← g12, hn, hk]
    congr 1
    conv_lhs => rw [← List.take_length (l := tr.asm.bgd)]
    congr 1
    omega
  · rw [allDescs_length, hn]
  · rw [← g8, hni]
  · rw [g2, hlen]

/-- C5, on the texture of two levels. -/
theorem global_data_layout_witness :
    (ktxTexture2_CompressBasisEx exampleEnv exampleTexture (some exampleParams)).exit
      = .returned .KTX_SUCCESS ∧
    faceDepthExclusive
      (ktxTexture2_CompressBasisEx exampleEnv exampleTexture (some exampleParams)).This ∧
    (allDescs exampleEnv
      (ktxTexture2_CompressBasisEx exampleEnv exampleTexture (some exampleParams)).This
      exampleOutput 2).length
      = imageTotal
          (ktxTexture2_CompressBasisEx exampleEnv exampleTexture (some exampleParams)).This :=
  ⟨by decide, by unfold faceDepthExclusive; decide,
   (global_data_layout exampleEnv exampleTexture (some exampleParams) _
     (makeCompressorParams exampleParams
        [{ width := 2, height := 2, pixels := (List.range 20).drop 4 },
         { width := 1, height := 1, pixels := [0, 1, 2, 3] }] 2)
     rfl (by decide) (by decide) (by unfold faceDepthExclusive; decide)).2.1⟩

theorem sub32_lt (a b : Nat) : sub32 a b < U32 := Nat.mod_lt _ (by decide)

theorem sub32_self (a : Nat) : sub32 a a = 0 := by
  unfold sub32 U32
  omega

theorem sub32_of_le {a b : Nat} (h1 : b ≤ a) (h2 : a < U32) : sub32 a b = a - b := by
  unfold sub32
  unfold U32 at *
  omega

/-- The image descriptors in the global data when a successful run returns:
the descriptor of image `j` of level `l`. -/
theorem run_image_desc {env : Env} {This : ktxTexture2} {params : Option ktxBasisParams}
    {tr : RunTrace} (hr : IsSuccessfulRun env This params tr) (l j : Nat)
    (hl : l < tr.result.numLevels) (hj : j < imagesInLevel tr.result l) :
    sliceStride env tr.out * (imagesBefore tr.result l + j) + sliceStride env tr.out
      ≤ tr.out.slices.length ∧
    sgdImageDesc tr.asm.bgd (imagesBefore tr.result l + j) = some
      { rgbSliceByteOffset := (imageDesc env tr.out (imagesBefore tr.result l)
          (imagesBefore tr.result l + j)).rgbSliceByteOffset % U32
        rgbSliceByteLength := (imageDesc env tr.out (imagesBefore tr.result l)
          (imagesBefore tr.result l + j)).rgbSliceByteLength % U32
        alphaSliceByteOffset := (imageDesc env tr.out (imagesBefore tr.result l)
          (imagesBefore tr.result l + j)).alphaSliceByteOffset % U32
        alphaSliceByteLength := (imageDesc env tr.out (imagesBefore tr.result l)
          (imagesBefore tr.result l + j)).alphaSliceByteLength % U32
        imageFlags := (imageDesc env tr.out (imagesBefore tr.result l)
          (imagesBefore tr.result l + j)).imageFlags % U32 } := by
  obtain ⟨g1, g2, g3, g4, g5, g6, g7, g8, g9, r1, r2, r3, g10, g11, g12⟩ :=
    run_global_data hr
  have hmono := imagesBefore_mono tr.result (show l + 1 ≤ tr.result.numLevels by omega)
  simp only [imagesBefore] at hmono
  have hk : imagesBefore tr.result l + j < imagesBefore tr.result tr.result.numLevels := by
    omega
  constructor
  · have e : sliceStride env tr.out * (imagesBefore tr.result l + j) + sliceStride env tr.out
        = sliceStride env tr.out * (imagesBefore tr.result l + j + 1) := by ring
    rw [e]
    exact le_trans (Nat.mul_le_mul_left _ (by omega)) g4
  · have hget := allDescs_getElem? env tr.result tr.out tr.result.numLevels l j hl hj
    obtain ⟨post, hsplit, hprelen⟩ := descBytes_split _ _ _ hget
    have hbgd : tr.asm.bgd
        = (globalHeaderBytes env tr.out.bfh
            ++ descBytes ((allDescs env tr.result tr.out tr.result.numLevels).take
                (imagesBefore tr.result l + j)))
          ++ (imageDesc env tr.out (imagesBefore tr.result l)
                (imagesBefore tr.result l + j)).bytes
          ++ (post
            ++ (byteRange tr.out.bf tr.out.bfh.m_endpoint_cb_file_ofs
                  tr.out.bfh.m_endpoint_cb_file_size
              ++ byteRange tr.out.bf tr.out.bfh.m_selector_cb_file_ofs
                  tr.out.bfh.m_selector_cb_file_size
              ++ byteRange tr.out.bf tr.out.bfh.m_tables_file_ofs
                  tr.out.bfh.m_tables_file_size)
            ++ tr.asm.bgd.drop (kimagesOffset (imagesBefore tr.result tr.result.numLevels)
              + (tr.out.bfh.m_endpoint_cb_file_size + tr.out.bfh.m_selector_cb_file_size
                + tr.out.bfh.m_tables_file_size))) := by
      conv_lhs => rw [← List.take_append_drop
        (kimagesOffset (imagesBefore tr.result tr.result.numLevels)
          + (tr.out.bfh.m_endpoint_cb_file_size + tr.out.bfh.m_selector_cb_file_size
            + tr.out.bfh.m_tables_file_size)) tr.asm.bgd]
      rw [g12, hsplit]
      simp only [List.append_assoc]
    rw [hbgd]
    apply sgdImageDesc_append
    rw [List.length_append, hprelen]
    rfl

/-- C6: after a successful `ktxTexture2_CompressBasisEx`, the descriptor of
image `j` of level `l` (image `imagesBefore l + j` of the texture) in the
global data has, in `uint32_t` arithmetic: colour offset the file offset of
the colour slice of the image minus the file offset of the first slice of the
level, colour length the file size of that slice; with alpha slices, alpha
offset and length come in the same way from the slice behind the colour
slice; without, both are 0. The slices read lie in the slice table. The first
image of a level has colour offset 0, and where the file offset of the colour
slice is a 32-bit value not below that of the level the colour offset is
their difference as natural numbers. -/
theorem image_descriptor_offsets (env : Env) (This : ktxTexture2)
    (params : Option ktxBasisParams) (o : Outcome) (cp : basis_compressor_params)
    (ho : ktxTexture2_CompressBasisEx env This params = o)
    (h : o.exit = .returned .KTX_SUCCESS) (hcp : o.encoderInput = some cp) :
    ∃ sgd, o.This._supercompressionGlobalData = some sgd ∧
      ∀ l j, l < o.This.numLevels → j < imagesInLevel o.This l →
        sliceStride env (env.process cp).2 * (imagesBefore o.This l + j)
          + sliceStride env (env.process cp).2 ≤ (env.process cp).2.slices.length ∧
        ∃ d, sgdImageDesc sgd (imagesBefore o.This l + j) = some d ∧
          d.rgbSliceByteOffset
            = sub32 (sliceAt (env.process cp).2
                (sliceStride env (env.process cp).2 * (imagesBefore o.This l + j))).m_file_ofs
              (sliceAt (env.process cp).2
                (sliceStride env (env.process cp).2 * imagesBefore o.This l)).m_file_ofs ∧
          d.rgbSliceByteLength
            = (sliceAt (env.process cp).2
                (sliceStride env (env.process cp).2 * (imagesBefore o.This l + j))).m_file_size
              % U32 ∧
          (hasAlphaSlices env (env.process cp).2 = true →
            d.alphaSliceByteOffset
              = sub32 (sliceAt (env.process cp).2
                  (sliceStride env (env.process cp).2 * (imagesBefore o.This l + j)
                    + 1)).m_file_ofs
                (sliceAt (env.process cp).2
                  (sliceStride env (env.process cp).2 * imagesBefore o.This l)).m_file_ofs ∧
            d.alphaSliceByteLength
              = (sliceAt (env.process cp).2
                  (sliceStride env (env.process cp).2 * (imagesBefore o.This l + j)
                    + 1)).m_file_size % U32) ∧
          (hasAlphaSlices env (env.process cp).2 = false →
            d.alphaSliceByteOffset = 0 ∧ d.alphaSliceByteLength = 0) ∧
          (j = 0 → d.rgbSliceByteOffset = 0) ∧
          ((sliceAt (env.process cp).2
              (sliceStride env (env.process cp).2 * imagesBefore o.This l)).m_file_ofs
            ≤ (sliceAt (env.process cp).2
                (sliceStride env (env.process cp).2 * (imagesBefore o.This l + j))).m_file_ofs →
           (sliceAt (env.process cp).2
                (sliceStride env (env.process cp).2 * (imagesBefore o.This l + j))).m_file_ofs
              < U32 →
            d.rgbSliceByteOffset
              = (sliceAt (env.process cp).2
                  (sliceStride env (env.process cp).2 * (imagesBefore o.This l + j))).m_file_ofs
                - (sliceAt (env.process cp).2
                  (sliceStride env (env.process cp).2 * imagesBefore o.This l)).m_file_ofs) := by
  subst ho
  obtain ⟨tr, hr⟩ := compress_success_inv h
  obtain ⟨_, _, _, _, _, _, _, _, hres, hin, hout⟩ := run_facts hr
  rw [hin] at hcp
  injection hcp with hcp
  subst hcp
  rw [hres, hout]
  refine ⟨tr.asm.bgd, rfl, ?_⟩
  intro l j hl hj
  obtain ⟨hs, hd⟩ := run_image_desc hr l j hl hj
  refine ⟨hs, _, hd, ?_⟩
  by_cases hA : hasAlphaSlices env tr.out = true
  · simp only [imageDesc, descOfSlices, hA, if_true]
    refine ⟨Nat.mod_eq_of_lt (sub32_lt _ _), trivial, ?_, ?_, ?_, ?_⟩
    · intro _; exact ⟨Nat.mod_eq_of_lt (sub32_lt _ _), trivial⟩
    · intro hc; simp at hc
    · intro hj0; subst hj0
      rw [Nat.add_zero, sub32_self]; rfl
    · intro h1 h2
      rw [Nat.mod_eq_of_lt (sub32_lt _ _)]
      exact sub32_of_le h1 h2
  · have hA' : hasAlphaSlices env tr.out = false := by simpa using hA
    simp only [imageDesc, descOfSlices, hA', Bool.false_eq_true, if_false]
    refine ⟨Nat.mod_eq_of_lt (sub32_lt _ _), trivial, ?_, ?_, ?_, ?_⟩
    · intro hc; simp at hc
    · intro _; exact ⟨rfl, rfl⟩
    · intro hj0; subst hj0
      rw [Nat.add_zero, sub32_self]; rfl
    · intro h1 h2
      rw [Nat.mod_eq_of_lt (sub32_lt _ _)]
      exact sub32_of_le h1 h2

/-- C6, on the texture of two levels: the descriptor of the image of level 1.
-/
theorem image_descriptor_offsets_witness :
    (ktxTexture2_CompressBasisEx exampleEnv exampleTexture (some exampleParams)).exit
      = .returned .KTX_SUCCESS ∧
    ∃ sgd, (ktxTexture2_CompressBasisEx exampleEnv exampleTexture
        (some exampleParams)).This._supercompressionGlobalData = some sgd ∧
      ∃ d, sgdImageDesc sgd
          (imagesBefore (ktxTexture2_CompressBasisEx exampleEnv exampleTexture
            (some exampleParams)).This 1 + 0) = some d ∧
        d.rgbSliceByteLength = (sliceAt exampleOutput 1).m_file_size % U32 := by
  refine ⟨by decide, ?_⟩
  obtain ⟨sgd, hsgd, hall⟩ := image_descriptor_offsets exampleEnv exampleTexture
    (some exampleParams) _
    (makeCompressorParams exampleParams
      [{ width := 2, height := 2, pixels := (List.range 20).drop 4 },
       { width := 1, height := 1, pixels := [0, 1, 2, 3] }] 2)
    rfl (by decide) (by decide)
  obtain ⟨_, d, hd, _, hlen, _⟩ := hall 1 0 (by decide) (by decide)
  exact ⟨sgd, hsgd, d, hd, hlen⟩

/-! ## Containment of the slices in their level -/

theorem levelSum_mono (env : Env) (out : basis_output) (first : Nat) {a b : Nat}
    (h : a ≤ b) : levelSum env out first a ≤ levelSum env out first b := by
  induction b with
  | zero =>
    have : a = 0 := by omega
    subst this; exact le_refl _
  | succ b ih =>
    by_cases hab : a = b + 1
    · subst hab; exact le_refl _
    · have := ih (by omega)
      simp only [levelSum]; omega

theorem sub32_add (b x : Nat) : sub32 (b + x) b = x % U32 := by
  unfold sub32 U32
  omega

/-- With the slices of a level stored one behind the other, the colour slice
of image `j` of the level starts `levelSum j` bytes behind the level. -/
theorem contiguous_offset (env : Env) (out : basis_output) (first cnt : Nat)
    (hc : ∀ i, sliceStride env out * first ≤ i →
      i + 1 < sliceStride env out * (first + cnt) →
      (sliceAt out (i + 1)).m_file_ofs = (sliceAt out i).m_file_ofs + (sliceAt out i).m_file_size) :
    ∀ j, j < cnt →
      (sliceAt out (sliceStride env out * (first + j))).m_file_ofs
        = (sliceAt out (sliceStride env out * first)).m_file_ofs + levelSum env out first j := by
  intro j
  induction j with
  | zero => intro _; simp [levelSum]
  | succ j ih =>
    intro hj
    have ihj := ih (by omega)
    by_cases hA : hasAlphaSlices env out = true
    · have hs : sliceStride env out = 2 := by simp [sliceStride, hA]
      rw [hs] at hc ihj ⊢
      have c1 := hc (2 * (first + j)) (by omega) (by omega)
      have c2 := hc (2 * (first + j) + 1) (by omega) (by omega)
      have e : 2 * (first + (j + 1)) = 2 * (first + j) + 1 + 1 := by ring
      rw [e, c2, c1, ihj]
      simp only [levelSum, imageBytes, hs, hA, if_true]
      ring
    · have hA' : hasAlphaSlices env out = false := by simpa using hA
      have hs : sliceStride env out = 1 := by simp [sliceStride, hA']
      rw [hs] at hc ihj ⊢
      have c1 := hc (1 * (first + j)) (by omega) (by omega)
      have e : 1 * (first + (j + 1)) = 1 * (first + j) + 1 := by ring
      rw [e, c1, ihj]
      simp only [levelSum, imageBytes, hs, hA', Bool.false_eq_true, if_false]
      ring

/-- C7, the claim at an encoder output of two slices of `2^31` bytes that
follow each other in the file: the run succeeds, the slices of the level are
stored one behind the other, the descriptor of image 1 has colour offset
`2^31` and colour length `2^31`, and the byte length of level 0 in the level
index is 0, because `level_byte_length` is a `uint32_t`. So colour offset
plus colour length exceeds the byte length of the level. -/
theorem slice_exceeds_level_on_wrap :
    (ktxTexture2_CompressBasisEx wrapEnv twoLayerTexture (some exampleParams)).exit
      = .returned .KTX_SUCCESS ∧
    (sliceAt wrapOutput 1).m_file_ofs
      = (sliceAt wrapOutput 0).m_file_ofs + (sliceAt wrapOutput 0).m_file_size ∧
    ((ktxTexture2_CompressBasisEx wrapEnv twoLayerTexture
      (some exampleParams)).This._supercompressionGlobalData.bind
        (fun sgd => sgdImageDesc sgd 1))
      = some { rgbSliceByteOffset := 2147483648, rgbSliceByteLength := 2147483648
               alphaSliceByteOffset := 0, alphaSliceByteLength := 0, imageFlags := 0 } ∧
    (levelEntry (ktxTexture2_CompressBasisEx wrapEnv twoLayerTexture
      (some exampleParams)).This 0).byteLength = 0 ∧
    ¬ (2147483648 + 2147483648
      ≤ (levelEntry (ktxTexture2_CompressBasisEx wrapEnv twoLayerTexture
          (some exampleParams)).This 0).byteLength) := by
  decide

/-- C7, amended: provided the encoder stores the slices of each level one
behind the other in slice-table order and the file sizes of the slices of
each level add up to less than `2^32`, after a successful
`ktxTexture2_CompressBasisEx` every image descriptor has colour offset plus
colour length at most the byte length the level index records for the level
of the image and, with alpha slices, alpha offset plus alpha length at most
that byte length too. -/
theorem slices_within_level (env : Env) (This : ktxTexture2)
    (params : Option ktxBasisParams) (o : Outcome) (cp : basis_compressor_params)
    (ho : ktxTexture2_CompressBasisEx env This params = o)
    (h : o.exit = .returned .KTX_SUCCESS) (hcp : o.encoderInput = some cp)
    (hcontig : ∀ l, l < o.This.numLevels → ∀ i,
      sliceStride env (env.process cp).2 * imagesBefore o.This l ≤ i →
      i + 1 < sliceStride env (env.process cp).2 * imagesBefore o.This (l + 1) →
      (sliceAt (env.process cp).2 (i + 1)).m_file_ofs
        = (sliceAt (env.process cp).2 i).m_file_ofs
          + (sliceAt (env.process cp).2 i).m_file_size)
    (hfit : ∀ l, l < o.This.numLevels →
      levelSum env (env.process cp).2 (imagesBefore o.This l) (imagesInLevel o.This l) < U32) :
    ∃ sgd, o.This._supercompressionGlobalData = some sgd ∧
      ∀ l j, l < o.This.numLevels → j < imagesInLevel o.This l →
        ∃ d, sgdImageDesc sgd (imagesBefore o.This l + j) = some d ∧
          d.rgbSliceByteOffset + d.rgbSliceByteLength ≤ (levelEntry o.This l).byteLength ∧
          (hasAlphaSlices env (env.process cp).2 = true →
            d.alphaSliceByteOffset + d.alphaSliceByteLength
              ≤ (levelEntry o.This l).byteLength) := by
  subst ho
  obtain ⟨tr, hr⟩ := compress_success_inv h
  obtain ⟨_, e2, e3, e4, _, _, _, _, hres, hin, hout⟩ := run_facts hr
  rw [hin] at hcp
  injection hcp with hcp
  subst hcp
  rw [hres, hout] at hcontig hfit
  rw [hres, hout]
  refine ⟨tr.asm.bgd, rfl, ?_⟩
  intro l j hl hj
  obtain ⟨_, hd⟩ := run_image_desc hr l j hl hj
  refine ⟨_, hd, ?_⟩
  obtain ⟨_, hlev, _⟩ := run_levels hr
  have hbl : (levelEntry tr.result l).byteLength
      = levelSum env tr.out (imagesBefore tr.result l) (imagesInLevel tr.result l) := by
    rw [(hlev l hl).1, ← levelBytes_congr (T := tr.released) env tr.out e2 e3 e4 l]
    exact Nat.mod_eq_of_lt (hfit l hl)
  have hoff := contiguous_offset env tr.out (imagesBefore tr.result l)
    (imagesInLevel tr.result l) (hcontig l hl) j hj
  have hstep : levelSum env tr.out (imagesBefore tr.result l) (j + 1)
      ≤ levelSum env tr.out (imagesBefore tr.result l) (imagesInLevel tr.result l) :=
    levelSum_mono env tr.out _ (by omega)
  have hfitl := hfit l hl
  rw [hbl]
  simp only [levelSum, imageBytes] at hstep
  by_cases hA : hasAlphaSlices env tr.out = true
  · have hs : sliceStride env tr.out = 2 := by simp [sliceStride, hA]
    have halpha := hcontig l hl (sliceStride env tr.out * (imagesBefore tr.result l + j))
      (by rw [hs]; omega) (by simp only [imagesBefore]; rw [hs]; omega)
    simp only [imageDesc, descOfSlices, hA, if_true, halpha, hoff] at hstep ⊢
    rw [Nat.add_assoc, sub32_add, sub32_add]
    simp only [U32, Nat.mod_mod] at hfitl ⊢
    refine ⟨?_, fun _ => ?_⟩ <;> omega
  · have hA' : hasAlphaSlices env tr.out = false := by simpa using hA
    simp only [imageDesc, descOfSlices, hA', Bool.false_eq_true, if_false, hoff] at hstep ⊢
    rw [sub32_add]
    simp only [U32, Nat.mod_mod] at hfitl ⊢
    refine ⟨?_, fun hc => ?_⟩
    · omega
    · simp at hc

/-- C7 amended, on a level of two slices stored one behind the other. -/
theorem slices_within_level_witness :
    (ktxTexture2_CompressBasisEx twoLayerEnv twoLayerTexture (some exampleParams)).exit
      = .returned .KTX_SUCCESS ∧
    (sliceAt exampleOutput 1).m_file_ofs
      = (sliceAt exampleOutput 0).m_file_ofs + (sliceAt exampleOutput 0).m_file_size ∧
    ∃ sgd, (ktxTexture2_CompressBasisEx twoLayerEnv twoLayerTexture
        (some exampleParams)).This._supercompressionGlobalData = some sgd ∧
      ∃ d, sgdImageDesc sgd 1 = some d ∧
        d.rgbSliceByteOffset + d.rgbSliceByteLength
          ≤ (levelEntry (ktxTexture2_CompressBasisEx twoLayerEnv twoLayerTexture
              (some exampleParams)).This 0).byteLength := by
  refine ⟨by decide, by decide, ?_⟩
  obtain ⟨sgd, hsgd, hall⟩ := slices_within_level twoLayerEnv twoLayerTexture
    (some exampleParams) _
    (makeCompressorParams exampleParams
      [{ width := 1, height := 1, pixels := [0, 1, 2, 3] },
       { width := 1, height := 1, pixels := [4, 5, 6, 7] }] 2)
    rfl (by decide) (by decide)
    (by
      intro l hl i h1 h2
      have hl0 : l = 0 := by
        have : l < 1 := hl
        omega
      subst hl0
      have hi : i = 0 := by
        have : i + 1 < 2 := h2
        omega
      subst hi
      decide)
    (by
      intro l hl
      have hl0 : l = 0 := by
        have : l < 1 := hl
        omega
      subst hl0
      decide)
  obtain ⟨d, hd, hle, _⟩ := hall 0 1 (by decide) (by decide)
  exact ⟨sgd, hsgd, d, hd, hle⟩

/-! ## The three image counts -/

/-- C8, the claim at a texture of one level with `2^16` layers and depth
`2^16` (one face, so face/depth exclusivity holds): the count computed before
compression is 0, because it is computed in `uint32_t`, while the sum over the
levels and the number of images the packing and assembly loop nests visit is
`2^32`; with the count 0 the packing loop cannot complete. -/
theorem image_count_wraps :
    faceDepthExclusive overflowTexture ∧
    calcNumImages overflowTexture = .ok 0 ∧
    imageTotal overflowTexture = 4294967296 ∧
    imagesBefore overflowTexture overflowTexture.numLevels = 4294967296 ∧
    ∀ images, packImages exampleEnv overflowTexture (some .copy_rgba_to_rgba) none 4 0
      ≠ .ok images := by
  refine ⟨by unfold faceDepthExclusive; decide, by decide, ?_, by decide, ?_⟩
  · simp [imageTotal, overflowTexture, exampleTexture]
  · intro images hp
    obtain ⟨_, h1, h2⟩ := packImages_length hp
    have h3 : imagesBefore overflowTexture overflowTexture.numLevels = 4294967296 := by decide
    omega

/-- C8, amended: for every texture that satisfies face/depth exclusivity, has
at most 32 levels and whose sum over the levels of layers times faces times
depth of the level is below `2^32`, the image count computed before
compression is that sum; the packing loop, when it completes, has staged that
many images; and the assembly loop, when it completes, has written that many
image descriptors, which follow the header of the global data. -/
theorem image_counts_agree (env : Env) (T : ktxTexture2) (hex : faceDepthExclusive T)
    (hlev : T.numLevels ≤ 32) (hfit : imageTotal T < U32) :
    calcNumImages T = .ok (imageTotal T) ∧
    (∀ cb m src_len images, packImages env T cb m src_len (imageTotal T) = .ok images →
      images.length = imageTotal T) ∧
    (∀ out asm, assembleGlobalData env T out (imageTotal T) = .ok asm →
      asm.image = imageTotal T ∧
      (allDescs env T out T.numLevels).length = imageTotal T ∧
      asm.bgd.take (kimagesOffset (imageTotal T))
        = globalHeaderBytes env out.bfh ++ descBytes (allDescs env T out T.numLevels)) := by
  have hn : imagesBefore T T.numLevels = imageTotal T := (imageTotal_exclusive hex).symm
  refine ⟨?_, ?_, ?_⟩
  · rw [calcNumImages_eq T hlev, Nat.mod_eq_of_lt hfit]
  · intro cb m src_len images hp
    rw [(packImages_length hp).2.1, hn]
  · intro out asm ha
    obtain ⟨_, _, hinv, _⟩ := assembleGlobalData_spec ha
    have h1 := hinv.image_eq
    have h2 := hinv.bgd_take
    simp only [Nat.add_zero, levelDescs, List.range_zero, List.map_nil, List.append_nil]
      at h1 h2
    rw [hn] at h1 h2
    exact ⟨h1, by rw [allDescs_length, hn], h2⟩

/-- C8 amended, on the texture of two levels: the computed count is 2. -/
theorem image_counts_agree_witness :
    faceDepthExclusive exampleTexture ∧ exampleTexture.numLevels ≤ 32 ∧
    imageTotal exampleTexture < U32 ∧
    calcNumImages exampleTexture = .ok (imageTotal exampleTexture) :=
  ⟨by unfold faceDepthExclusive; decide, by decide,
   by simp [imageTotal, exampleTexture, Finset.sum_range_succ, U32],
   (image_counts_agree exampleEnv exampleTexture (by unfold faceDepthExclusive; decide)
     (by decide)
     (by simp [imageTotal, exampleTexture, Finset.sum_range_succ, U32])).1⟩

/-! ## The callback `swizzle_to_rgba` on four components -/

/-- C11, the code at two pixels of four components: with the mapping
(R,G,B,ONE) the `ONE` case writes `rgbadst[i + c]` although `rgbadst` has
already advanced to the pixel, so for pixel 1 it addresses byte 11 of the
destination instead of byte 7. With a destination of 8 bytes that is outside
the destination; with a destination of 12 bytes byte 7 keeps its old value 0
and byte 11 receives 0xff. A whole call on a texture of four components with
the swizzle metadata `rgb1` ends in this access. Mappings without `ONE`
(here (A,ZERO,R,G)) and a single pixel come out as the claim says. -/
theorem swizzle_to_rgba_one_misplaced :
    swizzle_to_rgba [0, 0, 0, 0, 0, 0, 0, 0] [1, 2, 3, 4, 5, 6, 7, 8] 4 8
        (some [.R, .G, .B, .ONE])
      = .error .undefinedBehaviour ∧
    swizzle_to_rgba [0, 0, 0, 0, 0, 0, 0, 0, 0, 0, 0, 0] [1, 2, 3, 4, 5, 6, 7, 8] 4 8
        (some [.R, .G, .B, .ONE])
      = .ok [1, 2, 3, 255, 5, 6, 7, 0, 0, 0, 0, 255] ∧
    chooseMapping rgb1Texture preSwizzleParams 4 = .ok (some [.R, .G, .B, .ONE]) ∧
    (ktxTexture2_CompressBasisEx exampleEnv rgb1Texture (some preSwizzleParams)).exit
      = .fault .undefinedBehaviour ∧
    swizzle_to_rgba [9, 9, 9, 9, 9, 9, 9, 9] [1, 2, 3, 4, 5, 6, 7, 8] 4 8
        (some [.A, .ZERO, .R, .G])
      = .ok [4, 0, 1, 2, 8, 0, 5, 6] ∧
    swizzle_to_rgba [9, 9, 9, 9] [1, 2, 3, 4] 4 4 (some [.R, .G, .B, .ONE])
      = .ok [1, 2, 3, 255] := by
  decide

/-! ## The swizzle of the metadata (lines 364-416) -/

theorem metaMappingStep_spec (s : List Char) (i : Nat) (ch : Char) (m : List swizzle_e)
    (hs : s[i]? = some ch) (hm : m[i]? = some .R) :
    metaMappingStep s i m = .ok (m.set i (swizzleOfChar ch)) := by
  have hself : m.set i .R = m := by
    apply List.ext_getElem?
    intro j
    by_cases hj : i = j
    · subst hj
      rw [hm]
      have hlt : i < m.length := by
        by_contra hge
        rw [List.getElem?_eq_none (by omega)] at hm
        exact absurd hm (by simp)
      simp [List.getElem?_set, hlt]
    · simp [List.getElem?_set, hj]
  unfold metaMappingStep swizzleOfChar readAt
  simp only [hs, bind, Except.bind, pure, Except.pure]
  split_ifs <;> simp [hself]

theorem metaMapping_loop (c0 c1 c2 c3 : Char) (rest : List Char) :
    forUpTo 4 (metaMappingStep (c0 :: c1 :: c2 :: c3 :: rest)) [.R, .R, .R, .R]
      = .ok [swizzleOfChar c0, swizzleOfChar c1, swizzleOfChar c2, swizzleOfChar c3] := by
  simp only [forUpTo, bind, Except.bind]
  rw [metaMappingStep_spec _ 0 c0 _ rfl rfl]
  simp only [List.set]
  rw [metaMappingStep_spec _ 1 c1 _ rfl rfl]
  simp only [List.set]
  rw [metaMappingStep_spec _ 2 c2 _ rfl rfl]
  simp only [List.set]
  rw [metaMappingStep_spec _ 3 c3 _ (by simp) (by simp)]
  simp only [List.set]

theorem strncmp_ne_four (c0 c1 c2 c3 d0 d1 d2 d3 : Char) (rest : List Char)
    (h0 : d0 ≠ Char.ofNat 0) (h1 : d1 ≠ Char.ofNat 0) (h2 : d2 ≠ Char.ofNat 0) :
    strncmp_ne (c0 :: c1 :: c2 :: c3 :: rest) [d0, d1, d2, d3, Char.ofNat 0] 4 0
      = .ok (decide ([c0, c1, c2, c3] ≠ [d0, d1, d2, d3])) := by
  simp only [strncmp_ne, readAt, bind, Except.bind, pure, Except.pure,
    List.getElem?_cons_zero, List.getElem?_cons_succ, Nat.zero_add, Nat.reduceAdd]
  by_cases e0 : c0 = d0
  · subst e0
    by_cases e1 : c1 = d1
    · subst e1
      by_cases e2 : c2 = d2
      · subst e2
        by_cases e3 : c3 = d3
        · subst e3
          simp [h0, h1, h2]
        · simp [h0, h1, h2, e3]
      · simp [h0, h1, e2]
    · simp [h0, e1]
  · simp [e0]


theorem swizzleCondition_eq (nc : Nat) (c0 c1 c2 c3 : Char) (rest : List Char)
    (hnc : nc = 2 ∨ nc = 3 ∨ nc = 4) :
    swizzleCondition nc (c0 :: c1 :: c2 :: c3 :: rest)
      = .ok (decide ([c0, c1, c2, c3] ≠ identityPattern nc)) := by
  have l2 : cLiteral "rg01" = ['r', 'g', '0', '1', Char.ofNat 0] := by decide
  have l3 : cLiteral "rgb1" = ['r', 'g', 'b', '1', Char.ofNat 0] := by decide
  have l4 : cLiteral "rgba" = ['r', 'g', 'b', 'a', Char.ofNat 0] := by decide
  unfold swizzleCondition identityPattern
  rcases hnc with h | h | h <;> subst h
  · simp only [if_true, l2]
    exact strncmp_ne_four _ _ _ _ _ _ _ _ _ (by decide) (by decide) (by decide)
  · simp only [Nat.reduceEqDiff, if_false, if_true, l3]
    exact strncmp_ne_four _ _ _ _ _ _ _ _ _ (by decide) (by decide) (by decide)
  · simp only [Nat.reduceEqDiff, if_false, if_true, l4]
    exact strncmp_ne_four _ _ _ _ _ _ _ _ _ (by decide) (by decide) (by decide)

theorem metadataMapping_eq (This : ktxTexture2) (p : ktxBasisParams) (nc : Nat)
    (c0 c1 c2 c3 : Char) (rest : List Char) (hpre : p.preSwizzle = true)
    (hfind : ktxHashList_FindValue This.kvDataHead KTX_SWIZZLE_KEY
      = some (c0 :: c1 :: c2 :: c3 :: rest))
    (hnc : nc = 2 ∨ nc = 3 ∨ nc = 4) :
    metadataMapping This p nc
      = .ok (if [c0, c1, c2, c3] ≠ identityPattern nc then
          some [swizzleOfChar c0, swizzleOfChar c1, swizzleOfChar c2, swizzleOfChar c3]
        else none) := by
  unfold metadataMapping
  simp only [hpre, if_true, hfind, swizzleCondition_eq nc c0 c1 c2 c3 rest hnc, bind,
    Except.bind, metaMapping_loop, pure, Except.pure]
  by_cases h : [c0, c1, c2, c3] = identityPattern nc
  · simp [h]
  · simp [h]

/-- C12, the claim at a texture of four components with the swizzle metadata
`argb`, pre-swizzle requested, no split: the string is not ignored. The
mapping (A,R,G,B) is derived from it, the callback is `swizzle_to_rgba`, and
the images the encoder receives are not the byte-identical copy of the pixel
data (which the same texture without the metadata gives) but its swizzle. -/
theorem swizzle_metadata_not_ignored :
    argbTexture.kvDataHead = [("KTXswizzle", ['a', 'r', 'g', 'b', Char.ofNat 0])] ∧
    preSwizzleParams.preSwizzle = true ∧ preSwizzleParams.separateRGToRGB_A = false ∧
    chooseMapping argbTexture preSwizzleParams 4 = .ok (some [.A, .R, .G, .B]) ∧
    chooseMapping argbTexture preSwizzleParams 4 ≠ .ok none ∧
    (ktxTexture2_CompressBasisEx exampleEnv argbTexture (some preSwizzleParams)).exit
      = .returned .KTX_SUCCESS ∧
    (ktxTexture2_CompressBasisEx exampleEnv exampleTexture
        (some exampleParams)).encoderInput.map (fun cp => cp.m_source_images)
      = some [{ width := 2, height := 2
                pixels := [4, 5, 6, 7, 8, 9, 10, 11, 12, 13, 14, 15, 16, 17, 18, 19] },
              { width := 1, height := 1, pixels := [0, 1, 2, 3] }] ∧
    (ktxTexture2_CompressBasisEx exampleEnv argbTexture
        (some preSwizzleParams)).encoderInput.map (fun cp => cp.m_source_images)
      = some [{ width := 2, height := 2
                pixels := [7, 4, 5, 6, 11, 8, 9, 10, 15, 12, 13, 14, 19, 16, 17, 18] },
              { width := 1, height := 1, pixels := [3, 0, 1, 2] }] := by
  decide

/-- C12, as the code has it: suppose pre-swizzle is requested and the texture
has swizzle metadata of at least four characters `c0 c1 c2 c3`. For a texture
of three or four components without the split option, if the four characters
differ from the identity pattern of the component count (`rgb1`, `rgba`) the
component mapping is derived from them, entry by entry (`r`, `g`, `b`, `a`,
`0`, `1` give R, G, B, A, ZERO, ONE, any other character R), and the callback
is `swizzle_to_rgba`; if they equal the identity pattern no mapping is derived
and the callback is the default one of the component count
(`copy_rgba_to_rgba` for four components, `copy_rgb_to_rgba` for three). For a
texture of two components the mapping is (R,R,R,G) whatever the string. -/
theorem metadata_swizzle_applied (env : Env) (This : ktxTexture2) (p : ktxBasisParams)
    (nc : Nat) (c0 c1 c2 c3 : Char) (rest : List Char)
    (hpre : p.preSwizzle = true)
    (hfind : ktxHashList_FindValue This.kvDataHead KTX_SWIZZLE_KEY
      = some (c0 :: c1 :: c2 :: c3 :: rest)) :
    ((nc = 3 ∨ nc = 4) → p.separateRGToRGB_A = false →
      [c0, c1, c2, c3] ≠ identityPattern nc →
      chooseMapping This p nc
        = .ok (some [swizzleOfChar c0, swizzleOfChar c1, swizzleOfChar c2, swizzleOfChar c3]) ∧
      chooseCopycb env.NDEBUG
          (some [swizzleOfChar c0, swizzleOfChar c1, swizzleOfChar c2, swizzleOfChar c3]) nc
        = .ok (some .swizzle_to_rgba)) ∧
    ((nc = 3 ∨ nc = 4) → p.separateRGToRGB_A = false →
      [c0, c1, c2, c3] = identityPattern nc →
      chooseMapping This p nc = .ok none ∧
      chooseCopycb env.NDEBUG none nc
        = .ok (some (if nc = 4 then .copy_rgba_to_rgba else .copy_rgb_to_rgba))) ∧
    (nc = 2 →
      chooseMapping This p nc = .ok (some [.R, .R, .R, .G]) ∧
      chooseCopycb env.NDEBUG (some [.R, .R, .R, .G]) nc = .ok (some .swizzle_to_rgba)) := by
  refine ⟨?_, ?_, ?_⟩
  · intro hnc hsplit hne
    have hm := metadataMapping_eq This p nc c0 c1 c2 c3 rest hpre hfind (Or.inr hnc)
    refine ⟨?_, rfl⟩
    unfold chooseMapping
    rw [hm]
    rcases hnc with h | h <;> subst h <;> simp [hsplit, hne, bind, Except.bind, pure, Except.pure]
  · intro hnc hsplit heq
    have hm := metadataMapping_eq This p nc c0 c1 c2 c3 rest hpre hfind (Or.inr hnc)
    constructor
    · unfold chooseMapping
      rw [hm]
      rcases hnc with h | h <;> subst h <;>
        simp [hsplit, heq, bind, Except.bind, pure, Except.pure]
    · rcases hnc with h | h <;> subst h <;> simp [chooseCopycb, pure, Except.pure]
  · intro hnc
    have hm := metadataMapping_eq This p nc c0 c1 c2 c3 rest hpre hfind (Or.inl hnc)
    refine ⟨?_, rfl⟩
    unfold chooseMapping
    rw [hm]
    subst hnc
    simp [bind, Except.bind, pure, Except.pure]

/-- C12, as the code has it, at the metadata `argb` on a texture of four
components. -/
theorem metadata_swizzle_applied_witness :
    preSwizzleParams.preSwizzle = true ∧
    ktxHashList_FindValue argbTexture.kvDataHead KTX_SWIZZLE_KEY
      = some ('a' :: 'r' :: 'g' :: 'b' :: [Char.ofNat 0]) ∧
    ((4 : Nat) = 3 ∨ (4 : Nat) = 4) ∧ preSwizzleParams.separateRGToRGB_A = false ∧
    ['a', 'r', 'g', 'b'] ≠ identityPattern 4 ∧
    chooseMapping argbTexture preSwizzleParams 4
      = .ok (some [swizzleOfChar 'a', swizzleOfChar 'r', swizzleOfChar 'g', swizzleOfChar 'b']) ∧
    chooseCopycb exampleEnv.NDEBUG
        (some [swizzleOfChar 'a', swizzleOfChar 'r', swizzleOfChar 'g', swizzleOfChar 'b']) 4
      = .ok (some .swizzle_to_rgba) :=
  ⟨rfl, by decide, Or.inr rfl, rfl, by decide,
   (metadata_swizzle_applied exampleEnv argbTexture preSwizzleParams 4 'a' 'r' 'g' 'b'
     [Char.ofNat 0] rfl (by decide)).1 (Or.inr rfl) rfl (by decide)⟩

/-! ## The descriptor rewrite (lines 217-267) -/

theorem andNot32_testBit_gen (x c i : Nat) :
    (andNot32 x c).testBit i = (x.testBit i && (decide (i < 32) ^^ c.testBit i)) := by
  unfold andNot32
  rw [Nat.testBit_and, Nat.testBit_xor]
  have : (4294967295 : Nat) = 2 ^ 32 - 1 := by norm_num
  rw [this, Nat.testBit_two_pow_sub_one]

theorem setField_testBit (w shift k val i : Nat) (hk : shift + k ≤ 32) :
    (setField w shift (2 ^ k - 1) val).testBit i
      = if shift ≤ i ∧ i < shift + k then val.testBit (i - shift)
        else (w.testBit i && decide (i < 32)) := by
  have hU : U32 = 2 ^ 32 := by decide
  unfold setField
  rw [Nat.testBit_or, andNot32_testBit_gen, hU, Nat.testBit_mod_two_pow,
    Nat.testBit_mod_two_pow, Nat.testBit_shiftLeft, Nat.testBit_shiftLeft, Nat.testBit_and,
    Nat.testBit_two_pow_sub_one]
  by_cases h1 : shift ≤ i
  · by_cases h2 : i < shift + k
    · have h3 : i < 32 := by omega
      have h4 : i - shift < k := by omega
      simp [h1, h2, h3, h4]
    · have h4 : ¬ (i - shift < k) := by omega
      by_cases h3 : i < 32
      · simp [h1, h2, h3, h4]
      · simp [h1, h2, h3, h4]
  · have h2 : ¬ (i ≥ shift) := by omega
    by_cases h3 : i < 32
    · simp [h1, h2, h3]
    · simp [h1, h2, h3]

theorem setField_zero32 (w : Nat) : setField w 0 0xFFFFFFFF 0 = 0 := by
  apply Nat.eq_of_testBit_eq
  intro i
  have hm : (0xFFFFFFFF : Nat) = 2 ^ 32 - 1 := by norm_num
  rw [hm, setField_testBit w 0 32 0 i (by omega)]
  by_cases h : i < 32
  · simp [h]
  · simp [h]

theorem unsizedSampleWord_testBit (w i : Nat) :
    (unsizedSampleWord w).testBit i = (w.testBit i && decide (24 ≤ i ∧ i < 32)) := by
  have h16 : (0xFFFF : Nat) = 2 ^ 16 - 1 := by norm_num
  have h8 : (0xFF : Nat) = 2 ^ 8 - 1 := by norm_num
  unfold unsizedSampleWord
  rw [h8, setField_testBit _ 16 8 0 i (by omega), h16, setField_testBit _ 0 16 0 i (by omega)]
  by_cases h1 : i < 16
  · have : ¬ (16 ≤ i ∧ i < 16 + 8) := by omega
    have h2 : ¬ (24 ≤ i ∧ i < 32) := by omega
    simp [h1, this, h2]
  · by_cases h2 : i < 24
    · have : (16 ≤ i ∧ i < 16 + 8) := by omega
      have h3 : ¬ (24 ≤ i ∧ i < 32) := by omega
      simp [this, h3]
    · have : ¬ (16 ≤ i ∧ i < 16 + 8) := by omega
      have h0 : ¬ (0 ≤ i ∧ i < 0 + 16) := by omega
      by_cases h3 : i < 32
      · have h4 : (24 ≤ i ∧ i < 32) := by omega
        simp [this, h0, h3, h4]
        intros; omega
      · have h4 : ¬ (24 ≤ i ∧ i < 32) := by omega
        simp [this, h0, h3, h4]

/-- The fields of the first word of a sample after lines 258-259. -/
theorem unsizedSampleWord_fields (w : Nat) :
    (unsizedSampleWord w >>> 0) &&& 0xFFFF = 0 ∧
    (unsizedSampleWord w >>> 16) &&& 0xFF = 0 ∧
    (unsizedSampleWord w >>> 24) &&& 0xFF = (w >>> 24) &&& 0xFF := by
  have h16 : (0xFFFF : Nat) = 2 ^ 16 - 1 := by norm_num
  have h8 : (0xFF : Nat) = 2 ^ 8 - 1 := by norm_num
  refine ⟨?_, ?_, ?_⟩
  · apply Nat.eq_of_testBit_eq
    intro i
    rw [h16, Nat.testBit_and, Nat.testBit_shiftRight, unsizedSampleWord_testBit,
      Nat.testBit_two_pow_sub_one]
    by_cases h : i < 16
    · have : ¬ (24 ≤ 0 + i ∧ 0 + i < 32) := by omega
      simp [this]
      intros; omega
    · simp [h]
  · apply Nat.eq_of_testBit_eq
    intro i
    rw [h8, Nat.testBit_and, Nat.testBit_shiftRight, unsizedSampleWord_testBit,
      Nat.testBit_two_pow_sub_one]
    by_cases h : i < 8
    · have : ¬ (24 ≤ 16 + i ∧ 16 + i < 32) := by omega
      simp [this]
    · simp [h]
  · apply Nat.eq_of_testBit_eq
    intro i
    rw [h8, Nat.testBit_and, Nat.testBit_and, Nat.testBit_shiftRight, Nat.testBit_shiftRight,
      unsizedSampleWord_testBit, Nat.testBit_two_pow_sub_one]
    by_cases h : i < 8
    · have : (24 ≤ 24 + i ∧ 24 + i < 32) := by omega
      simp [this]
    · simp [h]

/-- The fields of the word that holds the version number and the descriptor
block size after `KHR_DFDSETVAL(nbdb, DESCRIPTORBLOCKSIZE, v)`. -/
theorem blockSizeWord_fields (w v : Nat) (hv : v < 65536) :
    (setField w 16 0xFFFF v >>> 16) &&& 0xFFFF = v ∧
    (setField w 16 0xFFFF v >>> 0) &&& 0xFFFF = (w >>> 0) &&& 0xFFFF := by
  have h16 : (0xFFFF : Nat) = 2 ^ 16 - 1 := by norm_num
  refine ⟨?_, ?_⟩
  · apply Nat.eq_of_testBit_eq
    intro i
    rw [h16, Nat.testBit_and, Nat.testBit_shiftRight, setField_testBit _ 16 16 v _ (by omega),
      Nat.testBit_two_pow_sub_one]
    by_cases h : i < 16
    · have : (16 ≤ 16 + i ∧ 16 + i < 16 + 16) := by omega
      simp [this, h]
    · have hv' : v.testBit i = false :=
        Nat.testBit_lt_two_pow (Nat.lt_of_lt_of_le hv
          (by
            have : (65536 : Nat) = 2 ^ 16 := by norm_num
            rw [this]
            exact Nat.pow_le_pow_right (by omega) (by omega)))
      simp [h, hv']
  · apply Nat.eq_of_testBit_eq
    intro i
    rw [h16, Nat.testBit_and, Nat.testBit_and, Nat.testBit_shiftRight, Nat.testBit_shiftRight,
      setField_testBit _ 16 16 v _ (by omega), Nat.testBit_two_pow_sub_one]
    by_cases h : i < 16
    · have : ¬ (16 ≤ i ∧ i < 32) := by omega
      have h32 : i < 32 := by omega
      simp [this, h, h32]
    · simp [h]

theorem KHR_DFDSETVAL_eq (dfd : List Nat) (word shift mask val w : Nat)
    (hw : dfd[1 + word]? = some w) :
    KHR_DFDSETVAL dfd word shift mask val
      = .ok (dfd.set (1 + word) (setField w shift mask val)) := by
  have hlt : 1 + word < dfd.length := by
    by_contra hge
    rw [List.getElem?_eq_none (by omega)] at hw
    exact absurd hw (by simp)
  unfold KHR_DFDSETVAL readAt writeAt setField
  simp [hw, hlt, bind, Except.bind]

theorem rewriteDfd_sample_eq (l : List Nat) (s w0 w2 w3 : Nat)
    (h0 : l[7 + 4 * s]? = some w0) (h2 : l[7 + 4 * s + 2]? = some w2)
    (h3 : l[7 + 4 * s + 3]? = some w3) :
    rewriteDfd_sample s l
      = .ok (((l.set (7 + 4 * s) (unsizedSampleWord w0)).set (7 + 4 * s + 2)
          (setField w2 0 0xFFFFFFFF 0)).set (7 + 4 * s + 3) (setField w3 0 0xFFFFFFFF 0)) := by
  have e0 : 1 + (KHR_DF_WORD_SAMPLESTART + s * KHR_DF_WORD_SAMPLEWORDS + 0) = 7 + 4 * s := by
    unfold KHR_DF_WORD_SAMPLESTART KHR_DF_WORD_SAMPLEWORDS; omega
  have e2 : 1 + (KHR_DF_WORD_SAMPLESTART + s * KHR_DF_WORD_SAMPLEWORDS + 2) = 7 + 4 * s + 2 := by
    unfold KHR_DF_WORD_SAMPLESTART KHR_DF_WORD_SAMPLEWORDS; omega
  have e3 : 1 + (KHR_DF_WORD_SAMPLESTART + s * KHR_DF_WORD_SAMPLEWORDS + 3) = 7 + 4 * s + 3 := by
    unfold KHR_DF_WORD_SAMPLESTART KHR_DF_WORD_SAMPLEWORDS; omega
  have hlt : 7 + 4 * s < l.length := by
    by_contra hge
    rw [List.getElem?_eq_none (by omega)] at h0
    exact absurd h0 (by simp)
  unfold rewriteDfd_sample KHR_DFDSETSVAL
  rw [KHR_DFDSETVAL_eq l _ 0 0xFFFF 0 w0 (by rw [e0]; exact h0)]
  simp only [bind, Except.bind]
  rw [KHR_DFDSETVAL_eq _ _ 16 0xFF 0 (setField w0 0 0xFFFF 0)
    (by rw [e0]; simp [List.getElem?_set, hlt])]
  simp only [List.set_set]
  rw [KHR_DFDSETVAL_eq _ _ 0 0xFFFFFFFF 0 w2
    (by rw [e0, e2, List.getElem?_set_ne (by omega)]; exact h2)]
  simp only
  rw [KHR_DFDSETVAL_eq _ _ 0 0xFFFFFFFF 0 w3
    (by rw [e0, e2, e3, List.getElem?_set_ne (by omega), List.getElem?_set_ne (by omega)]
        exact h3)]
  rw [e0, e2, e3]
  rfl

theorem rewriteDfd_samples_spec (l : List Nat) (k : Nat) (hk : 7 + 4 * k ≤ l.length) :
    ∃ r, forUpTo k rewriteDfd_sample l = .ok r ∧ r.length = l.length ∧
      (∀ i, i < 7 ∨ 7 + 4 * k ≤ i → r[i]? = l[i]?) ∧
      ∀ s, s < k →
        r[7 + 4 * s]? = (l[7 + 4 * s]?).map unsizedSampleWord ∧
        r[7 + 4 * s + 1]? = l[7 + 4 * s + 1]? ∧
        r[7 + 4 * s + 2]? = some 0 ∧ r[7 + 4 * s + 3]? = some 0 := by
  induction k with
  | zero => exact ⟨l, rfl, rfl, fun _ _ => rfl, fun s hs => absurd hs (by omega)⟩
  | succ k ih =>
    obtain ⟨r, hr, hlen, hframe, hsamp⟩ := ih (by omega)
    have g0 : r[7 + 4 * k]? = some l[7 + 4 * k] := by
      rw [hframe _ (Or.inr (by omega)), List.getElem?_eq_getElem]
    have g2 : r[7 + 4 * k + 2]? = some l[7 + 4 * k + 2] := by
      rw [hframe _ (Or.inr (by omega)), List.getElem?_eq_getElem]
    have g3 : r[7 + 4 * k + 3]? = some l[7 + 4 * k + 3] := by
      rw [hframe _ (Or.inr (by omega)), List.getElem?_eq_getElem]
    refine ⟨((r.set (7 + 4 * k) (unsizedSampleWord l[7 + 4 * k])).set (7 + 4 * k + 2)
        (setField l[7 + 4 * k + 2] 0 0xFFFFFFFF 0)).set (7 + 4 * k + 3)
        (setField l[7 + 4 * k + 3] 0 0xFFFFFFFF 0), ?_, ?_, ?_, ?_⟩
    · rw [forUpTo_succ, hr]
      exact rewriteDfd_sample_eq r k _ _ _ g0 g2 g3
    · simp [hlen]
    · intro i hi
      rw [List.getElem?_set_ne (by omega), List.getElem?_set_ne (by omega),
        List.getElem?_set_ne (by omega)]
      exact hframe i (by omega)
    · intro s hs
      by_cases hsk : s < k
      · obtain ⟨a0, a1, a2, a3⟩ := hsamp s hsk
        refine ⟨?_, ?_, ?_, ?_⟩
        · rw [List.getElem?_set_ne (by omega), List.getElem?_set_ne (by omega),
            List.getElem?_set_ne (by omega)]
          exact a0
        · rw [List.getElem?_set_ne (by omega), List.getElem?_set_ne (by omega),
            List.getElem?_set_ne (by omega)]
          exact a1
        · rw [List.getElem?_set_ne (by omega), List.getElem?_set_ne (by omega),
            List.getElem?_set_ne (by omega)]
          exact a2
        · rw [List.getElem?_set_ne (by omega), List.getElem?_set_ne (by omega),
            List.getElem?_set_ne (by omega)]
          exact a3
      · have hs' : s = k := by omega
        subst hs'
        have hl0 : 7 + 4 * s < r.length := by omega
        refine ⟨?_, ?_, ?_, ?_⟩
        · rw [List.getElem?_set_ne (by omega), List.getElem?_set_ne (by omega),
            List.getElem?_set_eq_of_lt _ hl0, List.getElem?_eq_getElem (by omega)]
          rfl
        · rw [List.getElem?_set_ne (by omega), List.getElem?_set_ne (by omega),
            List.getElem?_set_ne (by omega)]
          exact hframe _ (Or.inr (by omega))
        · rw [List.getElem?_set_ne (by omega),
            List.getElem?_set_eq_of_lt _ (by simp; omega), setField_zero32]
        · rw [List.getElem?_set_eq_of_lt _ (by simp; omega), setField_zero32]

theorem readAt_eq {α : Type} {xs : List α} {i : Nat} {x : α} (h : xs[i]? = some x) :
    readAt xs i = .ok x := by
  unfold readAt; rw [h]

theorem writeAt_eq {α : Type} (xs : List α) (i : Nat) (x : α) (h : i < xs.length) :
    writeAt xs i x = .ok (xs.set i x) := by
  unfold writeAt; rw [if_pos h]

theorem KHR_DFDVAL_eq {dfd : List Nat} {word w : Nat} (shift mask : Nat)
    (h : dfd[1 + word]? = some w) :
    KHR_DFDVAL dfd word shift mask = .ok ((w >>> shift) &&& mask) := by
  unfold KHR_DFDVAL
  rw [readAt_eq h]
  rfl

theorem KHR_DFDVAL_inv {dfd : List Nat} {word shift mask v : Nat}
    (h : KHR_DFDVAL dfd word shift mask = .ok v) :
    ∃ w, dfd[1 + word]? = some w ∧ (w >>> shift) &&& mask = v := by
  unfold KHR_DFDVAL at h
  obtain ⟨w, hw, h⟩ := bind_ok_inv h
  injection h with h
  exact ⟨w, readAt_inv hw, h⟩

theorem startsWithBasicBlock_of_wellFormed {dfd : List Nat} {n : Nat}
    (h : wellFormedDfd dfd n) : startsWithBasicBlock dfd n := by
  obtain ⟨h1, h3, h4⟩ := h
  refine ⟨by omega, h3, ?_⟩
  rw [h4, h1]
  congr 1
  omega

/-- What well-formedness gives in numbers. -/
theorem startsWithBasicBlock_facts {dfd : List Nat} {n : Nat}
    (h : startsWithBasicBlock dfd n) :
    7 + 4 * n ≤ dfd.length ∧ dfd[0]? = some (4 * dfd.length) ∧ 24 + 16 * n < 65536 ∧
    (∃ w, dfd[2]? = some w ∧ (w >>> 16) &&& 0xFFFF = 24 + 16 * n) ∧
    KHR_DFDSAMPLECOUNT dfd = .ok n := by
  obtain ⟨h1, h3, h4⟩ := h
  have hlen : 7 + 4 * n ≤ dfd.length := by
    unfold KHR_DF_WORD_SAMPLESTART KHR_DF_WORD_SAMPLEWORDS at h1; omega
  obtain ⟨w, hw, hv⟩ := KHR_DFDVAL_inv h4
  have hv' : (w >>> 16) &&& 0xFFFF = 24 + 16 * n := by
    rw [hv]; unfold KHR_DF_WORD_SAMPLESTART KHR_DF_WORD_SAMPLEWORDS; omega
  have hb : 24 + 16 * n < 65536 := by
    have := @Nat.and_le_right (w >>> 16) 0xFFFF
    omega
  refine ⟨hlen, h3, hb, ⟨w, hw, hv'⟩, ?_⟩
  unfold KHR_DFDSAMPLECOUNT
  rw [h4]
  simp only [bind, Except.bind, pure, Except.pure]
  congr 1
  rw [Nat.shiftRight_eq_div_pow]
  unfold sub32 KHR_DF_WORD_SAMPLESTART KHR_DF_WORD_SAMPLEWORDS U32
  omega

theorem sizes_of_count (k : Nat) (hk : 24 + 16 * k < 65536) :
    ndbSizeOf k = 24 + 16 * k ∧ ndfdSizeOf k = 28 + 16 * k ∧ ndfdSizeOf k / 4 = 7 + 4 * k := by
  unfold ndfdSizeOf ndbSizeOf KHR_DF_WORD_SAMPLESTART KHR_DF_WORD_SAMPLEWORDS U32
  omega

theorem rewriteDfd_sizes_spec (cdfd : List Nat) (n k : Nat)
    (hwf : startsWithBasicBlock cdfd n) (hk : k ≤ n) :
    ∃ ndfd1, rewriteDfd_sizes (cdfd.take (7 + 4 * k)) (4 * cdfd.length) (28 + 16 * k)
        (24 + 16 * k) = .ok ndfd1 ∧
      ndfd1.length = 7 + 4 * k ∧ ndfd1[0]? = some (28 + 16 * k) ∧
      (∃ w w', cdfd[2]? = some w ∧ ndfd1[2]? = some w' ∧
        (w' >>> 16) &&& 0xFFFF = 24 + 16 * k ∧
        (w' >>> 0) &&& 0xFFFF = (w >>> 0) &&& 0xFFFF) ∧
      ∀ i, i ≠ 0 → i ≠ 2 → i < 7 + 4 * k → ndfd1[i]? = cdfd[i]? := by
  obtain ⟨hlen, h0, hb, ⟨w, hw, hv⟩, _⟩ := startsWithBasicBlock_facts hwf
  have hl0 : (cdfd.take (7 + 4 * k)).length = 7 + 4 * k := by
    rw [List.length_take]; omega
  unfold rewriteDfd_sizes
  by_cases hsame : 28 + 16 * k = 4 * cdfd.length
  · have hkn : k = n := by omega
    subst hkn
    rw [if_neg (by omega)]
    have htake : cdfd.take (7 + 4 * k) = cdfd := List.take_of_length_le (by omega)
    refine ⟨_, rfl, hl0, by rw [htake, h0, hsame],
      ⟨w, w, hw, by rw [htake]; exact hw, hv, rfl⟩, fun i _ _ _ => by rw [htake]⟩
  · rw [if_pos hsame]
    have hw2 : ((cdfd.take (7 + 4 * k)).set 0 (28 + 16 * k))[1 + 1]? = some w := by
      rw [List.getElem?_set_ne (by omega), List.getElem?_take_of_lt (by omega)]
      exact hw
    rw [writeAt_eq _ _ _ (by omega)]
    simp only [bind, Except.bind]
    rw [KHR_DFDSETVAL_eq _ 1 16 0xFFFF (24 + 16 * k) w hw2]
    obtain ⟨f1, f2⟩ := blockSizeWord_fields w (24 + 16 * k) (by omega)
    refine ⟨_, rfl, by simp [hl0], ?_, ⟨w, _, hw, ?_, f1, f2⟩, ?_⟩
    · rw [List.getElem?_set_ne (by omega), List.getElem?_set_eq_of_lt _ (by omega)]
    · rw [List.getElem?_set_eq_of_lt _ (by simp [hl0]; omega)]
    · intro i hi0 hi2 hi
      rw [List.getElem?_set_ne (by omega), List.getElem?_set_ne (by omega),
        List.getElem?_take_of_lt hi]

theorem rewriteDfd_fill_spec (cdfd : List Nat) (n k : Nat)
    (hwf : startsWithBasicBlock cdfd n) (hk : k ≤ n) :
    ∃ ndfd, rewriteDfd_fill cdfd k = .ok ndfd ∧ ndfd.length = 7 + 4 * k ∧
      ndfd[0]? = some (28 + 16 * k) ∧ ndfd[1]? = cdfd[1]? ∧
      (∃ w w', cdfd[2]? = some w ∧ ndfd[2]? = some w' ∧
        (w' >>> 16) &&& 0xFFFF = 24 + 16 * k ∧
        (w' >>> 0) &&& 0xFFFF = (w >>> 0) &&& 0xFFFF) ∧
      ndfd[3]? = cdfd[3]? ∧ ndfd[4]? = some 0 ∧ ndfd[5]? = some 0 ∧ ndfd[6]? = some 0 ∧
      ∀ s, s < k →
        ndfd[7 + 4 * s]? = (cdfd[7 + 4 * s]?).map unsizedSampleWord ∧
        ndfd[7 + 4 * s + 1]? = cdfd[7 + 4 * s + 1]? ∧
        ndfd[7 + 4 * s + 2]? = some 0 ∧ ndfd[7 + 4 * s + 3]? = some 0 := by
  obtain ⟨hlen, h0, hb, _, _⟩ := startsWithBasicBlock_facts hwf
  obtain ⟨z1, z2, z3⟩ := sizes_of_count k (by omega)
  obtain ⟨ndfd1, hs, l1, a0, ⟨w, w', aw, aw', af1, af2⟩, arest⟩ :=
    rewriteDfd_sizes_spec cdfd n k hwf hk
  obtain ⟨r, hr, rl, rframe, rsamp⟩ :=
    rewriteDfd_samples_spec (((ndfd1.set 5 0).set 6 0).set 4 0) k (by simp [l1])
  have hfill : rewriteDfd_fill cdfd k = .ok r := by
    unfold rewriteDfd_fill
    rw [if_neg (by omega), z3, z1, z2, readAt_eq h0]
    simp only [bind, Except.bind]
    rw [hs]
    simp only [Nat.reduceAdd]
    rw [writeAt_eq _ _ _ (by omega)]
    simp only
    rw [writeAt_eq _ _ _ (by simp; omega)]
    simp only
    rw [writeAt_eq _ _ _ (by simp; omega)]
    exact hr
  have hget : ∀ i, i < 7 → r[i]? = (((ndfd1.set 5 0).set 6 0).set 4 0)[i]? :=
    fun i hi => rframe i (Or.inl hi)
  refine ⟨r, hfill, by simp [rl, l1], ?_, ?_, ⟨w, w', aw, ?_, af1, af2⟩, ?_, ?_, ?_, ?_, ?_⟩
  · rw [hget 0 (by omega), List.getElem?_set_ne (by omega), List.getElem?_set_ne (by omega),
      List.getElem?_set_ne (by omega)]
    exact a0
  · rw [hget 1 (by omega), List.getElem?_set_ne (by omega), List.getElem?_set_ne (by omega),
      List.getElem?_set_ne (by omega)]
    exact arest 1 (by omega) (by omega) (by omega)
  · rw [hget 2 (by omega), List.getElem?_set_ne (by omega), List.getElem?_set_ne (by omega),
      List.getElem?_set_ne (by omega)]
    exact aw'
  · rw [hget 3 (by omega), List.getElem?_set_ne (by omega), List.getElem?_set_ne (by omega),
      List.getElem?_set_ne (by omega)]
    exact arest 3 (by omega) (by omega) (by omega)
  · rw [hget 4 (by omega), List.getElem?_set_eq_of_lt _ (by simp; omega)]
  · rw [hget 5 (by omega), List.getElem?_set_ne (by omega), List.getElem?_set_ne (by omega),
      List.getElem?_set_eq_of_lt _ (by omega)]
  · rw [hget 6 (by omega), List.getElem?_set_ne (by omega),
      List.getElem?_set_eq_of_lt _ (by simp; omega)]
  · intro s hs
    obtain ⟨b0, b1, b2, b3⟩ := rsamp s hs
    refine ⟨?_, ?_, b2, b3⟩
    · rw [b0, List.getElem?_set_ne (by omega), List.getElem?_set_ne (by omega),
        List.getElem?_set_ne (by omega), arest _ (by omega) (by omega) (by omega)]
    · rw [b1, List.getElem?_set_ne (by omega), List.getElem?_set_ne (by omega),
        List.getElem?_set_ne (by omega), arest _ (by omega) (by omega) (by omega)]

theorem rewriteDfd_wf_spec (mallocOk : Nat → Bool) (T : ktxTexture2) (hasAlpha : Bool)
    (n k : Nat) (hwf : startsWithBasicBlock T.pDfd n)
    (hk : k = if n = 4 ∧ hasAlpha = false then 3 else n)
    (hmalloc : mallocOk (ndfdSizeOf k) = true) :
    ∃ ndfd, ktxTexture2_rewriteDfd mallocOk T hasAlpha
        = .ok (.KTX_SUCCESS, { T with pDfd := ndfd }) ∧
      ndfd.length = 7 + 4 * k ∧
      ndfd[0]? = some (28 + 16 * k) ∧ ndfd[1]? = T.pDfd[1]? ∧
      (∃ w w', T.pDfd[2]? = some w ∧ ndfd[2]? = some w' ∧
        (w' >>> 16) &&& 0xFFFF = 24 + 16 * k ∧
        (w' >>> 0) &&& 0xFFFF = (w >>> 0) &&& 0xFFFF) ∧
      ndfd[3]? = T.pDfd[3]? ∧ ndfd[4]? = some 0 ∧ ndfd[5]? = some 0 ∧ ndfd[6]? = some 0 ∧
      ∀ s, s < k →
        ndfd[7 + 4 * s]? = (T.pDfd[7 + 4 * s]?).map unsizedSampleWord ∧
        ndfd[7 + 4 * s + 1]? = T.pDfd[7 + 4 * s + 1]? ∧
        ndfd[7 + 4 * s + 2]? = some 0 ∧ ndfd[7 + 4 * s + 3]? = some 0 := by
  obtain ⟨_, _, _, _, hcount⟩ := startsWithBasicBlock_facts hwf
  have hkn : k ≤ n := by rw [hk]; split <;> omega
  have hnew : newSampleCountOf n hasAlpha = k := by rw [hk]; rfl
  obtain ⟨ndfd, hfill, rest⟩ := rewriteDfd_fill_spec T.pDfd n k hwf hkn
  refine ⟨ndfd, ?_, rest⟩
  unfold ktxTexture2_rewriteDfd
  simp only [hcount, bind, Except.bind, hnew, hmalloc, hfill]
  rfl

theorem sampleWordIndex_eq (s j : Nat) : sampleWordIndex s j = 7 + 4 * s + j := by
  unfold sampleWordIndex KHR_DF_WORD_SAMPLESTART KHR_DF_WORD_SAMPLEWORDS; omega

theorem KHR_DFDSVAL_eq {dfd : List Nat} {s w : Nat} (shift mask : Nat)
    (h : dfd[7 + 4 * s]? = some w) :
    KHR_DFDSVAL dfd s 0 shift mask = .ok ((w >>> shift) &&& mask) := by
  unfold KHR_DFDSVAL
  apply KHR_DFDVAL_eq
  rw [← h]
  congr 1
  unfold KHR_DF_WORD_SAMPLESTART KHR_DF_WORD_SAMPLEWORDS; omega

/-- C13: for a well-formed descriptor of one block with `n` samples and either
value of `hasAlpha`, `ktxTexture2_rewriteDfd` (its allocation succeeding)
returns `KTX_SUCCESS` and leaves a descriptor of `k` samples, where `k` is 3
if `n = 4` and `hasAlpha` is false and `n` otherwise. The byte length of the
new descriptor is `4 + 4 * (SAMPLESTART + k * SAMPLEWORDS)`, that is
`28 + 16 * k`; its total size word holds that length, its descriptor block
size field that length minus 4, and the sample count read back is `k`: the
new descriptor is well formed again. -/
theorem rewriteDfd_sample_count (mallocOk : Nat → Bool) (This : ktxTexture2) (hasAlpha : Bool)
    (n k : Nat) (hwf : wellFormedDfd This.pDfd n)
    (hk : k = if n = 4 ∧ hasAlpha = false then 3 else n)
    (hmalloc : mallocOk (ndfdSizeOf k) = true) :
    ∃ ndfd, ktxTexture2_rewriteDfd mallocOk This hasAlpha
        = .ok (.KTX_SUCCESS, { This with pDfd := ndfd }) ∧
      4 * ndfd.length
        = 4 + 4 * (KHR_DF_WORD_SAMPLESTART + k * KHR_DF_WORD_SAMPLEWORDS) ∧
      4 * ndfd.length = 28 + 16 * k ∧
      ndfd[0]? = some (4 * ndfd.length) ∧
      KHR_DFDVAL ndfd 1 16 0xFFFF = .ok (4 * ndfd.length - 4) ∧
      KHR_DFDSAMPLECOUNT ndfd = .ok k ∧
      wellFormedDfd ndfd k := by
  obtain ⟨ndfd, hrun, hlen, h0, _, ⟨w, w', _, hw', hf, _⟩, _⟩ :=
    rewriteDfd_wf_spec mallocOk This hasAlpha n k (startsWithBasicBlock_of_wellFormed hwf)
      hk hmalloc
  have hval : KHR_DFDVAL ndfd 1 16 0xFFFF = .ok (4 * ndfd.length - 4) := by
    rw [KHR_DFDVAL_eq 16 0xFFFF (by simpa using hw'), hf, hlen]
    congr 1; omega
  have h0' : ndfd[0]? = some (4 * ndfd.length) := by rw [h0, hlen]; congr 1; omega
  have hwf' : wellFormedDfd ndfd k :=
    ⟨by rw [hlen]; unfold KHR_DF_WORD_SAMPLESTART KHR_DF_WORD_SAMPLEWORDS; omega, h0', hval⟩
  refine ⟨ndfd, hrun, ?_, by omega, h0', hval,
    (startsWithBasicBlock_facts (startsWithBasicBlock_of_wellFormed hwf')).2.2.2.2, hwf'⟩
  rw [hlen]; unfold KHR_DF_WORD_SAMPLESTART KHR_DF_WORD_SAMPLEWORDS; omega

/-- C14: for a well-formed descriptor (a basic descriptor block of `n` samples,
whether or not further blocks follow) and either value of `hasAlpha`, in the
descriptor `ktxTexture2_rewriteDfd` leaves the texel block dimension word and
the two bytes-plane words are 0 and every retained sample has bit offset 0,
bit length 0, lower bound 0 and upper bound 0; the word of vendor id and
descriptor type, the version number, the word of colour model, primaries,
transfer function and flags, and of every retained sample the channel type
with its qualifiers and the word of the sample positions are those of the old
descriptor. -/
theorem rewriteDfd_unsized (mallocOk : Nat → Bool) (This : ktxTexture2) (hasAlpha : Bool)
    (n k : Nat) (hwf : startsWithBasicBlock This.pDfd n)
    (hk : k = if n = 4 ∧ hasAlpha = false then 3 else n)
    (hmalloc : mallocOk (ndfdSizeOf k) = true) :
    ∃ ndfd, ktxTexture2_rewriteDfd mallocOk This hasAlpha
        = .ok (.KTX_SUCCESS, { This with pDfd := ndfd }) ∧
      (ndfd[1 + 3]? = some 0 ∧ ndfd[1 + 4]? = some 0 ∧ ndfd[1 + 5]? = some 0 ∧
        ∀ s, s < k →
          KHR_DFDSVAL ndfd s 0 0 0xFFFF = .ok 0 ∧ KHR_DFDSVAL ndfd s 0 16 0xFF = .ok 0 ∧
          ndfd[sampleWordIndex s 2]? = some 0 ∧ ndfd[sampleWordIndex s 3]? = some 0) ∧
      (ndfd[1 + 0]? = This.pDfd[1 + 0]? ∧
        KHR_DFDVAL ndfd 1 0 0xFFFF = KHR_DFDVAL This.pDfd 1 0 0xFFFF ∧
        ndfd[1 + 2]? = This.pDfd[1 + 2]? ∧
        ∀ s, s < k →
          KHR_DFDSVAL ndfd s 0 24 0xFF = KHR_DFDSVAL This.pDfd s 0 24 0xFF ∧
          ndfd[sampleWordIndex s 1]? = This.pDfd[sampleWordIndex s 1]?) := by
  obtain ⟨hlen0, _, _, _, _⟩ := startsWithBasicBlock_facts hwf
  have hkn : k ≤ n := by rw [hk]; split <;> omega
  obtain ⟨ndfd, hrun, hlen, _, h1, ⟨w, w', hw, hw', _, hf⟩, h3, h4, h5, h6, hs⟩ :=
    rewriteDfd_wf_spec mallocOk This hasAlpha n k hwf hk hmalloc
  refine ⟨ndfd, hrun, ⟨h4, h5, h6, ?_⟩, ⟨h1, ?_, h3, ?_⟩⟩
  · intro s hsk
    obtain ⟨b0, _, b2, b3⟩ := hs s hsk
    have hold : This.pDfd[7 + 4 * s]? = some This.pDfd[7 + 4 * s] :=
      List.getElem?_eq_getElem (by omega)
    rw [hold, Option.map_some'] at b0
    obtain ⟨f1, f2, _⟩ := unsizedSampleWord_fields This.pDfd[7 + 4 * s]
    refine ⟨?_, ?_, ?_, ?_⟩
    · rw [KHR_DFDSVAL_eq 0 0xFFFF b0, f1]
    · rw [KHR_DFDSVAL_eq 16 0xFF b0, f2]
    · rw [sampleWordIndex_eq]; exact b2
    · rw [sampleWordIndex_eq]; exact b3
  · rw [KHR_DFDVAL_eq 0 0xFFFF (by simpa using hw'), KHR_DFDVAL_eq 0 0xFFFF (by simpa using hw),
      hf]
  · intro s hsk
    obtain ⟨b0, b1, _, _⟩ := hs s hsk
    have hold : This.pDfd[7 + 4 * s]? = some This.pDfd[7 + 4 * s] :=
      List.getElem?_eq_getElem (by omega)
    rw [hold, Option.map_some'] at b0
    obtain ⟨_, _, f3⟩ := unsizedSampleWord_fields This.pDfd[7 + 4 * s]
    refine ⟨?_, ?_⟩
    · rw [KHR_DFDSVAL_eq 24 0xFF b0, KHR_DFDSVAL_eq 24 0xFF hold,
        f3]
    · rw [sampleWordIndex_eq]; exact b1

/-- C13, at the descriptor of an RGBA8 format when the encoder dropped the
alpha channel: three samples remain. -/
theorem rewriteDfd_sample_count_witness :
    wellFormedDfd rgba8Texture.pDfd 4 ∧
    (3 = if 4 = 4 ∧ false = false then 3 else 4) ∧
    (fun _ => true : Nat → Bool) (ndfdSizeOf 3) = true ∧
    ∃ ndfd, ktxTexture2_rewriteDfd (fun _ => true) rgba8Texture false
        = .ok (.KTX_SUCCESS, { rgba8Texture with pDfd := ndfd }) ∧
      4 * ndfd.length
        = 4 + 4 * (KHR_DF_WORD_SAMPLESTART + 3 * KHR_DF_WORD_SAMPLEWORDS) ∧
      4 * ndfd.length = 28 + 16 * 3 ∧
      ndfd[0]? = some (4 * ndfd.length) ∧
      KHR_DFDVAL ndfd 1 16 0xFFFF = .ok (4 * ndfd.length - 4) ∧
      KHR_DFDSAMPLECOUNT ndfd = .ok 3 ∧
      wellFormedDfd ndfd 3 :=
  ⟨by unfold wellFormedDfd; decide, by decide, rfl,
   rewriteDfd_sample_count (fun _ => true) rgba8Texture false 4 3
     (by unfold wellFormedDfd; decide) (by decide) rfl⟩

/-- C14, at the descriptor of an RGBA8 format when the encoder kept the alpha
channel: four samples remain. -/
theorem rewriteDfd_unsized_witness :
    startsWithBasicBlock rgba8Texture.pDfd 4 ∧
    (4 = if 4 = 4 ∧ true = false then 3 else 4) ∧
    (fun _ => true : Nat → Bool) (ndfdSizeOf 4) = true ∧
    ∃ ndfd, ktxTexture2_rewriteDfd (fun _ => true) rgba8Texture true
        = .ok (.KTX_SUCCESS, { rgba8Texture with pDfd := ndfd }) ∧
      (ndfd[1 + 3]? = some 0 ∧ ndfd[1 + 4]? = some 0 ∧ ndfd[1 + 5]? = some 0 ∧
        ∀ s, s < 4 →
          KHR_DFDSVAL ndfd s 0 0 0xFFFF = .ok 0 ∧ KHR_DFDSVAL ndfd s 0 16 0xFF = .ok 0 ∧
          ndfd[sampleWordIndex s 2]? = some 0 ∧ ndfd[sampleWordIndex s 3]? = some 0) ∧
      (ndfd[1 + 0]? = rgba8Texture.pDfd[1 + 0]? ∧
        KHR_DFDVAL ndfd 1 0 0xFFFF = KHR_DFDVAL rgba8Texture.pDfd 1 0 0xFFFF ∧
        ndfd[1 + 2]? = rgba8Texture.pDfd[1 + 2]? ∧
        ∀ s, s < 4 →
          KHR_DFDSVAL ndfd s 0 24 0xFF = KHR_DFDSVAL rgba8Texture.pDfd s 0 24 0xFF ∧
          ndfd[sampleWordIndex s 1]? = rgba8Texture.pDfd[sampleWordIndex s 1]?) :=
  ⟨by unfold startsWithBasicBlock; decide, by decide, rfl,
   rewriteDfd_unsized (fun _ => true) rgba8Texture true 4 4
     (by unfold startsWithBasicBlock; decide) (by decide) rfl⟩

/-! ## Calls that reach the encoder -/

theorem commitStage_input (env : Env) (T : ktxTexture2) (out : basis_output) (asm : AsmState)
    (bs lc : Nat) (cp : basis_compressor_params) :
    (commitStage env T out asm bs lc cp).encoderInput = some cp := by
  unfold commitStage
  split
  · rfl
  · simp only
    split
    · rfl
    · split <;> rfl

theorem encodeStage_input (env : Env) (T : ktxTexture2) (n lc : Nat)
    (cp : basis_compressor_params) :
    (encodeStage env T n lc cp).encoderInput = some cp := by
  unfold encodeStage
  rcases env.process cp with ⟨ec, out⟩
  simp only
  repeat' (first | rfl | exact commitStage_input _ _ _ _ _ _ _ | split)

theorem packStage_encoded {env : Env} {T : ktxTexture2} {p : ktxBasisParams}
    {BDB : List Nat} {nc cs lc : Nat} {cp : basis_compressor_params}
    (h : (packStage env T p BDB nc cs lc).encoderInput = some cp) :
    ∃ n images transfer,
      calcNumImages T = .ok n ∧ cp = makeCompressorParams p images transfer ∧
      packStage env T p BDB nc cs lc
        = encodeStage env { T with pData := none, dataSize := 0 } n lc cp := by
  unfold packStage at h ⊢
  cases hst : stageImages env T p nc cs with
  | error f => simp [hst] at h
  | ok res =>
    obtain ⟨n, images⟩ := res
    simp only [hst] at h ⊢
    cases htr : KHR_DFDVAL BDB 2 16 0xFF with
    | error f => simp [htr] at h
    | ok transfer =>
      simp only [htr] at h ⊢
      rw [encodeStage_input] at h
      injection h with h
      unfold stageImages at hst
      obtain ⟨n', h1, hst⟩ := bind_ok_inv hst
      obtain ⟨m, _, hst⟩ := bind_ok_inv hst
      obtain ⟨cb, _, hst⟩ := bind_ok_inv hst
      obtain ⟨images', _, hst⟩ := bind_ok_inv hst
      injection hst with hst
      injection hst with e1 e2
      subst e1
      exact ⟨n', _, transfer, h1, h.symm, by rw [h]⟩

/-- A call in which the encoder was invoked: validation passed, the images
were counted and staged, and the rest of the call is `encodeStage` on the
texture without its pixel data. -/
theorem compress_encoded_inv {env : Env} {This : ktxTexture2}
    {params : Option ktxBasisParams} {cp : basis_compressor_params}
    (h : (ktxTexture2_CompressBasisEx env This params).encoderInput = some cp) :
    ∃ p n lc images transfer,
      params = some p ∧ This.supercompressionScheme = .KTX_SUPERCOMPRESSION_NONE ∧
      calcNumImages (loadedTexture env This) = .ok n ∧
      cp = makeCompressorParams p images transfer ∧
      ktxTexture2_CompressBasisEx env This params
        = encodeStage env (releasedTexture env This) n lc cp := by
  have key : ∀ (p : ktxBasisParams) (T : ktxTexture2) (lc : Nat),
      params = some p → This.supercompressionScheme = .KTX_SUPERCOMPRESSION_NONE →
      T = loadedTexture env This →
      ktxTexture2_CompressBasisEx env This params
        = packStage env T p This.pDfd (env.getDFDComponentInfoUnpacked This.pDfd).1
            (env.getDFDComponentInfoUnpacked This.pDfd).2 lc →
      ∃ p n lc images transfer,
        params = some p ∧ This.supercompressionScheme = .KTX_SUPERCOMPRESSION_NONE ∧
        calcNumImages (loadedTexture env This) = .ok n ∧
        cp = makeCompressorParams p images transfer ∧
        ktxTexture2_CompressBasisEx env This params
          = encodeStage env (releasedTexture env This) n lc cp := by
    intro p T lc hp hs hT heq
    rw [heq] at h
    obtain ⟨n, images, transfer, h1, h2, h3⟩ := packStage_encoded h
    refine ⟨p, n, lc, images, transfer, hp, hs, by rw [← hT]; exact h1, h2, ?_⟩
    rw [heq, h3, hT]
    rfl
  generalize hO : ktxTexture2_CompressBasisEx env This params = O at h key
  unfold ktxTexture2_CompressBasisEx at hO
  cases params with
  | none => subst hO; simp at h
  | some p =>
    simp only at hO
    split at hO
    · subst hO; simp at h
    · split at hO
      · subst hO; simp at h
      · rename_i hsc
        have hsc' : This.supercompressionScheme = .KTX_SUPERCOMPRESSION_NONE := by
          by_contra hne; exact hsc hne
        split at hO
        · subst hO; simp at h
        · split at hO
          · subst hO; simp at h
          · split at hO
            · subst hO; simp at h
            · split at hO
              · subst hO; simp at h
              · split at hO
                · rename_i hpd
                  split at hO
                  · subst hO; simp at h
                  · exact key p (env.ktxTexture2_LoadImageData This).2 1 rfl hsc'
                      (by unfold loadedTexture; rw [hpd]) hO.symm
                · rename_i d hpd
                  exact key p This 0 rfl hsc' (by unfold loadedTexture; rw [hpd]) hO.symm


theorem encodeStage_failed {env : Env} {T : ktxTexture2} {n lc : Nat}
    {cp : basis_compressor_params} (h1 : (env.process cp).1 ≠ .cECSuccess)
    (h2 : (env.process cp).1 ≠ .cECFailedValidating) :
    encodeStage env T n lc cp = ⟨.returned .KTX_INVALID_OPERATION, T, lc, some cp⟩ := by
  unfold encodeStage
  rcases hproc : env.process cp with ⟨ec, out⟩
  rw [hproc] at h1 h2
  simp only at h1 h2 ⊢
  rw [if_pos h1]
  simp [cAssert, h2]

theorem encodeStage_mismatch {env : Env} {T : ktxTexture2} {n lc : Nat}
    {cp : basis_compressor_params} (hs : (env.process cp).1 = .cECSuccess)
    (hd : env.NDEBUG = false) (hne : (env.process cp).2.bfh.m_total_images ≠ n) :
    encodeStage env T n lc cp = ⟨.fault .assertion, T, lc, some cp⟩ := by
  unfold encodeStage
  rcases hproc : env.process cp with ⟨ec, out⟩
  rw [hproc] at hs hne
  simp only at hs hne ⊢
  subst hs
  have hasm : assembleGlobalData env T out n = .error .assertion := by
    unfold assembleGlobalData
    simp [cAssert, hd, hne, bind, Except.bind]
  simp [hasm]

theorem rewriteDfd_inv {mallocOk : Nat → Bool} {T T2 : ktxTexture2} {hasAlpha : Bool}
    {c : KTX_error_code} (h : ktxTexture2_rewriteDfd mallocOk T hasAlpha = .ok (c, T2)) :
    (c = .KTX_OUT_OF_MEMORY ∧ T2 = T) ∨ c = .KTX_SUCCESS := by
  unfold ktxTexture2_rewriteDfd at h
  obtain ⟨count, _, h⟩ := bind_ok_inv h
  simp only at h
  split at h
  · injection h with h
    injection h with h1 h2
    exact Or.inl ⟨h1.symm, h2.symm⟩
  · obtain ⟨_, _, h⟩ := bind_ok_inv h
    injection h with h
    injection h with h1 _
    exact Or.inr h1.symm

theorem commitStage_oom {env : Env} {T : ktxTexture2} {out : basis_output}
    {asm : AsmState} {bs lc : Nat} {cp : basis_compressor_params}
    (h : (commitStage env T out asm bs lc cp).exit = .returned .KTX_OUT_OF_MEMORY) :
    env.malloc_new_data asm.image_data_size = false ∧
    commitStage env T out asm bs lc cp = ⟨.returned .KTX_OUT_OF_MEMORY, T, lc, some cp⟩ := by
  unfold commitStage at h ⊢
  by_cases hm : env.malloc_new_data asm.image_data_size = false
  · simp [hm]
  · simp only [hm, if_false] at h
    exfalso
    cases hA : cAssert env.NDEBUG (decide (T._typeSize = 1)) with
    | error f => simp [hA] at h
    | ok u =>
      simp only [hA] at h
      cases hR : forDownFrom (reorderRounds T.numLevels)
          (reorderLevel out.bf asm.level_file_offsets)
          { level_offset := 0
            pData := (List.range asm.image_data_size).map env.uninit_new_data
            levelIndex := T._levelIndex } with
      | error f => simp [hR] at h
      | ok r => simp [hR] at h

/-- The payload cannot be allocated (line 724): when the encoder succeeded, the
assembly stage completed and the descriptor was rewritten, `encodeStage`
returns `KTX_OUT_OF_MEMORY` with the texture `ktxTexture2_rewriteDfd` left. -/
theorem encodeStage_payload_oom {env : Env} {T T2 : ktxTexture2} {n lc : Nat}
    {cp : basis_compressor_params} {asm : AsmState}
    (hs : (env.process cp).1 = .cECSuccess)
    (hasm : assembleGlobalData env T (env.process cp).2 n = .ok asm)
    (hrw : ktxTexture2_rewriteDfd env.malloc_ndfd { T with _levelIndex := asm.levelIndex }
        (hasAlphaSlices env (env.process cp).2) = .ok (.KTX_SUCCESS, T2))
    (hm : env.malloc_new_data asm.image_data_size = false) :
    encodeStage env T n lc cp = ⟨.returned .KTX_OUT_OF_MEMORY, T2, lc, some cp⟩ := by
  unfold encodeStage
  rcases hproc : env.process cp with ⟨ec, out⟩
  rw [hproc] at hs hasm hrw
  simp only at hs hasm hrw ⊢
  subst hs
  simp [hasm, hrw, commitStage, hm]

/-- The descriptor rewrite does not succeed (line 718): when the encoder
succeeded and the assembly stage completed, `encodeStage` ends in the
`delete bgd` of line 719 and does not return. -/
theorem encodeStage_descriptor_oom {env : Env} {T T2 : ktxTexture2} {n lc : Nat}
    {cp : basis_compressor_params} {asm : AsmState} {c : KTX_error_code}
    (hs : (env.process cp).1 = .cECSuccess)
    (hasm : assembleGlobalData env T (env.process cp).2 n = .ok asm)
    (hrw : ktxTexture2_rewriteDfd env.malloc_ndfd { T with _levelIndex := asm.levelIndex }
        (hasAlphaSlices env (env.process cp).2) = .ok (c, T2))
    (hc : c ≠ .KTX_SUCCESS) :
    encodeStage env T n lc cp = ⟨.fault .undefinedBehaviour, T2, lc, some cp⟩ := by
  unfold encodeStage
  rcases hproc : env.process cp with ⟨ec, out⟩
  rw [hproc] at hs hasm hrw
  simp only at hs hasm hrw ⊢
  subst hs
  simp [hasm, hrw, hc]


/-! ## Failures after validation -/

/-- C17: in a call that passed validation and ran the encoder, if the encoder
status is neither success nor the validation failure, the call returns
`KTX_INVALID_OPERATION` and leaves the texture it worked on (the texture
itself, or what the loader made of it when the pixel data was not resident)
with `pData` null and `dataSize` 0 and every other field, the descriptor, the
level index, the supercompression scheme, the format and the global data
among them, unchanged. When the pixel data was resident, or the loader
changes nothing but `pData` and `dataSize`, that is the texture before the
call with `pData` null and `dataSize` 0. -/
theorem encoder_failure_releases_pixels (env : Env) (This : ktxTexture2)
    (params : Option ktxBasisParams) (o : Outcome) (cp : basis_compressor_params)
    (ho : ktxTexture2_CompressBasisEx env This params = o)
    (hcp : o.encoderInput = some cp)
    (h1 : (env.process cp).1 ≠ .cECSuccess)
    (h2 : (env.process cp).1 ≠ .cECFailedValidating) :
    o.exit = .returned .KTX_INVALID_OPERATION ∧
    o.This = { loadedTexture env This with pData := none, dataSize := 0 } ∧
    ((This.pData ≠ none ∨
        ∃ d s, (env.ktxTexture2_LoadImageData This).2 = { This with pData := d, dataSize := s }) →
      o.This = { This with pData := none, dataSize := 0 }) := by
  subst ho
  obtain ⟨p, n, lc, images, transfer, _, _, _, _, hrun⟩ := compress_encoded_inv hcp
  rw [hrun, encodeStage_failed h1 h2]
  refine ⟨rfl, rfl, ?_⟩
  intro hframe
  show releasedTexture env This = _
  unfold releasedTexture loadedTexture
  rcases hframe with hpd | ⟨d, s, hl⟩
  · cases hd : This.pData with
    | none => exact absurd hd hpd
    | some d => rfl
  · cases hd : This.pData with
    | none => simp only [hl]
    | some d => rfl

/-- C19, as the code has it: when the encoder succeeds but the image count of
its header differs from the count computed in lines 347-353, a build with
assertions stops at the assertion of line 597. The call does not return, so it
returns neither `KTX_SUCCESS` nor `KTX_INVALID_OPERATION`; no global data is
attached and neither the descriptor nor the level index is rewritten: the
texture is the one the encoder ran on. -/
theorem count_mismatch_aborts (env : Env) (This : ktxTexture2)
    (params : Option ktxBasisParams) (o : Outcome) (cp : basis_compressor_params) (n : Nat)
    (ho : ktxTexture2_CompressBasisEx env This params = o)
    (hcp : o.encoderInput = some cp)
    (hs : (env.process cp).1 = .cECSuccess)
    (hn : calcNumImages (loadedTexture env This) = .ok n)
    (hne : (env.process cp).2.bfh.m_total_images ≠ n)
    (hd : env.NDEBUG = false) :
    o.exit = .fault .assertion ∧ (∀ c, o.exit ≠ .returned c) ∧
    o.This = { loadedTexture env This with pData := none, dataSize := 0 } := by
  subst ho
  obtain ⟨p, n', lc, images, transfer, _, _, hn', _, hrun⟩ := compress_encoded_inv hcp
  rw [hn] at hn'
  injection hn' with hn'
  subst hn'
  rw [hrun, encodeStage_mismatch hs hd hne]
  refine ⟨rfl, ?_, rfl⟩
  intro c
  simp

/-- C15, as the code has it: in a call that invoked the encoder, if the encoder
succeeded, the assembly stage completed with the variables `asm`,
`ktxTexture2_rewriteDfd` succeeded with the texture `T2`, and the allocation
of the payload of `asm.image_data_size` bytes fails (line 724), then the call
returns `KTX_OUT_OF_MEMORY` and leaves `T2`: the texture the encoder ran on
with its supercompression scheme, format and global data (and every field
other than the descriptor and the level index) unchanged. The level index has
its length and every entry its `byteOffset`, but for every level `byteLength`
is already the byte length of the level in the encoder output and
`uncompressedByteLength` is already 0 (lines 674-675), and the descriptor is
already the one `ktxTexture2_rewriteDfd` wrote. The size asked for is the sum
of the byte lengths of the levels as a 32-bit value. -/
theorem allocation_failure_after_encoding (env : Env) (This : ktxTexture2)
    (params : Option ktxBasisParams) (o : Outcome) (cp : basis_compressor_params) (n : Nat)
    (asm : AsmState) (T2 : ktxTexture2)
    (ho : ktxTexture2_CompressBasisEx env This params = o)
    (hcp : o.encoderInput = some cp)
    (hn : calcNumImages (loadedTexture env This) = .ok n)
    (hs : (env.process cp).1 = .cECSuccess)
    (hasm : assembleGlobalData env (releasedTexture env This) (env.process cp).2 n = .ok asm)
    (hrw : ktxTexture2_rewriteDfd env.malloc_ndfd
        { releasedTexture env This with _levelIndex := asm.levelIndex }
        (hasAlphaSlices env (env.process cp).2) = .ok (.KTX_SUCCESS, T2))
    (hm : env.malloc_new_data asm.image_data_size = false) :
    o.exit = .returned .KTX_OUT_OF_MEMORY ∧
    o.This = T2 ∧
    o.This = { releasedTexture env This with
               pDfd := o.This.pDfd, _levelIndex := o.This._levelIndex } ∧
    o.This.supercompressionScheme = (releasedTexture env This).supercompressionScheme ∧
    o.This.vkFormat = (releasedTexture env This).vkFormat ∧
    o.This._supercompressionGlobalData
      = (releasedTexture env This)._supercompressionGlobalData ∧
    o.This._sgdByteLength = (releasedTexture env This)._sgdByteLength ∧
    o.This._levelIndex = asm.levelIndex ∧
    o.This._levelIndex.length = (releasedTexture env This)._levelIndex.length ∧
    (∀ l, l < (releasedTexture env This).numLevels →
      (levelEntry o.This l).byteOffset = (levelEntry (releasedTexture env This) l).byteOffset ∧
      (levelEntry o.This l).byteLength
        = levelBytes env (releasedTexture env This) (env.process cp).2 l ∧
      (levelEntry o.This l).uncompressedByteLength = 0) ∧
    asm.image_data_size
      = (∑ l ∈ Finset.range (releasedTexture env This).numLevels,
          levelBytes env (releasedTexture env This) (env.process cp).2 l) % U32 := by
  subst ho
  obtain ⟨p, n', lc, images, transfer, _, _, hn', _, hrun⟩ := compress_encoded_inv hcp
  rw [hn] at hn'
  injection hn' with hn'
  subst hn'
  rw [hrun, encodeStage_payload_oom hs hasm hrw hm]
  obtain ⟨_, _, hinv, _⟩ := assembleGlobalData_spec hasm
  have hf := rewriteDfd_frame hrw
  have hli : T2._levelIndex = asm.levelIndex := by rw [hf]
  refine ⟨rfl, rfl, ?_, by rw [hf], by rw [hf], by rw [hf], by rw [hf], hli,
    by rw [hli]; exact hinv.li_len, ?_, hinv.ids⟩
  · show T2 = { releasedTexture env This with pDfd := T2.pDfd, _levelIndex := T2._levelIndex }
    rw [hli]; exact hf
  · intro l hl
    obtain ⟨hlt, hget⟩ := hinv.li_done l hl
    have he : levelEntry T2 l = _ :=
      levelEntry_of_getElem? (T := T2) (by rw [hli]; exact hget)
    show (levelEntry T2 l).byteOffset = _ ∧ (levelEntry T2 l).byteLength = _
      ∧ (levelEntry T2 l).uncompressedByteLength = 0
    rw [he]
    exact ⟨rfl, rfl, rfl⟩

/-- C15, the claim at the texture of two levels when the allocation of the
payload fails: the call returns `KTX_OUT_OF_MEMORY` after the encoder
succeeded, but the level index entries no longer hold the byte lengths 16 and
4 and the uncompressed byte lengths 16 and 4 (they hold 3 and 2, and 0), and
the descriptor of 92 bytes has been replaced by one of 76 bytes. When it is
the allocation of the new descriptor that fails, the level index is
overwritten in the same way and the call does not return `KTX_OUT_OF_MEMORY`:
it ends in line 719, which releases with `delete` the block line 608 allocated
with `new[]`. -/
theorem oom_after_partial_update :
    (ktxTexture2_CompressBasisEx noPayloadMemoryEnv rgba8Texture (some exampleParams)).exit
      = .returned .KTX_OUT_OF_MEMORY ∧
    (ktxTexture2_CompressBasisEx noPayloadMemoryEnv rgba8Texture
        (some exampleParams)).encoderInput = some exampleCparams ∧
    (noPayloadMemoryEnv.process exampleCparams).1 = .cECSuccess ∧
    rgba8Texture._levelIndex
      = [{ byteOffset := 4, byteLength := 16, uncompressedByteLength := 16 },
         { byteOffset := 0, byteLength := 4, uncompressedByteLength := 4 }] ∧
    (ktxTexture2_CompressBasisEx noPayloadMemoryEnv rgba8Texture
        (some exampleParams)).This._levelIndex
      = [{ byteOffset := 4, byteLength := 3, uncompressedByteLength := 0 },
         { byteOffset := 0, byteLength := 2, uncompressedByteLength := 0 }] ∧
    rgba8Texture.pDfd
      = [92, 0, 5767170, 131329, 0, 4, 0, 458752, 0, 0, 255, 17235976, 0, 0, 255,
         34013200, 0, 0, 255, 520552472, 0, 0, 255] ∧
    (ktxTexture2_CompressBasisEx noPayloadMemoryEnv rgba8Texture (some exampleParams)).This.pDfd
      = [76, 0, 4718594, 131329, 0, 0, 0, 0, 0, 0, 0, 16777216, 0, 0, 0, 33554432, 0, 0, 0] ∧
    (ktxTexture2_CompressBasisEx noDescriptorMemoryEnv rgba8Texture
        (some exampleParams)).encoderInput = some exampleCparams ∧
    (noDescriptorMemoryEnv.process exampleCparams).1 = .cECSuccess ∧
    ktxTexture2_rewriteDfd noDescriptorMemoryEnv.malloc_ndfd
        { releasedTexture noDescriptorMemoryEnv rgba8Texture with
          _levelIndex := exampleAsm.levelIndex } false
      = .ok (.KTX_OUT_OF_MEMORY,
          { releasedTexture noDescriptorMemoryEnv rgba8Texture with
            _levelIndex := exampleAsm.levelIndex }) ∧
    (ktxTexture2_CompressBasisEx noDescriptorMemoryEnv rgba8Texture (some exampleParams)).exit
      = .fault .undefinedBehaviour ∧
    (ktxTexture2_CompressBasisEx noDescriptorMemoryEnv rgba8Texture
        (some exampleParams)).This._levelIndex
      = [{ byteOffset := 4, byteLength := 3, uncompressedByteLength := 0 },
         { byteOffset := 0, byteLength := 2, uncompressedByteLength := 0 }] := by
  decide

/-- C15, as the code has it, when the allocation of the payload fails on the
texture of two levels: the call returns `KTX_OUT_OF_MEMORY` and leaves the
texture with the rewritten descriptor and the new byte lengths. -/
theorem allocation_failure_after_encoding_witness :
    (ktxTexture2_CompressBasisEx noPayloadMemoryEnv rgba8Texture
        (some exampleParams)).encoderInput = some exampleCparams ∧
    calcNumImages (loadedTexture noPayloadMemoryEnv rgba8Texture) = .ok 2 ∧
    (noPayloadMemoryEnv.process exampleCparams).1 = .cECSuccess ∧
    assembleGlobalData noPayloadMemoryEnv (releasedTexture noPayloadMemoryEnv rgba8Texture)
        (noPayloadMemoryEnv.process exampleCparams).2 2 = .ok exampleAsm ∧
    ktxTexture2_rewriteDfd noPayloadMemoryEnv.malloc_ndfd
        { releasedTexture noPayloadMemoryEnv rgba8Texture with
          _levelIndex := exampleAsm.levelIndex }
        (hasAlphaSlices noPayloadMemoryEnv (noPayloadMemoryEnv.process exampleCparams).2)
      = .ok (.KTX_SUCCESS, rewrittenRgba8Texture) ∧
    noPayloadMemoryEnv.malloc_new_data exampleAsm.image_data_size = false ∧
    (ktxTexture2_CompressBasisEx noPayloadMemoryEnv rgba8Texture (some exampleParams)).exit
      = .returned .KTX_OUT_OF_MEMORY ∧
    (ktxTexture2_CompressBasisEx noPayloadMemoryEnv rgba8Texture (some exampleParams)).This
      = rewrittenRgba8Texture :=
  ⟨by decide, by decide, by decide, by decide, by decide, by decide,
   (allocation_failure_after_encoding noPayloadMemoryEnv rgba8Texture (some exampleParams)
     _ exampleCparams 2 exampleAsm rewrittenRgba8Texture rfl (by decide) (by decide)
     (by decide) (by decide) (by decide) (by decide)).1,
   (allocation_failure_after_encoding noPayloadMemoryEnv rgba8Texture (some exampleParams)
     _ exampleCparams 2 exampleAsm rewrittenRgba8Texture rfl (by decide) (by decide)
     (by decide) (by decide) (by decide) (by decide)).2.1⟩

/-- C17, on the texture of two levels with an encoder that fails in its back
end. -/
theorem encoder_failure_releases_pixels_witness :
    (ktxTexture2_CompressBasisEx failingEncoderEnv exampleTexture
        (some exampleParams)).encoderInput = some exampleCparams ∧
    (failingEncoderEnv.process exampleCparams).1 ≠ .cECSuccess ∧
    (failingEncoderEnv.process exampleCparams).1 ≠ .cECFailedValidating ∧
    (ktxTexture2_CompressBasisEx failingEncoderEnv exampleTexture (some exampleParams)).exit
      = .returned .KTX_INVALID_OPERATION ∧
    (ktxTexture2_CompressBasisEx failingEncoderEnv exampleTexture (some exampleParams)).This
      = { exampleTexture with pData := none, dataSize := 0 } :=
  ⟨by decide, by decide, by decide,
   (encoder_failure_releases_pixels failingEncoderEnv exampleTexture (some exampleParams)
     _ exampleCparams rfl (by decide) (by decide) (by decide)).1,
   (encoder_failure_releases_pixels failingEncoderEnv exampleTexture (some exampleParams)
     _ exampleCparams rfl (by decide) (by decide) (by decide)).2.2 (Or.inl (by decide))⟩

/-- C19, the claim at the texture of two levels (two images) and an encoder
that succeeds with a header reporting three images: a build with assertions
aborts at the assertion, which is not a return of `KTX_INVALID_OPERATION`; a
build that defines `NDEBUG` does not compare the counts and returns
`KTX_SUCCESS` with global data attached. -/
theorem count_mismatch_not_reported :
    calcNumImages exampleTexture = .ok 2 ∧
    miscountOutput.bfh.m_total_images = 3 ∧
    (ktxTexture2_CompressBasisEx miscountEnv exampleTexture (some exampleParams)).encoderInput
      = some exampleCparams ∧
    miscountEnv.process exampleCparams = (.cECSuccess, miscountOutput) ∧
    (ktxTexture2_CompressBasisEx miscountEnv exampleTexture (some exampleParams)).exit
      = .fault .assertion ∧
    (ktxTexture2_CompressBasisEx miscountEnv exampleTexture (some exampleParams)).exit
      ≠ .returned .KTX_INVALID_OPERATION ∧
    (ktxTexture2_CompressBasisEx miscountReleaseEnv exampleTexture
        (some exampleParams)).encoderInput = some exampleCparams ∧
    miscountReleaseEnv.process exampleCparams = (.cECSuccess, miscountOutput) ∧
    (ktxTexture2_CompressBasisEx miscountReleaseEnv exampleTexture (some exampleParams)).exit
      = .returned .KTX_SUCCESS ∧
    (ktxTexture2_CompressBasisEx miscountReleaseEnv exampleTexture
        (some exampleParams)).This._supercompressionGlobalData ≠ none := by
  decide

/-- C19, as the code has it, on the texture of two levels with a header that
reports three images. -/
theorem count_mismatch_aborts_witness :
    (ktxTexture2_CompressBasisEx miscountEnv exampleTexture (some exampleParams)).encoderInput
      = some exampleCparams ∧
    (miscountEnv.process exampleCparams).1 = .cECSuccess ∧
    calcNumImages (loadedTexture miscountEnv exampleTexture) = .ok 2 ∧
    (miscountEnv.process exampleCparams).2.bfh.m_total_images ≠ 2 ∧
    miscountEnv.NDEBUG = false ∧
    (ktxTexture2_CompressBasisEx miscountEnv exampleTexture (some exampleParams)).exit
      = .fault .assertion :=
  ⟨by decide, by decide, by decide, by decide, rfl,
   (count_mismatch_aborts miscountEnv exampleTexture (some exampleParams) _ exampleCparams 2
     rfl (by decide) (by decide) (by decide) (by decide) rfl).1⟩


/-! ## A second call -/

theorem compress_rejects_supercompressed (env : Env) (T : ktxTexture2) (p : ktxBasisParams)
    (hs : p.structSize = env.sizeof_ktxBasisParams)
    (hT : T.supercompressionScheme ≠ .KTX_SUPERCOMPRESSION_NONE) :
    ktxTexture2_CompressBasisEx env T (some p)
      = ⟨.returned .KTX_INVALID_OPERATION, T, 0, none⟩ := by
  simp [ktxTexture2_CompressBasisEx, hs, hT]

theorem callSequence_rejected (env : Env) (T : ktxTexture2)
    (hT : T.supercompressionScheme ≠ .KTX_SUPERCOMPRESSION_NONE)
    (ps : List (Option ktxBasisParams))
    (hps : ∀ q ∈ ps, ∃ p, q = some p ∧ p.structSize = env.sizeof_ktxBasisParams) :
    (callSequence env T ps).length = ps.length ∧
    ∀ o' ∈ callSequence env T ps, o' = ⟨.returned .KTX_INVALID_OPERATION, T, 0, none⟩ := by
  induction ps with
  | nil => exact ⟨rfl, fun o' h => by simp [callSequence] at h⟩
  | cons q rest ih =>
    obtain ⟨p, hq, hs⟩ := hps q (List.mem_cons_self _ _)
    subst hq
    have hrej := compress_rejects_supercompressed env T p hs hT
    obtain ⟨ih1, ih2⟩ := ih (fun q hq => hps q (List.mem_cons_of_mem _ hq))
    unfold callSequence
    rw [hrej]
    refine ⟨by simp [ih1], ?_⟩
    intro o' ho'
    rcases List.mem_cons.mp ho' with h | h
    · exact h
    · exact ih2 o' h

/-- C16: after a call that returned `KTX_SUCCESS` the supercompression scheme
of the texture is `KTX_SUPERCOMPRESSION_BASIS` and its format is
`VK_FORMAT_UNDEFINED`. Every later call with options of the right
`structSize`, and every call of `ktxTexture2_CompressBasis`, returns
`KTX_INVALID_OPERATION` without loading data or invoking the encoder and
leaves the texture as the first call left it; so does every call of a
sequence of such calls, however long. -/
theorem compressed_texture_is_rejected (env : Env) (This : ktxTexture2)
    (params : Option ktxBasisParams) (o : Outcome)
    (ho : ktxTexture2_CompressBasisEx env This params = o)
    (h : o.exit = .returned .KTX_SUCCESS) :
    o.This.supercompressionScheme = .KTX_SUPERCOMPRESSION_BASIS ∧
    o.This.vkFormat = VK_FORMAT_UNDEFINED ∧
    (∀ p, p.structSize = env.sizeof_ktxBasisParams →
      ktxTexture2_CompressBasisEx env o.This (some p)
        = ⟨.returned .KTX_INVALID_OPERATION, o.This, 0, none⟩) ∧
    (∀ quality, ktxTexture2_CompressBasis env o.This quality
        = ⟨.returned .KTX_INVALID_OPERATION, o.This, 0, none⟩) ∧
    (∀ ps : List (Option ktxBasisParams),
      (∀ q ∈ ps, ∃ p, q = some p ∧ p.structSize = env.sizeof_ktxBasisParams) →
      (callSequence env o.This ps).length = ps.length ∧
      ∀ o' ∈ callSequence env o.This ps,
        o' = ⟨.returned .KTX_INVALID_OPERATION, o.This, 0, none⟩) := by
  subst ho
  obtain ⟨tr, hr⟩ := compress_success_inv h
  have hres : (ktxTexture2_CompressBasisEx env This params).This = tr.result := by
    rw [hr.outcome]
  have hscheme : (ktxTexture2_CompressBasisEx env This params).This.supercompressionScheme
      = .KTX_SUPERCOMPRESSION_BASIS := by rw [hres]; rfl
  have hne : (ktxTexture2_CompressBasisEx env This params).This.supercompressionScheme
      ≠ .KTX_SUPERCOMPRESSION_NONE := by rw [hscheme]; decide
  refine ⟨hscheme, by rw [hres]; rfl, ?_, ?_, ?_⟩
  · intro p hs
    exact compress_rejects_supercompressed env _ p hs hne
  · intro quality
    unfold ktxTexture2_CompressBasis
    exact compress_rejects_supercompressed env _ _ rfl hne
  · intro ps hps
    exact callSequence_rejected env _ hne ps hps

/-- C16, on the texture of two levels: the second call is rejected. -/
theorem compressed_texture_is_rejected_witness :
    (ktxTexture2_CompressBasisEx exampleEnv exampleTexture (some exampleParams)).exit
      = .returned .KTX_SUCCESS ∧
    exampleParams.structSize = exampleEnv.sizeof_ktxBasisParams ∧
    ktxTexture2_CompressBasisEx exampleEnv
        (ktxTexture2_CompressBasisEx exampleEnv exampleTexture (some exampleParams)).This
        (some exampleParams)
      = ⟨.returned .KTX_INVALID_OPERATION,
         (ktxTexture2_CompressBasisEx exampleEnv exampleTexture (some exampleParams)).This,
         0, none⟩ :=
  ⟨by decide, rfl,
   (compressed_texture_is_rejected exampleEnv exampleTexture (some exampleParams) _ rfl
     (by decide)).2.2.1 exampleParams rfl⟩

/-! ## The quality settings (lines 464-477 and 801-810) -/

/-- C18, the claim at options with quality level 0, `maxEndpoints` 5 and
`maxSelectors` 7: the encoder is not configured with quality level 128 and
cluster caps 0; its quality level is left at its default and the caps are 5
and 7. -/
theorem quality_zero_with_cluster_counts :
    clusterParams.qualityLevel = 0 ∧ clusterParams.maxEndpoints = 5 ∧
    clusterParams.maxSelectors = 7 ∧
    (ktxTexture2_CompressBasisEx exampleEnv exampleTexture (some clusterParams)).exit
      = .returned .KTX_SUCCESS ∧
    (ktxTexture2_CompressBasisEx exampleEnv exampleTexture
        (some clusterParams)).encoderInput.map
        (fun cp => (cp.m_quality_level, cp.m_max_endpoint_clusters, cp.m_max_selector_clusters))
      = some (none, some 5, some 7) := by
  decide

/-- C18, as the code has it. For options `p` passed to
`ktxTexture2_CompressBasisEx`, whenever the call invokes the encoder: a quality
level `q` in 1..255 configures the encoder with quality level `q` and cluster
caps 0; quality level 0 with `maxEndpoints` or `maxSelectors` 0 configures it
with quality level 128 and caps 0; quality level 0 with both of them nonzero
leaves the quality level at the encoder default and sets the caps to
`maxEndpoints` and `maxSelectors`. For a quality passed to
`ktxTexture2_CompressBasis`, whenever that call invokes the encoder: the
worker count is 1, quality 0 gives quality level 128, a quality `q` in 1..255
gives `q`, and the caps are 0. Neither part depends on the other call. -/
theorem encoder_quality_config (env : Env) (This : ktxTexture2) (p : ktxBasisParams)
    (quality : Nat) (cp cp' : basis_compressor_params) :
    ((ktxTexture2_CompressBasisEx env This (some p)).encoderInput = some cp →
      (1 ≤ p.qualityLevel → p.qualityLevel ≤ 255 →
        cp.m_quality_level = some p.qualityLevel ∧
        cp.m_max_endpoint_clusters = some 0 ∧ cp.m_max_selector_clusters = some 0) ∧
      (p.qualityLevel = 0 → (p.maxEndpoints = 0 ∨ p.maxSelectors = 0) →
        cp.m_quality_level = some 128 ∧
        cp.m_max_endpoint_clusters = some 0 ∧ cp.m_max_selector_clusters = some 0) ∧
      (p.qualityLevel = 0 → p.maxEndpoints ≠ 0 → p.maxSelectors ≠ 0 →
        cp.m_quality_level = none ∧
        cp.m_max_endpoint_clusters = some p.maxEndpoints ∧
        cp.m_max_selector_clusters = some p.maxSelectors)) ∧
    ((ktxTexture2_CompressBasis env This quality).encoderInput = some cp' →
      cp'.m_pJob_pool = 1 ∧
      (quality = 0 → cp'.m_quality_level = some 128) ∧
      (1 ≤ quality → quality ≤ 255 → cp'.m_quality_level = some quality) ∧
      cp'.m_max_endpoint_clusters = some 0 ∧ cp'.m_max_selector_clusters = some 0) := by
  constructor
  · intro hcp
    obtain ⟨p1, _, _, images, transfer, hp1, _, _, hcp1, _⟩ := compress_encoded_inv hcp
    injection hp1 with hp1
    subst hp1 hcp1
    refine ⟨?_, ?_, ?_⟩
    · intro h1 _
      have : p.qualityLevel ≠ 0 := by omega
      simp [makeCompressorParams, this]
    · intro h0 hz
      rcases hz with hz | hz <;> simp [makeCompressorParams, h0, hz]
    · intro h0 he hs
      simp [makeCompressorParams, h0, he, hs]
  · intro hcp'
    unfold ktxTexture2_CompressBasis at hcp'
    obtain ⟨p2, _, _, images', transfer', hp2, _, _, hcp2, _⟩ := compress_encoded_inv hcp'
    injection hp2 with hp2
    subst hp2 hcp2
    refine ⟨?_, ?_, ?_, ?_, ?_⟩
    · simp [makeCompressorParams]
    · intro h0
      simp [makeCompressorParams, h0]
    · intro h1 _
      have : quality ≠ 0 := by omega
      simp [makeCompressorParams, this]
    · by_cases h0 : quality = 0 <;> simp [makeCompressorParams, h0]
    · by_cases h0 : quality = 0 <;> simp [makeCompressorParams, h0]

/-- C18, as the code has it, on the texture of two levels: the options of
quality level 0 without cluster counts, and the wrapper with quality 200. And
on the texture with short pixel data, where the wrapper never reaches the
encoder: the call with the split option is configured with quality level 128
and caps 0 all the same. -/
theorem encoder_quality_config_witness :
    (ktxTexture2_CompressBasisEx exampleEnv exampleTexture (some exampleParams)).encoderInput
      = some exampleCparams ∧
    (ktxTexture2_CompressBasis exampleEnv exampleTexture 200).encoderInput
      = some (makeCompressorParams { exampleParams with qualityLevel := 200 }
          [{ width := 2, height := 2, pixels := (List.range 20).drop 4 },
           { width := 1, height := 1, pixels := [0, 1, 2, 3] }] 2) ∧
    exampleParams.qualityLevel = 0 ∧
    (exampleParams.maxEndpoints = 0 ∨ exampleParams.maxSelectors = 0) ∧
    exampleCparams.m_quality_level = some 128 ∧
    exampleCparams.m_max_endpoint_clusters = some 0 ∧
    exampleCparams.m_max_selector_clusters = some 0 ∧
    (makeCompressorParams { exampleParams with qualityLevel := 200 }
        [{ width := 2, height := 2, pixels := (List.range 20).drop 4 },
         { width := 1, height := 1, pixels := [0, 1, 2, 3] }] 2).m_quality_level = some 200 ∧
    (ktxTexture2_CompressBasisEx exampleEnv shortDataTexture (some splitParams)).encoderInput
      = some shortDataCparams ∧
    (ktxTexture2_CompressBasis exampleEnv shortDataTexture 200).encoderInput = none ∧
    shortDataCparams.m_quality_level = some 128 ∧
    shortDataCparams.m_max_endpoint_clusters = some 0 ∧
    shortDataCparams.m_max_selector_clusters = some 0 := by
  have h := encoder_quality_config exampleEnv exampleTexture exampleParams 200
    exampleCparams
    (makeCompressorParams { exampleParams with qualityLevel := 200 }
      [{ width := 2, height := 2, pixels := (List.range 20).drop 4 },
       { width := 1, height := 1, pixels := [0, 1, 2, 3] }] 2)
  have h' := encoder_quality_config exampleEnv shortDataTexture splitParams 200
    shortDataCparams shortDataCparams
  obtain ⟨g1, g2, g3⟩ := (h.1 (by decide)).2.1 rfl (Or.inl rfl)
  obtain ⟨k1, k2, k3⟩ := (h'.1 (by decide)).2.1 rfl (Or.inl rfl)
  exact ⟨by decide, by decide, rfl, Or.inl rfl, g1, g2, g3,
    (h.2 (by decide)).2.2.1 (by decide) (by decide), by decide, by decide, k1, k2, k3⟩

/-! ## Textures of one dimension -/

/-- C20, the code at a 1D texture (one level of 4x1 pixels, four 8-bit
components) with resident pixel data: neither entry point looks at the number
of dimensions. With an encoder that succeeds on the one image both return
`KTX_SUCCESS`, not `KTX_INVALID_OPERATION`; the image of 4x1 pixels was handed
to the encoder and the texture is left supercompressed. -/
theorem one_dimensional_texture_accepted :
    lineTexture.numDimensions = 1 ∧ lineTexture.baseHeight = 1 ∧ lineTexture.baseDepth = 1 ∧
    (ktxTexture2_CompressBasisEx lineEnv lineTexture (some exampleParams)).exit
      = .returned .KTX_SUCCESS ∧
    (ktxTexture2_CompressBasisEx lineEnv lineTexture
        (some exampleParams)).This.supercompressionScheme = .KTX_SUPERCOMPRESSION_BASIS ∧
    (ktxTexture2_CompressBasisEx lineEnv lineTexture (some exampleParams)).encoderInput.map
        (fun cp => cp.m_source_images)
      = some [{ width := 4, height := 1, pixels := List.range 16 }] ∧
    (ktxTexture2_CompressBasis lineEnv lineTexture 128).exit = .returned .KTX_SUCCESS := by
  decide

/-! ## Mapping entries beyond the source channels -/

/-- C24, the code at two pixels of three components with the mapping
(A,G,B,ONE), which asks for source channel 3 of a source with channels 0 to 2:
`swizzle_to_rgba` makes no test of the channel index against `src_len`. It
reads `rgbasrc[3]`, which for pixel 0 is the first byte of pixel 1 and for the
last pixel lies behind the image: with a byte behind the image the call
returns with the foreign bytes 4 and 7 in channel 0, and with the source
ending at the image the read is outside the buffer, which is undefined
behaviour and not an assertion failure. The same holds with one component and
the mapping (G,R,R,ONE). A whole call on a texture of three components with
the swizzle metadata `argb` ends in that read. -/
theorem swizzle_to_rgba_reads_beyond_pixel :
    swizzle_to_rgba [0, 0, 0, 0, 0, 0, 0, 0] [1, 2, 3, 4, 5, 6, 7] 3 6
        (some [.A, .G, .B, .ONE])
      = .ok [4, 2, 3, 0, 7, 5, 6, 0] ∧
    swizzle_to_rgba [0, 0, 0, 0, 0, 0, 0, 0] [1, 2, 3, 4, 5, 6] 3 6
        (some [.A, .G, .B, .ONE])
      = .error .undefinedBehaviour ∧
    swizzle_to_rgba [0, 0, 0, 0, 0, 0, 0, 0] [1, 2, 3, 4, 5, 6] 3 6
        (some [.A, .G, .B, .ONE])
      ≠ .error .assertion ∧
    swizzle_to_rgba [0, 0, 0, 0, 0, 0, 0, 0] [7, 8, 9] 1 2 (some [.G, .R, .R, .ONE])
      = .ok [8, 0, 0, 0, 9, 0, 0, 0] ∧
    chooseMapping argbRgbTexture preSwizzleParams 3 = .ok (some [.A, .R, .G, .B]) ∧
    threeComponentEnv.NDEBUG = false ∧
    (ktxTexture2_CompressBasisEx threeComponentEnv argbRgbTexture (some preSwizzleParams)).exit
      = .fault .undefinedBehaviour := by
  decide

/-! ## The image flags (lines 653-672) -/

/-- C25: in every image descriptor a successful `ktxTexture2_CompressBasisEx`
writes, `imageFlags` is the flags word of the last slice read for the image
with the bits of `cSliceDescFlagsHasAlpha` cleared (as a 32-bit value):
without alpha slices that slice is the colour slice of the image, at index
`k` of the slice table for image `k`; with alpha slices it is the alpha slice
of the image, at index `2 * k + 1`, and not the colour slice at `2 * k`. -/
theorem image_flags_from_last_slice (env : Env) (This : ktxTexture2)
    (params : Option ktxBasisParams) (o : Outcome) (cp : basis_compressor_params)
    (ho : ktxTexture2_CompressBasisEx env This params = o)
    (h : o.exit = .returned .KTX_SUCCESS) (hcp : o.encoderInput = some cp) :
    ∃ sgd, o.This._supercompressionGlobalData = some sgd ∧
      ∀ l j, l < o.This.numLevels → j < imagesInLevel o.This l →
        ∃ d, sgdImageDesc sgd (imagesBefore o.This l + j) = some d ∧
          (hasAlphaSlices env (env.process cp).2 = false →
            d.imageFlags
              = andNot32 (sliceAt (env.process cp).2
                  (1 * (imagesBefore o.This l + j))).m_flags
                env.cSliceDescFlagsHasAlpha % U32) ∧
          (hasAlphaSlices env (env.process cp).2 = true →
            d.imageFlags
              = andNot32 (sliceAt (env.process cp).2
                  (2 * (imagesBefore o.This l + j) + 1)).m_flags
                env.cSliceDescFlagsHasAlpha % U32) ∧
          d.imageFlags
            = andNot32 (sliceAt (env.process cp).2
                (sliceStride env (env.process cp).2 * (imagesBefore o.This l + j)
                  + (sliceStride env (env.process cp).2 - 1))).m_flags
              env.cSliceDescFlagsHasAlpha % U32 ∧
          ∀ i, i < 32 →
            d.imageFlags.testBit i
              = ((sliceAt (env.process cp).2
                  (sliceStride env (env.process cp).2 * (imagesBefore o.This l + j)
                    + (sliceStride env (env.process cp).2 - 1))).m_flags.testBit i
                && !env.cSliceDescFlagsHasAlpha.testBit i) := by
  subst ho
  obtain ⟨tr, hr⟩ := compress_success_inv h
  obtain ⟨_, _, _, _, _, _, _, _, hres, hin, hout⟩ := run_facts hr
  rw [hin] at hcp
  injection hcp with hcp
  subst hcp
  rw [hres, hout]
  refine ⟨tr.asm.bgd, rfl, ?_⟩
  intro l j hl hj
  obtain ⟨_, hd⟩ := run_image_desc hr l j hl hj
  refine ⟨_, hd, ?_⟩
  have hU : U32 = 2 ^ 32 := by decide
  by_cases hA : hasAlphaSlices env tr.out = true
  · have hs : sliceStride env tr.out = 2 := by simp [sliceStride, hA]
    simp only [imageDesc, descOfSlices, hA, if_true, hs]
    refine ⟨fun hc => by simp at hc, fun _ => trivial, trivial, ?_⟩
    intro i hi
    rw [hU, Nat.testBit_mod_two_pow, andNot32_testBit _ _ _ hi]
    simp [hi]
  · have hA' : hasAlphaSlices env tr.out = false := by simpa using hA
    have hs : sliceStride env tr.out = 1 := by simp [sliceStride, hA']
    simp only [imageDesc, descOfSlices, hA', Bool.false_eq_true, if_false, hs]
    refine ⟨fun _ => trivial, fun hc => by simp at hc, rfl, ?_⟩
    intro i hi
    rw [hU, Nat.testBit_mod_two_pow, andNot32_testBit _ _ _ hi]
    simp [hi]

/-- C25, on the texture of two levels with an encoder output that has alpha
slices: the flags of image 0 come from the alpha slice (flags 5), not from the
colour slice (flags 2). -/
theorem image_flags_from_last_slice_witness :
    (ktxTexture2_CompressBasisEx alphaEnv exampleTexture (some exampleParams)).exit
      = .returned .KTX_SUCCESS ∧
    (ktxTexture2_CompressBasisEx alphaEnv exampleTexture (some exampleParams)).encoderInput
      = some exampleCparams ∧
    hasAlphaSlices alphaEnv (alphaEnv.process exampleCparams).2 = true ∧
    (sliceAt alphaOutput 0).m_flags = 2 ∧ (sliceAt alphaOutput 1).m_flags = 5 ∧
    ∃ sgd, (ktxTexture2_CompressBasisEx alphaEnv exampleTexture
        (some exampleParams)).This._supercompressionGlobalData = some sgd ∧
      ∃ d, sgdImageDesc sgd
          (imagesBefore (ktxTexture2_CompressBasisEx alphaEnv exampleTexture
            (some exampleParams)).This 0 + 0) = some d ∧
        d.imageFlags = andNot32 (sliceAt (alphaEnv.process exampleCparams).2
            (2 * (imagesBefore (ktxTexture2_CompressBasisEx alphaEnv exampleTexture
              (some exampleParams)).This 0 + 0) + 1)).m_flags
          alphaEnv.cSliceDescFlagsHasAlpha % U32 := by
  refine ⟨by decide, by decide, by decide, by decide, by decide, ?_⟩
  obtain ⟨sgd, hsgd, hall⟩ := image_flags_from_last_slice alphaEnv exampleTexture
    (some exampleParams) _ exampleCparams rfl (by decide) (by decide)
  obtain ⟨d, hd, _, hflags, _⟩ := hall 0 0 (by decide) (by decide)
  exact ⟨sgd, hsgd, d, hd, hflags (by decide)⟩

/-! ## Textures whose mapping is fixed (lines 400-405) -/

theorem metadataMapping_total (This : ktxTexture2) (p : ktxBasisParams) (nc : Nat)
    (hwf : p.preSwizzle = false ∨
      ktxHashList_FindValue This.kvDataHead KTX_SWIZZLE_KEY = none ∨
      ∃ c0 c1 c2 c3 rest, ktxHashList_FindValue This.kvDataHead KTX_SWIZZLE_KEY
        = some (c0 :: c1 :: c2 :: c3 :: rest)) :
    ∃ m0, metadataMapping This p nc = .ok m0 := by
  rcases hwf with h | h | ⟨c0, c1, c2, c3, rest, h⟩
  · exact ⟨none, by simp [metadataMapping, h, pure, Except.pure]⟩
  · by_cases hp : p.preSwizzle = true
    · exact ⟨none, by simp [metadataMapping, h, hp, pure, Except.pure]⟩
    · exact ⟨none, by simp [metadataMapping, hp, pure, Except.pure]⟩
  · by_cases hp : p.preSwizzle = true
    · by_cases hnc : nc = 2 ∨ nc = 3 ∨ nc = 4
      · exact ⟨_, metadataMapping_eq This p nc c0 c1 c2 c3 rest hp h hnc⟩
      · have h2 : nc ≠ 2 := fun e => hnc (Or.inl e)
        have h3 : nc ≠ 3 := fun e => hnc (Or.inr (Or.inl e))
        have h4 : nc ≠ 4 := fun e => hnc (Or.inr (Or.inr e))
        exact ⟨none, by
          simp [metadataMapping, h, hp, swizzleCondition, h2, h3, h4, pure, Except.pure, bind,
            Except.bind]⟩
    · exact ⟨none, by simp [metadataMapping, hp, pure, Except.pure]⟩

theorem chooseMapping_one (This : ktxTexture2) (p : ktxBasisParams) :
    chooseMapping This p 1 = .ok (some [.R, .R, .R, .ONE]) := by
  have hm : metadataMapping This p 1 = .ok none := by
    unfold metadataMapping
    by_cases hp : p.preSwizzle = true
    · cases hf : ktxHashList_FindValue This.kvDataHead KTX_SWIZZLE_KEY with
      | none => simp [hp, pure, Except.pure]
      | some s => simp [hp, swizzleCondition, pure, Except.pure, bind, Except.bind]
    · simp [hp, pure, Except.pure]
  unfold chooseMapping
  rw [hm]
  simp [bind, Except.bind, pure, Except.pure]

theorem chooseMapping_fixed {This : ktxTexture2} {p : ktxBasisParams} {nc : Nat}
    {m0 : Option (List swizzle_e)} (hm : metadataMapping This p nc = .ok m0)
    (hnc : nc ≠ 1) (h : nc = 2 ∨ p.separateRGToRGB_A = true) :
    chooseMapping This p nc = .ok (some [.R, .R, .R, .G]) := by
  unfold chooseMapping
  rw [hm]
  simp [bind, Except.bind, pure, Except.pure, hnc, h]

/-- C26, the claim at a texture of two components whose swizzle metadata is
the single character `r`: the run without pre-swizzle selects (R,R,R,G), the
run that differs from it only in the pre-swizzle flag reads the string behind
its end in lines 385-394 and selects no mapping. The same happens at a texture
of four components with the split option when only the metadata string
differs. -/
theorem short_swizzle_string_interferes :
    ktxHashList_FindValue shortSwizzleTexture.kvDataHead KTX_SWIZZLE_KEY
      = some ['r', Char.ofNat 0] ∧
    preSwizzleParams = { exampleParams with preSwizzle := true } ∧
    chooseMapping shortSwizzleTexture exampleParams 2 = .ok (some [.R, .R, .R, .G]) ∧
    chooseMapping shortSwizzleTexture preSwizzleParams 2 = .error .undefinedBehaviour ∧
    chooseMapping shortSwizzleTexture preSwizzleParams 2
      ≠ chooseMapping shortSwizzleTexture exampleParams 2 ∧
    chooseMapping exampleTexture { preSwizzleParams with separateRGToRGB_A := true } 4
      = .ok (some [.R, .R, .R, .G]) ∧
    chooseMapping shortSwizzleTexture { preSwizzleParams with separateRGToRGB_A := true } 4
      = .error .undefinedBehaviour := by
  decide

/-- C26, as the code has it: for a texture of one component, and for a texture
of two components or with the split option set whose swizzle metadata, if
pre-swizzle is requested and the metadata is present, has at least four
characters, the mapping selected is (R,R,R,ONE) for one component and
(R,R,R,G) otherwise; so two runs on textures of the same component count and
with the same split option select the same mapping, whatever their
pre-swizzle flags and swizzle metadata. -/
theorem mapping_independent_of_metadata (This This' : ktxTexture2) (p p' : ktxBasisParams)
    (nc : Nat)
    (hsplit : p'.separateRGToRGB_A = p.separateRGToRGB_A)
    (hnc : nc = 1 ∨ nc = 2 ∨ p.separateRGToRGB_A = true)
    (hwf : nc = 1 ∨ p.preSwizzle = false ∨
      ktxHashList_FindValue This.kvDataHead KTX_SWIZZLE_KEY = none ∨
      ∃ c0 c1 c2 c3 rest, ktxHashList_FindValue This.kvDataHead KTX_SWIZZLE_KEY
        = some (c0 :: c1 :: c2 :: c3 :: rest))
    (hwf' : nc = 1 ∨ p'.preSwizzle = false ∨
      ktxHashList_FindValue This'.kvDataHead KTX_SWIZZLE_KEY = none ∨
      ∃ c0 c1 c2 c3 rest, ktxHashList_FindValue This'.kvDataHead KTX_SWIZZLE_KEY
        = some (c0 :: c1 :: c2 :: c3 :: rest)) :
    chooseMapping This p nc
      = .ok (some (if nc = 1 then [.R, .R, .R, .ONE] else [.R, .R, .R, .G])) ∧
    chooseMapping This' p' nc = chooseMapping This p nc := by
  by_cases h1 : nc = 1
  · subst h1
    simp [chooseMapping_one]
  · have hnc2 : nc = 2 ∨ p.separateRGToRGB_A = true := hnc.resolve_left h1
    have hnc2' : nc = 2 ∨ p'.separateRGToRGB_A = true := by rw [hsplit]; exact hnc2
    obtain ⟨m0, hm0⟩ := metadataMapping_total This p nc (hwf.resolve_left h1)
    obtain ⟨m0', hm0'⟩ := metadataMapping_total This' p' nc (hwf'.resolve_left h1)
    rw [chooseMapping_fixed hm0 h1 hnc2, chooseMapping_fixed hm0' h1 hnc2']
    simp [h1]

/-- C26, as the code has it, at four components with the split option: with
pre-swizzle and the metadata `argb`, and without either. -/
theorem mapping_independent_of_metadata_witness :
    splitParams.separateRGToRGB_A = true ∧
    ktxHashList_FindValue argbTexture.kvDataHead KTX_SWIZZLE_KEY
      = some ('a' :: 'r' :: 'g' :: 'b' :: [Char.ofNat 0]) ∧
    splitParams.preSwizzle = false ∧
    chooseMapping argbTexture { splitParams with preSwizzle := true } 4
      = .ok (some [.R, .R, .R, .G]) ∧
    chooseMapping exampleTexture splitParams 4
      = chooseMapping argbTexture { splitParams with preSwizzle := true } 4 := by
  have h := mapping_independent_of_metadata argbTexture exampleTexture
    { splitParams with preSwizzle := true } splitParams 4 rfl (Or.inr (Or.inr rfl))
    (Or.inr (Or.inr (Or.inr ⟨'a', 'r', 'g', 'b', [Char.ofNat 0], by decide⟩)))
    (Or.inr (Or.inl rfl))
  exact ⟨rfl, by decide, rfl, h.1, h.2⟩

/-! ## The images the loop nests visit and the size of line 604 -/

/-- A packing stage that reached the encoder, with the stages before it. -/
theorem packStage_staged {env : Env} {T : ktxTexture2} {p : ktxBasisParams}
    {BDB : List Nat} {nc cs lc : Nat} {cp : basis_compressor_params}
    (h : (packStage env T p BDB nc cs lc).encoderInput = some cp) :
    ∃ n m cb images transfer,
      calcNumImages T = .ok n ∧ chooseMapping T p nc = .ok m ∧
      chooseCopycb env.NDEBUG m nc = .ok cb ∧
      packImages env T cb m ((cs * nc) % U32) n = .ok images ∧
      cp = makeCompressorParams p
        (images ++ List.replicate (n - images.length) emptyImage) transfer ∧
      packStage env T p BDB nc cs lc
        = encodeStage env { T with pData := none, dataSize := 0 } n lc cp := by
  unfold packStage at h ⊢
  cases hst : stageImages env T p nc cs with
  | error f => simp [hst] at h
  | ok res =>
    obtain ⟨n, images⟩ := res
    simp only [hst] at h ⊢
    cases htr : KHR_DFDVAL BDB 2 16 0xFF with
    | error f => simp [htr] at h
    | ok transfer =>
      simp only [htr] at h ⊢
      rw [encodeStage_input] at h
      injection h with h
      unfold stageImages at hst
      obtain ⟨n', h1, hst⟩ := bind_ok_inv hst
      obtain ⟨m, h2, hst⟩ := bind_ok_inv hst
      obtain ⟨cb, h3, hst⟩ := bind_ok_inv hst
      obtain ⟨images', h4, hst⟩ := bind_ok_inv hst
      injection hst with hst
      injection hst with e1 e2
      subst e1 e2
      exact ⟨n', m, cb, images', transfer, h1, h2, h3, h4, h.symm, by rw [h]⟩

/-- A call in which the encoder was invoked, with the stages before it. -/
theorem compress_staged_inv {env : Env} {This : ktxTexture2}
    {params : Option ktxBasisParams} {cp : basis_compressor_params}
    (h : (ktxTexture2_CompressBasisEx env This params).encoderInput = some cp) :
    ∃ p n lc m cb images transfer,
      params = some p ∧
      calcNumImages (loadedTexture env This) = .ok n ∧
      chooseMapping (loadedTexture env This) p (env.getDFDComponentInfoUnpacked This.pDfd).1
        = .ok m ∧
      chooseCopycb env.NDEBUG m (env.getDFDComponentInfoUnpacked This.pDfd).1 = .ok cb ∧
      packImages env (loadedTexture env This) cb m
        (((env.getDFDComponentInfoUnpacked This.pDfd).2
          * (env.getDFDComponentInfoUnpacked This.pDfd).1) % U32) n = .ok images ∧
      cp = makeCompressorParams p
        (images ++ List.replicate (n - images.length) emptyImage) transfer ∧
      ktxTexture2_CompressBasisEx env This params
        = encodeStage env (releasedTexture env This) n lc cp := by
  have key : ∀ (p : ktxBasisParams) (T : ktxTexture2) (lc : Nat),
      params = some p → T = loadedTexture env This →
      ktxTexture2_CompressBasisEx env This params
        = packStage env T p This.pDfd (env.getDFDComponentInfoUnpacked This.pDfd).1
            (env.getDFDComponentInfoUnpacked This.pDfd).2 lc →
      ∃ p n lc m cb images transfer,
        params = some p ∧
        calcNumImages (loadedTexture env This) = .ok n ∧
        chooseMapping (loadedTexture env This) p
          (env.getDFDComponentInfoUnpacked This.pDfd).1 = .ok m ∧
        chooseCopycb env.NDEBUG m (env.getDFDComponentInfoUnpacked This.pDfd).1 = .ok cb ∧
        packImages env (loadedTexture env This) cb m
          (((env.getDFDComponentInfoUnpacked This.pDfd).2
            * (env.getDFDComponentInfoUnpacked This.pDfd).1) % U32) n = .ok images ∧
        cp = makeCompressorParams p
          (images ++ List.replicate (n - images.length) emptyImage) transfer ∧
        ktxTexture2_CompressBasisEx env This params
          = encodeStage env (releasedTexture env This) n lc cp := by
    intro p T lc hp hT heq
    rw [heq] at h
    obtain ⟨n, m, cb, images, transfer, h1, h2, h3, h4, h5, h6⟩ := packStage_staged h
    subst hT
    refine ⟨p, n, lc, m, cb, images, transfer, hp, h1, h2, h3, h4, h5, ?_⟩
    rw [heq, h6]
    rfl
  generalize hO : ktxTexture2_CompressBasisEx env This params = O at h key
  unfold ktxTexture2_CompressBasisEx at hO
  cases params with
  | none => subst hO; simp at h
  | some p =>
    simp only at hO
    split at hO
    · subst hO; simp at h
    · split at hO
      · subst hO; simp at h
      · split at hO
        · subst hO; simp at h
        · split at hO
          · subst hO; simp at h
          · split at hO
            · subst hO; simp at h
            · split at hO
              · subst hO; simp at h
              · split at hO
                · rename_i hpd
                  split at hO
                  · subst hO; simp at h
                  · exact key p (env.ktxTexture2_LoadImageData This).2 1 rfl
                      (by unfold loadedTexture; rw [hpd]) hO.symm
                · rename_i d hpd
                  exact key p This 0 rfl (by unfold loadedTexture; rw [hpd]) hO.symm

/-- The images of a level are at most the product that lines 347-353 add. -/
theorem imagesInLevel_le (T : ktxTexture2) (l : Nat) :
    imagesInLevel T l ≤ T.numLayers * T.numFaces * max (T.baseDepth >>> l) 1 := by
  unfold imagesInLevel faceSlices
  rw [Nat.mul_assoc]
  apply Nat.mul_le_mul_left
  by_cases h1 : T.numFaces = 1
  · rw [if_pos h1, h1, Nat.one_mul, max_comm]
  · rw [if_neg h1]
    exact Nat.le_mul_of_pos_right _ (by
      have : 1 ≤ max (T.baseDepth >>> l) 1 := le_max_right _ _
      omega)

/-- The loop nests visit at most as many images as lines 347-353 count, with
or without face/depth exclusivity. -/
theorem imagesBefore_le_imageTotal (T : ktxTexture2) :
    imagesBefore T T.numLevels ≤ imageTotal T := by
  rw [imagesBefore_eq_sum]
  exact Finset.sum_le_sum (fun l _ => imagesInLevel_le T l)

/-- The allocated size of line 604 when the sum does not wrap. -/
theorem bgdSize_exact (bfh : basis_file_header) (n : Nat)
    (h : sizeof_ktxBasisGlobalHeader + sizeof_ktxBasisImageDesc * n
      + bfh.m_endpoint_cb_file_size + bfh.m_selector_cb_file_size
      + bfh.m_tables_file_size < U32) :
    bgdSize bfh n = sizeof_ktxBasisGlobalHeader + sizeof_ktxBasisImageDesc * n
      + bfh.m_endpoint_cb_file_size + bfh.m_selector_cb_file_size
      + bfh.m_tables_file_size := by
  unfold bgdSize
  have h1 : sizeof_ktxBasisImageDesc * n < U32 := by omega
  rw [Nat.mod_eq_of_lt h1, Nat.mod_eq_of_lt h]


/-! ## The slice walk returns (lines 638-677) -/

/-- Total correctness of `forUpTo`: a body that returns and keeps the invariant
in every round lets the loop return with the invariant. -/
theorem forUpTo_total {σ : Type} (I : Nat → σ → Prop) (body : Nat → σ → Except Fault σ)
    (n : Nat) (s : σ) (h0 : I 0 s)
    (hstep : ∀ i, i < n → ∀ a, I i a → ∃ b, body i a = .ok b ∧ I (i + 1) b) :
    ∃ s', forUpTo n body s = .ok s' ∧ I n s' := by
  induction n with
  | zero => exact ⟨s, rfl, h0⟩
  | succ n ih =>
    obtain ⟨mid, hmid, hI⟩ := ih (fun i hi a ha => hstep i (Nat.lt_succ_of_lt hi) a ha)
    obtain ⟨b, hb, hIb⟩ := hstep n (Nat.lt_succ_self n) mid hI
    exact ⟨b, by rw [forUpTo_succ, hmid]; exact hb, hIb⟩

/-- A read inside an array returns. -/
theorem readAt_total {α : Type} (xs : List α) (i : Nat) (h : i < xs.length) :
    ∃ x, readAt xs i = .ok x :=
  ⟨xs[i], readAt_eq (List.getElem?_eq_getElem h)⟩

/-- A store inside a buffer returns and keeps the length. -/
theorem writeU32_total (buf : List Nat) (off w : Nat) (h : off + 4 ≤ buf.length) :
    ∃ b, writeU32 buf off w = .ok b ∧ b.length = buf.length := by
  have hle : off + (u32le w).length ≤ buf.length := by rw [u32le_length]; exact h
  exact ⟨_, writeBytes_ok hle, length_splice _ _ _ hle⟩

theorem sliceStride_pos (env : Env) (out : basis_output) : 1 ≤ sliceStride env out := by
  unfold sliceStride; split <;> omega

/-- One image of the slice walk (lines 654-671) returns when its slices are in the
table and its descriptor is in the block. -/
theorem asmImage_total {env : Env} {out : basis_output} {B nl ll k level : Nat}
    {st : AsmState} (hinv : WalkInv env out B nl ll k st) (hlevel : level < nl)
    (hslices : sliceStride env out * (k + 1) ≤ out.slices.length)
    (hroom : kimagesOffset (k + 1) ≤ B) (hB : B < U32) :
    ∃ st', asmImage env out level st = .ok st' ∧ WalkInv env out B nl ll (k + 1) st' := by
  have hs1 := sliceStride_pos env out
  have hmul : sliceStride env out * (k + 1) = sliceStride env out * k + sliceStride env out :=
    Nat.mul_succ _ _
  have hk := kimagesOffset_succ k
  have hex : ∃ st', asmImage env out level st = .ok st' := by
    unfold asmImage
    obtain ⟨s, hs⟩ := readAt_total out.slices st.slice (by rw [hinv.slice_eq]; omega)
    obtain ⟨lfo, hlfo⟩ := readAt_total st.level_file_offsets level
      (by rw [hinv.lfo_len]; exact hlevel)
    obtain ⟨b1, hb1, l1⟩ := writeU32_total st.bgd (kimagesOffset st.image + 0)
      (sub32 s.m_file_ofs lfo) (by rw [hinv.image_eq, hinv.bgd_len]; omega)
    obtain ⟨b2, hb2, l2⟩ := writeU32_total b1 (kimagesOffset st.image + 4)
      s.m_file_size (by rw [l1, hinv.image_eq, hinv.bgd_len]; omega)
    simp only [hs, hlfo, hb1, hb2, bind, Except.bind]
    by_cases halpha : out.bfh.m_flags &&& env.cBASISHeaderFlagHasAlphaSlices ≠ 0
    · have hA : sliceStride env out = 2 := by simp [sliceStride, hasAlphaSlices, halpha]
      rw [if_pos halpha]
      obtain ⟨a, ha⟩ := readAt_total out.slices (st.slice + 1)
        (by rw [hinv.slice_eq]; omega)
      obtain ⟨b3, hb3, l3⟩ := writeU32_total b2 (kimagesOffset st.image + 8)
        (sub32 a.m_file_ofs lfo) (by rw [l2, l1, hinv.image_eq, hinv.bgd_len]; omega)
      obtain ⟨b4, hb4, l4⟩ := writeU32_total b3 (kimagesOffset st.image + 12)
        a.m_file_size (by rw [l3, l2, l1, hinv.image_eq, hinv.bgd_len]; omega)
      obtain ⟨b5, hb5, l5⟩ := writeU32_total b4 (kimagesOffset st.image + 16)
        (andNot32 a.m_flags env.cSliceDescFlagsHasAlpha)
        (by rw [l4, l3, l2, l1, hinv.image_eq, hinv.bgd_len]; omega)
      simp only [ha, hb3, hb4, hb5]
      exact ⟨_, rfl⟩
    · rw [if_neg halpha]
      obtain ⟨b3, hb3, l3⟩ := writeU32_total b2 (kimagesOffset st.image + 8)
        0 (by rw [l2, l1, hinv.image_eq, hinv.bgd_len]; omega)
      obtain ⟨b4, hb4, l4⟩ := writeU32_total b3 (kimagesOffset st.image + 12)
        0 (by rw [l3, l2, l1, hinv.image_eq, hinv.bgd_len]; omega)
      obtain ⟨b5, hb5, l5⟩ := writeU32_total b4 (kimagesOffset st.image + 16)
        (andNot32 s.m_flags env.cSliceDescFlagsHasAlpha)
        (by rw [l4, l3, l2, l1, hinv.image_eq, hinv.bgd_len]; omega)
      simp only [hb3, hb4, hb5]
      exact ⟨_, rfl⟩
  obtain ⟨st', hst'⟩ := hex
  refine ⟨st', hst', ?_⟩
  obtain ⟨lfo, _, _, hroom', heq⟩ := asmImage_inv hst'
  have hk1 : k + 1 < U32 := by
    have : kimagesOffset (k + 1) = 28 + 20 * (k + 1) := rfl
    omega
  subst heq
  exact
    { slice_eq := by show st.slice + sliceStride env out = _; rw [hinv.slice_eq, hmul]
      image_eq := by
        show (st.image + 1) % U32 = _
        rw [hinv.image_eq, Nat.mod_eq_of_lt hk1]
      bgd_len := by
        show (_ ++ _ ++ _ : List Nat).length = B
        rw [← hinv.bgd_len]
        exact length_splice _ _ _ (by rw [bytes_length]; exact hroom')
      lfo_len := hinv.lfo_len
      li_len := hinv.li_len }

/-- The two inner loops of the slice walk return. -/
theorem asmLayers_total {env : Env} {out : basis_output} {B nl ll level P : Nat}
    (n fs : Nat) {st : AsmState} (hinv : WalkInv env out B nl ll P st) (hlevel : level < nl)
    (hslices : sliceStride env out * (P + n * fs) ≤ out.slices.length)
    (hroom : kimagesOffset (P + n * fs) ≤ B) (hB : B < U32) :
    ∃ st', forUpTo n (fun _ a => forUpTo fs (fun _ b => asmImage env out level b) a) st
        = .ok st' ∧ WalkInv env out B nl ll (P + n * fs) st' := by
  have hko : ∀ a b, a ≤ b → kimagesOffset a ≤ kimagesOffset b := by
    intro a b hab
    unfold kimagesOffset
    exact Nat.add_le_add_left (Nat.mul_le_mul_left _ hab) _
  have key := forUpTo_total (fun y (a : AsmState) => WalkInv env out B nl ll (P + y * fs) a)
    (fun _ a => forUpTo fs (fun _ b => asmImage env out level b) a) n st
    (by simpa using hinv) (by
      intro y hy a ha
      have hyfs : (y + 1) * fs ≤ n * fs := Nat.mul_le_mul_right _ hy
      have inner := forUpTo_total
        (fun s (b : AsmState) => WalkInv env out B nl ll (P + y * fs + s) b)
        (fun _ b => asmImage env out level b) fs a (by simpa using ha) (by
          intro s hs b hb
          have hle : P + y * fs + s + 1 ≤ P + n * fs := by
            have : (y + 1) * fs = y * fs + fs := Nat.succ_mul _ _
            omega
          exact asmImage_total hb hlevel
            (le_trans (Nat.mul_le_mul_left _ hle) hslices)
            (le_trans (hko _ _ hle) hroom) hB)
      obtain ⟨b, hb, hIb⟩ := inner
      refine ⟨b, hb, ?_⟩
      have : P + (y + 1) * fs = P + y * fs + fs := by rw [Nat.succ_mul]; omega
      show WalkInv env out B nl ll (P + (y + 1) * fs) b
      rw [this]
      exact hIb)
  exact key

theorem imagesInLevel_pos (T : ktxTexture2) (l : Nat) (hlayers : 1 ≤ T.numLayers)
    (hfaces : 1 ≤ T.numFaces) : 1 ≤ imagesInLevel T l := by
  unfold imagesInLevel faceSlices
  have : 1 ≤ (if T.numFaces = 1 then max 1 (T.baseDepth >>> l) else T.numFaces) := by
    split
    · exact le_max_left _ _
    · exact hfaces
  exact Nat.mul_pos hlayers this

/-- One level of the slice walk (lines 646-676) returns when the level has an
image, its slices are in the table and its first slice is a colour slice. -/
theorem asmLevel_total {env : Env} {This : ktxTexture2} {out : basis_output} {B ll l : Nat}
    {st : AsmState}
    (hinv : WalkInv env out B This.numLevels ll (imagesBefore This l) st)
    (hl : l < This.numLevels) (hl32 : l < 32) (hll : This.numLevels ≤ ll)
    (himg : 1 ≤ imagesInLevel This l)
    (hslices : sliceStride env out * imagesBefore This (l + 1) ≤ out.slices.length)
    (hcolour : (sliceAt out (sliceStride env out * imagesBefore This l)).m_flags
      &&& env.cSliceDescFlagsHasAlpha = 0)
    (hroom : kimagesOffset (imagesBefore This (l + 1)) ≤ B) (hB : B < U32) :
    ∃ st', asmLevel env This out l st = .ok st' ∧
      WalkInv env out B This.numLevels ll (imagesBefore This (l + 1)) st' := by
  have hs1 := sliceStride_pos env out
  have hnext : imagesBefore This (l + 1) = imagesBefore This l + imagesInLevel This l := rfl
  have hshr : shr32 This.baseDepth l = .ok (This.baseDepth >>> l) := by simp [shr32, hl32]
  obtain ⟨s, hs⟩ := readAt_total out.slices st.slice (by
    rw [hinv.slice_eq]
    have : sliceStride env out * imagesBefore This (l + 1)
        = sliceStride env out * imagesBefore This l
          + sliceStride env out * imagesInLevel This l := by rw [hnext, Nat.mul_add]
    have : sliceStride env out * 1 ≤ sliceStride env out * imagesInLevel This l :=
      Nat.mul_le_mul_left _ himg
    omega)
  have hseq : s = sliceAt out (sliceStride env out * imagesBefore This l) := by
    rw [← hinv.slice_eq]; exact (readAt_sliceAt hs).1
  have hassert : cAssert env.NDEBUG (decide (s.m_flags &&& env.cSliceDescFlagsHasAlpha = 0))
      = .ok () := by
    rw [hseq]; simp [cAssert, hcolour]
  have hlfo := writeAt_eq st.level_file_offsets l s.m_file_ofs (by rw [hinv.lfo_len]; exact hl)
  have hinv0 : WalkInv env out B This.numLevels ll (imagesBefore This l)
      { st with level_byte_length := 0
                level_file_offsets := st.level_file_offsets.set l s.m_file_ofs } :=
    { slice_eq := hinv.slice_eq, image_eq := hinv.image_eq, bgd_len := hinv.bgd_len
      lfo_len := by simp [hinv.lfo_len], li_len := hinv.li_len }
  obtain ⟨st1, hloop, hinv1⟩ := asmLayers_total This.numLayers
    (if This.numFaces = 1 then max 1 (This.baseDepth >>> l) else This.numFaces)
    hinv0 hl (by rw [hnext] at hslices; exact hslices) (by rw [hnext] at hroom; exact hroom) hB
  obtain ⟨e, he⟩ := readAt_total st1.levelIndex l (by rw [hinv1.li_len]; omega)
  refine ⟨{ st1 with
      levelIndex := st1.levelIndex.set l
        { e with byteLength := st1.level_byte_length, uncompressedByteLength := 0 }
      image_data_size := (st1.image_data_size + st1.level_byte_length) % U32 }, ?_, ?_⟩
  · unfold asmLevel
    simp only [hshr, hs, hassert, hlfo, bind, Except.bind, hloop, he]
    rfl
  · exact
      { slice_eq := hinv1.slice_eq, image_eq := hinv1.image_eq, bgd_len := hinv1.bgd_len
        lfo_len := hinv1.lfo_len, li_len := by simp [hinv1.li_len] }

/-- The slice walk over all levels completes when every level has an image,
the table holds the slices of the images the loop nest visits, the slice at
the start of every image is a colour slice and the block has room for the
descriptors. -/
theorem sliceWalk_total (env : Env) (This : ktxTexture2) (out : basis_output) (B ll : Nat)
    (st0 : AsmState) (hinv : WalkInv env out B This.numLevels ll 0 st0)
    (h32 : This.numLevels ≤ 32) (hll : This.numLevels ≤ ll)
    (hlayers : 1 ≤ This.numLayers) (hfaces : 1 ≤ This.numFaces)
    (hslices : sliceStride env out * imagesBefore This This.numLevels ≤ out.slices.length)
    (hcolour : ∀ k, k < imagesBefore This This.numLevels →
      (sliceAt out (sliceStride env out * k)).m_flags &&& env.cSliceDescFlagsHasAlpha = 0)
    (hroom : kimagesOffset (imagesBefore This This.numLevels) ≤ B) (hB : B < U32) :
    ∃ st, forUpTo This.numLevels (asmLevel env This out) st0 = .ok st ∧
      WalkInv env out B This.numLevels ll (imagesBefore This This.numLevels) st := by
  have hko : ∀ a b, a ≤ b → kimagesOffset a ≤ kimagesOffset b := by
    intro a b hab
    unfold kimagesOffset
    exact Nat.add_le_add_left (Nat.mul_le_mul_left _ hab) _
  refine forUpTo_total
    (fun l (a : AsmState) => WalkInv env out B This.numLevels ll (imagesBefore This l) a)
    (asmLevel env This out) This.numLevels st0 hinv ?_
  intro l hl a ha
  have hmono : imagesBefore This (l + 1) ≤ imagesBefore This This.numLevels :=
    imagesBefore_mono This hl
  have himg := imagesInLevel_pos This l hlayers hfaces
  have hnext : imagesBefore This (l + 1) = imagesBefore This l + imagesInLevel This l := rfl
  exact asmLevel_total ha hl (by omega) hll himg
    (le_trans (Nat.mul_le_mul_left _ hmono) hslices)
    (hcolour _ (by omega))
    (le_trans (hko _ _ hmono) hroom) hB

/-- The header is written when the block has 28 bytes. -/
theorem writeGlobalHeader_total (env : Env) (bfh : basis_file_header) (bgd : List Nat)
    (h : 28 ≤ bgd.length) :
    ∃ b, writeGlobalHeader env bfh bgd = .ok b ∧ b.length = bgd.length := by
  unfold writeGlobalHeader
  obtain ⟨b1, h1, l1⟩ := writeU32_total bgd 0
    (andNot32 bfh.m_flags env.cBASISHeaderFlagYFlipped) (by omega)
  obtain ⟨b2, h2, l2⟩ := writeU32_total b1 4 bfh.m_total_endpoints (by omega)
  obtain ⟨b3, h3, l3⟩ := writeU32_total b2 8 bfh.m_endpoint_cb_file_size (by omega)
  obtain ⟨b4, h4, l4⟩ := writeU32_total b3 12 bfh.m_total_selectors (by omega)
  obtain ⟨b5, h5, l5⟩ := writeU32_total b4 16 bfh.m_selector_cb_file_size (by omega)
  obtain ⟨b6, h6, l6⟩ := writeU32_total b5 20 bfh.m_tables_file_size (by omega)
  obtain ⟨b7, h7, l7⟩ := writeU32_total b6 24 0 (by omega)
  simp only [h1, h2, h3, h4, h5, h6, bind, Except.bind]
  exact ⟨b7, h7, by omega⟩

/-- The assembly stage starts its slice walk in the state `walkStart`. -/
theorem assembleGlobalData_walk (env : Env) (This : ktxTexture2) (out : basis_output)
    (num_images : Nat) :
    assembleGlobalData env This out num_images
      = (do
          cAssert env.NDEBUG (out.bfh.m_total_images = num_images)
          let bgd1 ← writeGlobalHeader env out.bfh
            ((List.range (bgdSize out.bfh num_images)).map env.uninit_bgd)
          let st1 ← forUpTo This.numLevels (asmLevel env This out) (walkStart This bgd1)
          let bgd2 ← copyCodebooks env out (bgdSize out.bfh num_images) st1
          pure { st1 with bgd := bgd2 }) := rfl

/-- Cutting the table does not change the entries before the cut. -/
theorem sliceAt_truncate (out : basis_output) (m i : Nat) (h : i < m) :
    sliceAt (truncateSlices out m) i = sliceAt out i := by
  simp [sliceAt, truncateSlices, List.getD_eq_getElem?_getD, List.getElem?_take, h]

/-- C23, the claim at a texture of two levels without layers: lines 347-353
count no image, the slice table of the encoder is empty, which is one colour
slice for each of the zero images, and at the start of level 0 the slice walk
reads entry 0 (line 649), which is outside the table; the call ends there.
And at the texture of two levels with an encoder header whose sizes make the
size of line 604 wrap to 67: the table holds the colour slices of the two
images, and the walk stores the descriptor of image 1 outside the block. -/
theorem slice_walk_leaves_empty_table :
    calcNumImages (loadedTexture noImagesEnv noLayersTexture) = .ok 0 ∧
    (ktxTexture2_CompressBasisEx noImagesEnv noLayersTexture (some exampleParams)).encoderInput
      = some (makeCompressorParams exampleParams [] 2) ∧
    (noImagesEnv.process (makeCompressorParams exampleParams [] 2)).2 = emptyOutput ∧
    emptyOutput.slices.length = sliceStride noImagesEnv emptyOutput * 0 ∧
    writeGlobalHeader noImagesEnv emptyOutput.bfh
        ((List.range (bgdSize emptyOutput.bfh 0)).map noImagesEnv.uninit_bgd)
      = .ok (globalHeaderBytes noImagesEnv emptyOutput.bfh
          ++ ((List.range (bgdSize emptyOutput.bfh 0)).map noImagesEnv.uninit_bgd).drop 28) ∧
    readAt emptyOutput.slices 0 = .error .undefinedBehaviour ∧
    forUpTo (releasedTexture noImagesEnv noLayersTexture).numLevels
        (asmLevel noImagesEnv (releasedTexture noImagesEnv noLayersTexture) emptyOutput)
        (walkStart (releasedTexture noImagesEnv noLayersTexture)
          (globalHeaderBytes noImagesEnv emptyOutput.bfh
            ++ ((List.range (bgdSize emptyOutput.bfh 0)).map noImagesEnv.uninit_bgd).drop 28))
      = .error .undefinedBehaviour ∧
    (ktxTexture2_CompressBasisEx noImagesEnv noLayersTexture (some exampleParams)).exit
      = .fault .undefinedBehaviour ∧
    calcNumImages (loadedTexture wrappingEnv exampleTexture) = .ok 2 ∧
    (ktxTexture2_CompressBasisEx wrappingEnv exampleTexture (some exampleParams)).encoderInput
      = some exampleCparams ∧
    (wrappingEnv.process exampleCparams).2 = wrappingOutput ∧
    wrappingOutput.slices.length = sliceStride wrappingEnv wrappingOutput * 2 ∧
    (∀ k, k < 2 →
      (sliceAt wrappingOutput (sliceStride wrappingEnv wrappingOutput * k)).m_flags
        &&& wrappingEnv.cSliceDescFlagsHasAlpha = 0) ∧
    bgdSize wrappingOutput.bfh 2 = 67 ∧
    forUpTo (releasedTexture wrappingEnv exampleTexture).numLevels
        (asmLevel wrappingEnv (releasedTexture wrappingEnv exampleTexture) wrappingOutput)
        (walkStart (releasedTexture wrappingEnv exampleTexture)
          (globalHeaderBytes wrappingEnv wrappingOutput.bfh
            ++ ((List.range (bgdSize wrappingOutput.bfh 2)).map wrappingEnv.uninit_bgd).drop 28))
      = .error .undefinedBehaviour ∧
    (ktxTexture2_CompressBasisEx wrappingEnv exampleTexture (some exampleParams)).exit
      = .fault .undefinedBehaviour := by
  decide

/-- C23, as the code has it: in every call that invokes the encoder on a
texture with at least one layer and one face whose level index has an entry
per level, if the global data size does not wrap and the slice table holds
`num_images` times 1 or 2 entries (2 exactly when the header's has-alpha-slices
flag is set) whose colour slices, at the multiples of that stride, have the
has-alpha flag clear, then the header is written and the slice walk of lines 645-677 returns; it
returns as well on the table cut to its first `num_images * (1 or 2)` entries,
so every entry it reads is among those; and the slice at the start of every
level is the colour slice of an image below `num_images`, so the assertion of
line 649 holds. -/
theorem slice_walk_never_fails (env : Env) (This : ktxTexture2)
    (params : Option ktxBasisParams) (o : Outcome) (cp : basis_compressor_params) (n : Nat)
    (ho : ktxTexture2_CompressBasisEx env This params = o)
    (hcp : o.encoderInput = some cp)
    (hn : calcNumImages (loadedTexture env This) = .ok n)
    (hlayers : 1 ≤ (releasedTexture env This).numLayers)
    (hfaces : 1 ≤ (releasedTexture env This).numFaces)
    (hli : (releasedTexture env This).numLevels
      ≤ (releasedTexture env This)._levelIndex.length)
    (hsz : sizeof_ktxBasisGlobalHeader + sizeof_ktxBasisImageDesc * n
      + (env.process cp).2.bfh.m_endpoint_cb_file_size
      + (env.process cp).2.bfh.m_selector_cb_file_size
      + (env.process cp).2.bfh.m_tables_file_size < U32)
    (htable : sliceStride env (env.process cp).2 * n ≤ (env.process cp).2.slices.length)
    (hcolour : ∀ k, k < n →
      (sliceAt (env.process cp).2 (sliceStride env (env.process cp).2 * k)).m_flags
        &&& env.cSliceDescFlagsHasAlpha = 0) :
    ∃ bgd1,
      writeGlobalHeader env (env.process cp).2.bfh
        ((List.range (bgdSize (env.process cp).2.bfh n)).map env.uninit_bgd) = .ok bgd1 ∧
      (∃ st, forUpTo (releasedTexture env This).numLevels
          (asmLevel env (releasedTexture env This) (env.process cp).2)
          (walkStart (releasedTexture env This) bgd1) = .ok st ∧
        st.slice = sliceStride env (env.process cp).2
          * imagesBefore (releasedTexture env This) (releasedTexture env This).numLevels ∧
        st.image
          = imagesBefore (releasedTexture env This) (releasedTexture env This).numLevels) ∧
      (∃ st, forUpTo (releasedTexture env This).numLevels
          (asmLevel env (releasedTexture env This)
            (truncateSlices (env.process cp).2 (sliceStride env (env.process cp).2 * n)))
          (walkStart (releasedTexture env This) bgd1) = .ok st ∧
        st.slice = sliceStride env (env.process cp).2
          * imagesBefore (releasedTexture env This) (releasedTexture env This).numLevels) ∧
      imagesBefore (releasedTexture env This) (releasedTexture env This).numLevels ≤ n ∧
      ∀ l, l < (releasedTexture env This).numLevels →
        imagesBefore (releasedTexture env This) l < n ∧
        (sliceAt (env.process cp).2
          (sliceStride env (env.process cp).2 * imagesBefore (releasedTexture env This) l)).m_flags
          &&& env.cSliceDescFlagsHasAlpha = 0 := by
  subst ho
  obtain ⟨p, n', lc, m, cb, images, transfer, _, hn', _, _, hpack, _, _⟩ :=
    compress_staged_inv hcp
  rw [hn] at hn'
  injection hn' with hn'
  subst hn'
  obtain ⟨h32, hlen, hle⟩ := packImages_length hpack
  have hV : imagesBefore (releasedTexture env This) (releasedTexture env This).numLevels
      = imagesBefore (loadedTexture env This) (loadedTexture env This).numLevels :=
    @imagesBefore_congr (loadedTexture env This) (releasedTexture env This) rfl rfl rfl _
  have hVn : imagesBefore (releasedTexture env This) (releasedTexture env This).numLevels
      ≤ n := by rw [hV, ← hlen]; exact hle
  have h32' : (releasedTexture env This).numLevels ≤ 32 := h32
  have hB := bgdSize_exact (env.process cp).2.bfh n hsz
  have hBlt := bgdSize_lt (env.process cp).2.bfh n
  have hlen0 : ((List.range (bgdSize (env.process cp).2.bfh n)).map env.uninit_bgd).length
      = bgdSize (env.process cp).2.bfh n := by simp
  have hroom : kimagesOffset
      (imagesBefore (releasedTexture env This) (releasedTexture env This).numLevels)
      ≤ bgdSize (env.process cp).2.bfh n := by
    rw [hB]; unfold kimagesOffset
    have := Nat.mul_le_mul_left sizeof_ktxBasisImageDesc hVn
    omega
  obtain ⟨bgd1, hbgd1, hl1⟩ := writeGlobalHeader_total env (env.process cp).2.bfh _
    (by rw [hlen0, hB]; unfold sizeof_ktxBasisGlobalHeader; omega)
  have hstrideV : sliceStride env (env.process cp).2
      * imagesBefore (releasedTexture env This) (releasedTexture env This).numLevels
      ≤ sliceStride env (env.process cp).2 * n := Nat.mul_le_mul_left _ hVn
  have hstart : ∀ out' : basis_output, sliceStride env out' = sliceStride env (env.process cp).2 →
      WalkInv env out' (bgdSize (env.process cp).2.bfh n)
        (releasedTexture env This).numLevels (releasedTexture env This)._levelIndex.length 0
        (walkStart (releasedTexture env This) bgd1) := fun out' _ =>
    { slice_eq := by simp [walkStart], image_eq := rfl
      bgd_len := by rw [← hlen0, ← hl1]; rfl
      lfo_len := by simp [walkStart], li_len := rfl }
  obtain ⟨st, hst, hW⟩ := sliceWalk_total env (releasedTexture env This) (env.process cp).2
    (bgdSize (env.process cp).2.bfh n) (releasedTexture env This)._levelIndex.length
    (walkStart (releasedTexture env This) bgd1) (hstart _ rfl)
    h32' hli hlayers hfaces (le_trans hstrideV htable)
    (fun k hk => hcolour k (lt_of_lt_of_le hk hVn)) hroom hBlt
  have hs1 := sliceStride_pos env (env.process cp).2
  obtain ⟨st', hst', hW'⟩ := sliceWalk_total env (releasedTexture env This)
    (truncateSlices (env.process cp).2 (sliceStride env (env.process cp).2 * n))
    (bgdSize (env.process cp).2.bfh n) (releasedTexture env This)._levelIndex.length
    (walkStart (releasedTexture env This) bgd1) (hstart _ rfl)
    h32' hli hlayers hfaces
    (by
      show _ ≤ ((env.process cp).2.slices.take _).length
      rw [List.length_take, Nat.min_eq_left htable]
      exact hstrideV)
    (fun k hk => by
      have hkn : k < n := lt_of_lt_of_le hk hVn
      show (sliceAt (truncateSlices (env.process cp).2 _)
        (sliceStride env (env.process cp).2 * k)).m_flags &&& _ = 0
      rw [sliceAt_truncate _ _ _ (Nat.mul_lt_mul_of_pos_left hkn hs1)]
      exact hcolour k hkn)
    hroom hBlt
  refine ⟨bgd1, hbgd1, ⟨st, hst, hW.slice_eq, hW.image_eq⟩, ⟨st', hst', hW'.slice_eq⟩, hVn, ?_⟩
  intro l hl
  have hlt : imagesBefore (releasedTexture env This) l < n := by
    have h1 := imagesInLevel_pos (releasedTexture env This) l hlayers hfaces
    have h2 : imagesBefore (releasedTexture env This) (l + 1)
        ≤ imagesBefore (releasedTexture env This) (releasedTexture env This).numLevels :=
      imagesBefore_mono _ hl
    have h3 : imagesBefore (releasedTexture env This) (l + 1)
        = imagesBefore (releasedTexture env This) l
          + imagesInLevel (releasedTexture env This) l := rfl
    omega
  exact ⟨hlt, hcolour _ hlt⟩

/-- C23, as the code has it, on the texture of two levels with an encoder
output that has alpha slices: the walk ends behind the fourth entry.
-/
theorem slice_walk_never_fails_witness :
    ((ktxTexture2_CompressBasisEx alphaEnv exampleTexture (some exampleParams)).encoderInput
        = some exampleCparams ∧
      calcNumImages (loadedTexture alphaEnv exampleTexture) = .ok 2 ∧
      sliceStride alphaEnv (alphaEnv.process exampleCparams).2 * 2
        ≤ (alphaEnv.process exampleCparams).2.slices.length ∧
      ∀ k, k < 2 →
        (sliceAt (alphaEnv.process exampleCparams).2
          (sliceStride alphaEnv (alphaEnv.process exampleCparams).2 * k)).m_flags
          &&& alphaEnv.cSliceDescFlagsHasAlpha = 0) ∧
    ∃ bgd1 st,
      writeGlobalHeader alphaEnv alphaOutput.bfh
        ((List.range (bgdSize alphaOutput.bfh 2)).map alphaEnv.uninit_bgd) = .ok bgd1 ∧
      forUpTo 2 (asmLevel alphaEnv (releasedTexture alphaEnv exampleTexture) alphaOutput)
        (walkStart (releasedTexture alphaEnv exampleTexture) bgd1) = .ok st ∧
      st.slice = 4 :=
  ⟨⟨by decide, by decide, by decide, by decide⟩,
   (slice_walk_never_fails alphaEnv exampleTexture (some exampleParams) _ exampleCparams 2 rfl
     (by decide) (by decide) (by decide) (by decide) (by decide) (by decide) (by decide)
     (by decide)).elim
     (fun bgd1 h => h.2.1.elim (fun st hst => ⟨bgd1, st, h.1, hst.1, hst.2.1⟩))⟩

/-! ## The two loop nests visit the same triples (lines 418-436 and 645-677) -/

/-- The loop `forUpTo` is the fold of its body over the counter values. -/
theorem forUpTo_eq_foldlM {σ : Type} (n : Nat) (body : Nat → σ → Except Fault σ) (s : σ) :
    forUpTo n body s = (List.range n).foldlM (fun a i => body i a) s := by
  induction n with
  | zero => rfl
  | succ n ih =>
    rw [forUpTo_succ, List.range_succ, List.foldlM_append, ih]
    congr 1
    funext a
    simp [List.foldlM]

/-- Two nested loops are the fold of the inner body over the pairs of counter
values in lexicographic order. -/
theorem forUpTo_nest_eq_foldlM {σ τ : Type} (n m : Nat) (f : Nat → Nat → σ → Except Fault σ)
    (g : Nat → Nat → τ) (F : σ → τ → Except Fault σ)
    (hF : ∀ y s b, F b (g y s) = f y s b) (st : σ) :
    forUpTo n (fun y a => forUpTo m (fun s b => f y s b) a) st
      = ((List.range n).flatMap fun y => (List.range m).map (g y)).foldlM F st := by
  induction n with
  | zero => rfl
  | succ n ih =>
    rw [forUpTo_succ, List.range_succ, List.flatMap_append, List.foldlM_append, ih,
      List.flatMap_singleton]
    congr 1
    funext a
    rw [forUpTo_eq_foldlM, List.foldlM_map]
    congr 1
    funext b s
    exact (hF n s b).symm

/-- The number of pairs of counter values of two nested loops. -/
theorem pairs_length {τ : Type} (n m : Nat) (g : Nat → Nat → τ) :
    ((List.range n).flatMap fun y => (List.range m).map (g y)).length = n * m := by
  induction n with
  | zero => simp
  | succ n ih =>
    rw [List.range_succ, List.flatMap_append, List.length_append, ih, List.flatMap_singleton,
      List.length_map, List.length_range, Nat.succ_mul]

/-- The pair at a place of the lexicographic order. -/
theorem pairs_getElem? {τ : Type} (n m : Nat) (g : Nat → Nat → τ) (y s : Nat)
    (hy : y < n) (hs : s < m) :
    ((List.range n).flatMap fun y => (List.range m).map (g y))[y * m + s]? = some (g y s) := by
  induction n with
  | zero => omega
  | succ n ih =>
    rw [List.range_succ, List.flatMap_append, List.flatMap_singleton]
    by_cases hyn : y < n
    · have : y * m + s < n * m := by
        have : (y + 1) * m ≤ n * m := Nat.mul_le_mul_right _ hyn
        rw [Nat.succ_mul] at this; omega
      rw [List.getElem?_append_left (by rw [pairs_length]; exact this)]
      exact ih hyn
    · have hyeq : y = n := by omega
      subst hyeq
      rw [List.getElem?_append_right (by rw [pairs_length]; omega), pairs_length,
        Nat.add_sub_cancel_left, List.getElem?_map, List.getElem?_range hs]
      rfl

/-- Every place of the lexicographic order holds the pair of its quotient and
remainder. -/
theorem pairs_getElem?_inv {τ : Type} (n m : Nat) (g : Nat → Nat → τ) (k : Nat) (t : τ)
    (h : ((List.range n).flatMap fun y => (List.range m).map (g y))[k]? = some t) :
    ∃ y s, y < n ∧ s < m ∧ k = y * m + s ∧ t = g y s := by
  obtain ⟨hk, _⟩ := List.getElem?_eq_some.mp h
  rw [pairs_length] at hk
  have hm : 0 < m := by
    rcases Nat.eq_zero_or_pos m with h0 | h0
    · subst h0; simp at hk
    · exact h0
  have hy : k / m < n := by
    rw [Nat.div_lt_iff_lt_mul hm]; exact hk
  have hs : k % m < m := Nat.mod_lt _ hm
  have hkeq : k = k / m * m + k % m := by
    rw [Nat.mul_comm]; exact (Nat.div_add_mod k m).symm
  have := pairs_getElem? n m g (k / m) (k % m) hy hs
  rw [← hkeq, h] at this
  exact ⟨k / m, k % m, hy, hs, hkeq, Option.some.inj this⟩

/-- The triples of a level are as many as its images. -/
theorem levelTriples_length (T : ktxTexture2) (l : Nat) :
    (levelTriples T l).length = imagesInLevel T l :=
  pairs_length _ _ _

/-- The triples of the levels below `L` are as many as the images before `L`.
-/
theorem triples_length (T : ktxTexture2) (L : Nat) :
    ((List.range L).flatMap (levelTriples T)).length = imagesBefore T L := by
  induction L with
  | zero => rfl
  | succ L ih =>
    rw [List.range_succ, List.flatMap_append, List.length_append, ih, List.flatMap_singleton,
      levelTriples_length]
    rfl

/-- The place of a triple in the canonical order of the levels below `L`. -/
theorem triples_getElem?_inv (T : ktxTexture2) (L k : Nat) (t : Nat × Nat × Nat)
    (h : ((List.range L).flatMap (levelTriples T))[k]? = some t) :
    t.1 < L ∧ t.2.1 < T.numLayers ∧ t.2.2 < faceSlices T t.1 ∧
    k = imagesBefore T t.1 + t.2.1 * faceSlices T t.1 + t.2.2 := by
  induction L with
  | zero => simp at h
  | succ L ih =>
    rw [List.range_succ, List.flatMap_append, List.flatMap_singleton] at h
    by_cases hk : k < imagesBefore T L
    · rw [List.getElem?_append_left (by rw [triples_length]; exact hk)] at h
      obtain ⟨h1, h2⟩ := ih h
      exact ⟨by omega, h2⟩
    · rw [List.getElem?_append_right (by rw [triples_length]; omega), triples_length] at h
      obtain ⟨y, s, hy, hs, hkeq, ht⟩ := pairs_getElem?_inv _ _ _ _ _ h
      subst ht
      exact ⟨Nat.lt_succ_self L, hy, hs, by simp only; omega⟩

/-- The triple at a place of the canonical order of the levels below `L`. -/
theorem triples_getElem? (T : ktxTexture2) (L l y s : Nat) (hl : l < L)
    (hy : y < T.numLayers) (hs : s < faceSlices T l) :
    ((List.range L).flatMap (levelTriples T))[imagesBefore T l + y * faceSlices T l + s]?
      = some (l, y, s) := by
  induction L with
  | zero => omega
  | succ L ih =>
    rw [List.range_succ, List.flatMap_append, List.flatMap_singleton]
    have hlt : y * faceSlices T l + s < imagesInLevel T l := by
      unfold imagesInLevel
      have : (y + 1) * faceSlices T l ≤ T.numLayers * faceSlices T l :=
        Nat.mul_le_mul_right _ hy
      rw [Nat.succ_mul] at this; omega
    by_cases hlL : l < L
    · have hmono := imagesBefore_mono T (show l + 1 ≤ L by omega)
      have hnext : imagesBefore T (l + 1) = imagesBefore T l + imagesInLevel T l := rfl
      rw [List.getElem?_append_left (by rw [triples_length]; omega)]
      exact ih hlL
    · have hleq : l = L := by omega
      subst hleq
      rw [List.getElem?_append_right (by rw [triples_length]; omega), triples_length]
      have : imagesBefore T l + y * faceSlices T l + s - imagesBefore T l
          = y * faceSlices T l + s := by omega
      rw [this]
      exact pairs_getElem? _ _ _ y s hy hs

/-- The body of the level loop of the packing stage runs `packImage` once for
every triple of the level, in the canonical order. -/
theorem packLevel_eq_foldlM (env : Env) (T : ktxTexture2) (cb : Option PFNBUCOPYCB)
    (m : Option (List swizzle_e)) (sl n l : Nat) (staged : List image) :
    packLevel env T cb m sl n l staged
      = (do
          let w ← shr32 T.baseWidth l
          let h ← shr32 T.baseHeight l
          let _ ← shr32 T.baseDepth l
          (levelTriples T l).foldlM (fun st t =>
            packImage env T cb m sl n (max 1 w) (max 1 h) (env.ktxTexture2_GetImageSize T l)
              t.1 t.2.1 t.2.2 st) staged) := by
  unfold packLevel
  by_cases hl : l < 32
  · have e : ∀ x, shr32 x l = .ok (x >>> l) := fun x => by simp [shr32, hl]
    simp only [e, bind, Except.bind]
    exact forUpTo_nest_eq_foldlM T.numLayers (faceSlices T l)
      (fun layer slice st1 =>
        packImage env T cb m sl n (max 1 (T.baseWidth >>> l)) (max 1 (T.baseHeight >>> l))
          (env.ktxTexture2_GetImageSize T l) l layer slice st1)
      (fun y s => (l, y, s))
      (fun st t =>
        packImage env T cb m sl n (max 1 (T.baseWidth >>> l)) (max 1 (T.baseHeight >>> l))
          (env.ktxTexture2_GetImageSize T l) t.1 t.2.1 t.2.2 st)
      (fun _ _ _ => rfl) staged
  · have e : ∀ x, shr32 x l = .error .undefinedBehaviour := fun x => by simp [shr32, hl]
    simp only [e, bind, Except.bind]

/-- The body of the level loop of the assembly stage runs `asmImage` once for
every triple of the level, in the canonical order. -/
theorem asmLevel_eq_foldlM (env : Env) (T : ktxTexture2) (out : basis_output) (l : Nat)
    (st : AsmState) :
    asmLevel env T out l st
      = (do
          let _ ← shr32 T.baseDepth l
          let s ← readAt out.slices st.slice
          cAssert env.NDEBUG (s.m_flags &&& env.cSliceDescFlagsHasAlpha = 0)
          let lfo ← writeAt st.level_file_offsets l s.m_file_ofs
          let st1 ← (levelTriples T l).foldlM (fun b t => asmImage env out t.1 b)
            { st with level_byte_length := 0, level_file_offsets := lfo }
          let e ← readAt st1.levelIndex l
          pure { st1 with
            levelIndex := st1.levelIndex.set l
              { e with byteLength := st1.level_byte_length, uncompressedByteLength := 0 }
            image_data_size := (st1.image_data_size + st1.level_byte_length) % U32 }) := by
  unfold asmLevel
  by_cases hl : l < 32
  · have e : ∀ x, shr32 x l = .ok (x >>> l) := fun x => by simp [shr32, hl]
    simp only [e, bind, Except.bind]
    have key : ∀ a : AsmState,
        forUpTo T.numLayers (fun _ a =>
          forUpTo (if T.numFaces = 1 then max 1 (T.baseDepth >>> l) else T.numFaces)
            (fun _ b => asmImage env out l b) a) a
        = (levelTriples T l).foldlM (fun b t => asmImage env out t.1 b) a := fun a =>
      forUpTo_nest_eq_foldlM T.numLayers (faceSlices T l)
        (fun _ _ b => asmImage env out l b) (fun y s => (l, y, s))
        (fun b t => asmImage env out t.1 b) (fun _ _ _ => rfl) a
    simp only [key]
  · have e : ∀ x, shr32 x l = .error .undefinedBehaviour := fun x => by simp [shr32, hl]
    simp only [e, bind, Except.bind]

/-- Folds with bodies that agree on the elements of the list agree. -/
theorem foldlM_congr_mem {σ τ : Type} (L : List τ) (f g : σ → τ → Except Fault σ)
    (h : ∀ t, t ∈ L → ∀ b, f b t = g b t) (a : σ) : L.foldlM f a = L.foldlM g a := by
  induction L generalizing a with
  | nil => rfl
  | cons t ts ih =>
    rw [List.foldlM_cons, List.foldlM_cons, h t (List.mem_cons_self _ _)]
    congr 1
    funext b
    exact ih (fun t' ht' => h t' (List.mem_cons_of_mem _ ht')) b

/-- The triples of a level carry its number. -/
theorem levelTriples_level {T : ktxTexture2} {l : Nat} {t : Nat × Nat × Nat}
    (h : t ∈ levelTriples T l) : t.1 = l := by
  simp only [levelTriples, List.mem_flatMap, List.mem_map] at h
  obtain ⟨_, _, _, _, rfl⟩ := h
  rfl

/-- The packing loop of a texture of at most 32 levels runs `packImage` once
for every triple, in the canonical order. -/
theorem packImages_eq_foldlM (env : Env) (T : ktxTexture2) (cb : Option PFNBUCOPYCB)
    (m : Option (List swizzle_e)) (sl n : Nat) (h32 : T.numLevels ≤ 32) :
    packImages env T cb m sl n
      = (canonicalOrder T).foldlM (fun st t =>
          packImage env T cb m sl n (max 1 (T.baseWidth >>> t.1)) (max 1 (T.baseHeight >>> t.1))
            (env.ktxTexture2_GetImageSize T t.1) t.1 t.2.1 t.2.2 st) [] := by
  unfold packImages canonicalOrder
  generalize T.numLevels = N at h32
  induction N with
  | zero => rfl
  | succ N ih =>
    rw [forUpTo_succ, List.range_succ, List.flatMap_append, List.foldlM_append,
      ih (by omega), List.flatMap_singleton]
    congr 1
    funext a
    rw [packLevel_eq_foldlM]
    have e : ∀ x, shr32 x N = .ok (x >>> N) := fun x => by
      simp [shr32, show N < 32 by omega]
    simp only [e, bind, Except.bind]
    exact foldlM_congr_mem _ _ _ (fun t ht b => by rw [levelTriples_level ht]) a

/-- One image staged: the pixel data is resident, the callback is set, and the
image appended holds what the callback made of the bytes at the image offset of
the triple. -/
theorem packImage_staged {env : Env} {T : ktxTexture2} {cb : Option PFNBUCOPYCB}
    {m : Option (List swizzle_e)} {sl n w hgt sz level layer slice : Nat}
    {staged st : List image}
    (h : packImage env T cb m sl n w hgt sz level layer slice staged = .ok st) :
    ∃ pd c pixels, T.pData = some pd ∧ cb = some c ∧
      c.call (env.image_resize w hgt)
        (pd.drop (env.ktxTexture2_GetImageOffset T level layer slice)) sl sz m = .ok pixels ∧
      st = staged ++ [{ width := w, height := hgt, pixels := pixels }] := by
  unfold packImage at h
  simp only at h
  split at h
  · split at h
    · rename_i _ _ pd c hpd
      obtain ⟨px, hpx, h⟩ := bind_ok_inv h
      injection h with h
      exact ⟨pd, c, px, hpd, rfl, hpx, h.symm⟩
    · cases h
  · cases h

/-- A fold whose steps append one element each returns the initial list with
one element per element folded over, in order. -/
theorem foldlM_staged {τ : Type} (L : List τ)
    (step : List image → τ → Except Fault (List image)) (P : τ → image → Prop)
    (hstep : ∀ t st st', step st t = .ok st' → ∃ img, st' = st ++ [img] ∧ P t img)
    (init res : List image) (h : L.foldlM step init = .ok res) :
    ∃ imgs : List image, res = init ++ imgs ∧ imgs.length = L.length ∧
      ∀ (k : Nat) (t : τ), L[k]? = some t → ∃ img, imgs[k]? = some img ∧ P t img := by
  induction L generalizing init with
  | nil =>
    simp only [List.foldlM, pure, Except.pure] at h
    injection h with h
    exact ⟨[], by simp [h], rfl, fun k t hk => by simp at hk⟩
  | cons t ts ih =>
    rw [List.foldlM_cons] at h
    obtain ⟨mid, hmid, hrest⟩ := bind_ok_inv h
    obtain ⟨img, hmideq, hP⟩ := hstep t init mid hmid
    obtain ⟨imgs, hres, hlen, hall⟩ := ih mid hrest
    refine ⟨img :: imgs, by rw [hres, hmideq]; simp, by simp [hlen], ?_⟩
    intro k t' hk
    cases k with
    | zero =>
      simp only [List.getElem?_cons_zero, Option.some.injEq] at hk
      subst hk
      exact ⟨img, by simp, hP⟩
    | succ k =>
      simp only [List.getElem?_cons_succ] at hk
      obtain ⟨img', h1, h2⟩ := hall k t' hk
      exact ⟨img', by simpa using h1, h2⟩

/-- The texture a successful run worked on. -/
theorem loadedTexture_of_run {env : Env} {This : ktxTexture2}
    {params : Option ktxBasisParams} {tr : RunTrace}
    (hr : IsSuccessfulRun env This params tr) : loadedTexture env This = tr.loaded := by
  unfold loadedTexture
  rcases hr.loaded_eq with ⟨h1, h2, _⟩ | ⟨h1, h2, _⟩
  · cases hpd : This.pData with
    | none => exact absurd hpd h1
    | some d => exact h2.symm
  · rw [h1, h2]

/-- C22: whatever the shape of a texture `T`, the packing loop (lines 418-436,
for at most 32 levels, beyond which the shifts of both loops are undefined) is
the fold of `packImage` over the canonical order of the (level, layer, face or
slice) triples, and the body of the level loop of the assembly stage (lines
645-676) is the fold of `asmImage` over the triples of the level in the same
order. In a call that returns `KTX_SUCCESS` the texture has the same canonical
order in both stages, and for the triple `(l, y, s)` at place `k` of the
canonical order, which is place `y * faceSlices + s` behind the images of the
levels below `l`, image `k` of the encoder input is what the copy callback
made of the pixel data at the image offset of `(l, y, s)`, with the width and
height of level `l`, and descriptor `k` of the global data is built from slice
`k` (and the alpha slice behind it) relative to the first slice of level `l`.
-/
theorem loops_enumerate_same_triples (env : Env) (This : ktxTexture2)
    (params : Option ktxBasisParams) (o : Outcome) (cp : basis_compressor_params)
    (ho : ktxTexture2_CompressBasisEx env This params = o)
    (h : o.exit = .returned .KTX_SUCCESS) (hcp : o.encoderInput = some cp) :
    (∀ (T : ktxTexture2) (cb : Option PFNBUCOPYCB) (m : Option (List swizzle_e))
        (sl n : Nat), T.numLevels ≤ 32 →
      packImages env T cb m sl n
        = (canonicalOrder T).foldlM (fun st t =>
            packImage env T cb m sl n (max 1 (T.baseWidth >>> t.1))
              (max 1 (T.baseHeight >>> t.1)) (env.ktxTexture2_GetImageSize T t.1)
              t.1 t.2.1 t.2.2 st) []) ∧
    (∀ (T : ktxTexture2) (out : basis_output) (l : Nat) (st : AsmState),
      asmLevel env T out l st
        = (do
            let _ ← shr32 T.baseDepth l
            let s ← readAt out.slices st.slice
            cAssert env.NDEBUG (s.m_flags &&& env.cSliceDescFlagsHasAlpha = 0)
            let lfo ← writeAt st.level_file_offsets l s.m_file_ofs
            let st1 ← (levelTriples T l).foldlM (fun b t => asmImage env out t.1 b)
              { st with level_byte_length := 0, level_file_offsets := lfo }
            let e ← readAt st1.levelIndex l
            pure { st1 with
              levelIndex := st1.levelIndex.set l
                { e with byteLength := st1.level_byte_length, uncompressedByteLength := 0 }
              image_data_size := (st1.image_data_size + st1.level_byte_length) % U32 })) ∧
    canonicalOrder (releasedTexture env This) = canonicalOrder (loadedTexture env This) ∧
    (loadedTexture env This).numLevels ≤ 32 ∧
    ∃ p m cb n images sgd,
      params = some p ∧
      chooseMapping (loadedTexture env This) p (env.getDFDComponentInfoUnpacked This.pDfd).1
        = .ok m ∧
      chooseCopycb env.NDEBUG m (env.getDFDComponentInfoUnpacked This.pDfd).1 = .ok cb ∧
      calcNumImages (loadedTexture env This) = .ok n ∧
      packImages env (loadedTexture env This) cb m
          (((env.getDFDComponentInfoUnpacked This.pDfd).2
            * (env.getDFDComponentInfoUnpacked This.pDfd).1) % U32) n = .ok images ∧
      cp.m_source_images = images ++ List.replicate (n - images.length) emptyImage ∧
      images.length = (canonicalOrder (loadedTexture env This)).length ∧
      o.This._supercompressionGlobalData = some sgd ∧
      ∀ k l y s, (canonicalOrder (loadedTexture env This))[k]? = some (l, y, s) →
        l < (loadedTexture env This).numLevels ∧ y < (loadedTexture env This).numLayers ∧
        s < faceSlices (loadedTexture env This) l ∧
        k = imagesBefore (loadedTexture env This) l
          + y * faceSlices (loadedTexture env This) l + s ∧
        (∃ pd c pixels, (loadedTexture env This).pData = some pd ∧ cb = some c ∧
          c.call
            (env.image_resize (max 1 ((loadedTexture env This).baseWidth >>> l))
              (max 1 ((loadedTexture env This).baseHeight >>> l)))
            (pd.drop (env.ktxTexture2_GetImageOffset (loadedTexture env This) l y s))
            (((env.getDFDComponentInfoUnpacked This.pDfd).2
              * (env.getDFDComponentInfoUnpacked This.pDfd).1) % U32)
            (env.ktxTexture2_GetImageSize (loadedTexture env This) l) m = .ok pixels ∧
          cp.m_source_images[k]? = some
            { width := max 1 ((loadedTexture env This).baseWidth >>> l)
              height := max 1 ((loadedTexture env This).baseHeight >>> l)
              pixels := pixels }) ∧
        sgdImageDesc sgd k = some
          { rgbSliceByteOffset := (imageDesc env (env.process cp).2
              (imagesBefore (loadedTexture env This) l) k).rgbSliceByteOffset % U32
            rgbSliceByteLength := (imageDesc env (env.process cp).2
              (imagesBefore (loadedTexture env This) l) k).rgbSliceByteLength % U32
            alphaSliceByteOffset := (imageDesc env (env.process cp).2
              (imagesBefore (loadedTexture env This) l) k).alphaSliceByteOffset % U32
            alphaSliceByteLength := (imageDesc env (env.process cp).2
              (imagesBefore (loadedTexture env This) l) k).alphaSliceByteLength % U32
            imageFlags := (imageDesc env (env.process cp).2
              (imagesBefore (loadedTexture env This) l) k).imageFlags % U32 } := by
  subst ho
  obtain ⟨tr, hr⟩ := compress_success_inv h
  obtain ⟨g1, g2, g3, g4, _, _, _, h32, hres, hin, hout⟩ := run_facts hr
  have hL := loadedTexture_of_run hr
  rw [hin] at hcp
  injection hcp with hcp
  subst hcp
  rw [hres, hout, hL]
  have hT : releasedTexture env This = tr.released := by
    unfold releasedTexture; rw [hL]; rfl
  rw [hT]
  have hfold := packImages_eq_foldlM env tr.loaded tr.copycb tr.comp_mapping
    (((env.getDFDComponentInfoUnpacked This.pDfd).2
      * (env.getDFDComponentInfoUnpacked This.pDfd).1) % U32) tr.num_images h32
  have hpacked := hr.packed
  rw [hfold] at hpacked
  obtain ⟨imgs, himgs, hlen, hall⟩ := foldlM_staged _ _
    (fun t img => ∃ pd c pixels, tr.loaded.pData = some pd ∧ tr.copycb = some c ∧
      c.call
        (env.image_resize (max 1 (tr.loaded.baseWidth >>> t.1))
          (max 1 (tr.loaded.baseHeight >>> t.1)))
        (pd.drop (env.ktxTexture2_GetImageOffset tr.loaded t.1 t.2.1 t.2.2))
        (((env.getDFDComponentInfoUnpacked This.pDfd).2
          * (env.getDFDComponentInfoUnpacked This.pDfd).1) % U32)
        (env.ktxTexture2_GetImageSize tr.loaded t.1) tr.comp_mapping = .ok pixels ∧
      img = { width := max 1 (tr.loaded.baseWidth >>> t.1)
              height := max 1 (tr.loaded.baseHeight >>> t.1), pixels := pixels })
    (fun t st st' hstep => by
      obtain ⟨pd, c, px, h1, h2, h3, h4⟩ := packImage_staged hstep
      exact ⟨_, h4, pd, c, px, h1, h2, h3, rfl⟩)
    [] tr.images hpacked
  rw [List.nil_append] at himgs
  subst himgs
  refine ⟨fun T cb m sl n hT32 => packImages_eq_foldlM env T cb m sl n hT32,
    fun T out l st => asmLevel_eq_foldlM env T out l st, rfl, h32,
    tr.p, tr.comp_mapping, tr.copycb, tr.num_images, tr.images, tr.asm.bgd,
    hr.params_eq, hr.mapping, hr.callback, hr.count, hr.packed, rfl, hlen, rfl, ?_⟩
  intro k l y s hk
  obtain ⟨hl, hy, hs, hkeq⟩ := triples_getElem?_inv tr.loaded _ k (l, y, s) hk
  simp only at hl hy hs hkeq
  refine ⟨hl, hy, hs, hkeq, ?_, ?_⟩
  · obtain ⟨img, himg, pd, c, px, h1, h2, h3, h4⟩ := hall k (l, y, s) hk
    refine ⟨pd, c, px, h1, h2, h3, ?_⟩
    have hklt : k < tr.images.length := (List.getElem?_eq_some.mp himg).1
    show (tr.images ++ _)[k]? = _
    rw [List.getElem?_append_left hklt, himg, h4]
  · have hIB : ∀ l, imagesBefore tr.result l = imagesBefore tr.loaded l :=
      fun l => imagesBefore_congr g2 g3 g4 l
    have hIL : imagesInLevel tr.result l = imagesInLevel tr.loaded l := by
      simp [imagesInLevel, faceSlices, g2, g3, g4]
    have hj : y * faceSlices tr.loaded l + s < imagesInLevel tr.result l := by
      rw [hIL]; unfold imagesInLevel
      have : (y + 1) * faceSlices tr.loaded l ≤ tr.loaded.numLayers * faceSlices tr.loaded l :=
        Nat.mul_le_mul_right _ hy
      rw [Nat.succ_mul] at this; omega
    obtain ⟨_, hd⟩ := run_image_desc hr l (y * faceSlices tr.loaded l + s)
      (by rw [g1]; exact hl) hj
    rw [hIB, ← Nat.add_assoc, ← hkeq] at hd
    exact hd

/-- Statement `loops_enumerate_same_triples` on the texture of two levels:
place 1 of the canonical order holds the image of level 1, image 1 of the
encoder input holds the four bytes at offset 0, and descriptor 1 exists. -/
theorem loops_enumerate_same_triples_witness :
    (ktxTexture2_CompressBasisEx exampleEnv exampleTexture (some exampleParams)).exit
      = .returned .KTX_SUCCESS ∧
    (ktxTexture2_CompressBasisEx exampleEnv exampleTexture (some exampleParams)).encoderInput
      = some exampleCparams ∧
    (canonicalOrder (loadedTexture exampleEnv exampleTexture))[1]? = some (1, 0, 0) ∧
    exampleEnv.ktxTexture2_GetImageOffset (loadedTexture exampleEnv exampleTexture) 1 0 0
      = 0 ∧
    exampleCparams.m_source_images[1]?
      = some { width := 1, height := 1, pixels := [0, 1, 2, 3] } ∧
    ∃ sgd d,
      (ktxTexture2_CompressBasisEx exampleEnv exampleTexture
        (some exampleParams)).This._supercompressionGlobalData = some sgd ∧
      sgdImageDesc sgd 1 = some d := by
  obtain ⟨_, _, _, _, _, _, _, _, _, sgd, _, _, _, _, _, _, _, hsgd, hall⟩ :=
    loops_enumerate_same_triples exampleEnv exampleTexture (some exampleParams) _
      exampleCparams rfl (by decide) (by decide)
  obtain ⟨_, _, _, _, _, hd⟩ := hall 1 1 0 0 (by decide)
  exact ⟨by decide, by decide, by decide, by decide, by decide, sgd, _, hsgd, hd⟩

/-! ## The codebook copies and the assertion of line 702 -/

/-- A `memcpy` that fails, fails by an access outside a buffer. -/
theorem memcpy_fault {dst src : List Nat} {d s n : Nat} {f : Fault}
    (h : memcpy dst d src s n = .error f) : f = .undefinedBehaviour := by
  unfold memcpy readBytes at h
  split at h
  · simp only [bind, Except.bind] at h
    unfold writeBytes at h
    split at h
    · cases h
    · injection h with h; exact h.symm
  · simp only [bind, Except.bind] at h
    injection h with h; exact h.symm

/-- A `memcpy` inside both buffers returns and keeps the length of the
destination. -/
theorem memcpy_total (dst src : List Nat) (d s n : Nat) (hs : s + n ≤ src.length)
    (hd : d + n ≤ dst.length) :
    ∃ b, memcpy dst d src s n = .ok b ∧ b.length = dst.length := by
  have hlen : ((src.drop s).take n).length = n := by simp; omega
  have hle : d + ((src.drop s).take n).length ≤ dst.length := by rw [hlen]; exact hd
  refine ⟨_, ?_, length_splice dst ((src.drop s).take n) d hle⟩
  unfold memcpy readBytes
  rw [if_pos hs]
  exact writeBytes_ok hle

/-- The copies of lines 686-702 do not end in the assertion of line 702 when
the bytes behind `kimages[image]` fit the size the assertion compares with. -/
theorem copyCodebooks_no_assertion {env : Env} {out : basis_output} {bgd_size : Nat}
    {st : AsmState}
    (hfit : kimagesOffset st.image + out.bfh.m_endpoint_cb_file_size
      + out.bfh.m_selector_cb_file_size + out.bfh.m_tables_file_size ≤ bgd_size) :
    copyCodebooks env out bgd_size st ≠ .error .assertion := by
  intro hc
  unfold copyCodebooks at hc
  simp only at hc
  cases h1 : memcpy st.bgd (kimagesOffset st.image) out.bf out.bfh.m_endpoint_cb_file_ofs
      out.bfh.m_endpoint_cb_file_size with
  | error f =>
    have hf := memcpy_fault h1
    subst hf
    simp [h1, bind, Except.bind] at hc
  | ok b1 =>
    cases h2 : memcpy b1 (kimagesOffset st.image + out.bfh.m_endpoint_cb_file_size) out.bf
        out.bfh.m_selector_cb_file_ofs out.bfh.m_selector_cb_file_size with
    | error f =>
      have hf := memcpy_fault h2
      subst hf
      simp [h1, h2, bind, Except.bind] at hc
    | ok b2 =>
      cases h3 : memcpy b2 (kimagesOffset st.image + out.bfh.m_endpoint_cb_file_size
          + out.bfh.m_selector_cb_file_size) out.bf
          out.bfh.m_tables_file_ofs out.bfh.m_tables_file_size with
      | error f =>
        have hf := memcpy_fault h3
        subst hf
        simp [h1, h2, h3, bind, Except.bind] at hc
      | ok b3 =>
        simp [h1, h2, h3, bind, Except.bind, cAssert, hfit, pure, Except.pure] at hc

/-- The copies of lines 686-702 return, the assertion of line 702 included,
when the codebooks and tables lie inside the encoder output and the bytes
behind `kimages[image]` fit the block and the size the assertion compares
with. -/
theorem copyCodebooks_total (env : Env) {out : basis_output} {bgd_size : Nat}
    {st : AsmState}
    (hfit : kimagesOffset st.image + out.bfh.m_endpoint_cb_file_size
      + out.bfh.m_selector_cb_file_size + out.bfh.m_tables_file_size ≤ bgd_size)
    (hlen : st.bgd.length = bgd_size)
    (r1 : out.bfh.m_endpoint_cb_file_ofs + out.bfh.m_endpoint_cb_file_size ≤ out.bf.length)
    (r2 : out.bfh.m_selector_cb_file_ofs + out.bfh.m_selector_cb_file_size ≤ out.bf.length)
    (r3 : out.bfh.m_tables_file_ofs + out.bfh.m_tables_file_size ≤ out.bf.length) :
    ∃ b, copyCodebooks env out bgd_size st = .ok b ∧ b.length = bgd_size := by
  obtain ⟨b1, h1, l1⟩ := memcpy_total st.bgd out.bf (kimagesOffset st.image)
    out.bfh.m_endpoint_cb_file_ofs out.bfh.m_endpoint_cb_file_size r1 (by omega)
  obtain ⟨b2, h2, l2⟩ := memcpy_total b1 out.bf
    (kimagesOffset st.image + out.bfh.m_endpoint_cb_file_size)
    out.bfh.m_selector_cb_file_ofs out.bfh.m_selector_cb_file_size r2 (by omega)
  obtain ⟨b3, h3, l3⟩ := memcpy_total b2 out.bf
    (kimagesOffset st.image + out.bfh.m_endpoint_cb_file_size
      + out.bfh.m_selector_cb_file_size)
    out.bfh.m_tables_file_ofs out.bfh.m_tables_file_size r3 (by omega)
  refine ⟨b3, ?_, by omega⟩
  unfold copyCodebooks
  simp [bind, Except.bind, h1, h2, h3, cAssert, hfit, pure, Except.pure]

/-- The slice walk that completes from the state `walkStart` has visited the
images of all levels and kept the size of the block. -/
theorem sliceWalk_spec {env : Env} {This : ktxTexture2} {out : basis_output}
    {num_images : Nat} {bgd1 : List Nat} {st : AsmState}
    (hhdr : writeGlobalHeader env out.bfh
      ((List.range (bgdSize out.bfh num_images)).map env.uninit_bgd) = .ok bgd1)
    (hloop : forUpTo This.numLevels (asmLevel env This out) (walkStart This bgd1) = .ok st) :
    AsmInv env This out (bgdSize out.bfh num_images) This._levelIndex This.numLevels 0 st ∧
    This.numLevels ≤ 32 := by
  obtain ⟨h28, ehdr⟩ := writeGlobalHeader_inv hhdr
  have hlen0 : ((List.range (bgdSize out.bfh num_images)).map env.uninit_bgd).length
      = bgdSize out.bfh num_images := by simp
  rw [hlen0] at h28
  have hlen1 : bgd1.length = bgdSize out.bfh num_images := by
    rw [ehdr, List.length_append, List.length_drop, hlen0]
    have : (globalHeaderBytes env out.bfh).length = 28 := rfl
    omega
  have hinit : AsmInv env This out (bgdSize out.bfh num_images) This._levelIndex 0 0
      (walkStart This bgd1) := by
    refine { slice_eq := by simp [imagesBefore, walkStart]
             image_eq := by simp [imagesBefore, walkStart]
             slices_ok := by simp [imagesBefore]
             bgd_len := hlen1, bgd_room := ?_, bgd_take := ?_
             lfo_len := by simp [walkStart]
             lfo_get := fun k hk => absurd hk (Nat.not_lt_zero k), li_len := rfl
             li_done := fun k hk => absurd hk (Nat.not_lt_zero k)
             li_rest := fun k _ => rfl, ids := by simp [walkStart] }
    · show kimagesOffset (imagesBefore This 0 + 0) ≤ _
      simpa [imagesBefore, kimagesOffset, sizeof_ktxBasisGlobalHeader] using h28
    · show bgd1.take _ = _
      have : kimagesOffset (imagesBefore This 0 + 0) = 28 := rfl
      rw [this, ehdr]
      simp only [allDescs, levelDescs, descBytes, List.range_zero, List.map_nil,
        List.append_nil, List.flatMap_nil]
      exact List.take_left' rfl
  refine forUpTo_inv (fun l a => AsmInv env This out (bgdSize out.bfh num_images)
    This._levelIndex l 0 a ∧ l ≤ 32) _ _ _ _ ⟨hinit, by omega⟩ ?_ hloop
  intro l _ a b ha hb
  obtain ⟨hl, hinv⟩ := asmLevel_step (bgdSize_lt _ _) ha.1 hb
  exact ⟨hinv, hl⟩

/-- C21: in every call that invokes the encoder, whatever the shape of the
texture (with or without face/depth exclusivity), if the sum of the header
size, `num_images` descriptors and the three sizes of the encoder's header
stays below 2^32, then the loop nests visit at most `num_images` images, the
allocated size of line 604 is that sum, and the bytes written (header, one
descriptor per visited image, endpoints, selectors, tables) do not exceed it.
The header is written, and in whatever state the slice walk of lines 645-677
ends, it has counted the visited images in a block of the allocated size, the
bytes behind `kimages[image]` fit, and the copies of lines 686-702 do not end
in the assertion of line 702; where the codebooks and tables lie inside the
encoder output the copies return a block of the allocated size, and the
assembly stage, whose first assertion (line 597) holds or is compiled out,
returns with it. -/
theorem global_data_fits (env : Env) (This : ktxTexture2)
    (params : Option ktxBasisParams) (o : Outcome) (cp : basis_compressor_params) (n : Nat)
    (ho : ktxTexture2_CompressBasisEx env This params = o)
    (hcp : o.encoderInput = some cp)
    (hn : calcNumImages (loadedTexture env This) = .ok n)
    (hsz : sizeof_ktxBasisGlobalHeader + sizeof_ktxBasisImageDesc * n
      + (env.process cp).2.bfh.m_endpoint_cb_file_size
      + (env.process cp).2.bfh.m_selector_cb_file_size
      + (env.process cp).2.bfh.m_tables_file_size < U32) :
    imagesBefore (releasedTexture env This) (releasedTexture env This).numLevels ≤ n ∧
    bgdSize (env.process cp).2.bfh n
      = sizeof_ktxBasisGlobalHeader + sizeof_ktxBasisImageDesc * n
        + (env.process cp).2.bfh.m_endpoint_cb_file_size
        + (env.process cp).2.bfh.m_selector_cb_file_size
        + (env.process cp).2.bfh.m_tables_file_size ∧
    sizeof_ktxBasisGlobalHeader
        + sizeof_ktxBasisImageDesc
          * imagesBefore (releasedTexture env This) (releasedTexture env This).numLevels
        + (env.process cp).2.bfh.m_endpoint_cb_file_size
        + (env.process cp).2.bfh.m_selector_cb_file_size
        + (env.process cp).2.bfh.m_tables_file_size
      ≤ bgdSize (env.process cp).2.bfh n ∧
    ∃ bgd1,
      writeGlobalHeader env (env.process cp).2.bfh
        ((List.range (bgdSize (env.process cp).2.bfh n)).map env.uninit_bgd) = .ok bgd1 ∧
      ∀ st, forUpTo (releasedTexture env This).numLevels
          (asmLevel env (releasedTexture env This) (env.process cp).2)
          (walkStart (releasedTexture env This) bgd1) = .ok st →
        st.image
          = imagesBefore (releasedTexture env This) (releasedTexture env This).numLevels ∧
        st.bgd.length = bgdSize (env.process cp).2.bfh n ∧
        kimagesOffset st.image + (env.process cp).2.bfh.m_endpoint_cb_file_size
          + (env.process cp).2.bfh.m_selector_cb_file_size
          + (env.process cp).2.bfh.m_tables_file_size ≤ bgdSize (env.process cp).2.bfh n ∧
        copyCodebooks env (env.process cp).2 (bgdSize (env.process cp).2.bfh n) st
          ≠ .error .assertion ∧
        ((env.process cp).2.bfh.m_endpoint_cb_file_ofs
            + (env.process cp).2.bfh.m_endpoint_cb_file_size ≤ (env.process cp).2.bf.length →
          (env.process cp).2.bfh.m_selector_cb_file_ofs
            + (env.process cp).2.bfh.m_selector_cb_file_size ≤ (env.process cp).2.bf.length →
          (env.process cp).2.bfh.m_tables_file_ofs
            + (env.process cp).2.bfh.m_tables_file_size ≤ (env.process cp).2.bf.length →
          ∃ b, copyCodebooks env (env.process cp).2 (bgdSize (env.process cp).2.bfh n) st
              = .ok b ∧
            b.length = bgdSize (env.process cp).2.bfh n ∧
            ((env.NDEBUG = true ∨ (env.process cp).2.bfh.m_total_images = n) →
              assembleGlobalData env (releasedTexture env This) (env.process cp).2 n
                = .ok { st with bgd := b })) := by
  subst ho
  obtain ⟨p, n', lc, m, cb, images, transfer, _, hn', _, _, hpack, _, _⟩ :=
    compress_staged_inv hcp
  rw [hn] at hn'
  injection hn' with hn'
  subst hn'
  obtain ⟨_, hlen, hle⟩ := packImages_length hpack
  have hV : imagesBefore (releasedTexture env This) (releasedTexture env This).numLevels
      = imagesBefore (loadedTexture env This) (loadedTexture env This).numLevels :=
    @imagesBefore_congr (loadedTexture env This) (releasedTexture env This)
      rfl rfl rfl _
  have hVn : imagesBefore (releasedTexture env This) (releasedTexture env This).numLevels
      ≤ n := by rw [hV, ← hlen]; exact hle
  have hB := bgdSize_exact (env.process cp).2.bfh n hsz
  have hmul := Nat.mul_le_mul_left sizeof_ktxBasisImageDesc hVn
  have hlen0 : ((List.range (bgdSize (env.process cp).2.bfh n)).map env.uninit_bgd).length
      = bgdSize (env.process cp).2.bfh n := by simp
  obtain ⟨bgd1, hbgd1, _⟩ := writeGlobalHeader_total env (env.process cp).2.bfh
    ((List.range (bgdSize (env.process cp).2.bfh n)).map env.uninit_bgd)
    (by rw [hlen0, hB]; unfold sizeof_ktxBasisGlobalHeader; omega)
  refine ⟨hVn, hB, by rw [hB]; omega, bgd1, hbgd1, ?_⟩
  intro st hst
  obtain ⟨hinv, _⟩ := sliceWalk_spec hbgd1 hst
  have himg : st.image
      = imagesBefore (releasedTexture env This) (releasedTexture env This).numLevels := by
    have := hinv.image_eq; simpa using this
  have hfit : kimagesOffset st.image + (env.process cp).2.bfh.m_endpoint_cb_file_size
      + (env.process cp).2.bfh.m_selector_cb_file_size
      + (env.process cp).2.bfh.m_tables_file_size ≤ bgdSize (env.process cp).2.bfh n := by
    rw [hB, himg]; unfold kimagesOffset; omega
  refine ⟨himg, hinv.bgd_len, hfit, copyCodebooks_no_assertion hfit, ?_⟩
  intro r1 r2 r3
  obtain ⟨b, hb, hbl⟩ := copyCodebooks_total env hfit hinv.bgd_len r1 r2 r3
  refine ⟨b, hb, hbl, ?_⟩
  intro hcnt
  have hassert : cAssert env.NDEBUG
      (decide ((env.process cp).2.bfh.m_total_images = n)) = .ok () := by
    unfold cAssert
    rcases hcnt with h | h <;> simp [h]
  rw [assembleGlobalData_walk]
  simp only [hassert, hbgd1, hst, hb, bind, Except.bind]
  rfl

/-- C21, on a texture with two faces and depth 2, which is not face/depth
exclusive: two images are visited of the four counted, and 74 bytes are
written into the 114 allocated. -/
theorem global_data_fits_witness :
    (ktxTexture2_CompressBasisEx deepFacesEnv deepFacesTexture (some exampleParams)).encoderInput
      = some deepFacesCparams ∧
    calcNumImages (loadedTexture deepFacesEnv deepFacesTexture) = .ok 4 ∧
    sizeof_ktxBasisGlobalHeader + sizeof_ktxBasisImageDesc * 4
      + (deepFacesEnv.process deepFacesCparams).2.bfh.m_endpoint_cb_file_size
      + (deepFacesEnv.process deepFacesCparams).2.bfh.m_selector_cb_file_size
      + (deepFacesEnv.process deepFacesCparams).2.bfh.m_tables_file_size < U32 ∧
    imagesBefore (releasedTexture deepFacesEnv deepFacesTexture)
      (releasedTexture deepFacesEnv deepFacesTexture).numLevels = 2 ∧
    sizeof_ktxBasisGlobalHeader
        + sizeof_ktxBasisImageDesc
          * imagesBefore (releasedTexture deepFacesEnv deepFacesTexture)
              (releasedTexture deepFacesEnv deepFacesTexture).numLevels
        + (deepFacesEnv.process deepFacesCparams).2.bfh.m_endpoint_cb_file_size
        + (deepFacesEnv.process deepFacesCparams).2.bfh.m_selector_cb_file_size
        + (deepFacesEnv.process deepFacesCparams).2.bfh.m_tables_file_size
      ≤ bgdSize (deepFacesEnv.process deepFacesCparams).2.bfh 4 :=
  ⟨by decide, by decide, by decide, by decide,
   (global_data_fits deepFacesEnv deepFacesTexture (some exampleParams) _ deepFacesCparams 4 rfl
     (by decide) (by decide) (by decide)).2.2.1⟩

end BasisEncode
